import Mathlib

/-!
# slapd network daemon: descriptor bookkeeping, accept path and shard loop

A shallow embedding of `servers/slapd/daemon.c`, built for the epoll event
backend (`HAVE_EPOLL`), which is the backend whose `SLAP_SOCK_ADD` /
`SLAP_SOCK_DEL` macros the daemon contract is written against.

Conventions of the embedding

* descriptors, shard numbers and counters are `Int` (C `int` / `ber_socket_t`);
  overflow of the counters is outside the model;
* `slap_daemon`, `sd_epolls`, `sd_index` and `wake_sds` are C arrays and are
  embedded as functions from the (integer) subscript;
* the memory around the block that holds `sd_epolls` is not written by the
  code; what a read finds there (`sd_epolls[-1]` for a descriptor that is not
  registered) is an argument of `SLAP_SOCK_INIT`, and the theorems hold for
  every such content;
* `slap_listeners` is the NULL terminated `Listener *` vector, embedded as a list;
  a `Listener *` is the position of the listener in that vector;
* results of system calls (`epoll_ctl`, `accept`, `lutil_pair`, thread
  creation, the notifier wait) and of collaborators outside `daemon.c`
  (`connection_is_active`, `connection_init`) are explicit arguments;
* mutexes and `WAKE_LISTENER` (a write on a wake pipe) have no effect on the
  embedded state and are left out.

The later sections embed the encoding routines of `libraries/liblber/encode.c`
(octets are numbers below 256, the buffer of a `BerElement` is a function from
positions to octets, the sizes of `ber_tag_t` and `ber_len_t` are parameters),
the UTF-8 routines of `libraries/libldap/utf-8.c`, and the count constraint of
`servers/slapd/overlays/constraint.c`.
-/

namespace Slapd

set_option linter.unusedVariables false

/-! ## Constants -/

/-- The invalid socket value `AC_SOCKET_INVALID`. -/
def AC_SOCKET_INVALID : Int := -1

/-- The `EPOLLIN` bit of `epoll_event.events`. -/
def EPOLLIN : Nat := 2 ^ 0

/-- The `EPOLLOUT` bit of `epoll_event.events`. -/
def EPOLLOUT : Nat := 2 ^ 2

/-- The `EPOLLET` bit of `epoll_event.events`. -/
def EPOLLET : Nat := 2 ^ 31

/-- Bitwise complement of a mode on the 32 bit `events` word, the `~(mode)` of
`SLAP_EPOLL_SOCK_CLR`. -/
def mode_compl (mode : Nat) : Nat := (2 ^ 32 - 1) ^^^ mode

/-- The errno value `EINTR`. -/
def EINTR : Int := 4

/-- The errno value `ENFILE`. -/
def ENFILE : Int := 23

/-- The errno value `EMFILE`. -/
def EMFILE : Int := 24

/-- The limit `SLAPD_EBADF_LIMIT` of consecutive notifier failures. -/
def SLAPD_EBADF_LIMIT : Int := 16

/-- The divisor `SLAPD_IDLE_CHECK_LIMIT` of the idle timeout. -/
def SLAPD_IDLE_CHECK_LIMIT : Int := 4

/-! ## Data model -/

/-- The union `Sockaddr` as far as `daemon.c` reads it: the address family,
the address (`sin_addr.s_addr` or `sin6_addr` as a number, 0 for `INADDR_ANY`
and `in6addr_any`), the port, and `sun_path` for a local socket. -/
structure Sockaddr where
  sa_family : Int
  addr : Nat
  port : Nat
  sun_path : List Char
deriving DecidableEq

/-- The fields of `Listener` (declared in `slap.h`) that `daemon.c` reads or
writes in the code embedded here. -/
structure Listener where
  sl_sd : Int
  sl_mute : Int
  sl_busy : Int
  sl_is_udp : Int
  sl_is_tls : Int
  sl_is_proxied : Int
  sl_perms : Nat := 0
  sl_sa : Sockaddr := { sa_family := 0, addr := 0, port := 0, sun_path := [] }
deriving DecidableEq

/-- The `data.ptr` of an `epoll_event`: `NULL` (a calloc-ed slot), a
`Listener *`, or the address `&slap_daemon[t].sd_index[s]`. -/
inductive epoll_data_ptr where
  | null : epoll_data_ptr
  | listener (l : Nat) : epoll_data_ptr
  | index (t : Int) (s : Int) : epoll_data_ptr
deriving DecidableEq

/-- The record `struct epoll_event`. -/
structure epoll_event where
  events : Nat
  data_ptr : epoll_data_ptr
deriving DecidableEq

/-- The record `slap_daemon_st` of one shard, epoll variant. -/
structure slap_daemon_st where
  sd_nactives : Int
  sd_nwriters : Int
  sd_nfds : Int
  sd_epolls : Int → epoll_event
  sd_index : Int → Int

/-- The global variables of `daemon.c` that the embedded code uses. -/
structure Daemon where
  dtblsize : Int
  slapd_daemon_threads : Int
  slapd_daemon_mask : Int
  slap_daemon : Int → slap_daemon_st
  wake_sds : Int → Int × Int
  slap_listeners : List Listener
  emfile : Int
  listening : Int
  slapd_shutdown : Int
  slapd_gentle_shutdown : Int
  slapd_abrupt_shutdown : Int

/-- Assignment `a[i] = v` to one element of a C array. -/
def upd {β : Type} (a : Int → β) (i : Int) (v : β) : Int → β :=
  fun j => if j = i then v else a j

/-- Assignment to `slap_daemon[t]`. -/
def Daemon.set_shard (st : Daemon) (t : Int) (sd : slap_daemon_st) : Daemon :=
  { st with slap_daemon := upd st.slap_daemon t sd }

/-- The statement `slap_daemon[t].sd_nactives += d` (`++` and `--` in the source). -/
def Daemon.nactives_add (st : Daemon) (t : Int) (d : Int) : Daemon :=
  st.set_shard t { st.slap_daemon t with sd_nactives := (st.slap_daemon t).sd_nactives + d }

/-- The statement `slap_daemon[t].sd_nwriters += d` (`++` and `--` in the source). -/
def Daemon.nwriters_add (st : Daemon) (t : Int) (d : Int) : Daemon :=
  st.set_shard t { st.slap_daemon t with sd_nwriters := (st.slap_daemon t).sd_nwriters + d }

/-- The macro `DAEMON_ID(fd)`, `fd & slapd_daemon_mask`. -/
def DAEMON_ID (st : Daemon) (fd : Int) : Int := Int.land fd st.slapd_daemon_mask

/-! ## The epoll notifier macros -/

/-- The macro `SLAP_EPOLL_SOCK_IX(t,s)`. -/
def SLAP_EPOLL_SOCK_IX (st : Daemon) (t s : Int) : Int := (st.slap_daemon t).sd_index s

/-- The macro `SLAP_EPOLL_SOCK_EP(t,s)`. -/
def SLAP_EPOLL_SOCK_EP (st : Daemon) (t s : Int) : epoll_event :=
  (st.slap_daemon t).sd_epolls (SLAP_EPOLL_SOCK_IX st t s)

/-- The macro `SLAP_EPOLL_SOCK_EV(t,s)`, read. -/
def SLAP_EPOLL_SOCK_EV (st : Daemon) (t s : Int) : Nat := (SLAP_EPOLL_SOCK_EP st t s).events

/-- Assignment through the lvalue `SLAP_EPOLL_SOCK_EV(t,s)`. -/
def SLAP_EPOLL_SOCK_EV_set (st : Daemon) (t s : Int) (ev : Nat) : Daemon :=
  let sd := st.slap_daemon t
  let ix := sd.sd_index s
  st.set_shard t
    { sd with sd_epolls := upd sd.sd_epolls ix { sd.sd_epolls ix with events := ev } }

/-- The macro `SLAP_SOCK_IS_ACTIVE(t,s)`. -/
def SLAP_SOCK_IS_ACTIVE (st : Daemon) (t s : Int) : Bool :=
  decide (SLAP_EPOLL_SOCK_IX st t s ≠ -1)

/-- The macro `SLAP_SOCK_NOT_ACTIVE(t,s)`. -/
def SLAP_SOCK_NOT_ACTIVE (st : Daemon) (t s : Int) : Bool :=
  decide (SLAP_EPOLL_SOCK_IX st t s = -1)

/-- The macro `SLAP_EPOLL_SOCK_IS_SET(t,s,mode)`. -/
def SLAP_EPOLL_SOCK_IS_SET (st : Daemon) (t s : Int) (mode : Nat) : Nat :=
  SLAP_EPOLL_SOCK_EV st t s &&& mode

/-- The macro `SLAP_SOCK_IS_READ(t,s)`, as a truth value. -/
def SLAP_SOCK_IS_READ (st : Daemon) (t s : Int) : Bool :=
  decide (SLAP_EPOLL_SOCK_IS_SET st t s EPOLLIN ≠ 0)

/-- The macro `SLAP_SOCK_IS_WRITE(t,s)`, as a truth value. -/
def SLAP_SOCK_IS_WRITE (st : Daemon) (t s : Int) : Bool :=
  decide (SLAP_EPOLL_SOCK_IS_SET st t s EPOLLOUT ≠ 0)

/-- The macro `SLAP_EPOLL_SOCK_SET(t,s,mode)`; the `epoll_ctl(MOD)` call only
informs the kernel. -/
def SLAP_EPOLL_SOCK_SET (st : Daemon) (t s : Int) (mode : Nat) : Daemon :=
  if SLAP_EPOLL_SOCK_EV st t s &&& mode ≠ mode then
    SLAP_EPOLL_SOCK_EV_set st t s (SLAP_EPOLL_SOCK_EV st t s ||| mode)
  else st

/-- The macro `SLAP_EPOLL_SOCK_CLR(t,s,mode)`. -/
def SLAP_EPOLL_SOCK_CLR (st : Daemon) (t s : Int) (mode : Nat) : Daemon :=
  if SLAP_EPOLL_SOCK_EV st t s &&& mode ≠ 0 then
    SLAP_EPOLL_SOCK_EV_set st t s (SLAP_EPOLL_SOCK_EV st t s &&& mode_compl mode)
  else st

/-- The macro `SLAP_SOCK_SET_READ(t,s)`. -/
def SLAP_SOCK_SET_READ (st : Daemon) (t s : Int) : Daemon := SLAP_EPOLL_SOCK_SET st t s EPOLLIN

/-- The macro `SLAP_SOCK_SET_WRITE(t,s)`. -/
def SLAP_SOCK_SET_WRITE (st : Daemon) (t s : Int) : Daemon := SLAP_EPOLL_SOCK_SET st t s EPOLLOUT

/-- The macro `SLAP_SOCK_CLR_READ(t,s)`. -/
def SLAP_SOCK_CLR_READ (st : Daemon) (t s : Int) : Daemon := SLAP_EPOLL_SOCK_CLR st t s EPOLLIN

/-- The macro `SLAP_SOCK_CLR_WRITE(t,s)`. -/
def SLAP_SOCK_CLR_WRITE (st : Daemon) (t s : Int) : Daemon := SLAP_EPOLL_SOCK_CLR st t s EPOLLOUT

/-- The macro `SLAP_EPOLL_EV_LISTENER(t,ptr)`: the pointer is taken for a
`Listener *` unless it lies in `[sd_index, &sd_index[dtblsize]]` of shard `t`. -/
def SLAP_EPOLL_EV_LISTENER (st : Daemon) (t : Int) (ptr : epoll_data_ptr) : Bool :=
  match ptr with
  | .index t' s => !(decide (t' = t) && decide (0 ≤ s) && decide (s ≤ st.dtblsize))
  | _ => true

/-- The macro `SLAP_EPOLL_EV_PTRFD(t,ptr)`. Reading `sl_sd` through a pointer
that is not a `Listener *` is undefined in C; the embedding yields
`AC_SOCKET_INVALID` there. -/
def SLAP_EPOLL_EV_PTRFD (st : Daemon) (t : Int) (ptr : epoll_data_ptr) : Int :=
  if SLAP_EPOLL_EV_LISTENER st t ptr then
    match ptr with
    | .listener l =>
      match st.slap_listeners[l]? with
      | some lr => lr.sl_sd
      | none => AC_SOCKET_INVALID
    | _ => AC_SOCKET_INVALID
  else
    match ptr with
    | .index _ s => s
    | _ => AC_SOCKET_INVALID

/-- The macro `SLAP_SOCK_ADD(t,s,l)`; `rc` is the value returned by
`epoll_ctl(EPOLL_CTL_ADD)`. -/
def SLAP_SOCK_ADD (st : Daemon) (t s : Int) (l : Option Nat) (rc : Int) : Daemon :=
  let sd := st.slap_daemon t
  let sd1 := { sd with sd_index := upd sd.sd_index s sd.sd_nfds }
  let ptr : epoll_data_ptr :=
    match l with
    | some l => .listener l
    | none => .index t s
  let sd2 := { sd1 with
    sd_epolls := upd sd1.sd_epolls (sd1.sd_index s) { events := EPOLLIN, data_ptr := ptr } }
  if rc = 0 then
    st.set_shard t { sd2 with sd_nfds := sd2.sd_nfds + 1 }
  else
    { st.set_shard t sd2 with slapd_shutdown := 2 }

/-- The macro `SLAP_SOCK_DEL(t,s)`: swap-with-last compaction of `sd_epolls`. -/
def SLAP_SOCK_DEL (st : Daemon) (t s : Int) : Daemon :=
  let sd := st.slap_daemon t
  let index := sd.sd_index s
  if index < 0 then st
  else
    let epolls := upd sd.sd_epolls index (sd.sd_epolls (sd.sd_nfds - 1))
    let fd := SLAP_EPOLL_EV_PTRFD st t (epolls index).data_ptr
    let ix1 := upd sd.sd_index fd index
    let ix2 := upd ix1 s (-1)
    st.set_shard t { sd with sd_epolls := epolls, sd_index := ix2, sd_nfds := sd.sd_nfds - 1 }

/-- The macro `SLAP_SOCK_INIT(t)` applied to a zeroed `slap_daemon_st`
(`ch_calloc` in `slapd_daemon_init`, `memset` in `slapd_daemon_resize`):
`sd_epolls` is a calloc-ed block of `2*dtblsize` events followed by the index
array, and `sd_index[j]` is set to -1 for `0 ≤ j < dtblsize`. The cells
`sd_epolls[k]` with `k < 0` or `k ≥ 2*dtblsize` lie outside the events of the
block; what a read finds there is not set by the code and is the argument
`outside`. `SLAP_SOCK_IS_READ` and `SLAP_SOCK_IS_WRITE` of a descriptor with
`sd_index[s] == -1` read the cell `sd_epolls[-1]`. The entries of `sd_index`
that the loop does not set are zero, as `ch_calloc` leaves the rest of the
block. -/
def SLAP_SOCK_INIT (outside : Int → epoll_event) (dtblsize : Int) : slap_daemon_st :=
  { sd_nactives := 0
    sd_nwriters := 0
    sd_nfds := 0
    sd_epolls := fun k =>
      if 0 ≤ k ∧ k < 2 * dtblsize then { events := 0, data_ptr := .null } else outside k
    sd_index := fun j => if 0 ≤ j ∧ j < dtblsize then -1 else 0 }

/-! ## Descriptor registration and release -/

/-- The function `slapd_add`; `rc` is the result of `epoll_ctl(ADD)`. -/
def slapd_add (st : Daemon) (s : Int) (isactive : Int) (sl : Option Nat) (id : Int)
    (rc : Int) : Daemon :=
  let id := if id < 0 then DAEMON_ID st s else id
  let st1 :=
    if isactive ≠ 0 then st.nactives_add id 1 else st
  SLAP_SOCK_ADD st1 id s sl rc

/-- The function `slapd_add_internal`. -/
def slapd_add_internal (st : Daemon) (s : Int) (isactive : Int) (rc : Int) : Daemon :=
  slapd_add st s isactive none (-1) rc

/-- The listener walk of `slapd_remove` (`for ( i = 0; slap_listeners[i] != NULL; i++ )`):
the vector after the walk, and whether the walk ended on the NULL terminator. -/
def emfile_walk (s : Int) : List Listener → List Listener × Bool
  | [] => ([], true)
  | lr :: rest =>
    if lr.sl_sd = AC_SOCKET_INVALID then ((lr :: (emfile_walk s rest).1), (emfile_walk s rest).2)
    else if lr.sl_sd = s then ((lr :: (emfile_walk s rest).1), (emfile_walk s rest).2)
    else if lr.sl_mute ≠ 0 then ({ lr with sl_mute := 0 } :: rest, false)
    else ((lr :: (emfile_walk s rest).1), (emfile_walk s rest).2)

/-- The function `slapd_remove`. The arguments `sb`, `wake` and `locked` only
steer `ber_sockbuf_free`, the wake pipe and the mutex. -/
def slapd_remove (st : Daemon) (s : Int) (wasactive : Int) (wake : Int) (locked : Int) : Daemon :=
  let id := DAEMON_ID st s
  let st1 :=
    if wasactive ≠ 0 then st.nactives_add id (-1) else st
  let waswriter := SLAP_SOCK_IS_WRITE st1 id s
  let st2 :=
    if waswriter then st1.nwriters_add id (-1) else st1
  let st3 := SLAP_SOCK_DEL st2 id s
  if st3.emfile ≠ 0 ∧ st3.listening ≠ 0 then
    let w := emfile_walk s st3.slap_listeners
    if w.2 then
      { st3 with slap_listeners := w.1, emfile := 0 }
    else
      { st3 with slap_listeners := w.1, emfile := st3.emfile - 1 }
  else st3

/-- The function `slapd_clr_write`. -/
def slapd_clr_write (st : Daemon) (s : Int) (wake : Int) : Daemon :=
  let id := DAEMON_ID st s
  if SLAP_SOCK_IS_WRITE st id s then
    (SLAP_SOCK_CLR_WRITE st id s).nwriters_add id (-1)
  else st

/-- The function `slapd_set_write`. -/
def slapd_set_write (st : Daemon) (s : Int) (wake : Int) : Daemon :=
  let id := DAEMON_ID st s
  if !SLAP_SOCK_IS_WRITE st id s then
    (SLAP_SOCK_SET_WRITE st id s).nwriters_add id 1
  else st

/-- The function `slapd_clr_read`, with its return value. -/
def slapd_clr_read (st : Daemon) (s : Int) (wake : Int) : Daemon × Int :=
  let id := DAEMON_ID st s
  if SLAP_SOCK_IS_ACTIVE st id s then (SLAP_SOCK_CLR_READ st id s, 0)
  else (st, 1)

/-- The function `slapd_set_read`. -/
def slapd_set_read (st : Daemon) (s : Int) (wake : Int) : Daemon :=
  let id := DAEMON_ID st s
  if SLAP_SOCK_IS_ACTIVE st id s && !SLAP_SOCK_IS_READ st id s then SLAP_SOCK_SET_READ st id s
  else st

/-! ## Moving descriptors between shards -/

/-- The results of the system calls and of `connection_is_active` that
`slapd_daemon_resize` and `slapd_socket_realloc` consume: `lutil_pair i` is
the socket pair made for shard `i` (`none` when `lutil_pair` fails),
`thread_create i` the value of `ldap_pvt_thread_create` for shard `i`,
`epoll_ctl_add t s` the value of `epoll_ctl(ADD)` for descriptor `s` on shard `t`,
`outside i` the memory around the block that `ch_calloc` returns for shard `i`. -/
structure resize_env where
  lutil_pair : Int → Option (Int × Int)
  thread_create : Int → Int
  connection_is_active : Int → Bool
  epoll_ctl_add : Int → Int → Int
  outside : Int → Int → epoll_event

/-- The `skip` test of `slapd_socket_realloc`: `i` is an end of the wake pair of
one of the `slapd_daemon_threads` current shards. -/
def is_wake_sd (st : Daemon) (i : Int) : Bool :=
  (List.range st.slapd_daemon_threads.toNat).any
    (fun (j : Nat) => decide (i = (st.wake_sds (j : Int)).1) || decide (i = (st.wake_sds (j : Int)).2))

/-- The search `for ( j=0; slap_listeners[j] != NULL; j++ )` of
`slapd_socket_realloc` for a listener with `sl_sd == i`, from position `j` on. -/
def find_listener (i : Int) : List Listener → Nat → Option Nat
  | [], _ => none
  | lr :: rest, j => if lr.sl_sd = i then some j else find_listener i rest (j + 1)

/-- One pass through the body of the `for ( i=0; i<dtblsize; i++ )` loop of
`slapd_socket_realloc`; the loop carries the daemon state and `num_listeners`. -/
def slapd_socket_realloc_step (env : resize_env) (newnum : Int) (acc : Daemon × Int) (i : Int) :
    Daemon × Int :=
  let st := acc.1
  let num_listeners := acc.2
  let newmask := newnum - 1
  if is_wake_sd st i then acc
  else
    let oldid := DAEMON_ID st i
    let newid := Int.land i newmask
    if oldid = newid then acc
    else if !SLAP_SOCK_IS_ACTIVE st oldid i then acc
    else
      let sl := if num_listeners ≠ 0 then find_listener i st.slap_listeners 0 else none
      let num_listeners := if sl.isSome then num_listeners - 1 else num_listeners
      let st1 := SLAP_SOCK_ADD st newid i sl (env.epoll_ctl_add newid i)
      let st2 := if SLAP_SOCK_IS_READ st1 oldid i then SLAP_SOCK_SET_READ st1 newid i else st1
      let st3 :=
        if SLAP_SOCK_IS_WRITE st2 oldid i then
          ((SLAP_SOCK_SET_WRITE st2 newid i).nwriters_add oldid (-1)).nwriters_add newid 1
        else st2
      let st4 :=
        if env.connection_is_active i then (st3.nactives_add oldid (-1)).nactives_add newid 1
        else st3
      (SLAP_SOCK_DEL st4 oldid i, num_listeners)

/-- The function `slapd_socket_realloc`. -/
def slapd_socket_realloc (env : resize_env) (st : Daemon) (newnum : Int) : Daemon :=
  ((List.range st.dtblsize.toNat).foldl
    (fun acc (n : Nat) => slapd_socket_realloc_step env newnum acc (n : Int))
    (st, (st.slap_listeners.length : Int))).1

/-- A `slap_daemon_st` after `memset( &slap_daemon[i], 0, ... )`: the counters
are zero and the pointers `sd_epolls` and `sd_index` are NULL; the record is
replaced by `SLAP_SOCK_INIT` before its arrays are read. -/
def slap_daemon_zero : slap_daemon_st :=
  { sd_nactives := 0
    sd_nwriters := 0
    sd_nfds := 0
    sd_epolls := fun _ => { events := 0, data_ptr := .null }
    sd_index := fun _ => 0 }

/-- The loop of `slapd_daemon_resize` that prepares the new shards
(`memset`, `lutil_pair`, `SLAP_SOCK_INIT`); the flag is false when
`lutil_pair` failed and the function returned early. -/
def resize_init_shards (env : resize_env) : Daemon → List Int → Daemon × Bool
  | st, [] => (st, true)
  | st, i :: rest =>
    let st1 := st.set_shard i slap_daemon_zero
    match env.lutil_pair i with
    | none => (st1, false)
    | some p =>
      resize_init_shards env
        ({ st1 with wake_sds := upd st1.wake_sds i p }.set_shard i (SLAP_SOCK_INIT (env.outside i) st1.dtblsize)) rest

/-- The loop of `slapd_daemon_resize` that starts the new shard threads: the
first non-zero value of `ldap_pvt_thread_create`, if any. -/
def resize_create_threads (env : resize_env) : List Int → Int
  | [] => 0
  | i :: rest => if env.thread_create i ≠ 0 then env.thread_create i else resize_create_threads env rest

/-- The shard numbers `slapd_daemon_threads, ..., newnum-1`. -/
def new_shards (st : Daemon) (newnum : Int) : List Int :=
  (List.range (newnum - st.slapd_daemon_threads).toNat).map
    (fun (k : Nat) => st.slapd_daemon_threads + (k : Int))

/-- The function `slapd_daemon_resize`, with its return value. When the number
of shards decreases the entries `slap_daemon[i]`, `i ≥ newnum`, leave the
array (`SLAP_SOCK_DESTROY`, `ch_realloc`); the embedding keeps their last value
outside the live range. -/
def slapd_daemon_resize (env : resize_env) (st : Daemon) (newnum : Int) : Daemon × Int :=
  if newnum = st.slapd_daemon_threads then (st, 0)
  else if newnum > st.slapd_daemon_threads then
    let r := resize_init_shards env st (new_shards st newnum)
    if !r.2 then (r.1, -1)
    else
      let st2 := slapd_socket_realloc env r.1 newnum
      let rc := resize_create_threads env (new_shards st newnum)
      if rc ≠ 0 then (st2, rc)
      else ({ st2 with slapd_daemon_threads := newnum, slapd_daemon_mask := newnum - 1 }, 0)
  else
    let st2 := slapd_socket_realloc env st newnum
    ({ st2 with slapd_daemon_threads := newnum, slapd_daemon_mask := newnum - 1 }, 0)

/-- The daemon state after notifier initialisation (`slapd_daemon_init` for
shard 0, `slapd_daemon` for the others): every `slap_daemon[t]` calloc-ed and
passed through `SLAP_SOCK_INIT`, `emfile` zero, `listening` one. The mask is
`slapd_daemon_threads - 1`, as `slapd_daemon_resize` keeps it; `outside t` is
the memory around the block of shard `t`. -/
def daemon_start (outside : Int → Int → epoll_event) (dtblsize threads : Int)
    (wake : Int → Int × Int) (ls : List Listener) : Daemon :=
  { dtblsize := dtblsize
    slapd_daemon_threads := threads
    slapd_daemon_mask := threads - 1
    slap_daemon := fun t => SLAP_SOCK_INIT (outside t) dtblsize
    wake_sds := wake
    slap_listeners := ls
    emfile := 0
    listening := 1
    slapd_shutdown := 0
    slapd_gentle_shutdown := 0
    slapd_abrupt_shutdown := 0 }

/-! ## Accept path -/

/-- Compile-time switches of `daemon.c` that change the embedded code. -/
structure build_flags where
  LDAP_CONNECTIONLESS : Bool
  LDAP_PF_LOCAL : Bool
  LDAP_PF_INET6 : Bool
  HAVE_TCPD : Bool
  HAVE_YIELDING_SELECT : Bool

/-- The address family `AF_LOCAL`. -/
def AF_LOCAL : Int := 1

/-- The address family `AF_INET`. -/
def AF_INET : Int := 2

/-- The address family `AF_INET6`. -/
def AF_INET6 : Int := 10

/-- The value `AC_SOCKET_ERROR`. -/
def AC_SOCKET_ERROR : Int := -1

/-- What the environment answers during one run of `slap_listener`: the value
of `accept`, `sock_errno()` after it, the family of the peer address, the
values of the two `setsockopt` calls, of `proxyp`, of `hosts_ctl`, and whether
`connection_init` returned a connection. -/
structure accept_env where
  s : Int
  err : Int
  sa_family : Int
  keepalive_rc : Int
  nodelay_rc : Int
  proxyp : Int
  hosts_ctl : Int
  conn_ok : Bool

/-- The effect of one run of `slap_listener`: the daemon state, the return
value, the descriptors given to `tcp_close` / `slapd_close`, and the
descriptor given to `connection_init` when that call is reached. -/
structure listener_result where
  st : Daemon
  rc : Int
  closed : List Int
  conn_init : Option Int

/-- Assignment to the fields of `*slap_listeners[l]`. -/
def Daemon.set_listener (st : Daemon) (l : Nat) (lr : Listener) : Daemon :=
  { st with slap_listeners := st.slap_listeners.set l lr }

/-- The part of `slap_listener` after a successful `accept` and the
descriptor table check. -/
def slap_listener_accepted (flags : build_flags) (st : Daemon) (sl : Listener) (e : accept_env) :
    listener_result :=
  let sfd := e.s
  if (!flags.LDAP_PF_LOCAL || decide (e.sa_family ≠ AF_LOCAL)) && decide (e.keepalive_rc = AC_SOCKET_ERROR) then
    { st := st, rc := 0, closed := [sfd], conn_init := none }
  else if (!flags.LDAP_PF_LOCAL || decide (e.sa_family ≠ AF_LOCAL)) && decide (e.nodelay_rc = AC_SOCKET_ERROR) then
    { st := st, rc := 0, closed := [sfd], conn_init := none }
  else
    let is_local := flags.LDAP_PF_LOCAL && decide (e.sa_family = AF_LOCAL)
    let is_inet :=
      decide (e.sa_family = AF_INET) || (flags.LDAP_PF_INET6 && decide (e.sa_family = AF_INET6))
    if !is_local && !is_inet then
      { st := st, rc := 0, closed := [sfd], conn_init := none }
    else if !is_local && decide (sl.sl_is_proxied ≠ 0) && decide (e.proxyp = 0) then
      { st := st, rc := 0, closed := [sfd], conn_init := none }
    else if is_inet && flags.HAVE_TCPD && decide (e.hosts_ctl = 0) then
      { st := st, rc := 0, closed := [sfd], conn_init := none }
    else if e.conn_ok then
      { st := st, rc := 0, closed := [], conn_init := some sfd }
    else
      { st := st, rc := 0, closed := [sfd], conn_init := some sfd }

/-- The function `slap_listener` run on the listener `slap_listeners[l]`. -/
def slap_listener (flags : build_flags) (st : Daemon) (l : Nat) (e : accept_env) : listener_result :=
  match st.slap_listeners[l]? with
  | none => { st := st, rc := 0, closed := [], conn_init := none }
  | some sl =>
    if flags.LDAP_CONNECTIONLESS && decide (sl.sl_is_udp ≠ 0) then
      { st := st, rc := 1, closed := [], conn_init := none }
    else
      let sl1 := { sl with sl_busy := 0 }
      let st1 := st.set_listener l sl1
      if e.s = AC_SOCKET_INVALID then
        if e.err = EMFILE ∨ e.err = ENFILE then
          { st := { st1 with emfile := st1.emfile + 1 }.set_listener l { sl1 with sl_mute := 1 }
            rc := 0, closed := [], conn_init := none }
        else
          { st := st1, rc := 0, closed := [], conn_init := none }
      else if e.s ≥ st1.dtblsize then
        { st := st1, rc := 0, closed := [e.s], conn_init := none }
      else
        slap_listener_accepted flags st1 sl1 e

/-- The function `slap_listener_activate` on `slap_listeners[l]`; `rc` is the
value of `ldap_pvt_thread_pool_submit`. -/
def slap_listener_activate (st : Daemon) (l : Nat) (rc : Int) : Daemon × Int :=
  match st.slap_listeners[l]? with
  | none => (st, rc)
  | some sl => (st.set_listener l { sl with sl_busy := 1 }, rc)

/-! ## Shard loop: timeout of the wait and the switch on its result -/

/-- The record `struct timeval`. -/
structure timeval where
  tv_sec : Int
  tv_usec : Int
deriving DecidableEq

/-- The computation of `tv` at the top of the loop of `slapd_daemon_task`. -/
def idle_timeval (tid global_idletimeout : Int) : timeval :=
  if tid = 0 ∧ global_idletimeout > 0 then
    let tv_sec := Int.tdiv global_idletimeout SLAPD_IDLE_CHECK_LIMIT
    let tv_usec := global_idletimeout - tv_sec * SLAPD_IDLE_CHECK_LIMIT
    { tv_sec := tv_sec, tv_usec := tv_usec * Int.tdiv 1000000 SLAPD_IDLE_CHECK_LIMIT }
  else { tv_sec := 0, tv_usec := 0 }

/-- The value of `tvp` handed to `SLAP_EVENT_WAIT` by one iteration of the loop
of `slapd_daemon_task` (`none` is the NULL pointer). `rq_next` is what
`ldap_pvt_runqueue_next_sched` left after the loop over the due tasks: `none`
when `rtask` is NULL, else `cat.tv_sec`; `difftime` is taken on integers. -/
def wait_timeout (flags : build_flags) (tid global_idletimeout sd_nactives : Int)
    (rq_next : Option Int) (now : Int) : Option timeval :=
  let tv := idle_timeval tid global_idletimeout
  let at_ := decide (global_idletimeout ≠ 0) && decide (sd_nactives ≠ 0)
  let tvp : Option timeval :=
    if at_ && (!flags.HAVE_YIELDING_SELECT || decide (tv.tv_sec ≠ 0) || decide (tv.tv_usec ≠ 0))
    then some tv else none
  if tid = 0 then
    match rq_next with
    | none => tvp
    | some cat_sec =>
      if cat_sec ≠ 0 then
        let diff := if cat_sec - now ≤ 0 then 1 else cat_sec - now
        if tvp.isNone || decide (diff < tv.tv_sec) then some { tv_sec := diff, tv_usec := 0 }
        else tvp
      else tvp
  else tvp

/-- The local `ebadf` and the global `slapd_shutdown` of the loop. -/
structure loop_vars where
  ebadf : Int
  slapd_shutdown : Int
deriving DecidableEq

/-- The `switch ( ns )` after `SLAP_EVENT_WAIT`: `ns` is the value of the wait,
`err` is `sock_errno()`. -/
def wait_switch (v : loop_vars) (ns err : Int) : loop_vars :=
  if ns = -1 then
    if err ≠ EINTR then
      let ebadf := v.ebadf + 1
      if ebadf ≥ SLAPD_EBADF_LIMIT then { ebadf := ebadf, slapd_shutdown := 2 }
      else { v with ebadf := ebadf }
    else v
  else if ns = 0 then { v with ebadf := 0 }
  else if v.slapd_shutdown ≠ 0 then v
  else { v with ebadf := 0 }

/-- One pass through `SLAP_EVENT_WAIT`: the value `ns` of the wait, `sock_errno()`,
and in `stored` the value that a signal handler or another thread stored into
the global `slapd_shutdown` while the wait was blocked (0 when nothing was
stored; `slap_sig_shutdown` stores 1). -/
structure wait_result where
  ns : Int
  err : Int
  stored : Int
deriving DecidableEq

/-- The loop variables when the wait returns. -/
def wait_result.arrive (w : wait_result) (v : loop_vars) : loop_vars :=
  if w.stored ≠ 0 then { v with slapd_shutdown := w.stored } else v

/-- The loop `while ( !slapd_shutdown )` of `slapd_daemon_task`, reduced to
the wait and its switch, run on a sequence of wait results. -/
def daemon_loop : loop_vars → List wait_result → loop_vars
  | v, [] => v
  | v, w :: rest =>
    if v.slapd_shutdown ≠ 0 then v else daemon_loop (wait_switch (w.arrive v) w.ns w.err) rest

/-- The conversion of a `long` value to an `int` parameter: the value modulo
`2^32`, taken in `[-2^31, 2^31)`. -/
def long_to_int (x : Int) : Int := (x + 2 ^ 31) % 2 ^ 32 - 2 ^ 31

/-- The timeout argument that `SLAP_EVENT_WAIT` hands to `epoll_wait`, in
milliseconds: `tv_sec * 1000 + tv_usec / 1000` is computed in `long` and
converted to the parameter `int timeout` of `epoll_wait`. -/
def SLAP_EVENT_WAIT_timeout (tvp : Option timeval) : Int :=
  match tvp with
  | some tv => long_to_int (tv.tv_sec * 1000 + Int.tdiv tv.tv_usec 1000)
  | none => -1

/-- The wait `w`, arriving at the loop variables `v`, takes the branch of the
switch that stores 2 into `slapd_shutdown`. -/
def ns_fail (w : wait_result) (v : loop_vars) : Prop :=
  w.ns = -1 ∧ w.err ≠ EINTR ∧ v.ebadf + 1 ≥ SLAPD_EBADF_LIMIT

/-- The errno value `EBADF`. -/
def EBADF : Int := 9

/-! ## Reachable states and the invariant of the descriptor tables -/

/-- The environment of a `slapd_daemon_resize` call in which every system call
succeeds and `lutil_pair` returns descriptors that are not registered with any
shard (a new pipe never reuses the number of an open descriptor). -/
def resize_env.succeeds (env : resize_env) (st : Daemon) (newnum : Int) : Prop :=
  (∀ t s, env.epoll_ctl_add t s = 0) ∧
  (∀ i, env.thread_create i = 0) ∧
  (∀ i, st.slapd_daemon_threads ≤ i → i < newnum →
    ∃ p, env.lutil_pair i = some p ∧
      (∀ t, 0 ≤ t → t < st.slapd_daemon_threads →
        SLAP_SOCK_IS_ACTIVE st t p.1 = false ∧ SLAP_SOCK_IS_ACTIVE st t p.2 = false))

/-- The states the daemon reaches from notifier initialisation through the
calls that `daemon.c` makes on the descriptor tables. Every call carries the
precondition its code asserts; descriptors are in `[0, dtblsize)`; the memory
around the blocks of the shards is arbitrary; `epoll_ctl(ADD)` succeeds; a descriptor handed to `slapd_add_internal` or
registered for a listener is not an end of a wake pair. The three forms of
`slapd_add` are its three call sites (`slapd_daemon_task` for the wake
descriptor and for the listeners, `slapd_add_internal` for sessions). -/
inductive Reachable : Daemon → Prop
  | start (outside : Int → Int → epoll_event) (dtblsize threads : Int)
      (wake : Int → Int × Int) (ls : List Listener) :
      0 < threads → Reachable (daemon_start outside dtblsize threads wake ls)
  | add_wake {st : Daemon} (tid : Int) :
      Reachable st → 0 ≤ tid → tid < st.slapd_daemon_threads →
      0 ≤ (st.wake_sds tid).1 → (st.wake_sds tid).1 < st.dtblsize →
      SLAP_SOCK_NOT_ACTIVE st tid (st.wake_sds tid).1 = true →
      Reachable (slapd_add st (st.wake_sds tid).1 0 none tid 0)
  | add_listener {st : Daemon} (l : Nat) (lr : Listener) :
      Reachable st → st.slap_listeners[l]? = some lr →
      0 ≤ lr.sl_sd → lr.sl_sd < st.dtblsize → is_wake_sd st lr.sl_sd = false →
      SLAP_SOCK_NOT_ACTIVE st (DAEMON_ID st lr.sl_sd) lr.sl_sd = true →
      Reachable (slapd_add st lr.sl_sd 0 (some l) (-1) 0)
  | add_internal {st : Daemon} (s isactive : Int) :
      Reachable st → 0 ≤ s → s < st.dtblsize → is_wake_sd st s = false →
      SLAP_SOCK_NOT_ACTIVE st (DAEMON_ID st s) s = true →
      Reachable (slapd_add_internal st s isactive 0)
  | remove {st : Daemon} (s wasactive wake locked : Int) :
      Reachable st → 0 ≤ s → s < st.dtblsize →
      SLAP_SOCK_IS_ACTIVE st (DAEMON_ID st s) s = true →
      Reachable (slapd_remove st s wasactive wake locked)
  | set_write {st : Daemon} (s wake : Int) :
      Reachable st → 0 ≤ s → s < st.dtblsize →
      SLAP_SOCK_IS_ACTIVE st (DAEMON_ID st s) s = true →
      Reachable (slapd_set_write st s wake)
  | clr_write {st : Daemon} (s wake : Int) :
      Reachable st → 0 ≤ s → s < st.dtblsize →
      (SLAP_SOCK_IS_WRITE st (DAEMON_ID st s) s = true →
        SLAP_SOCK_IS_ACTIVE st (DAEMON_ID st s) s = true) →
      Reachable (slapd_clr_write st s wake)
  | set_read {st : Daemon} (s wake : Int) :
      Reachable st → 0 ≤ s → s < st.dtblsize → Reachable (slapd_set_read st s wake)
  | clr_read {st : Daemon} (s wake : Int) :
      Reachable st → 0 ≤ s → s < st.dtblsize → Reachable (slapd_clr_read st s wake).1
  | resize {st : Daemon} (env : resize_env) (newnum : Int) :
      Reachable st → 0 < newnum → env.succeeds st newnum →
      Reachable (slapd_daemon_resize env st newnum).1

/-- The descriptors in `[0, dtblsize)` that are registered on shard `t`
(`SLAP_SOCK_IS_ACTIVE(t, s)`) and for which `SLAP_SOCK_IS_WRITE(t, s)` holds. -/
def write_armed (st : Daemon) (t : Int) : Finset Int :=
  (Finset.Ico 0 st.dtblsize).filter
    (fun s => SLAP_SOCK_IS_ACTIVE st t s = true ∧ SLAP_SOCK_IS_WRITE st t s = true)

/-- Consistency of the index map of one shard: `sd_index` and `sd_epolls` are
inverse to each other on the registered descriptors, `fdof` being
`SLAP_EPOLL_EV_PTRFD` of the shard. -/
def shard_ix (D : Int) (fdof : epoll_data_ptr → Int) (sd : slap_daemon_st) : Prop :=
  0 ≤ sd.sd_nfds ∧
  (∀ s, 0 ≤ s → s < D → sd.sd_index s ≠ -1 →
    0 ≤ sd.sd_index s ∧ sd.sd_index s < sd.sd_nfds ∧
    fdof (sd.sd_epolls (sd.sd_index s)).data_ptr = s) ∧
  (∀ k, 0 ≤ k → k < sd.sd_nfds →
    0 ≤ fdof (sd.sd_epolls k).data_ptr ∧ fdof (sd.sd_epolls k).data_ptr < D ∧
    sd.sd_index (fdof (sd.sd_epolls k).data_ptr) = k)

/-- The write-armed descriptors of a shard record: the registered descriptors
whose record has the bit `EPOLLOUT`. -/
def shard_writers (D : Int) (sd : slap_daemon_st) : Finset Int :=
  (Finset.Ico 0 D).filter
    (fun s => sd.sd_index s ≠ -1 ∧ (sd.sd_epolls (sd.sd_index s)).events &&& EPOLLOUT ≠ 0)

/-- Every shard below `M` has a consistent index map. -/
def ix_ok (st : Daemon) (M : Int) : Prop :=
  ∀ t, 0 ≤ t → t < M → shard_ix st.dtblsize (SLAP_EPOLL_EV_PTRFD st t) (st.slap_daemon t)

/-- On every shard below `M` the counter `sd_nwriters` is the number of
registered write-armed descriptors. -/
def cnt_ok (st : Daemon) (M : Int) : Prop :=
  ∀ t, 0 ≤ t → t < M →
    (st.slap_daemon t).sd_nwriters = ((shard_writers st.dtblsize (st.slap_daemon t)).card : Int)

/-- Where a descriptor may be registered: the wake descriptor of a shard on
that shard, any other descriptor on the shard its number and the mask name. -/
def routed (st : Daemon) (is_wake : Int → Bool) (mask : Int → Int) (t s : Int) : Prop :=
  (st.slap_daemon t).sd_index s ≠ -1 →
    (s = (st.wake_sds t).1 ∧ is_wake s = true) ∨ (is_wake s = false ∧ t = Int.land s (mask s))

/-- Every registration on a shard below `M` of a descriptor in range is routed. -/
def route_ok (st : Daemon) (M : Int) (is_wake : Int → Bool) (mask : Int → Int) : Prop :=
  ∀ t s, 0 ≤ t → t < M → 0 ≤ s → s < st.dtblsize → routed st is_wake mask t s

/-- Consistency of the tables of the shards below `M`. -/
def Tables (st : Daemon) (M : Int) (is_wake : Int → Bool) (mask : Int → Int) : Prop :=
  ix_ok st M ∧ cnt_ok st M ∧ route_ok st M is_wake mask

/-- The invariant of the descriptor tables. -/
def Inv (st : Daemon) : Prop :=
  0 < st.slapd_daemon_threads ∧ st.slapd_daemon_mask = st.slapd_daemon_threads - 1 ∧
  Tables st st.slapd_daemon_threads (is_wake_sd st) (fun _ => st.slapd_daemon_mask)

/-- The invariant of the descriptor tables without the counters `sd_nwriters`:
the index maps of the shards and the routing of the registrations. -/
def Index_Inv (st : Daemon) : Prop :=
  0 < st.slapd_daemon_threads ∧ st.slapd_daemon_mask = st.slapd_daemon_threads - 1 ∧
  ix_ok st st.slapd_daemon_threads ∧
  route_ok st st.slapd_daemon_threads (is_wake_sd st) (fun _ => st.slapd_daemon_mask)

/-- The `data.ptr` that `SLAP_SOCK_ADD(t, s, l)` stores. -/
def add_ptr (t s : Int) (l : Option Nat) : epoll_data_ptr :=
  match l with
  | some l => .listener l
  | none => .index t s

/-- A shard record with descriptor `s` appended to the table, its event word being `ev`. -/
def shard_add_ev (sd : slap_daemon_st) (s : Int) (ptr : epoll_data_ptr) (ev : Nat) :
    slap_daemon_st :=
  { sd with
    sd_index := upd sd.sd_index s sd.sd_nfds
    sd_epolls := upd sd.sd_epolls sd.sd_nfds { events := ev, data_ptr := ptr }
    sd_nfds := sd.sd_nfds + 1 }

/-- The record of shard `t` after `SLAP_SOCK_ADD` with a successful `epoll_ctl`. -/
def shard_add (sd : slap_daemon_st) (s : Int) (ptr : epoll_data_ptr) : slap_daemon_st :=
  shard_add_ev sd s ptr EPOLLIN

/-- The record of shard `t` after `SLAP_SOCK_DEL` of a registered descriptor. -/
def shard_del (fdof : epoll_data_ptr → Int) (sd : slap_daemon_st) (s : Int) : slap_daemon_st :=
  { sd with
    sd_epolls := upd sd.sd_epolls (sd.sd_index s) (sd.sd_epolls (sd.sd_nfds - 1))
    sd_index := upd (upd sd.sd_index (fdof (sd.sd_epolls (sd.sd_nfds - 1)).data_ptr) (sd.sd_index s)) s (-1)
    sd_nfds := sd.sd_nfds - 1 }

/-- The record of shard `t` after an assignment to `SLAP_EPOLL_SOCK_EV(t,s)`. -/
def shard_set_ev (sd : slap_daemon_st) (s : Int) (ev : Nat) : slap_daemon_st :=
  { sd with
    sd_epolls := upd sd.sd_epolls (sd.sd_index s) { sd.sd_epolls (sd.sd_index s) with events := ev } }

/-- The record of shard `DAEMON_ID(s)` after `slapd_remove`. -/
def remove_shard (fdof : epoll_data_ptr → Int) (sd : slap_daemon_st) (s wasactive : Int) :
    slap_daemon_st :=
  shard_del fdof
    { sd with
      sd_nactives := sd.sd_nactives + (if wasactive ≠ 0 then -1 else 0)
      sd_nwriters := sd.sd_nwriters +
        (if (sd.sd_epolls (sd.sd_index s)).events &&& EPOLLOUT ≠ 0 then -1 else 0) }
    s

/-- The record of the new shard after one descriptor has been moved to it by
`slapd_socket_realloc`; `W` and `A` tell whether the descriptor was write-armed
on the old shard and whether `connection_is_active` holds for it. -/
def realloc_new_shard (sd : slap_daemon_st) (i : Int) (ptr : epoll_data_ptr) (W A : Bool) :
    slap_daemon_st :=
  { shard_add_ev sd i ptr (if W then EPOLLIN ||| EPOLLOUT else EPOLLIN) with
    sd_nactives := sd.sd_nactives + (if A then 1 else 0)
    sd_nwriters := sd.sd_nwriters + (if W then 1 else 0) }

/-- The mask that routes descriptor `s` while `slapd_socket_realloc` is at
descriptor `k`: the new mask below `k`, the old mask from `k` on. -/
def mixed_mask (k newmask oldmask : Int) : Int → Int :=
  fun s => if s < k then newmask else oldmask

/-- No descriptor in range with property `P` is registered on a shard below `M`. -/
def quiet (st : Daemon) (M : Int) (P : Int → Prop) : Prop :=
  ∀ s, P s → 0 ≤ s → s < st.dtblsize → ∀ t, 0 ≤ t → t < M → (st.slap_daemon t).sd_index s = -1

/-- Two states agree on everything but the shard records and the flags. -/
def same_frame (st st' : Daemon) : Prop :=
  st'.dtblsize = st.dtblsize ∧ st'.slapd_daemon_threads = st.slapd_daemon_threads ∧
  st'.slapd_daemon_mask = st.slapd_daemon_mask ∧ st'.wake_sds = st.wake_sds ∧
  st'.slap_listeners = st.slap_listeners

/-! ## Sample states -/

/-- Memory around the blocks that reads as zero. -/
def zeroed : Int → Int → epoll_event := fun _ _ => { events := 0, data_ptr := .null }

/-- Memory around the blocks in which the event word in front of each block
has the bits `EPOLLIN` and `EPOLLOUT`. -/
def heap_junk : Int → Int → epoll_event :=
  fun _ _ => { events := EPOLLIN ||| EPOLLOUT, data_ptr := .null }

/-- Wake pairs of a sample daemon: descriptors 3, 4 for shard 0 and 5, 6 for shard 1. -/
def sample_wake : Int → Int × Int :=
  fun j => if j = 0 then (3, 4) else (5, 6)

/-- A sample daemon after notifier initialisation: 8 descriptors, 2 shards, no listeners. -/
def sample_start : Daemon := daemon_start zeroed 8 2 sample_wake []

/-- The sample daemon with the session descriptor 7 registered. -/
def sample_session : Daemon := slapd_add_internal sample_start 7 1 0

/-- The sample daemon with the session descriptor 7 registered and write-armed. -/
def sample_writer : Daemon := slapd_set_write sample_session 7 0

/-- A sample daemon with one shard, wake pair 3, 4 and 8 descriptors. -/
def single_start : Daemon := daemon_start zeroed 8 1 (fun _ => (3, 4)) []

/-- The one-shard sample after `slapd_add_internal( 5, 1 )` whose
`epoll_ctl(EPOLL_CTL_ADD)` failed: `sd_index[5]` and the record at `sd_nfds`
are stored, `sd_nfds` is not advanced and `slapd_shutdown` is 2. -/
def failed_add : Daemon := slapd_add_internal single_start 5 1 (-1)

/-- The state `failed_add` after `slapd_set_write( 5, 0 )`. -/
def failed_add_writer : Daemon := slapd_set_write failed_add 5 0

/-- The state `failed_add_writer` after a successful `slapd_add_internal( 6, 1 )`. -/
def failed_add_reused : Daemon := slapd_add_internal failed_add_writer 6 1 0

/-- The one-shard sample started in memory whose words in front of the blocks
are not zero. -/
def junk_start : Daemon := daemon_start heap_junk 8 1 (fun _ => (3, 4)) []

/-- The one-shard sample with session 7 registered and then read-disarmed by
`slapd_clr_read` (a worker is handling its input). -/
def single_disarmed : Daemon := (slapd_clr_read (slapd_add_internal single_start 7 1 0) 7 0).1

/-- An environment for `slapd_daemon_resize` in which every call succeeds: the
new shard gets the wake pair 5, 6 and every session is an active connection. -/
def sample_env : resize_env :=
  { lutil_pair := fun _ => some (5, 6)
    thread_create := fun _ => 0
    connection_is_active := fun _ => true
    epoll_ctl_add := fun _ _ => 0
    outside := zeroed }

/-- The one-shard sample after `slapd_daemon_resize( 2 )`. -/
def single_resized : Daemon := (slapd_daemon_resize sample_env single_disarmed 2).1

/-- A usual build: local and IPv6 sockets, a yielding select, no UDP, no TCP wrappers. -/
def sample_flags : build_flags :=
  { LDAP_CONNECTIONLESS := false
    LDAP_PF_LOCAL := true
    LDAP_PF_INET6 := true
    HAVE_TCPD := false
    HAVE_YIELDING_SELECT := true }

/-- The usual build with `LDAP_CONNECTIONLESS` defined. -/
def connectionless_flags : build_flags := { sample_flags with LDAP_CONNECTIONLESS := true }

/-- A stream listener on descriptor `sd`, neither muted nor busy. -/
def stream_listener (sd : Int) : Listener :=
  { sl_sd := sd, sl_mute := 0, sl_busy := 0, sl_is_udp := 0, sl_is_tls := 0, sl_is_proxied := 0 }

/-- An `accept` that fails with `EMFILE`. -/
def emfile_accept : accept_env :=
  { s := AC_SOCKET_INVALID, err := EMFILE, sa_family := AF_INET, keepalive_rc := 0, nodelay_rc := 0
    proxyp := 1, hosts_ctl := 1, conn_ok := true }

/-- A daemon with the listeners 1 and 2 and the session 7. -/
def two_listeners : Daemon :=
  slapd_add_internal (daemon_start zeroed 8 2 sample_wake [stream_listener 1, stream_listener 2]) 7 1 0

/-- The daemon `two_listeners` after `accept` has failed with `EMFILE` on both listeners. -/
def two_muted : Daemon :=
  (slap_listener sample_flags (slap_listener sample_flags two_listeners 0 emfile_accept).st 1
    emfile_accept).st

/-- A daemon whose only listener is a connectionless (UDP) one on descriptor 1,
after `slap_listener_activate` has marked it busy. -/
def udp_activated : Daemon :=
  (slap_listener_activate
    (daemon_start zeroed 8 1 (fun _ => (3, 4)) [{ stream_listener 1 with sl_is_udp := 1 }]) 0 0).1

/-- An `accept` that returns descriptor 6 for an IPv4 peer, after which
`setsockopt(SO_KEEPALIVE)` fails. -/
def keepalive_fails : accept_env :=
  { s := 6, err := 0, sa_family := AF_INET, keepalive_rc := AC_SOCKET_ERROR, nodelay_rc := 0
    proxyp := 1, hosts_ctl := 1, conn_ok := true }

/-- An `accept` that returns descriptor 6 for an IPv6 peer, after which
`setsockopt(TCP_NODELAY)` fails. -/
def nodelay_fails : accept_env :=
  { s := 6, err := 0, sa_family := AF_INET6, keepalive_rc := 0, nodelay_rc := AC_SOCKET_ERROR
    proxyp := 1, hosts_ctl := 1, conn_ok := true }

/-! ## Listener URLs: `get_url_perms`

A C string is a list of characters, one per `char`, without the terminating
NUL; `strlen` is the length of the list. -/

/-- Modelled from the spec: the result code `LDAP_SUCCESS`; it is declared in
`ldap.h`, which is not under src/. -/
def LDAP_SUCCESS : Int := 0

/-- Modelled from the spec: the result code `LDAP_OTHER`; it is declared in
`ldap.h`, which is not under src/ (its value there is 0x50). -/
def LDAP_OTHER : Int := 80

/-- The macro `LDAPI_MOD_URLEXT`. -/
def LDAPI_MOD_URLEXT : List Char := "x-mod".toList

/-- The test `strncasecmp( a, b, n ) == 0`. -/
def strncasecmp_eq (a b : List Char) (n : Nat) : Bool :=
  (a.take n).map Char.toLower == (b.take n).map Char.toLower

/-- The mode bits `S_IRUSR` ... `S_IXOTH` of `sys/stat.h`. -/
def S_IRUSR : Nat := 256

/-- The mode bit `S_IWUSR`. -/
def S_IWUSR : Nat := 128

/-- The mode bit `S_IXUSR`. -/
def S_IXUSR : Nat := 64

/-- The mode bit `S_IRGRP`. -/
def S_IRGRP : Nat := 32

/-- The mode bit `S_IWGRP`. -/
def S_IWGRP : Nat := 16

/-- The mode bit `S_IXGRP`. -/
def S_IXGRP : Nat := 8

/-- The mode bit `S_IROTH`. -/
def S_IROTH : Nat := 4

/-- The mode bit `S_IWOTH`. -/
def S_IWOTH : Nat := 2

/-- The mode bit `S_IXOTH`. -/
def S_IXOTH : Nat := 1

/-- The mode bits `S_IRWXU`. -/
def S_IRWXU : Nat := 448

/-- The mode bits `S_IRWXO`. -/
def S_IRWXO : Nat := 7

/-- The character `value[ j ]` of a C string (NUL at its end). -/
def char_at (value : List Char) (j : Nat) : Char := value.getD j (Char.ofNat 0)

/-- One pass of the loop of `case 3` in `get_url_perms`: `none` is
`return LDAP_OTHER`. -/
def perms_octal_step (value : List Char) (acc : Option Nat) (j : Nat) : Option Nat :=
  match acc with
  | none => none
  | some p =>
    let v : Int := ((char_at value j).toNat : Int) - 48
    if v < 0 ∨ v > 7 then none else some (p ||| (v.toNat <<< (3 * (2 - j))))

/-- The loop `for ( j = 0; j < 3; j++ )` of `case 3` in `get_url_perms`. -/
def perms_octal (value : List Char) : Option Nat :=
  [0, 1, 2].foldl (perms_octal_step value) (some 0)

/-- The table `m[]` of `case 10` in `get_url_perms`. -/
def perms_m : List Nat :=
  [0, S_IRUSR, S_IWUSR, S_IXUSR, S_IRGRP, S_IWGRP, S_IXGRP, S_IROTH, S_IWOTH, S_IXOTH]

/-- The string `c[]` of `case 10` in `get_url_perms`. -/
def perms_c : List Char := "-rwxrwxrwx".toList

/-- One pass of the loop of `case 10` in `get_url_perms`. -/
def perms_symbolic_step (value : List Char) (acc : Option Nat) (j : Nat) : Option Nat :=
  match acc with
  | none => none
  | some p =>
    if char_at value j = char_at perms_c j then some (p ||| perms_m.getD j 0)
    else if char_at value j ≠ '-' then none
    else some p

/-- The loop `for ( j = 1; j < 10; j++ )` of `case 10` in `get_url_perms`. -/
def perms_symbolic (value : List Char) : Option Nat :=
  [1, 2, 3, 4, 5, 6, 7, 8, 9].foldl (perms_symbolic_step value) (some 0)

/-- The extension name after the optional leading `!`. -/
def ext_type (e : List Char) : List Char :=
  if char_at e 0 = '!' then e.drop 1 else e

/-- The test of `get_url_perms` whether an extension is `x-mod=...`. -/
def is_x_mod (e : List Char) : Bool :=
  strncasecmp_eq (ext_type e) (LDAPI_MOD_URLEXT ++ ['=']) (LDAPI_MOD_URLEXT ++ ['=']).length

/-- The string `value` of an `x-mod=` extension. -/
def x_mod_value (e : List Char) : List Char :=
  (ext_type e).drop (LDAPI_MOD_URLEXT ++ ['=']).length

/-- The `switch (strlen(value))` of `get_url_perms`: `none` is
`return LDAP_OTHER`, `some p` is the value stored into `*perms`. -/
def perms_of_value (value : List Char) : Option Nat :=
  if value.length = 4 then
    if char_at value 0 ≠ '0' then none else perms_octal (value.drop 1)
  else if value.length = 3 then perms_octal value
  else if value.length = 10 then perms_symbolic value
  else none

/-- The function `get_url_perms`: the return value and `*perms` after the call. -/
def get_url_perms : List (List Char) → Nat → Int × Nat
  | [], perms => (LDAP_OTHER, perms)
  | e :: rest, perms =>
    if is_x_mod e then
      match perms_of_value (x_mod_value e) with
      | none => (LDAP_OTHER, perms)
      | some p => (LDAP_SUCCESS, p)
    else get_url_perms rest perms

/-! ## Listener URLs: `slap_get_listener_addresses` and `slap_open_listener`

The build has `HAVE_GETADDRINFO` and `HAVE_TLS`; `get_url_perms` is compiled
when `LDAP_PF_LOCAL` is defined. -/

/-- The protocols `LDAP_PROTO_TCP`, `LDAP_PROTO_UDP`, `LDAP_PROTO_IPC` and
`LDAP_PROTO_EXT` that `ldap_pvt_url_scheme2proto` returns. -/
inductive ldap_proto where
  | LDAP_PROTO_TCP : ldap_proto
  | LDAP_PROTO_UDP : ldap_proto
  | LDAP_PROTO_IPC : ldap_proto
  | LDAP_PROTO_EXT : ldap_proto
deriving DecidableEq

/-- The fields of `LDAPURLDesc` that `slap_open_listener` reads, with the values
of `ldap_pvt_url_scheme2tls`, `ldap_pvt_url_scheme2proxied` and
`ldap_pvt_url_scheme2proto` on `lud_scheme`; `none` is a NULL pointer. -/
structure LDAPURLDesc where
  scheme2tls : Int
  scheme2proxied : Int
  scheme2proto : ldap_proto
  lud_host : Option (List Char)
  lud_port : Nat
  lud_dn : Option (List Char)
  lud_exts : Option (List (List Char))

/-- The pointer `sal` of `slap_open_listener`: NULL, a pointer to memory that
has been freed, or a NULL-terminated array of addresses. -/
inductive sal_ptr where
  | null : sal_ptr
  | dangling : sal_ptr
  | valid (sal : List Sockaddr) : sal_ptr
deriving DecidableEq

/-- What the environment answers during one run of `slap_open_listener`: the
value of `ldap_url_parse_ext` and the parsed URL, the macro `LDAPI_SOCK`,
`sizeof` of `sun_path`, the list that `getaddrinfo` returns (`none` when it
fails; an entry `none` has `ai_addr == NULL`), and the values of `socket` and
`bind` for the address number `n` of `sal`. -/
structure open_env where
  parse_rc : Int
  lud : LDAPURLDesc
  LDAPI_SOCK : List Char
  sun_path_size : Nat
  getaddrinfo : Option (List (Option Sockaddr))
  socket : Nat → Int
  bind : Nat → Int

/-- The copy loop of `slap_get_listener_addresses` over the `getaddrinfo`
list: `none` is `goto errexit`. -/
def copy_addrinfo (flags : build_flags) : List (Option Sockaddr) → Option (List Sockaddr)
  | [] => some []
  | none :: _ => none
  | some sai :: rest =>
    match copy_addrinfo flags rest with
    | none => none
    | some sap =>
      if (flags.LDAP_PF_INET6 && decide (sai.sa_family = AF_INET6)) ||
          decide (sai.sa_family = AF_INET) then some (sai :: sap)
      else some sap

/-- The function `slap_get_listener_addresses`: its return value and the
pointer it leaves in `*sal`, which is NULL before the call. -/
def slap_get_listener_addresses (flags : build_flags) (env : open_env) (host : Option (List Char))
    (proto : ldap_proto) (port : Nat) : Int × sal_ptr :=
  if flags.LDAP_PF_LOCAL && decide (proto = ldap_proto.LDAP_PROTO_IPC) then
    if (host.getD []).length > env.sun_path_size - 1 then (-1, sal_ptr.dangling)
    else
      (0, sal_ptr.valid [{ sa_family := AF_LOCAL, addr := 0, port := 0, sun_path := host.getD [] }])
  else
    match env.getaddrinfo with
    | none => (-1, sal_ptr.null)
    | some res =>
      match copy_addrinfo flags res with
      | none => (-1, sal_ptr.dangling)
      | some sap => (0, sal_ptr.valid sap)

/-- The loop `while ( *sal != NULL )` of `slap_open_listener`: the listeners it
stores into `slap_listeners`; `n` is the number of the address. -/
def open_addresses (flags : build_flags) (env : open_env) (dtblsize : Int) (l : Listener) :
    List Sockaddr → Nat → List Listener
  | [], _ => []
  | sa :: rest, n =>
    if ¬ (sa.sa_family = AF_INET ∨ (flags.LDAP_PF_INET6 = true ∧ sa.sa_family = AF_INET6) ∨
        (flags.LDAP_PF_LOCAL = true ∧ sa.sa_family = AF_LOCAL)) then
      open_addresses flags env dtblsize l rest (n + 1)
    else if env.socket n = AC_SOCKET_INVALID then
      open_addresses flags env dtblsize l rest (n + 1)
    else if env.socket n ≥ dtblsize then
      open_addresses flags env dtblsize l rest (n + 1)
    else if env.bind n ≠ 0 then
      open_addresses flags env dtblsize l rest (n + 1)
    else
      { l with sl_sd := env.socket n, sl_sa := sa } ::
        open_addresses flags env dtblsize l rest (n + 1)

/-- The effect of `slap_open_listener`: its return value and the listeners it
appends to `slap_listeners`. -/
structure open_result where
  rc : Int
  listeners : List Listener
deriving DecidableEq

/-- The function `slap_open_listener`. The value `none` stands for undefined
behaviour: the function reads through a `sal` that is NULL or has been
freed. -/
def slap_open_listener (flags : build_flags) (env : open_env) (dtblsize : Int) :
    Option open_result :=
  if env.parse_rc ≠ 0 then some { rc := env.parse_rc, listeners := [] }
  else
    let lud := env.lud
    let l0 : Listener :=
      { sl_sd := 0, sl_mute := 0, sl_busy := 0, sl_is_udp := 0, sl_is_tls := lud.scheme2tls
        sl_is_proxied := lud.scheme2proxied }
    let proto := lud.scheme2proto
    if proto = ldap_proto.LDAP_PROTO_IPC ∧ flags.LDAP_PF_LOCAL = false then
      some { rc := -1, listeners := [] }
    else
      let r :=
        if proto = ldap_proto.LDAP_PROTO_IPC then
          if lud.lud_host = none ∨ lud.lud_host = some [] then
            slap_get_listener_addresses flags env (some env.LDAPI_SOCK) proto 0
          else slap_get_listener_addresses flags env lud.lud_host proto 0
        else if lud.lud_host = none ∨ lud.lud_host = some [] ∨ lud.lud_host = some ['*'] then
          slap_get_listener_addresses flags env none proto lud.lud_port
        else slap_get_listener_addresses flags env lud.lud_host proto lud.lud_port
      let sal := r.2
      let l1 : Listener :=
        if flags.LDAP_CONNECTIONLESS then
          { l0 with sl_is_udp := if proto = ldap_proto.LDAP_PROTO_UDP then 1 else 0 }
        else l0
      let ep : Int × Nat :=
        if flags.LDAP_PF_LOCAL then
          match lud.lud_exts with
          | some exts => get_url_perms exts l1.sl_perms
          | none => (r.1, S_IRWXU ||| S_IRWXO)
        else (r.1, l1.sl_perms)
      let err := ep.1
      let l2 : Listener := { l1 with sl_perms := ep.2 }
      if lud.lud_dn ≠ none ∧ lud.lud_dn ≠ some [] then some { rc := -1, listeners := [] }
      else if err ≠ 0 then
        match sal with
        | sal_ptr.dangling => none
        | _ => some { rc := -1, listeners := [] }
      else
        match sal with
        | sal_ptr.valid addrs =>
          let ls := open_addresses flags env dtblsize l2 addrs 0
          some { rc := if ls = [] then -1 else 0, listeners := ls }
        | _ => none

/-- The parsed URL `ldap://no-such-host.invalid/????x-mod=0770`. -/
def lud_unresolvable : LDAPURLDesc :=
  { scheme2tls := 0, scheme2proxied := 0, scheme2proto := ldap_proto.LDAP_PROTO_TCP
    lud_host := some "no-such-host.invalid".toList, lud_port := 389, lud_dn := none
    lud_exts := some ["x-mod=0770".toList] }

/-- An environment in which the URL parses and `getaddrinfo` fails. -/
def env_unresolvable (lud : LDAPURLDesc) : open_env :=
  { parse_rc := 0, lud := lud, LDAPI_SOCK := "/var/run/ldapi".toList, sun_path_size := 108
    getaddrinfo := none, socket := fun _ => 5, bind := fun _ => 0 }

/-- An environment for `ldapi://%2Ftmp%2Fd.sock/????x-mod=0770`, where every
system call succeeds. -/
def env_ldapi : open_env :=
  { parse_rc := 0
    lud :=
      { scheme2tls := 0, scheme2proxied := 0, scheme2proto := ldap_proto.LDAP_PROTO_IPC
        lud_host := some "/tmp/d.sock".toList, lud_port := 0, lud_dn := none
        lud_exts := some ["x-mod=0770".toList] }
    LDAPI_SOCK := "/var/run/ldapi".toList, sun_path_size := 108
    getaddrinfo := none, socket := fun _ => 5, bind := fun _ => 0 }

/-! ## Start-up of shard 0: `listen` on the listeners -/

/-- The errno value `EADDRINUSE`. -/
def EADDRINUSE : Int := 98

/-- The address `INADDR_ANY`, which is also the number of `in6addr_any`. -/
def INADDR_ANY : Nat := 0

/-- What the environment answers during the start-up loop of
`slapd_daemon_task`, for the listener number `l`: the value of `listen`,
`sock_errno()` after it, the value of `ber_pvt_socket_set_nonblock`, and the
value of `epoll_ctl(ADD)`. -/
structure listen_env where
  listen_rc : Nat → Int
  listen_err : Nat → Int
  nonblock_rc : Nat → Int
  epoll_ctl_add : Nat → Int

/-- The test of the inner loop: `slap_listeners[i]` is bound to `in6addr_any`. -/
def is_in6addr_any (ls : List Listener) (i : Nat) : Bool :=
  match ls[i]? with
  | some lr => decide (lr.sl_sa.sa_family = AF_INET6) && decide (lr.sl_sa.addr = INADDR_ANY)
  | none => false

/-- The value of `i` after the loop `for ( i = 0 ; i < l; i++ )` that breaks at
the first listener bound to `in6addr_any`. -/
def in6addr_any_index (ls : List Listener) (l : Nat) : Nat :=
  ((List.range l).find? (is_in6addr_any ls)).getD l

/-- The effect of one pass of the start-up loop: the daemon state, the
descriptors given to `slapd_close`, and whether the pass ended in
`return (void*)-1`. -/
structure listen_step where
  st : Daemon
  closed : List Int
  aborted : Bool

/-- One pass of the loop `for ( l = 0; slap_listeners[l] != NULL; l++ )` at the
start of `slapd_daemon_task` on shard 0, for the listener `lr` at index `l`. -/
def listen_body (flags : build_flags) (env : listen_env) (st : Daemon) (l : Nat) (lr : Listener) :
    listen_step :=
  if lr.sl_sd = AC_SOCKET_INVALID then { st := st, closed := [], aborted := false }
  else if flags.LDAP_CONNECTIONLESS && decide (lr.sl_is_udp ≠ 0) then
    { st := st, closed := [], aborted := false }
  else if env.listen_rc l = -1 then
    if flags.LDAP_PF_INET6 = true ∧ env.listen_err l = EADDRINUSE ∧
        lr.sl_sa.sa_family = AF_INET ∧ lr.sl_sa.addr = INADDR_ANY ∧
        in6addr_any_index st.slap_listeners l < l then
      { st := st.set_listener l { lr with sl_sd := AC_SOCKET_INVALID }
        closed := [lr.sl_sd], aborted := false }
    else { st := { st with slapd_shutdown := 2 }, closed := [], aborted := true }
  else if env.nonblock_rc l < 0 then
    { st := { st with slapd_shutdown := 2 }, closed := [], aborted := true }
  else
    { st := slapd_add st lr.sl_sd 0 (some l) (-1) (env.epoll_ctl_add l)
      closed := [], aborted := false }

/-- The loop over the listeners from index `l` on; `fuel` bounds the number of
passes and is the number of listeners. -/
def listen_loop (flags : build_flags) (env : listen_env) :
    Nat → Nat → Daemon → List Int → listen_step
  | 0, _, st, closed => { st := st, closed := closed, aborted := false }
  | fuel + 1, l, st, closed =>
    match st.slap_listeners[l]? with
    | none => { st := st, closed := closed, aborted := false }
    | some lr =>
      let r := listen_body flags env st l lr
      if r.aborted then { st := r.st, closed := closed ++ r.closed, aborted := true }
      else listen_loop flags env fuel (l + 1) r.st (closed ++ r.closed)

/-- The start-up part of `slapd_daemon_task` for shard `tid`, up to the label
`loop`: the state, the closed descriptors, whether the task returned -1, and
`slapd_ready`. `wake_rc` is the value of `epoll_ctl(ADD)` for the wake
descriptor. -/
def slapd_daemon_task_init (flags : build_flags) (env : listen_env) (st : Daemon) (tid : Int)
    (wake_rc : Int) : listen_step × Int :=
  let st1 := slapd_add st (st.wake_sds tid).1 0 none tid wake_rc
  if tid ≠ 0 then ({ st := st1, closed := [], aborted := false }, 0)
  else
    let r := listen_loop flags env st1.slap_listeners.length 0 st1 []
    (r, if r.aborted then 0 else 1)

/-- A listener on descriptor `sd` bound to the address `sa`. -/
def bound_listener (sd : Int) (sa : Sockaddr) : Listener :=
  { stream_listener sd with sl_sa := sa }

/-- A daemon with an IPv6 wildcard listener on port 636 and an IPv4 wildcard
listener on port 389. -/
def two_ports : Daemon :=
  daemon_start zeroed 8 1 (fun _ => (3, 4))
    [bound_listener 1 { sa_family := AF_INET6, addr := INADDR_ANY, port := 636, sun_path := [] },
     bound_listener 2 { sa_family := AF_INET, addr := INADDR_ANY, port := 389, sun_path := [] }]

/-- An environment in which `listen` fails with `EADDRINUSE` on listener 1 only. -/
def env_addrinuse : listen_env :=
  { listen_rc := fun l => if l = 1 then -1 else 0
    listen_err := fun _ => EADDRINUSE
    nonblock_rc := fun _ => 0
    epoll_ctl_add := fun _ => 0 }

/-! ## Peer credentials of a local connection -/

/-- The conversion `%u` of `sprintf` for an `unsigned int` argument of 32 bits. -/
def sprintf_u (n : Nat) : List Char := Nat.toDigits 10 (n % 2 ^ 32)

/-- The string literal inside `STRLENOF` that sizes the buffer of `authid`. -/
def PEERCRED_MAX : List Char :=
  "gidNumber=4294967295+uidNumber=4294967295,cn=peercred,cn=external,cn=auth".toList

/-- The size of the buffer that `slap_listener` allocates for `authid.bv_val`. -/
def peercred_bufsize : Nat := PEERCRED_MAX.length + 1

/-- The string that `slap_listener` prints into `authid.bv_val` for a local
connection; `none` when `LUTIL_GETPEEREID` does not return 0 and `authid`
stays `BER_BVNULL`. -/
def slap_listener_authid (getpeereid_rc : Int) (uid gid : Nat) : Option (List Char) :=
  if getpeereid_rc = 0 then
    some ("gidNumber=".toList ++ sprintf_u gid ++ "+uidNumber=".toList ++ sprintf_u uid ++
      ",cn=peercred,cn=external,cn=auth".toList)
  else none

/-! ## Gentle shutdown -/

/-- The loop of `close_listeners` from index `l` on; `fuel` bounds the number
of passes and is the number of listeners. The second component lists the
descriptors given to `slapd_close`. -/
def close_listeners_loop (remove : Int) : Nat → Nat → Daemon → List Int → Daemon × List Int
  | 0, _, st, closed => (st, closed)
  | fuel + 1, l, st, closed =>
    match st.slap_listeners[l]? with
    | none => (st, closed)
    | some lr =>
      if lr.sl_sd ≠ AC_SOCKET_INVALID then
        let s := lr.sl_sd
        let st1 := st.set_listener l { lr with sl_sd := AC_SOCKET_INVALID }
        let st2 := if remove ≠ 0 then slapd_remove st1 s 0 0 0 else st1
        close_listeners_loop remove fuel (l + 1) st2 (closed ++ [s])
      else close_listeners_loop remove fuel (l + 1) st closed

/-- The function `close_listeners`. -/
def close_listeners (remove : Int) (st : Daemon) : Daemon × List Int :=
  if st.listening = 0 then (st, [])
  else close_listeners_loop remove st.slap_listeners.length 0 { st with listening := 0 } []

/-- The sum that shard 0 forms in `for ( l=1; l<slapd_daemon_threads; l++ )
active += slap_daemon[l].sd_nactives`. -/
def other_shards_active (st : Daemon) (active : Int) : Int :=
  (List.range (st.slapd_daemon_threads.toNat - 1)).foldl
    (fun acc (n : Nat) => acc + (st.slap_daemon ((n : Int) + 1)).sd_nactives) active

/-- The effect of the block `if ( slapd_gentle_shutdown )` in the loop of
`slapd_daemon_task`: the state, the descriptors closed, and whether the block
ends in `break`. -/
structure gentle_step where
  st : Daemon
  closed : List Int
  left_loop : Bool

/-- The block `if ( slapd_gentle_shutdown )` at the top of the loop of
`slapd_daemon_task` on shard `tid` (the writes to `be_restrictops` are left
out). -/
def gentle_shutdown_block (st : Daemon) (tid : Int) : gentle_step :=
  if st.slapd_gentle_shutdown ≠ 0 then
    let r : Daemon × List Int :=
      if tid = 0 ∧ st.slapd_gentle_shutdown = 1 then
        ({ (close_listeners 1 st).1 with slapd_gentle_shutdown := 2 }, (close_listeners 1 st).2)
      else (st, [])
    let st1 := r.1
    let active := (st1.slap_daemon tid).sd_nactives
    if active = 0 then
      if tid = 0 then
        if other_shards_active st1 active = 0 then
          { st := { st1 with slapd_shutdown := 1 }, closed := r.2, left_loop := true }
        else { st := st1, closed := r.2, left_loop := false }
      else { st := st1, closed := r.2, left_loop := true }
    else { st := st1, closed := r.2, left_loop := false }
  else { st := st, closed := [], left_loop := false }

/-- The effect of the part of `slapd_daemon_task` after its loop: the state,
the descriptors closed, and whether `connections_shutdown` is called. -/
structure task_exit where
  st : Daemon
  closed : List Int
  connections_shutdown : Bool

/-- The part of `slapd_daemon_task` after its loop, on shard `tid`. -/
def slapd_daemon_task_exit (st : Daemon) (tid : Int) : task_exit :=
  if tid ≠ 0 then { st := st, closed := [], connections_shutdown := false }
  else
    let r := close_listeners 1 st
    if r.1.slapd_gentle_shutdown = 0 then
      { st := { r.1 with slapd_abrupt_shutdown := 1 }, closed := r.2, connections_shutdown := true }
    else { st := r.1, closed := r.2, connections_shutdown := false }

/-- The daemon `two_listeners` with both listeners registered, one session
counted active, after `SIGHUP` has set `slapd_gentle_shutdown`. -/
def gentle_pending : Daemon :=
  { slapd_add (slapd_add two_listeners 1 0 (some 0) (-1) 0) 2 0 (some 1) (-1) 0 with
    slapd_gentle_shutdown := 1 }

/-- The daemon `gentle_pending` after the last session has gone. -/
def gentle_idle : Daemon := slapd_remove gentle_pending 7 1 0 0

/-- A daemon of four shards with 16 descriptors and the wake pairs 0, 1 to 6, 7. -/
def four_start : Daemon := daemon_start zeroed 16 4 (fun j => (2 * j, 2 * j + 1)) []

/-- The daemon `four_start` after `slapd_add_internal( 14, 0 )`: an outbound
client session on shard 2, not counted in `sd_nactives`. -/
def four_client : Daemon := slapd_add_internal four_start 14 0 0

/-- The daemon `four_client` after `slapd_remove( 14, NULL, 1, 0, 0 )`: the
caller passes `wasactive` set, and `sd_nactives` of shard 2 is -1. -/
def four_removed : Daemon := slapd_remove four_client 14 1 0 0

/-- The daemon `four_removed` after the server session 13 has been registered
on shard 1 and `SIGHUP` has set `slapd_gentle_shutdown`. -/
def gentle_mismatched : Daemon :=
  { slapd_add_internal four_removed 13 1 0 with slapd_gentle_shutdown := 1 }

/-! ## The function `slapd_daemon` -/

/-- The select form of `slap_daemon_st` (without `HAVE_WINSOCK`): `sd_nfds` and
the three `fd_set`s. -/
structure select_st where
  sd_nfds : Int
  sd_actives : Int → Bool
  sd_readers : Int → Bool
  sd_writers : Int → Bool

/-- The select form of `SLAP_SOCK_ADD(t,s,l)`. -/
def SLAP_SOCK_ADD_select (sd : select_st) (s : Int) : select_st :=
  let sd1 := if s ≥ sd.sd_nfds then { sd with sd_nfds := s + 1 } else sd
  { sd1 with sd_actives := upd sd1.sd_actives s true, sd_readers := upd sd1.sd_readers s true }

/-- One pass of the loop `for ( l = 0; slap_listeners[l] != NULL; l++ )` that
arms the listeners of shard `tid` before the wait. -/
def arm_listener (st : Daemon) (tid : Int) (lr : Listener) : Daemon :=
  if lr.sl_sd = AC_SOCKET_INVALID then st
  else if DAEMON_ID st lr.sl_sd ≠ tid then st
  else if !SLAP_SOCK_IS_ACTIVE st tid lr.sl_sd then st
  else if lr.sl_mute ≠ 0 ∨ lr.sl_busy ≠ 0 then SLAP_SOCK_CLR_READ st tid lr.sl_sd
  else SLAP_SOCK_SET_READ st tid lr.sl_sd

/-- The listener-arming step of the loop of `slapd_daemon_task` on shard `tid`. -/
def arm_listeners (st : Daemon) (tid : Int) : Daemon :=
  if st.listening ≠ 0 then st.slap_listeners.foldl (fun acc lr => arm_listener acc tid lr) st
  else st

/-- A daemon with one shard and one registered listener on descriptor 1. -/
def one_listener : Daemon :=
  slapd_add (daemon_start zeroed 8 1 (fun _ => (3, 4)) [stream_listener 1]) 1 0 (some 0) (-1) 0

/-- The daemon `one_listener` after a connection has arrived: the listener has
been handed to `slap_listener_activate`, and the loop has come round to its
arming step. -/
def one_listener_busy : Daemon := arm_listeners (slap_listener_activate one_listener 0 0).1 0

/-! ## The index map of the epoll tables -/

/-- The descriptors in `[0, dtblsize)` for which `SLAP_SOCK_IS_ACTIVE(t, s)` holds. -/
def registered (st : Daemon) (t : Int) : Finset Int :=
  (Finset.Ico 0 st.dtblsize).filter (fun s => SLAP_SOCK_IS_ACTIVE st t s = true)

/-- The index map of shard `t` as seen through the macros: `sd_nfds` counts the
registered descriptors; a registered descriptor has an index below `sd_nfds`,
the record at its index resolves to it through `SLAP_EPOLL_EV_PTRFD` and its
`events` word is what `SLAP_SOCK_IS_READ` and `SLAP_SOCK_IS_WRITE` test; two
registered descriptors have different indices; an unregistered descriptor has
index -1. -/
def index_map_ok (st : Daemon) (t : Int) : Prop :=
  (st.slap_daemon t).sd_nfds = ((registered st t).card : Int) ∧
  (∀ s, 0 ≤ s → s < st.dtblsize → SLAP_SOCK_IS_ACTIVE st t s = true →
    0 ≤ SLAP_EPOLL_SOCK_IX st t s ∧ SLAP_EPOLL_SOCK_IX st t s < (st.slap_daemon t).sd_nfds ∧
    SLAP_EPOLL_EV_PTRFD st t
      ((st.slap_daemon t).sd_epolls (SLAP_EPOLL_SOCK_IX st t s)).data_ptr = s ∧
    (SLAP_SOCK_IS_READ st t s = true ↔
      ((st.slap_daemon t).sd_epolls (SLAP_EPOLL_SOCK_IX st t s)).events &&& EPOLLIN ≠ 0) ∧
    (SLAP_SOCK_IS_WRITE st t s = true ↔
      ((st.slap_daemon t).sd_epolls (SLAP_EPOLL_SOCK_IX st t s)).events &&& EPOLLOUT ≠ 0)) ∧
  (∀ s s', 0 ≤ s → s < st.dtblsize → 0 ≤ s' → s' < st.dtblsize →
    SLAP_SOCK_IS_ACTIVE st t s = true → SLAP_SOCK_IS_ACTIVE st t s' = true → s ≠ s' →
    SLAP_EPOLL_SOCK_IX st t s ≠ SLAP_EPOLL_SOCK_IX st t s') ∧
  (∀ s, 0 ≤ s → s < st.dtblsize → SLAP_SOCK_IS_ACTIVE st t s = false →
    SLAP_EPOLL_SOCK_IX st t s = -1)

/-- Every open listener has a descriptor in `[0, dtblsize)` that is no end of a
wake pair. -/
def listeners_ok (st : Daemon) : Prop :=
  ∀ lr ∈ st.slap_listeners, lr.sl_sd ≠ AC_SOCKET_INVALID →
    0 ≤ lr.sl_sd ∧ lr.sl_sd < st.dtblsize ∧ is_wake_sd st lr.sl_sd = false

/-- A daemon with one shard that has registered its wake descriptor 3 and then
the listener on descriptor 1: the record of the listener is the last one. -/
def wake_and_listener : Daemon :=
  slapd_add (slapd_add (daemon_start zeroed 8 1 (fun _ => (3, 4)) [stream_listener 1]) 3 0 none 0 0)
    1 0 (some 0) (-1) 0

/-! ## liblber: `encode.c` -/

/-- The sizes, in octets, of `ber_tag_t` and `ber_len_t`. The two types come
from `lber_types.h`, which `configure` generates; `ber_len_t` is an
`unsigned long` (the code applies `sizeof(long)` to a `ber_len_t`). `ber_int_t`
and `unsigned int` have 32 bits. -/
structure lber_types where
  sizeof_ber_tag_t : Nat
  sizeof_ber_len_t : Nat

/-- A build in which `long` has 32 bits. -/
def lber_ilp32 : lber_types := { sizeof_ber_tag_t := 4, sizeof_ber_len_t := 4 }

/-- A build in which `long` has 64 bits. -/
def lber_lp64 : lber_types := { sizeof_ber_tag_t := 8, sizeof_ber_len_t := 8 }

/-- The record `Seqorset`; `sos_first` and `sos_ptr` are positions in the
buffer, and `sos_next` is the rest of the list `ber_sos`. -/
structure Seqorset where
  sos_clen : Nat
  sos_tag : Nat
  sos_first : Nat
  sos_ptr : Nat
deriving DecidableEq

/-- The fields of `BerElement` that `encode.c` uses: the octets of the buffer
by position, `ber_ptr` as a position, the options, and the open sequences and
sets, innermost first. -/
structure BerElement where
  ber_buf : Nat → Nat
  ber_ptr : Nat
  ber_options : Nat
  ber_sos : List Seqorset

/-- The option `LBER_USE_DER` of `lber.h`. -/
def LBER_USE_DER : Nat := 0x01

/-- The tag `LBER_DEFAULT` of `lber.h`, `(ber_tag_t) -1`. -/
def LBER_DEFAULT (sz : lber_types) : Nat := 2 ^ (8 * sz.sizeof_ber_tag_t) - 1

/-- The tag `LBER_INTEGER` of `lber.h`. -/
def LBER_INTEGER : Nat := 0x02

/-- The tag `LBER_ENUMERATED` of `lber.h`. -/
def LBER_ENUMERATED : Nat := 0x0a

/-- The tag `LBER_SEQUENCE` of `lber.h`. -/
def LBER_SEQUENCE : Nat := 0x30

/-- The octets in memory of the value that `LBER_TAG_HTON`, `LBER_LEN_HTON` or
`LBER_INT_HTON` yields for `x`, an unsigned integer of `W` octets: network
order, most significant octet first. -/
def LBER_HTON (W x : Nat) : List Nat :=
  (List.range W).map (fun k => x / 256 ^ (W - 1 - k) % 256)

/-- The `n` octets at `(char *) &x + off`, where `octets` are the octets of `x`. -/
def octets_at (octets : List Nat) (off n : Nat) : List Nat := (octets.drop off).take n

/-- The buffer after `n = octets.length` octets have been copied to position `dst`. -/
def buf_write (buf : Nat → Nat) (dst : Nat) (octets : List Nat) : Nat → Nat :=
  fun p => if dst ≤ p ∧ p < dst + octets.length then octets.getD (p - dst) 0 else buf p

/-- The buffer after `SAFEMEMCPY( dst, src, n )` within the buffer; the two
regions may overlap. -/
def buf_move (buf : Nat → Nat) (dst src n : Nat) : Nat → Nat :=
  fun p => if dst ≤ p ∧ p < dst + n then buf (src + (p - dst)) else buf p

/-- The `n` octets of the buffer from position `pos` on. -/
def buf_read (buf : Nat → Nat) (pos n : Nat) : List Nat :=
  (List.range n).map (fun k => buf (pos + k))

/-- Modelled from the spec: `ber_write( ber, buf, len, nosos )` is defined in
`io.c`, which is not among the sources. It is taken in its successful case (the
buffer has room or can be enlarged): with `nosos` set or no sequence open the
octets go to `ber_ptr`, which advances; otherwise they go to `sos_ptr` of the
innermost open sequence, and its `sos_ptr` and `sos_clen` advance. The result
is `len`. -/
def ber_write (ber : BerElement) (octets : List Nat) (nosos : Int) : BerElement × Int :=
  match ber.ber_sos with
  | [] =>
    ({ ber with
        ber_buf := buf_write ber.ber_buf ber.ber_ptr octets
        ber_ptr := ber.ber_ptr + octets.length }, (octets.length : Int))
  | sos :: rest =>
    if nosos ≠ 0 then
      ({ ber with
          ber_buf := buf_write ber.ber_buf ber.ber_ptr octets
          ber_ptr := ber.ber_ptr + octets.length }, (octets.length : Int))
    else
      ({ ber with
          ber_buf := buf_write ber.ber_buf sos.sos_ptr octets
          ber_sos := { sos with
            sos_ptr := sos.sos_ptr + octets.length
            sos_clen := sos.sos_clen + octets.length } :: rest }, (octets.length : Int))

/-- The loop of `ber_calc_taglen` from `i` downwards: the value of `i` at which
it ends. The mask is `(ber_tag_t)0xffU << (i * 8)`. -/
def ber_calc_taglen_loop (sz : lber_types) (tag : Nat) : Nat → Nat
  | 0 => 0
  | i + 1 =>
    if tag &&& ((0xff <<< ((i + 1) * 8)) % 2 ^ (8 * sz.sizeof_ber_tag_t)) ≠ 0 then i + 1
    else ber_calc_taglen_loop sz tag i

/-- The function `ber_calc_taglen`. -/
def ber_calc_taglen (sz : lber_types) (tag : Nat) : Nat :=
  ber_calc_taglen_loop sz tag (sz.sizeof_ber_tag_t - 1) + 1

/-- The function `ber_put_tag`. -/
def ber_put_tag (sz : lber_types) (ber : BerElement) (tag : Nat) (nosos : Int) :
    BerElement × Int :=
  let taglen := ber_calc_taglen sz tag
  let ntag := LBER_HTON sz.sizeof_ber_tag_t tag
  ber_write ber (octets_at ntag (sz.sizeof_ber_tag_t - taglen) taglen) nosos

/-- The function `ber_calc_lenlen`. -/
def ber_calc_lenlen (len : Nat) : Nat :=
  if len ≤ 0x7F then 1
  else if len ≤ 0xff then 2
  else if len ≤ 0xffff then 3
  else if len ≤ 0xffffff then 4
  else 5

/-- The expression `0xffU << n` of type `unsigned int`; C leaves it undefined
when `n` is 32 or more. -/
def shl_uint (x n : Nat) : Option Nat :=
  if n < 32 then some ((x <<< n) % 2 ^ 32) else none

/-- The loop of `ber_put_len` from `i` downwards: the value of `i` at which it
ends, or `none` when it evaluates an undefined shift. The mask is
`0xffU << (i * 8)`, without a cast to `ber_len_t`. -/
def ber_put_len_loop (len : Nat) : Nat → Option Nat
  | 0 => some 0
  | i + 1 =>
    match shl_uint 0xff ((i + 1) * 8) with
    | none => none
    | some mask => if len &&& mask ≠ 0 then some (i + 1) else ber_put_len_loop len i

/-- The function `ber_put_len`; `none` stands for undefined behaviour. -/
def ber_put_len (sz : lber_types) (ber : BerElement) (len : Nat) (nosos : Int) :
    Option (BerElement × Int) :=
  if len ≤ 127 then
    let netlen := LBER_HTON sz.sizeof_ber_len_t len
    some (ber_write ber (octets_at netlen (sz.sizeof_ber_len_t - 1) 1) nosos)
  else
    match ber_put_len_loop len (sz.sizeof_ber_len_t - 1) with
    | none => none
    | some i0 =>
      let i := i0 + 1
      let lenlen := i
      if lenlen > 4 then some (ber, -1)
      else
        let lenlen := lenlen ||| 0x80
        let w1 := ber_write ber [lenlen] nosos
        if w1.2 ≠ 1 then some (w1.1, -1)
        else
          let netlen := LBER_HTON sz.sizeof_ber_len_t len
          let w2 := ber_write w1.1 (octets_at netlen (sz.sizeof_ber_len_t - i) i) nosos
          if w2.2 ≠ (i : Int) then some (w2.1, -1)
          else some (w2.1, (i : Int) + 1)

/-- The loop of `ber_put_int_or_enum` from `i` downwards: the value of `i` at
which it ends. The mask is `0xffU << (i * 8)` with `i` at most 3. -/
def ber_put_int_loop (sign : Bool) (unum : Nat) : Nat → Nat
  | 0 => 0
  | i + 1 =>
    let mask := (0xff <<< ((i + 1) * 8)) % 2 ^ 32
    if sign then
      if unum &&& mask ≠ mask then i + 1 else ber_put_int_loop sign unum i
    else
      if unum &&& mask ≠ 0 then i + 1 else ber_put_int_loop sign unum i

/-- The function `ber_put_int_or_enum`; `unum` is `num` converted to the
32-bit `ber_uint_t`. -/
def ber_put_int_or_enum (sz : lber_types) (ber : BerElement) (num : Int) (tag : Nat) :
    Option (BerElement × Int) :=
  let sign := decide (num < 0)
  let unum := (num % 2 ^ 32).toNat
  let i := ber_put_int_loop sign unum 3
  let mask := unum &&& ((0x80 <<< (i * 8)) % 2 ^ 32)
  let i := if (mask ≠ 0 ∧ sign = false) ∨ (sign = true ∧ mask = 0) then i + 1 else i
  let len := i + 1
  let t := ber_put_tag sz ber tag 0
  if t.2 = -1 then some (t.1, -1)
  else
    match ber_put_len sz t.1 len 0 with
    | none => none
    | some l =>
      if l.2 = -1 then some (l.1, -1)
      else
        let i := i + 1
        let netnum := LBER_HTON 4 unum
        let w := ber_write l.1 (octets_at netnum (4 - i) i) 0
        if w.2 ≠ (i : Int) then some (w.1, -1)
        else some (w.1, t.2 + l.2 + (i : Int))

/-- The function `ber_put_enum`. -/
def ber_put_enum (sz : lber_types) (ber : BerElement) (num : Int) (tag : Nat) :
    Option (BerElement × Int) :=
  let tag := if tag = LBER_DEFAULT sz then LBER_ENUMERATED else tag
  ber_put_int_or_enum sz ber num tag

/-- The function `ber_put_int`. -/
def ber_put_int (sz : lber_types) (ber : BerElement) (num : Int) (tag : Nat) :
    Option (BerElement × Int) :=
  let tag := if tag = LBER_DEFAULT sz then LBER_INTEGER else tag
  ber_put_int_or_enum sz ber num tag

/-- The constant `FOUR_BYTE_LEN`. -/
def FOUR_BYTE_LEN : Nat := 5

/-- The function `ber_start_seqorset`, `LBER_CALLOC` succeeding. -/
def ber_start_seqorset (sz : lber_types) (ber : BerElement) (tag : Nat) : BerElement × Int :=
  let sos_first :=
    match ber.ber_sos with
    | [] => ber.ber_ptr
    | sos :: _ => sos.sos_ptr
  let new : Seqorset :=
    { sos_clen := 0
      sos_tag := tag
      sos_first := sos_first
      sos_ptr := sos_first + ber_calc_taglen sz tag + FOUR_BYTE_LEN }
  ({ ber with ber_sos := new :: ber.ber_sos }, 0)

/-- The function `ber_put_seqorset`; `none` stands for undefined behaviour
(that of `ber_put_len`, or a call with no sequence open). -/
def ber_put_seqorset (sz : lber_types) (ber : BerElement) : Option (BerElement × Int) :=
  match ber.ber_sos with
  | [] => none
  | sos :: rest =>
    let len := sos.sos_clen
    let netlen := LBER_HTON sz.sizeof_ber_len_t len
    if sz.sizeof_ber_len_t > 4 ∧ len > 0xffffffff then some (ber, -1)
    else
      let lenlen := if ber.ber_options &&& LBER_USE_DER ≠ 0 then ber_calc_lenlen len else FOUR_BYTE_LEN
      match rest with
      | [] =>
        let t := ber_put_tag sz ber sos.sos_tag 1
        if t.2 = -1 then some (t.1, -1)
        else
          let taglen := t.2.toNat
          let r : Option (BerElement × Int) :=
            if ber.ber_options &&& LBER_USE_DER ≠ 0 then
              match ber_put_len sz t.1 len 1 with
              | none => none
              | some l =>
                if l.2 = -1 then some (l.1, -1)
                else if lenlen ≠ FOUR_BYTE_LEN then
                  some ({ l.1 with
                    ber_buf := buf_move l.1.ber_buf (sos.sos_first + taglen + lenlen)
                      (sos.sos_first + taglen + FOUR_BYTE_LEN) len }, 0)
                else some (l.1, 0)
            else
              let w1 := ber_write t.1 [0x80 + FOUR_BYTE_LEN - 1] 1
              if w1.2 ≠ 1 then some (w1.1, -1)
              else
                let w2 := ber_write w1.1
                  (octets_at netlen (sz.sizeof_ber_len_t - (FOUR_BYTE_LEN - 1)) (FOUR_BYTE_LEN - 1)) 1
                if w2.2 ≠ ((FOUR_BYTE_LEN - 1 : Nat) : Int) then some (w2.1, -1)
                else some (w2.1, 0)
          match r with
          | none => none
          | some x =>
            if x.2 = -1 then some (x.1, -1)
            else
              some ({ x.1 with ber_ptr := x.1.ber_ptr + len, ber_sos := [] },
                ((taglen + lenlen + len : Nat) : Int))
      | next :: rest' =>
        let taglen := ber_calc_taglen sz sos.sos_tag
        let ntag := LBER_HTON sz.sizeof_ber_tag_t sos.sos_tag
        let b1 := buf_write ber.ber_buf sos.sos_first
          (octets_at ntag (sz.sizeof_ber_tag_t - taglen) taglen)
        let ltag :=
          if ber.ber_options &&& LBER_USE_DER ≠ 0 then
            (if lenlen = 1 then len % 256 else (0x80 + (lenlen - 1)) % 256)
          else 0x80 + FOUR_BYTE_LEN - 1
        let b2 := buf_write b1 (sos.sos_first + 1) [ltag]
        let b3 :=
          if ber.ber_options &&& LBER_USE_DER ≠ 0 then
            let b := if lenlen > 1 then
                buf_write b2 (sos.sos_first + 2)
                  (octets_at netlen (sz.sizeof_ber_len_t - (lenlen - 1)) (lenlen - 1))
              else b2
            if lenlen ≠ FOUR_BYTE_LEN then
              buf_move b (sos.sos_first + taglen + lenlen)
                (sos.sos_first + taglen + FOUR_BYTE_LEN) len
            else b
          else
            buf_write b2 (sos.sos_first + taglen + 1)
              (octets_at netlen (sz.sizeof_ber_len_t - (FOUR_BYTE_LEN - 1)) (FOUR_BYTE_LEN - 1))
        let next' := { next with
          sos_clen := next.sos_clen + (taglen + lenlen + len)
          sos_ptr := next.sos_ptr + (taglen + lenlen + len) }
        some ({ ber with ber_buf := b3, ber_sos := next' :: rest' },
          ((taglen + lenlen + len : Nat) : Int))

/-- An empty element with the option `LBER_USE_DER`. -/
def ber_der : BerElement :=
  { ber_buf := fun _ => 0, ber_ptr := 0, ber_options := LBER_USE_DER, ber_sos := [] }

/-- An empty element without options: lengths of sequences take five octets. -/
def ber_plain : BerElement :=
  { ber_buf := fun _ => 0, ber_ptr := 0, ber_options := 0, ber_sos := [] }

/-- The context-specific constructed tag with number 31: the octets `BF 1F`. -/
def two_octet_tag : Nat := 0xBF1F

/-- The element after a sequence with `tag` and the contents `01 02 03` has been
opened, filled and closed at top level. -/
def seq_at_top (sz : lber_types) (ber : BerElement) (tag : Nat) : Option (BerElement × Int) :=
  ber_put_seqorset sz (ber_write (ber_start_seqorset sz ber tag).1 [1, 2, 3] 0).1

/-- The element after the same sequence has been opened, filled and closed
inside an open sequence with the tag `LBER_SEQUENCE`. -/
def seq_nested (sz : lber_types) (ber : BerElement) (tag : Nat) : Option (BerElement × Int) :=
  ber_put_seqorset sz
    (ber_write (ber_start_seqorset sz (ber_start_seqorset sz ber LBER_SEQUENCE).1 tag).1
      [1, 2, 3] 0).1

/-- The octets that `ber_put_tag` hands to `ber_write`: the last
`ber_calc_taglen` octets of the tag in network order. -/
def tag_octets (sz : lber_types) (tag : Nat) : List Nat :=
  octets_at (LBER_HTON sz.sizeof_ber_tag_t tag) (sz.sizeof_ber_tag_t - ber_calc_taglen sz tag)
    (ber_calc_taglen sz tag)

/-- The position to which `ber_write` with `nosos = 0` copies. -/
def ber_write_pos (ber : BerElement) : Nat :=
  match ber.ber_sos with
  | [] => ber.ber_ptr
  | sos :: _ => sos.sos_ptr

/-- The value of `len` in `ber_put_int_or_enum`: the number of content octets. -/
def ber_int_len (num : Int) : Nat :=
  let sign := decide (num < 0)
  let unum := (num % 2 ^ 32).toNat
  let i := ber_put_int_loop sign unum 3
  let mask := unum &&& ((0x80 <<< (i * 8)) % 2 ^ 32)
  let i := if (mask ≠ 0 ∧ sign = false) ∨ (sign = true ∧ mask = 0) then i + 1 else i
  i + 1

/-- The content octets that `ber_put_int_or_enum` hands to `ber_write`. -/
def ber_int_octets (num : Int) : List Nat :=
  octets_at (LBER_HTON 4 (num % 2 ^ 32).toNat) (4 - ber_int_len num) (ber_int_len num)

/-- The unsigned number that a string of octets denotes, most significant
octet first. -/
def be_value (octets : List Nat) : Nat := octets.foldl (fun a b => a * 256 + b) 0

/-- The integer that a string of octets denotes in two's complement, most
significant octet first: the sign is the top bit of the first octet. -/
def twos_complement (octets : List Nat) : Int :=
  (be_value octets : Int) - (if 128 ≤ octets.headD 0 then 256 ^ octets.length else 0)

/-- The least number of octets that can hold `len`, for `len` below `2^32`. -/
def len_octets (len : Nat) : Nat :=
  if len < 256 then 1 else if len < 256 ^ 2 then 2 else if len < 256 ^ 3 then 3 else 4

/-- The octets of the definite length form for `len`: the single octet `len` up
to 127, otherwise `0x80 | n` and the `n`-octet value of `len`, most significant
octet first, `n` being the least number of octets that can hold `len`. -/
def length_octets (len : Nat) : List Nat :=
  if len ≤ 127 then [len]
  else (0x80 ||| len_octets len) :: LBER_HTON (len_octets len) len

/-! ## libldap: `utf-8.c` -/

/-- The table `ldap_utf8_lentab`, indexed by the first octet with its top bit
flipped. -/
def ldap_utf8_lentab : List Nat :=
  [0, 0, 0, 0, 0, 0, 0, 0, 0, 0, 0, 0, 0, 0, 0, 0,
   0, 0, 0, 0, 0, 0, 0, 0, 0, 0, 0, 0, 0, 0, 0, 0,
   0, 0, 0, 0, 0, 0, 0, 0, 0, 0, 0, 0, 0, 0, 0, 0,
   0, 0, 0, 0, 0, 0, 0, 0, 0, 0, 0, 0, 0, 0, 0, 0,
   0, 0, 2, 2, 2, 2, 2, 2, 2, 2, 2, 2, 2, 2, 2, 2,
   2, 2, 2, 2, 2, 2, 2, 2, 2, 2, 2, 2, 2, 2, 2, 2,
   3, 3, 3, 3, 3, 3, 3, 3, 3, 3, 3, 3, 3, 3, 3, 3,
   4, 4, 4, 4, 4, 4, 4, 4, 5, 5, 5, 5, 6, 6, 0, 0]

/-- The function `ldap_utf8_charlen`; `p` gives the octets from the pointer on,
each below 256. -/
def ldap_utf8_charlen (p : Nat → Nat) : Nat :=
  if p 0 &&& 0x80 = 0 then 1
  else ldap_utf8_lentab.getD (p 0 ^^^ 0x80) 0

/-- The table `ldap_utf8_mintab`: the bits of which the second octet must have
one. The entries are `char`s; whether `0x80` is read as 128 or as -128, its
conjunction with an octet is non-zero exactly when the octet has its top bit. -/
def ldap_utf8_mintab : List Nat :=
  [0x20, 0x80, 0x80, 0x80, 0x80, 0x80, 0x80, 0x80,
   0x80, 0x80, 0x80, 0x80, 0x80, 0x80, 0x80, 0x80,
   0x30, 0x80, 0x80, 0x80, 0x80, 0x80, 0x80, 0x80,
   0x38, 0x80, 0x80, 0x80, 0x3c, 0x80, 0x00, 0x00]

/-- Modelled from the spec: the macro `LDAP_UTF8_CHARLEN(p)` of `ldap_utf8.h`,
which is not among the sources, taken to yield what the function
`ldap_utf8_charlen` yields. -/
def LDAP_UTF8_CHARLEN (p : Nat → Nat) : Nat := ldap_utf8_charlen p

/-- The function `ldap_utf8_charlen2`. -/
def ldap_utf8_charlen2 (p : Nat → Nat) : Nat :=
  let i := LDAP_UTF8_CHARLEN p
  if i > 2 then
    if ldap_utf8_mintab.getD (p 0 &&& 0x1f) 0 &&& p 1 = 0 then 0 else i
  else i

/-- Modelled from the spec: the macro `LDAP_UTF8_CHARLEN2(p, l)` of
`ldap_utf8.h`, which is not among the sources, taken to yield (and to assign to
`l`) what the function `ldap_utf8_charlen2` yields. -/
def LDAP_UTF8_CHARLEN2 (p : Nat → Nat) : Nat := ldap_utf8_charlen2 p

/-- Modelled from the spec: the constant `LDAP_UCS4_INVALID` of `ldap_utf8.h`,
`0x80000000U`, as a value of the 32-bit signed type `ldap_ucs4_t`. -/
def LDAP_UCS4_INVALID : Int := -2147483648

/-- The array `mask` of `ldap_x_utf8_to_ucs4`. -/
def ldap_x_utf8_to_ucs4_mask : List Nat := [0, 0x7f, 0x1f, 0x0f, 0x07, 0x03, 0x01]

/-- The loop `for(i=1; i < len; i++)` of `ldap_x_utf8_to_ucs4` with `fuel`
passes left, at index `i`: `none` when an octet is no continuation octet. -/
def ldap_x_utf8_to_ucs4_loop (c : Nat → Nat) : Nat → Nat → Nat → Option Nat
  | 0, _, ch => some ch
  | fuel + 1, i, ch =>
    if c i &&& 0xc0 ≠ 0x80 then none
    else ldap_x_utf8_to_ucs4_loop c fuel (i + 1) ((ch <<< 6) ||| (c i &&& 0x3f))

/-- The function `ldap_x_utf8_to_ucs4`. -/
def ldap_x_utf8_to_ucs4 (p : Nat → Nat) : Int :=
  let len := LDAP_UTF8_CHARLEN2 p
  if len = 0 then LDAP_UCS4_INVALID
  else
    let ch := p 0 &&& ldap_x_utf8_to_ucs4_mask.getD len 0
    match ldap_x_utf8_to_ucs4_loop p (len - 1) 1 ch with
    | none => LDAP_UCS4_INVALID
    | some ch => (ch : Int)

/-- The assignment `p[i] = v` to an `unsigned char`. -/
def set_octet (p : Nat → Nat) (i v : Nat) : Nat → Nat :=
  fun j => if j = i then v % 256 else p j

/-- The function `ldap_x_ucs4_to_utf8`: the buffer after the call (`none` for a
`NULL` pointer) and the value returned. -/
def ldap_x_ucs4_to_utf8 (c : Int) (buf : Option (Nat → Nat)) : Option (Nat → Nat) × Int :=
  match buf with
  | none => (none, 0)
  | some p =>
    let u := c.toNat
    if c < 0 then
      (some (set_octet p 0 0), 0)
    else if c < 0x80 then
      let p := set_octet p 0 u
      (some (set_octet p 1 0), 1)
    else if c < 0x800 then
      let p := set_octet p 0 (0xc0 ||| (u >>> 6))
      let p := set_octet p 1 (0x80 ||| (u &&& 0x3f))
      (some (set_octet p 2 0), 2)
    else if c < 0x10000 then
      let p := set_octet p 0 (0xe0 ||| (u >>> 12))
      let p := set_octet p 1 (0x80 ||| ((u >>> 6) &&& 0x3f))
      let p := set_octet p 2 (0x80 ||| (u &&& 0x3f))
      (some (set_octet p 3 0), 3)
    else if c < 0x200000 then
      let p := set_octet p 0 (0xf0 ||| (u >>> 18))
      let p := set_octet p 1 (0x80 ||| ((u >>> 12) &&& 0x3f))
      let p := set_octet p 2 (0x80 ||| ((u >>> 6) &&& 0x3f))
      let p := set_octet p 3 (0x80 ||| (u &&& 0x3f))
      (some (set_octet p 4 0), 4)
    else if c < 0x4000000 then
      let p := set_octet p 0 (0xf8 ||| (u >>> 24))
      let p := set_octet p 1 (0x80 ||| ((u >>> 18) &&& 0x3f))
      let p := set_octet p 2 (0x80 ||| ((u >>> 12) &&& 0x3f))
      let p := set_octet p 3 (0x80 ||| ((u >>> 6) &&& 0x3f))
      let p := set_octet p 4 (0x80 ||| (u &&& 0x3f))
      (some (set_octet p 5 0), 5)
    else
      let p := set_octet p 0 (0xfc ||| (u >>> 30))
      let p := set_octet p 1 (0x80 ||| ((u >>> 24) &&& 0x3f))
      let p := set_octet p 2 (0x80 ||| ((u >>> 18) &&& 0x3f))
      let p := set_octet p 3 (0x80 ||| ((u >>> 12) &&& 0x3f))
      let p := set_octet p 4 (0x80 ||| ((u >>> 6) &&& 0x3f))
      let p := set_octet p 5 (0x80 ||| (u &&& 0x3f))
      (some (set_octet p 6 0), 6)

/-- A buffer of zero octets. -/
def zero_buf : Nat → Nat := fun _ => 0

/-- The buffer that `ldap_x_ucs4_to_utf8` leaves for the code `c`, from a
buffer of zero octets. -/
def utf8_of (c : Int) : Nat → Nat :=
  match (ldap_x_ucs4_to_utf8 c (some zero_buf)).1 with
  | some p => p
  | none => zero_buf

/-! ## slapd overlays: `constraint.c`, the count constraint -/

/-- The constant `LDAP_MOD_ADD` of `ldap.h`. -/
def LDAP_MOD_ADD : Int := 0x0000

/-- The constant `LDAP_MOD_DELETE` of `ldap.h`. -/
def LDAP_MOD_DELETE : Int := 0x0001

/-- The constant `LDAP_MOD_REPLACE` of `ldap.h`. -/
def LDAP_MOD_REPLACE : Int := 0x0002

/-- The constant `LDAP_MOD_INCREMENT` of `ldap.h`. -/
def LDAP_MOD_INCREMENT : Int := 0x0003

/-- The constant `SLAP_MOD_SOFTADD` of `slap.h`. -/
def SLAP_MOD_SOFTADD : Int := 0x1000

/-- The constant `SLAP_MOD_SOFTDEL` of `slap.h`. -/
def SLAP_MOD_SOFTDEL : Int := 0x1001

/-- The fields of `Attribute` that the count constraint reads; an
`AttributeDescription *` is modelled by a number. -/
structure Attribute where
  a_desc : Nat
  a_numvals : Nat
deriving DecidableEq

/-- The field `e_attrs` of `Entry`: the list of its attributes. -/
structure Entry where
  e_attrs : List Attribute
deriving DecidableEq

/-- The fields of `Modifications` that the count constraint reads; the list
linked through `sml_next` is a `List`. -/
structure Modifications where
  sml_desc : Nat
  sml_op : Int
  sml_numvals : Nat
deriving DecidableEq

/-- The fields of `constraint` that the count constraint reads: the
`NULL`-terminated array `ap` and `count`. -/
structure constraint where
  ap : List Nat
  count : Nat
deriving DecidableEq

/-- Modelled from the spec: `attr_find( attrs, desc )` is defined in `attr.c`,
which is not among the sources; it is taken to yield the first attribute of the
list whose description is `desc`, or `NULL`. -/
def attr_find (attrs : List Attribute) (desc : Nat) : Option Attribute :=
  attrs.find? (fun a => decide (a.a_desc = desc))

/-- The function `constraint_count_attr`. -/
def constraint_count_attr (e : Entry) (ad : Nat) : Nat :=
  match attr_find e.e_attrs ad with
  | some a => a.a_numvals
  | none => 0

/-- The loop `for( ; m; m = m->sml_next )` of `constraint_check_count_violation`
for the attribute `ad`, from the modification `m` on with the count `ce`: the
count when the list is used up, or `none` when the `default` case returns 1.
The counts are `unsigned`. -/
def count_violation_mods (ad : Nat) : List Modifications → Nat → Option Nat
  | [], ce => some ce
  | m :: rest, ce =>
    if ad = m.sml_desc then
      let ca := m.sml_numvals
      if m.sml_op = LDAP_MOD_DELETE ∨ m.sml_op = SLAP_MOD_SOFTDEL then
        count_violation_mods ad rest (if ca = 0 ∨ ca > ce then 0 else ce - ca)
      else if m.sml_op = LDAP_MOD_ADD ∨ m.sml_op = SLAP_MOD_SOFTADD then
        count_violation_mods ad rest ((ce + ca) % 2 ^ 32)
      else if m.sml_op = LDAP_MOD_REPLACE then
        count_violation_mods ad rest ca
      else none
    else count_violation_mods ad rest ce

/-- The loop `for ( j = 0; cp->ap[j]; j++ )` of
`constraint_check_count_violation` from the attribute `ap[j]` on: `m` is where
the inner loop has left the list, `ce` the count so far. The inner loop does
not start again from the head of the list: once it has run through, `m` is
`NULL`. -/
def count_violation_attrs (target_entry : Option Entry) (count : Nat) :
    List Nat → List Modifications → Nat → Int
  | [], _, ce => if ce > count then 1 else 0
  | ad :: aps, m, ce =>
    let ce :=
      match target_entry with
      | some e => constraint_count_attr e ad
      | none => ce
    match count_violation_mods ad m ce with
    | none => 1
    | some ce => count_violation_attrs target_entry count aps [] ce

/-- The function `constraint_check_count_violation`. -/
def constraint_check_count_violation (m : List Modifications) (target_entry : Option Entry)
    (cp : constraint) : Int :=
  count_violation_attrs target_entry cp.count cp.ap m 0

/-- The number of values that the attribute `ad` has after the modifications
`m`, when it has `n` before: a delete subtracts its values or clears the
attribute, an add adds its values, a replace sets them. -/
def values_after (ad : Nat) : List Modifications → Nat → Nat
  | [], n => n
  | m :: rest, n =>
    if ad = m.sml_desc then
      if m.sml_op = LDAP_MOD_DELETE ∨ m.sml_op = SLAP_MOD_SOFTDEL then
        values_after ad rest (if m.sml_numvals = 0 ∨ m.sml_numvals > n then 0 else n - m.sml_numvals)
      else if m.sml_op = LDAP_MOD_ADD ∨ m.sml_op = SLAP_MOD_SOFTADD then
        values_after ad rest (n + m.sml_numvals)
      else if m.sml_op = LDAP_MOD_REPLACE then
        values_after ad rest m.sml_numvals
      else values_after ad rest n
    else values_after ad rest n

/-- The count constraint as a property: some attribute of the list `ap` has
more than `count` values after the modifications. -/
def count_violated (m : List Modifications) (e : Entry) (cp : constraint) : Prop :=
  ∃ ad ∈ cp.ap, values_after ad m (constraint_count_attr e ad) > cp.count

/-- Every modification is an add, a delete or a replace, soft or not. -/
def plain_ops (m : List Modifications) : Prop :=
  ∀ x ∈ m, x.sml_op = LDAP_MOD_ADD ∨ x.sml_op = SLAP_MOD_SOFTADD ∨ x.sml_op = LDAP_MOD_DELETE ∨
    x.sml_op = SLAP_MOD_SOFTDEL ∨ x.sml_op = LDAP_MOD_REPLACE

/-- The sum of the value counts of a list of modifications. -/
def total_numvals (m : List Modifications) : Nat := (m.map Modifications.sml_numvals).sum

/-- An entry in which attribute 1 has one value and attribute 2 has none. -/
def entry_one_value : Entry := { e_attrs := [{ a_desc := 1, a_numvals := 1 }] }

/-- A count constraint on the attributes 1 and 2 with the limit 1. -/
def two_attr_constraint : constraint := { ap := [1, 2], count := 1 }

/-! ## Arrays and event bits -/

theorem upd_same {β : Type} (a : Int → β) (i : Int) (v : β) : upd a i v i = v := by
  simp [upd]

theorem upd_ne {β : Type} (a : Int → β) {i j : Int} (v : β) (h : j ≠ i) : upd a i v j = a j := by
  simp [upd, h]

theorem upd_self {β : Type} (a : Int → β) (i : Int) : upd a i (a i) = a := by
  funext j
  by_cases h : j = i <;> simp [upd, h]

theorem or_out_and_out (e : Nat) : (e ||| EPOLLOUT) &&& EPOLLOUT ≠ 0 := by
  intro h
  have h2 := congrArg (fun x => Nat.testBit x 2) h
  simp only [EPOLLOUT, Nat.testBit_land, Nat.testBit_lor, Nat.testBit_two_pow,
    Nat.zero_testBit] at h2
  simp at h2

theorem or_out_and_in (e : Nat) : (e ||| EPOLLOUT) &&& EPOLLIN = e &&& EPOLLIN := by
  apply Nat.eq_of_testBit_eq
  intro i
  simp only [EPOLLOUT, EPOLLIN, Nat.testBit_land, Nat.testBit_lor, Nat.testBit_two_pow]
  by_cases h0 : 0 = i
  · subst h0; simp
  · simp [h0]

theorem or_in_and_in (e : Nat) : (e ||| EPOLLIN) &&& EPOLLIN ≠ 0 := by
  intro h
  have h2 := congrArg (fun x => Nat.testBit x 0) h
  simp only [EPOLLIN, Nat.testBit_land, Nat.testBit_lor, Nat.testBit_two_pow,
    Nat.zero_testBit] at h2
  simp at h2

theorem or_in_and_out (e : Nat) : (e ||| EPOLLIN) &&& EPOLLOUT = e &&& EPOLLOUT := by
  apply Nat.eq_of_testBit_eq
  intro i
  simp only [EPOLLOUT, EPOLLIN, Nat.testBit_land, Nat.testBit_lor, Nat.testBit_two_pow]
  by_cases h0 : 0 = i
  · subst h0; simp
  · simp [h0]

theorem clr_out_and_out (e : Nat) : (e &&& mode_compl EPOLLOUT) &&& EPOLLOUT = 0 := by
  apply Nat.eq_of_testBit_eq
  intro i
  simp only [mode_compl, EPOLLOUT, Nat.testBit_land, Nat.testBit_xor, Nat.testBit_two_pow,
    Nat.testBit_two_pow_sub_one, Nat.zero_testBit]
  by_cases h2 : 2 = i
  · subst h2; simp
  · simp [h2]

theorem clr_out_and_in (e : Nat) : (e &&& mode_compl EPOLLOUT) &&& EPOLLIN = e &&& EPOLLIN := by
  apply Nat.eq_of_testBit_eq
  intro i
  simp only [mode_compl, EPOLLOUT, EPOLLIN, Nat.testBit_land, Nat.testBit_xor, Nat.testBit_two_pow,
    Nat.testBit_two_pow_sub_one]
  by_cases h0 : 0 = i
  · subst h0; simp
  · simp [h0]

theorem clr_in_and_in (e : Nat) : (e &&& mode_compl EPOLLIN) &&& EPOLLIN = 0 := by
  apply Nat.eq_of_testBit_eq
  intro i
  simp only [mode_compl, EPOLLIN, Nat.testBit_land, Nat.testBit_xor, Nat.testBit_two_pow,
    Nat.testBit_two_pow_sub_one, Nat.zero_testBit]
  by_cases h0 : 0 = i
  · subst h0; simp
  · simp [h0]

theorem clr_in_and_out (e : Nat) : (e &&& mode_compl EPOLLIN) &&& EPOLLOUT = e &&& EPOLLOUT := by
  apply Nat.eq_of_testBit_eq
  intro i
  simp only [mode_compl, EPOLLOUT, EPOLLIN, Nat.testBit_land, Nat.testBit_xor, Nat.testBit_two_pow,
    Nat.testBit_two_pow_sub_one]
  by_cases h2 : 2 = i
  · subst h2; simp
  · simp [h2]

theorem in_and_out : EPOLLIN &&& EPOLLOUT = 0 := by decide

theorem shard_add_ev_ix {D : Int} {F : epoll_data_ptr → Int} {sd : slap_daemon_st} {s : Int}
    {ptr : epoll_data_ptr} (ev : Nat) (h : shard_ix D F sd) (hs0 : 0 ≤ s) (hs1 : s < D)
    (hna : sd.sd_index s = -1) (hp : F ptr = s) : shard_ix D F (shard_add_ev sd s ptr ev) := by
  obtain ⟨hn, h1, h2⟩ := h
  refine ⟨?_, ?_, ?_⟩
  · show 0 ≤ sd.sd_nfds + 1
    omega
  · intro s' a b hact
    show 0 ≤ upd sd.sd_index s sd.sd_nfds s' ∧ upd sd.sd_index s sd.sd_nfds s' < sd.sd_nfds + 1 ∧
      F (upd sd.sd_epolls sd.sd_nfds _ (upd sd.sd_index s sd.sd_nfds s')).data_ptr = s'
    by_cases e : s' = s
    · subst e
      rw [upd_same, upd_same]
      exact ⟨hn, by omega, hp⟩
    · have hact' : sd.sd_index s' ≠ -1 := by
        have : (shard_add_ev sd s ptr ev).sd_index s' = sd.sd_index s' := upd_ne _ _ e
        rw [← this]
        exact hact
      rw [upd_ne _ _ e]
      obtain ⟨p, q, r⟩ := h1 s' a b hact'
      have hne : sd.sd_index s' ≠ sd.sd_nfds := by omega
      rw [upd_ne _ _ hne]
      exact ⟨p, by omega, r⟩
  · intro k k0 k1
    have k1' : k < sd.sd_nfds + 1 := k1
    show 0 ≤ F (upd sd.sd_epolls sd.sd_nfds _ k).data_ptr ∧
      F (upd sd.sd_epolls sd.sd_nfds _ k).data_ptr < D ∧
      upd sd.sd_index s sd.sd_nfds (F (upd sd.sd_epolls sd.sd_nfds _ k).data_ptr) = k
    by_cases e : k = sd.sd_nfds
    · subst e
      rw [upd_same]
      simp only [hp]
      rw [upd_same]
      exact ⟨hs0, hs1, rfl⟩
    · have hk : k < sd.sd_nfds := by omega
      obtain ⟨p, q, r⟩ := h2 k k0 hk
      rw [upd_ne _ _ e]
      have hne : F (sd.sd_epolls k).data_ptr ≠ s := by
        intro c
        rw [c] at r
        omega
      rw [upd_ne _ _ hne]
      exact ⟨p, q, r⟩

/-- After registration the record read for any other descriptor in range is the one read before. -/
theorem shard_add_ev_rec {D : Int} {F : epoll_data_ptr → Int} {sd : slap_daemon_st} {s : Int}
    (ptr : epoll_data_ptr) (ev : Nat) (h : shard_ix D F sd) {s' : Int} (a : 0 ≤ s') (b : s' < D)
    (e : s' ≠ s) :
    (shard_add_ev sd s ptr ev).sd_index s' = sd.sd_index s' ∧
    (shard_add_ev sd s ptr ev).sd_epolls ((shard_add_ev sd s ptr ev).sd_index s') =
      sd.sd_epolls (sd.sd_index s') := by
  obtain ⟨hn, h1, h2⟩ := h
  have hi : (shard_add_ev sd s ptr ev).sd_index s' = sd.sd_index s' := upd_ne _ _ e
  refine ⟨hi, ?_⟩
  rw [hi]
  show upd sd.sd_epolls sd.sd_nfds _ (sd.sd_index s') = _
  have hne : sd.sd_index s' ≠ sd.sd_nfds := by
    by_cases c : sd.sd_index s' = -1
    · omega
    · have := h1 s' a b c
      omega
  rw [upd_ne _ _ hne]

theorem shard_add_ev_self (sd : slap_daemon_st) (s : Int) (ptr : epoll_data_ptr) (ev : Nat) :
    (shard_add_ev sd s ptr ev).sd_index s = sd.sd_nfds ∧
    (shard_add_ev sd s ptr ev).sd_epolls ((shard_add_ev sd s ptr ev).sd_index s) =
      { events := ev, data_ptr := ptr } := by
  have hi : (shard_add_ev sd s ptr ev).sd_index s = sd.sd_nfds := upd_same _ _ _
  refine ⟨hi, ?_⟩
  rw [hi]
  exact upd_same _ _ _

theorem shard_add_ix {D : Int} {F : epoll_data_ptr → Int} {sd : slap_daemon_st} {s : Int}
    {ptr : epoll_data_ptr} (h : shard_ix D F sd) (hs0 : 0 ≤ s) (hs1 : s < D)
    (hna : sd.sd_index s = -1) (hp : F ptr = s) : shard_ix D F (shard_add sd s ptr) :=
  shard_add_ev_ix EPOLLIN h hs0 hs1 hna hp

theorem shard_add_rec {D : Int} {F : epoll_data_ptr → Int} {sd : slap_daemon_st} {s : Int}
    (ptr : epoll_data_ptr) (h : shard_ix D F sd) {s' : Int} (a : 0 ≤ s') (b : s' < D)
    (e : s' ≠ s) :
    (shard_add sd s ptr).sd_index s' = sd.sd_index s' ∧
    (shard_add sd s ptr).sd_epolls ((shard_add sd s ptr).sd_index s') =
      sd.sd_epolls (sd.sd_index s') :=
  shard_add_ev_rec ptr EPOLLIN h a b e

theorem shard_add_self (sd : slap_daemon_st) (s : Int) (ptr : epoll_data_ptr) :
    (shard_add sd s ptr).sd_index s = sd.sd_nfds ∧
    (shard_add sd s ptr).sd_epolls ((shard_add sd s ptr).sd_index s) =
      { events := EPOLLIN, data_ptr := ptr } :=
  shard_add_ev_self sd s ptr EPOLLIN

theorem shard_del_ix {D : Int} {F : epoll_data_ptr → Int} {sd : slap_daemon_st} {s : Int}
    (h : shard_ix D F sd) (hs0 : 0 ≤ s) (hs1 : s < D) (hact : sd.sd_index s ≠ -1) :
    shard_ix D F (shard_del F sd s) := by
  obtain ⟨hn, h1, h2⟩ := h
  obtain ⟨i0, i1, i2⟩ := h1 s hs0 hs1 hact
  have hl0 : 0 ≤ sd.sd_nfds - 1 := by omega
  have hl1 : sd.sd_nfds - 1 < sd.sd_nfds := by omega
  obtain ⟨f0, f1, f2⟩ := h2 (sd.sd_nfds - 1) hl0 hl1
  refine ⟨hl0, ?_, ?_⟩
  · intro s' a b hact'
    simp only [shard_del] at hact' ⊢
    by_cases e : s' = s
    · subst e
      rw [upd_same] at hact'
      exact absurd rfl hact'
    · rw [upd_ne _ _ e] at hact' ⊢
      by_cases e2 : s' = F (sd.sd_epolls (sd.sd_nfds - 1)).data_ptr
      · rw [e2, upd_same, upd_same]
        refine ⟨i0, ?_, rfl⟩
        by_contra c
        have hlast : sd.sd_index s = sd.sd_nfds - 1 := by omega
        rw [hlast] at i2
        exact e (e2.trans i2)
      · rw [upd_ne _ _ e2] at hact' ⊢
        obtain ⟨p, q, r⟩ := h1 s' a b hact'
        have hne : sd.sd_index s' ≠ sd.sd_index s := by
          intro c
          rw [c] at r
          exact e (r.symm.trans i2)
        have hne2 : sd.sd_index s' ≠ sd.sd_nfds - 1 := by
          intro c
          rw [c] at r
          exact e2 r.symm
        rw [upd_ne _ _ hne]
        exact ⟨p, by omega, r⟩
  · intro k k0 k1
    have k1' : k < sd.sd_nfds - 1 := k1
    simp only [shard_del]
    by_cases e : k = sd.sd_index s
    · rw [e, upd_same]
      have hfs : F (sd.sd_epolls (sd.sd_nfds - 1)).data_ptr ≠ s := by
        intro c
        rw [c] at f2
        omega
      rw [upd_ne _ _ hfs, upd_same]
      exact ⟨f0, f1, rfl⟩
    · rw [upd_ne _ _ e]
      obtain ⟨p, q, r⟩ := h2 k k0 (by omega)
      have hgs : F (sd.sd_epolls k).data_ptr ≠ s := by
        intro c
        rw [c] at r
        exact e r.symm
      have hgf : F (sd.sd_epolls k).data_ptr ≠ F (sd.sd_epolls (sd.sd_nfds - 1)).data_ptr := by
        intro c
        rw [c] at r
        omega
      rw [upd_ne _ _ hgs, upd_ne _ _ hgf]
      exact ⟨p, q, r⟩

/-- After release the removed descriptor reads the word before the table and
every other descriptor in range reads the record it read before. -/
theorem shard_del_rec {D : Int} {F : epoll_data_ptr → Int} {sd : slap_daemon_st} {s : Int}
    (h : shard_ix D F sd) (hs0 : 0 ≤ s) (hs1 : s < D) (hact : sd.sd_index s ≠ -1) :
    (shard_del F sd s).sd_index s = -1 ∧
    (shard_del F sd s).sd_epolls (-1) = sd.sd_epolls (-1) ∧
    ∀ s', 0 ≤ s' → s' < D → s' ≠ s →
      ((shard_del F sd s).sd_index s' = -1 ↔ sd.sd_index s' = -1) ∧
      (shard_del F sd s).sd_epolls ((shard_del F sd s).sd_index s') =
        sd.sd_epolls (sd.sd_index s') := by
  obtain ⟨hn, h1, h2⟩ := h
  obtain ⟨i0, i1, i2⟩ := h1 s hs0 hs1 hact
  have hl0 : 0 ≤ sd.sd_nfds - 1 := by omega
  have hl1 : sd.sd_nfds - 1 < sd.sd_nfds := by omega
  obtain ⟨f0, f1, f2⟩ := h2 (sd.sd_nfds - 1) hl0 hl1
  have hm1 : (-1 : Int) ≠ sd.sd_index s := by omega
  refine ⟨upd_same _ _ _, upd_ne _ _ hm1, ?_⟩
  intro s' a b e
  simp only [shard_del]
  rw [upd_ne _ _ e]
  by_cases e2 : s' = F (sd.sd_epolls (sd.sd_nfds - 1)).data_ptr
  · rw [e2, upd_same, upd_same, f2]
    constructor
    · constructor <;> intro c <;> omega
    · rfl
  · rw [upd_ne _ _ e2]
    refine ⟨Iff.rfl, ?_⟩
    by_cases c : sd.sd_index s' = -1
    · rw [c, upd_ne _ _ hm1]
    · obtain ⟨p, q, r⟩ := h1 s' a b c
      have hne : sd.sd_index s' ≠ sd.sd_index s := by
        intro c2
        rw [c2] at r
        exact e (r.symm.trans i2)
      rw [upd_ne _ _ hne]

theorem shard_set_ev_ix {D : Int} {F : epoll_data_ptr → Int} {sd : slap_daemon_st} {s : Int}
    (ev : Nat) (h : shard_ix D F sd) (hs0 : 0 ≤ s) (hs1 : s < D) (hact : sd.sd_index s ≠ -1) :
    shard_ix D F (shard_set_ev sd s ev) := by
  obtain ⟨hn, h1, h2⟩ := h
  obtain ⟨i0, i1, i2⟩ := h1 s hs0 hs1 hact
  have hptr : ∀ k, ((shard_set_ev sd s ev).sd_epolls k).data_ptr = (sd.sd_epolls k).data_ptr := by
    intro k
    simp only [shard_set_ev]
    by_cases e : k = sd.sd_index s
    · rw [e, upd_same]
    · rw [upd_ne _ _ e]
  refine ⟨hn, ?_, ?_⟩
  · intro s' a b c
    rw [hptr]
    exact h1 s' a b c
  · intro k k0 k1
    rw [hptr]
    exact h2 k k0 k1

theorem shard_set_ev_rec {D : Int} {F : epoll_data_ptr → Int} {sd : slap_daemon_st} {s : Int}
    (ev : Nat) (h : shard_ix D F sd) (hs0 : 0 ≤ s) (hs1 : s < D) (hact : sd.sd_index s ≠ -1) :
    ((shard_set_ev sd s ev).sd_epolls (sd.sd_index s)).events = ev ∧
    ∀ s', 0 ≤ s' → s' < D → s' ≠ s →
      (shard_set_ev sd s ev).sd_epolls (sd.sd_index s') = sd.sd_epolls (sd.sd_index s') := by
  obtain ⟨hn, h1, h2⟩ := h
  obtain ⟨i0, i1, i2⟩ := h1 s hs0 hs1 hact
  constructor
  · simp only [shard_set_ev]
    rw [upd_same]
  · intro s' a b e
    simp only [shard_set_ev]
    by_cases c : sd.sd_index s' = -1
    · have hne : sd.sd_index s' ≠ sd.sd_index s := by omega
      rw [upd_ne _ _ hne]
    · obtain ⟨p, q, r⟩ := h1 s' a b c
      have hne : sd.sd_index s' ≠ sd.sd_index s := by
        intro c2
        rw [c2] at r
        exact e (r.symm.trans i2)
      rw [upd_ne _ _ hne]

/-! ## One shard: the set of write-armed descriptors -/

theorem mem_shard_writers {D : Int} {sd : slap_daemon_st} {s : Int} (hs0 : 0 ≤ s) (hs1 : s < D) :
    s ∈ shard_writers D sd ↔
      sd.sd_index s ≠ -1 ∧ (sd.sd_epolls (sd.sd_index s)).events &&& EPOLLOUT ≠ 0 := by
  simp [shard_writers, hs0, hs1]

theorem shard_add_ev_writers_off {D : Int} {F : epoll_data_ptr → Int} {sd : slap_daemon_st}
    {s : Int} (ptr : epoll_data_ptr) {ev : Nat} (h : shard_ix D F sd) (hna : sd.sd_index s = -1)
    (hev : ev &&& EPOLLOUT = 0) :
    shard_writers D (shard_add_ev sd s ptr ev) = shard_writers D sd := by
  unfold shard_writers
  apply Finset.filter_congr
  intro x hx
  rw [Finset.mem_Ico] at hx
  by_cases e : x = s
  · subst e
    rw [(shard_add_ev_self sd x ptr ev).2]
    simp [hev, hna]
  · rw [(shard_add_ev_rec ptr ev h hx.1 hx.2 e).2, (shard_add_ev_rec ptr ev h hx.1 hx.2 e).1]

theorem shard_add_ev_writers_on {D : Int} {F : epoll_data_ptr → Int} {sd : slap_daemon_st}
    {s : Int} (ptr : epoll_data_ptr) {ev : Nat} (h : shard_ix D F sd) (hs0 : 0 ≤ s) (hs1 : s < D)
    (hna : sd.sd_index s = -1) (hev : ev &&& EPOLLOUT ≠ 0) :
    shard_writers D (shard_add_ev sd s ptr ev) = insert s (shard_writers D sd) ∧
      s ∉ shard_writers D sd := by
  constructor
  · ext x
    simp only [shard_writers, Finset.mem_filter, Finset.mem_Ico, Finset.mem_insert]
    by_cases e : x = s
    · subst e
      rw [(shard_add_ev_self sd x ptr ev).2, (shard_add_ev_self sd x ptr ev).1]
      have hnf : sd.sd_nfds ≠ -1 := by
        have := h.1
        omega
      simp [hs0, hs1, hev, hnf]
    · constructor
      · rintro ⟨hx, hw⟩
        rw [(shard_add_ev_rec ptr ev h hx.1 hx.2 e).2,
          (shard_add_ev_rec ptr ev h hx.1 hx.2 e).1] at hw
        exact Or.inr ⟨hx, hw⟩
      · rintro (c | ⟨hx, hw⟩)
        · exact absurd c e
        · rw [(shard_add_ev_rec ptr ev h hx.1 hx.2 e).2,
            (shard_add_ev_rec ptr ev h hx.1 hx.2 e).1]
          exact ⟨hx, hw⟩
  · intro c
    rw [mem_shard_writers hs0 hs1] at c
    exact c.1 hna

theorem shard_add_writers {D : Int} {F : epoll_data_ptr → Int} {sd : slap_daemon_st} {s : Int}
    (ptr : epoll_data_ptr) (h : shard_ix D F sd) (hna : sd.sd_index s = -1) :
    shard_writers D (shard_add sd s ptr) = shard_writers D sd :=
  shard_add_ev_writers_off ptr h hna in_and_out

theorem shard_del_writers {D : Int} {F : epoll_data_ptr → Int} {sd : slap_daemon_st} {s : Int}
    (h : shard_ix D F sd) (hs0 : 0 ≤ s) (hs1 : s < D) (hact : sd.sd_index s ≠ -1) :
    shard_writers D (shard_del F sd s) = (shard_writers D sd).erase s := by
  obtain ⟨r1, r2, r3⟩ := shard_del_rec h hs0 hs1 hact
  ext x
  simp only [shard_writers, Finset.mem_filter, Finset.mem_Ico, Finset.mem_erase]
  by_cases e : x = s
  · subst e
    simp [r1]
  · constructor
    · rintro ⟨hx, hi, hw⟩
      rw [(r3 x hx.1 hx.2 e).2] at hw
      exact ⟨e, hx, fun c => hi ((r3 x hx.1 hx.2 e).1.2 c), hw⟩
    · rintro ⟨_, hx, hi, hw⟩
      rw [(r3 x hx.1 hx.2 e).2]
      exact ⟨hx, fun c => hi ((r3 x hx.1 hx.2 e).1.1 c), hw⟩

theorem shard_set_ev_writers_on {D : Int} {F : epoll_data_ptr → Int} {sd : slap_daemon_st}
    {s : Int} {ev : Nat} (h : shard_ix D F sd) (hs0 : 0 ≤ s) (hs1 : s < D)
    (hact : sd.sd_index s ≠ -1) (hev : ev &&& EPOLLOUT ≠ 0) :
    shard_writers D (shard_set_ev sd s ev) = insert s (shard_writers D sd) := by
  obtain ⟨r1, r2⟩ := shard_set_ev_rec ev h hs0 hs1 hact
  ext x
  simp only [shard_writers, Finset.mem_filter, Finset.mem_Ico, Finset.mem_insert]
  have hidx : ∀ y, (shard_set_ev sd s ev).sd_index y = sd.sd_index y := fun _ => rfl
  rw [hidx]
  by_cases e : x = s
  · subst e
    rw [r1]
    simp [hs0, hs1, hev, hact]
  · constructor
    · rintro ⟨hx, hi, hw⟩
      rw [r2 x hx.1 hx.2 e] at hw
      exact Or.inr ⟨hx, hi, hw⟩
    · rintro (c | ⟨hx, hi, hw⟩)
      · exact absurd c e
      · rw [r2 x hx.1 hx.2 e]
        exact ⟨hx, hi, hw⟩

theorem shard_set_ev_writers_off {D : Int} {F : epoll_data_ptr → Int} {sd : slap_daemon_st}
    {s : Int} {ev : Nat} (h : shard_ix D F sd) (hs0 : 0 ≤ s) (hs1 : s < D)
    (hact : sd.sd_index s ≠ -1) (hev : ev &&& EPOLLOUT = 0) :
    shard_writers D (shard_set_ev sd s ev) = (shard_writers D sd).erase s := by
  obtain ⟨r1, r2⟩ := shard_set_ev_rec ev h hs0 hs1 hact
  ext x
  simp only [shard_writers, Finset.mem_filter, Finset.mem_Ico, Finset.mem_erase]
  have hidx : ∀ y, (shard_set_ev sd s ev).sd_index y = sd.sd_index y := fun _ => rfl
  rw [hidx]
  by_cases e : x = s
  · subst e
    rw [r1]
    simp [hev]
  · constructor
    · rintro ⟨hx, hi, hw⟩
      rw [r2 x hx.1 hx.2 e] at hw
      exact ⟨e, hx, hi, hw⟩
    · rintro ⟨_, hx, hi, hw⟩
      rw [r2 x hx.1 hx.2 e]
      exact ⟨hx, hi, hw⟩

/-- Arming that leaves the `EPOLLOUT` bit as it was leaves the set of writers as it was. -/
theorem shard_set_ev_writers_same {D : Int} {F : epoll_data_ptr → Int} {sd : slap_daemon_st}
    {s : Int} {ev : Nat} (h : shard_ix D F sd) (hs0 : 0 ≤ s) (hs1 : s < D)
    (hact : sd.sd_index s ≠ -1)
    (hev : ev &&& EPOLLOUT = (sd.sd_epolls (sd.sd_index s)).events &&& EPOLLOUT) :
    shard_writers D (shard_set_ev sd s ev) = shard_writers D sd := by
  obtain ⟨r1, r2⟩ := shard_set_ev_rec ev h hs0 hs1 hact
  unfold shard_writers
  apply Finset.filter_congr
  intro x hx
  rw [Finset.mem_Ico] at hx
  have hidx : ∀ y, (shard_set_ev sd s ev).sd_index y = sd.sd_index y := fun _ => rfl
  rw [hidx]
  by_cases e : x = s
  · subst e
    rw [r1, hev]
  · rw [r2 x hx.1 hx.2 e]

theorem card_erase_int (A : Finset Int) (s : Int) :
    ((A.erase s).card : Int) = (A.card : Int) - (if s ∈ A then 1 else 0) := by
  by_cases h : s ∈ A
  · have hpos : 0 < A.card := Finset.card_pos.mpr ⟨s, h⟩
    rw [Finset.card_erase_of_mem h, if_pos h]
    omega
  · rw [Finset.erase_eq_of_not_mem h, if_neg h]
    simp

theorem card_insert_int (A : Finset Int) (s : Int) :
    ((insert s A).card : Int) = (A.card : Int) + (if s ∈ A then 0 else 1) := by
  by_cases h : s ∈ A
  · rw [Finset.insert_eq_of_mem h, if_pos h]
    simp
  · rw [Finset.card_insert_of_not_mem h, if_neg h]
    simp

/-! ## The macros as updates of one shard -/

theorem set_shard_same (st : Daemon) (t : Int) (sd : slap_daemon_st) :
    (st.set_shard t sd).slap_daemon t = sd := upd_same _ _ _

theorem set_shard_ne (st : Daemon) {t t' : Int} (sd : slap_daemon_st) (h : t' ≠ t) :
    (st.set_shard t sd).slap_daemon t' = st.slap_daemon t' := upd_ne _ _ h

theorem set_shard_self (st : Daemon) (t : Int) : st.set_shard t (st.slap_daemon t) = st := by
  cases st
  simp [Daemon.set_shard, upd_self]

theorem SLAP_SOCK_ADD_eq (st : Daemon) (t s : Int) (l : Option Nat) :
    SLAP_SOCK_ADD st t s l 0 = st.set_shard t (shard_add (st.slap_daemon t) s (add_ptr t s l)) := by
  cases l <;> simp [SLAP_SOCK_ADD, shard_add, shard_add_ev, add_ptr, upd_same]

theorem SLAP_SOCK_DEL_eq (st : Daemon) (t s : Int) (h : 0 ≤ (st.slap_daemon t).sd_index s) :
    SLAP_SOCK_DEL st t s =
      st.set_shard t (shard_del (SLAP_EPOLL_EV_PTRFD st t) (st.slap_daemon t) s) := by
  have hn : ¬ (st.slap_daemon t).sd_index s < 0 := by omega
  simp [SLAP_SOCK_DEL, shard_del, hn, upd_same]

theorem SLAP_EPOLL_SOCK_EV_set_eq (st : Daemon) (t s : Int) (ev : Nat) :
    SLAP_EPOLL_SOCK_EV_set st t s ev = st.set_shard t (shard_set_ev (st.slap_daemon t) s ev) := rfl

theorem PTRFD_set_shard (st : Daemon) (t : Int) (sd : slap_daemon_st) (t' : Int)
    (p : epoll_data_ptr) :
    SLAP_EPOLL_EV_PTRFD (st.set_shard t sd) t' p = SLAP_EPOLL_EV_PTRFD st t' p := rfl

theorem PTRFD_add_ptr (st : Daemon) (t s : Int) (l : Option Nat) (hs0 : 0 ≤ s)
    (hs1 : s < st.dtblsize)
    (hl : ∀ j, l = some j → ∃ lr, st.slap_listeners[j]? = some lr ∧ lr.sl_sd = s) :
    SLAP_EPOLL_EV_PTRFD st t (add_ptr t s l) = s := by
  cases l with
  | none =>
    have h1 : s ≤ st.dtblsize := by omega
    simp [add_ptr, SLAP_EPOLL_EV_PTRFD, SLAP_EPOLL_EV_LISTENER, hs0, h1]
  | some j =>
    obtain ⟨lr, h1, h2⟩ := hl j rfl
    simp [add_ptr, SLAP_EPOLL_EV_PTRFD, SLAP_EPOLL_EV_LISTENER, h1, h2]

theorem PTRFD_congr {st st' : Daemon} (hd : st'.dtblsize = st.dtblsize)
    (hls : st'.slap_listeners.map Listener.sl_sd = st.slap_listeners.map Listener.sl_sd)
    (t : Int) (p : epoll_data_ptr) :
    SLAP_EPOLL_EV_PTRFD st' t p = SLAP_EPOLL_EV_PTRFD st t p := by
  cases p with
  | null => rfl
  | index t' s => simp [SLAP_EPOLL_EV_PTRFD, SLAP_EPOLL_EV_LISTENER, hd]
  | listener l =>
    have h := congrArg (fun x => x[l]?) hls
    simp only [List.getElem?_map] at h
    simp only [SLAP_EPOLL_EV_PTRFD, SLAP_EPOLL_EV_LISTENER, if_true]
    cases h1 : st'.slap_listeners[l]? <;> cases h2 : st.slap_listeners[l]? <;>
      simp [h1, h2] at h ⊢
    exact h

theorem write_armed_eq (st : Daemon) (t : Int) :
    write_armed st t = shard_writers st.dtblsize (st.slap_daemon t) := by
  unfold write_armed shard_writers
  apply Finset.filter_congr
  intro x _
  simp [SLAP_SOCK_IS_ACTIVE, SLAP_SOCK_IS_WRITE, SLAP_EPOLL_SOCK_IS_SET, SLAP_EPOLL_SOCK_EV,
    SLAP_EPOLL_SOCK_EP, SLAP_EPOLL_SOCK_IX]

theorem ix_ok_set_shard {st : Daemon} {M t : Int} {sd : slap_daemon_st} (h : ix_ok st M)
    (hsd : 0 ≤ t → t < M → shard_ix st.dtblsize (SLAP_EPOLL_EV_PTRFD st t) sd) :
    ix_ok (st.set_shard t sd) M := by
  intro t' a b
  by_cases e : t' = t
  · subst e
    rw [set_shard_same]
    exact hsd a b
  · rw [set_shard_ne _ _ e]
    exact h t' a b

theorem route_ok_set_shard {st : Daemon} {M t : Int} {sd : slap_daemon_st} {w : Int → Bool}
    {m : Int → Int} (h : route_ok st M w m)
    (hsub : ∀ s, 0 ≤ s → s < st.dtblsize → sd.sd_index s ≠ -1 →
      (st.slap_daemon t).sd_index s ≠ -1 ∨
        ((s = (st.wake_sds t).1 ∧ w s = true) ∨ (w s = false ∧ t = Int.land s (m s)))) :
    route_ok (st.set_shard t sd) M w m := by
  intro t' s a b c d hact
  by_cases e : t' = t
  · subst e
    rw [set_shard_same] at hact
    rcases hsub s c d hact with h1 | h1
    · exact h t' s a b c d h1
    · exact h1
  · rw [set_shard_ne _ _ e] at hact
    exact h t' s a b c d hact

theorem set_shard_set_shard (st : Daemon) (t : Int) (a b : slap_daemon_st) :
    (st.set_shard t a).set_shard t b = st.set_shard t b := by
  cases st
  simp only [Daemon.set_shard]
  congr 1
  funext j
  by_cases h : j = t <;> simp [upd, h]

theorem is_wake_congr {st st' : Daemon}
    (hT : st'.slapd_daemon_threads = st.slapd_daemon_threads) (hw : st'.wake_sds = st.wake_sds) :
    is_wake_sd st' = is_wake_sd st := by
  funext s
  simp [is_wake_sd, hT, hw]

/-- One update of the record of one shard keeps the tables consistent when the
new record is consistent and every descriptor newly registered in it is routed. -/
theorem Tables_step {st st' : Daemon} {M t : Int} {sd' : slap_daemon_st} {w : Int → Bool}
    {m : Int → Int} (h : Tables st M w m)
    (hd : st'.dtblsize = st.dtblsize) (hw : st'.wake_sds = st.wake_sds)
    (hls : st'.slap_listeners.map Listener.sl_sd = st.slap_listeners.map Listener.sl_sd)
    (hsd : st'.slap_daemon = upd st.slap_daemon t sd')
    (hix : shard_ix st.dtblsize (SLAP_EPOLL_EV_PTRFD st t) sd')
    (hcnt : sd'.sd_nwriters = ((shard_writers st.dtblsize sd').card : Int))
    (hsub : ∀ s, 0 ≤ s → s < st.dtblsize → sd'.sd_index s ≠ -1 →
      (st.slap_daemon t).sd_index s ≠ -1 ∨
        ((s = (st.wake_sds t).1 ∧ w s = true) ∨ (w s = false ∧ t = Int.land s (m s)))) :
    Tables st' M w m := by
  obtain ⟨h1, h2, h3⟩ := h
  have hF : ∀ t', SLAP_EPOLL_EV_PTRFD st' t' = SLAP_EPOLL_EV_PTRFD st t' :=
    fun t' => funext (PTRFD_congr hd hls t')
  refine ⟨?_, ?_, ?_⟩
  · intro t' a b
    rw [hd, hF, hsd]
    by_cases e : t' = t
    · subst e
      rw [upd_same]
      exact hix
    · rw [upd_ne _ _ e]
      exact h1 t' a b
  · intro t' a b
    rw [hd, hsd]
    by_cases e : t' = t
    · subst e
      rw [upd_same]
      exact hcnt
    · rw [upd_ne _ _ e]
      exact h2 t' a b
  · intro t' s a b c d hact
    rw [hd] at d
    show (s = (st'.wake_sds t').1 ∧ w s = true) ∨ (w s = false ∧ t' = Int.land s (m s))
    rw [hsd] at hact
    rw [hw]
    by_cases e : t' = t
    · subst e
      rw [upd_same] at hact
      rcases hsub s c d hact with x | x
      · exact h3 t' s a b c d x
      · exact x
    · rw [upd_ne _ _ e] at hact
      exact h3 t' s a b c d hact

theorem land_range {s m : Int} (hs : 0 ≤ s) (hm : 0 ≤ m) : 0 ≤ Int.land s m ∧ Int.land s m ≤ m := by
  obtain ⟨a, rfl⟩ := Int.eq_ofNat_of_zero_le hs
  obtain ⟨b, rfl⟩ := Int.eq_ofNat_of_zero_le hm
  show 0 ≤ ((a &&& b : Nat) : Int) ∧ ((a &&& b : Nat) : Int) ≤ b
  have := @Nat.and_le_right a b
  omega

theorem DAEMON_ID_range {st : Daemon} (h : Inv st) {s : Int} (hs : 0 ≤ s) :
    0 ≤ DAEMON_ID st s ∧ DAEMON_ID st s < st.slapd_daemon_threads := by
  obtain ⟨hT, hm, _⟩ := h
  have := @land_range s st.slapd_daemon_mask hs (by omega)
  unfold DAEMON_ID
  omega

/-! ## The registration calls keep the invariant -/

theorem slapd_add_eq (st : Daemon) (s isactive : Int) (sl : Option Nat) (id : Int) :
    slapd_add st s isactive sl id 0 =
      st.set_shard (if id < 0 then DAEMON_ID st s else id)
        (shard_add
          { st.slap_daemon (if id < 0 then DAEMON_ID st s else id) with
            sd_nactives := (st.slap_daemon (if id < 0 then DAEMON_ID st s else id)).sd_nactives +
              (if isactive ≠ 0 then 1 else 0) }
          s (add_ptr (if id < 0 then DAEMON_ID st s else id) s sl)) := by
  unfold slapd_add
  simp only []
  generalize (if id < 0 then DAEMON_ID st s else id) = t
  by_cases h : isactive = 0
  · simp only [h, ne_eq, not_true_eq_false, if_false, add_zero]
    rw [SLAP_SOCK_ADD_eq]
  · simp only [h, ne_eq, not_false_eq_true, if_true]
    rw [SLAP_SOCK_ADD_eq]
    simp only [Daemon.nactives_add, set_shard_set_shard, set_shard_same]

theorem Inv_slapd_add {st : Daemon} (h : Inv st) {s isactive : Int} {sl : Option Nat}
    {id t : Int} (ht : t = if id < 0 then DAEMON_ID st s else id)
    (ht0 : 0 ≤ t) (ht1 : t < st.slapd_daemon_threads) (hs0 : 0 ≤ s) (hs1 : s < st.dtblsize)
    (hna : (st.slap_daemon t).sd_index s = -1)
    (hl : ∀ j, sl = some j → ∃ lr, st.slap_listeners[j]? = some lr ∧ lr.sl_sd = s)
    (hroute : (s = (st.wake_sds t).1 ∧ is_wake_sd st s = true) ∨
      (is_wake_sd st s = false ∧ t = DAEMON_ID st s)) :
    Inv (slapd_add st s isactive sl id 0) := by
  rw [slapd_add_eq, ← ht]
  obtain ⟨hT, hm, hTab⟩ := h
  refine ⟨hT, hm, ?_⟩
  have hix := hTab.1 t ht0 ht1
  have hcnt := hTab.2.1 t ht0 ht1
  have hp := PTRFD_add_ptr st t s sl hs0 hs1 hl
  have hix' : shard_ix st.dtblsize (SLAP_EPOLL_EV_PTRFD st t) { st.slap_daemon t with
      sd_nactives := (st.slap_daemon t).sd_nactives + (if isactive ≠ 0 then 1 else 0) } := hix
  refine Tables_step (t := t) hTab rfl rfl rfl rfl ?_ ?_ ?_
  · exact shard_add_ix hix' hs0 hs1 hna hp
  · rw [shard_add_writers (add_ptr t s sl) hix' hna]
    exact hcnt
  · intro s' a b hact
    by_cases e : s' = s
    · subst e
      exact Or.inr hroute
    · left
      have : (shard_add { st.slap_daemon t with
        sd_nactives := (st.slap_daemon t).sd_nactives + (if isactive ≠ 0 then 1 else 0) }
        s (add_ptr t s sl)).sd_index s' = (st.slap_daemon t).sd_index s' := upd_ne _ _ e
      rw [← this]
      exact hact

theorem emfile_walk_sd (s : Int) (ls : List Listener) :
    (emfile_walk s ls).1.map Listener.sl_sd = ls.map Listener.sl_sd := by
  induction ls with
  | nil => rfl
  | cons lr rest ih =>
    simp only [emfile_walk]
    split_ifs <;> simp [ih]

theorem emfile_walk_length (s : Int) (ls : List Listener) :
    (emfile_walk s ls).1.length = ls.length := by
  have h := congrArg List.length (emfile_walk_sd s ls)
  simpa using h

theorem IS_WRITE_iff (st : Daemon) (t s : Int) :
    SLAP_SOCK_IS_WRITE st t s = true ↔
      ((st.slap_daemon t).sd_epolls ((st.slap_daemon t).sd_index s)).events &&& EPOLLOUT ≠ 0 := by
  simp [SLAP_SOCK_IS_WRITE, SLAP_EPOLL_SOCK_IS_SET, SLAP_EPOLL_SOCK_EV, SLAP_EPOLL_SOCK_EP,
    SLAP_EPOLL_SOCK_IX]

theorem IS_READ_iff (st : Daemon) (t s : Int) :
    SLAP_SOCK_IS_READ st t s = true ↔
      ((st.slap_daemon t).sd_epolls ((st.slap_daemon t).sd_index s)).events &&& EPOLLIN ≠ 0 := by
  simp [SLAP_SOCK_IS_READ, SLAP_EPOLL_SOCK_IS_SET, SLAP_EPOLL_SOCK_EV, SLAP_EPOLL_SOCK_EP,
    SLAP_EPOLL_SOCK_IX]

theorem IS_ACTIVE_iff (st : Daemon) (t s : Int) :
    SLAP_SOCK_IS_ACTIVE st t s = true ↔ (st.slap_daemon t).sd_index s ≠ -1 := by
  simp [SLAP_SOCK_IS_ACTIVE, SLAP_EPOLL_SOCK_IX]

theorem NOT_ACTIVE_iff (st : Daemon) (t s : Int) :
    SLAP_SOCK_NOT_ACTIVE st t s = true ↔ (st.slap_daemon t).sd_index s = -1 := by
  simp [SLAP_SOCK_NOT_ACTIVE, SLAP_EPOLL_SOCK_IX]

theorem slapd_remove_counters (st : Daemon) (t s wasactive : Int) :
    (if SLAP_SOCK_IS_WRITE (if wasactive ≠ 0 then st.nactives_add t (-1) else st) t s = true then
        (if wasactive ≠ 0 then st.nactives_add t (-1) else st).nwriters_add t (-1)
      else (if wasactive ≠ 0 then st.nactives_add t (-1) else st)) =
    st.set_shard t
      { st.slap_daemon t with
        sd_nactives := (st.slap_daemon t).sd_nactives + (if wasactive ≠ 0 then -1 else 0)
        sd_nwriters := (st.slap_daemon t).sd_nwriters +
          (if ((st.slap_daemon t).sd_epolls ((st.slap_daemon t).sd_index s)).events &&&
            EPOLLOUT ≠ 0 then -1 else 0) } := by
  have hw : ∀ st1 : Daemon, st1.slap_daemon t = { st.slap_daemon t with
        sd_nactives := (st1.slap_daemon t).sd_nactives } →
      (SLAP_SOCK_IS_WRITE st1 t s = true ↔
        ((st.slap_daemon t).sd_epolls ((st.slap_daemon t).sd_index s)).events &&&
          EPOLLOUT ≠ 0) := by
    intro st1 h1
    rw [IS_WRITE_iff, h1]
  by_cases ha : wasactive = 0
  · simp only [ha, ne_eq, not_true_eq_false, if_false, add_zero]
    by_cases hb : ((st.slap_daemon t).sd_epolls ((st.slap_daemon t).sd_index s)).events &&&
        EPOLLOUT = 0
    · have : ¬ SLAP_SOCK_IS_WRITE st t s = true := by
        rw [IS_WRITE_iff]
        simpa using hb
      simp only [this, if_false, hb, ne_eq, not_true_eq_false, add_zero]
      exact (set_shard_self st t).symm
    · have : SLAP_SOCK_IS_WRITE st t s = true := by
        rw [IS_WRITE_iff]
        exact hb
      simp only [this, if_true, hb, ne_eq, not_false_eq_true]
      rfl
  · simp only [ha, ne_eq, not_false_eq_true, if_true]
    have h1 : (st.nactives_add t (-1)).slap_daemon t = { st.slap_daemon t with
        sd_nactives := ((st.nactives_add t (-1)).slap_daemon t).sd_nactives } := by
      simp [Daemon.nactives_add, set_shard_same]
    by_cases hb : ((st.slap_daemon t).sd_epolls ((st.slap_daemon t).sd_index s)).events &&&
        EPOLLOUT = 0
    · have : ¬ SLAP_SOCK_IS_WRITE (st.nactives_add t (-1)) t s = true := by
        rw [hw _ h1]
        simpa using hb
      simp only [this, if_false, hb, ne_eq, not_true_eq_false, add_zero]
      rfl
    · have : SLAP_SOCK_IS_WRITE (st.nactives_add t (-1)) t s = true := by
        rw [hw _ h1]
        exact hb
      simp only [this, if_true, hb, ne_eq, not_false_eq_true]
      simp only [Daemon.nwriters_add, Daemon.nactives_add, set_shard_set_shard, set_shard_same]

theorem slapd_remove_tail (X : Daemon) (s : Int) :
    let Y := (if X.emfile ≠ 0 ∧ X.listening ≠ 0 then
        (if (emfile_walk s X.slap_listeners).2 = true then
          { X with slap_listeners := (emfile_walk s X.slap_listeners).1, emfile := 0 }
        else
          { X with slap_listeners := (emfile_walk s X.slap_listeners).1, emfile := X.emfile - 1 })
      else X)
    Y.slap_daemon = X.slap_daemon ∧ Y.dtblsize = X.dtblsize ∧
    Y.slapd_daemon_threads = X.slapd_daemon_threads ∧
    Y.slapd_daemon_mask = X.slapd_daemon_mask ∧ Y.wake_sds = X.wake_sds ∧
    Y.slap_listeners.map Listener.sl_sd = X.slap_listeners.map Listener.sl_sd := by
  intro Y
  simp only [Y]
  split_ifs
  · exact ⟨rfl, rfl, rfl, rfl, rfl, emfile_walk_sd _ _⟩
  · exact ⟨rfl, rfl, rfl, rfl, rfl, emfile_walk_sd _ _⟩
  · exact ⟨rfl, rfl, rfl, rfl, rfl, rfl⟩

theorem slapd_remove_tables (st : Daemon) (s wasactive wake locked : Int)
    (h : 0 ≤ (st.slap_daemon (DAEMON_ID st s)).sd_index s) :
    (slapd_remove st s wasactive wake locked).slap_daemon =
      upd st.slap_daemon (DAEMON_ID st s)
        (remove_shard (SLAP_EPOLL_EV_PTRFD st (DAEMON_ID st s)) (st.slap_daemon (DAEMON_ID st s))
          s wasactive) := by
  unfold slapd_remove
  simp only []
  rw [slapd_remove_counters]
  rw [SLAP_SOCK_DEL_eq _ _ _ (by rw [set_shard_same]; exact h)]
  rw [(slapd_remove_tail _ s).1]
  rw [set_shard_set_shard, set_shard_same]
  rfl

theorem slapd_remove_frame (st : Daemon) (s wasactive wake locked : Int)
    (h : 0 ≤ (st.slap_daemon (DAEMON_ID st s)).sd_index s) :
    (slapd_remove st s wasactive wake locked).dtblsize = st.dtblsize ∧
    (slapd_remove st s wasactive wake locked).slapd_daemon_threads = st.slapd_daemon_threads ∧
    (slapd_remove st s wasactive wake locked).slapd_daemon_mask = st.slapd_daemon_mask ∧
    (slapd_remove st s wasactive wake locked).wake_sds = st.wake_sds ∧
    (slapd_remove st s wasactive wake locked).slap_listeners.map Listener.sl_sd =
      st.slap_listeners.map Listener.sl_sd := by
  unfold slapd_remove
  simp only []
  rw [slapd_remove_counters]
  rw [SLAP_SOCK_DEL_eq _ _ _ (by rw [set_shard_same]; exact h)]
  obtain ⟨_, d1, d2, d3, d4, d5⟩ := slapd_remove_tail
    ((st.set_shard (DAEMON_ID st s)
      { st.slap_daemon (DAEMON_ID st s) with
        sd_nactives := (st.slap_daemon (DAEMON_ID st s)).sd_nactives +
          (if wasactive ≠ 0 then -1 else 0)
        sd_nwriters := (st.slap_daemon (DAEMON_ID st s)).sd_nwriters +
          (if ((st.slap_daemon (DAEMON_ID st s)).sd_epolls
            ((st.slap_daemon (DAEMON_ID st s)).sd_index s)).events &&&
            EPOLLOUT ≠ 0 then -1 else 0) }).set_shard (DAEMON_ID st s)
      (shard_del (SLAP_EPOLL_EV_PTRFD (st.set_shard (DAEMON_ID st s)
      { st.slap_daemon (DAEMON_ID st s) with
        sd_nactives := (st.slap_daemon (DAEMON_ID st s)).sd_nactives +
          (if wasactive ≠ 0 then -1 else 0)
        sd_nwriters := (st.slap_daemon (DAEMON_ID st s)).sd_nwriters +
          (if ((st.slap_daemon (DAEMON_ID st s)).sd_epolls
            ((st.slap_daemon (DAEMON_ID st s)).sd_index s)).events &&&
            EPOLLOUT ≠ 0 then -1 else 0) }) (DAEMON_ID st s))
        ((st.set_shard (DAEMON_ID st s)
      { st.slap_daemon (DAEMON_ID st s) with
        sd_nactives := (st.slap_daemon (DAEMON_ID st s)).sd_nactives +
          (if wasactive ≠ 0 then -1 else 0)
        sd_nwriters := (st.slap_daemon (DAEMON_ID st s)).sd_nwriters +
          (if ((st.slap_daemon (DAEMON_ID st s)).sd_epolls
            ((st.slap_daemon (DAEMON_ID st s)).sd_index s)).events &&&
            EPOLLOUT ≠ 0 then -1 else 0) }).slap_daemon (DAEMON_ID st s)) s)) s
  exact ⟨d1, d2, d3, d4, d5⟩

/-- The invariant survives a call that rewrites the record of one shard and
leaves the shard count, the mask, the wake pairs and the listener descriptors alone. -/
theorem Inv_step {st st' : Daemon} {t : Int} {sd' : slap_daemon_st} (h : Inv st)
    (hd : st'.dtblsize = st.dtblsize)
    (hT : st'.slapd_daemon_threads = st.slapd_daemon_threads)
    (hm : st'.slapd_daemon_mask = st.slapd_daemon_mask)
    (hw : st'.wake_sds = st.wake_sds)
    (hls : st'.slap_listeners.map Listener.sl_sd = st.slap_listeners.map Listener.sl_sd)
    (hsd : st'.slap_daemon = upd st.slap_daemon t sd')
    (hix : shard_ix st.dtblsize (SLAP_EPOLL_EV_PTRFD st t) sd')
    (hcnt : sd'.sd_nwriters = ((shard_writers st.dtblsize sd').card : Int))
    (hsub : ∀ s, 0 ≤ s → s < st.dtblsize → sd'.sd_index s ≠ -1 →
      (st.slap_daemon t).sd_index s ≠ -1 ∨
        ((s = (st.wake_sds t).1 ∧ is_wake_sd st s = true) ∨
          (is_wake_sd st s = false ∧ t = DAEMON_ID st s))) :
    Inv st' := by
  obtain ⟨h1, h2, h3⟩ := h
  refine ⟨by rw [hT]; exact h1, by rw [hm, hT]; exact h2, ?_⟩
  rw [hT, hm, is_wake_congr hT hw]
  exact Tables_step h3 hd hw hls hsd hix hcnt hsub

theorem remove_shard_ok {D : Int} {F : epoll_data_ptr → Int} {sd : slap_daemon_st} {s : Int}
    (wasactive : Int) (hix : shard_ix D F sd)
    (hcnt : sd.sd_nwriters = ((shard_writers D sd).card : Int))
    (hs0 : 0 ≤ s) (hs1 : s < D) (hact : sd.sd_index s ≠ -1) :
    shard_ix D F (remove_shard F sd s wasactive) ∧
    (remove_shard F sd s wasactive).sd_nwriters =
      ((shard_writers D (remove_shard F sd s wasactive)).card : Int) ∧
    (remove_shard F sd s wasactive).sd_index s = -1 ∧
    ∀ s', 0 ≤ s' → s' < D → s' ≠ s →
      ((remove_shard F sd s wasactive).sd_index s' = -1 ↔ sd.sd_index s' = -1) := by
  have hix' : shard_ix D F { sd with
      sd_nactives := sd.sd_nactives + (if wasactive ≠ 0 then -1 else 0)
      sd_nwriters := sd.sd_nwriters +
        (if (sd.sd_epolls (sd.sd_index s)).events &&& EPOLLOUT ≠ 0 then -1 else 0) } := hix
  obtain ⟨r1, _, r3⟩ := shard_del_rec hix' hs0 hs1 hact
  refine ⟨shard_del_ix hix' hs0 hs1 hact, ?_, r1, fun s' a b e => (r3 s' a b e).1⟩
  unfold remove_shard
  rw [shard_del_writers hix' hs0 hs1 hact, card_erase_int]
  show sd.sd_nwriters + _ = ((shard_writers D sd).card : Int) -
      (if s ∈ shard_writers D sd then 1 else 0)
  rw [hcnt]
  by_cases hw : (sd.sd_epolls (sd.sd_index s)).events &&& EPOLLOUT ≠ 0
  · rw [if_pos hw, if_pos ((mem_shard_writers hs0 hs1).2 ⟨hact, hw⟩)]
    omega
  · rw [if_neg hw, if_neg (fun c => hw ((mem_shard_writers hs0 hs1).1 c).2)]
    omega

theorem Inv_slapd_remove {st : Daemon} (h : Inv st) {s : Int} (wasactive wake locked : Int)
    (hs0 : 0 ≤ s) (hs1 : s < st.dtblsize)
    (hact : (st.slap_daemon (DAEMON_ID st s)).sd_index s ≠ -1) :
    Inv (slapd_remove st s wasactive wake locked) := by
  obtain ⟨t0, t1⟩ := DAEMON_ID_range h hs0
  have hix := h.2.2.1 _ t0 t1
  have hcnt := h.2.2.2.1 _ t0 t1
  have hi0 : 0 ≤ (st.slap_daemon (DAEMON_ID st s)).sd_index s := (hix.2.1 s hs0 hs1 hact).1
  obtain ⟨f1, f2, f3, f4, f5⟩ := slapd_remove_frame st s wasactive wake locked hi0
  obtain ⟨y1, y2, y3, y4⟩ := remove_shard_ok wasactive hix hcnt hs0 hs1 hact
  refine Inv_step h f1 f2 f3 f4 f5 (slapd_remove_tables st s wasactive wake locked hi0) y1 y2 ?_
  intro s' a b hact'
  left
  by_cases e : s' = s
  · subst e
    exact absurd y3 hact'
  · exact fun c => hact' ((y4 s' a b e).2 c)

/-! ## Arming and disarming keep the invariant -/

theorem and_out_cases (e : Nat) : e &&& EPOLLOUT = 0 ∨ e &&& EPOLLOUT = EPOLLOUT := by
  by_cases h : e.testBit 2 = true
  · right
    apply Nat.eq_of_testBit_eq
    intro i
    simp only [EPOLLOUT, Nat.testBit_land, Nat.testBit_two_pow]
    by_cases h2 : 2 = i
    · subst h2; simp [h]
    · simp [h2]
  · left
    apply Nat.eq_of_testBit_eq
    intro i
    simp only [EPOLLOUT, Nat.testBit_land, Nat.testBit_two_pow, Nat.zero_testBit]
    by_cases h2 : 2 = i
    · subst h2; simp [h]
    · simp [h2]

theorem and_in_cases (e : Nat) : e &&& EPOLLIN = 0 ∨ e &&& EPOLLIN = EPOLLIN := by
  by_cases h : e.testBit 0 = true
  · right
    apply Nat.eq_of_testBit_eq
    intro i
    simp only [EPOLLIN, Nat.testBit_land, Nat.testBit_two_pow]
    by_cases h2 : 0 = i
    · subst h2; simp [h]
    · simp [h2]
  · left
    apply Nat.eq_of_testBit_eq
    intro i
    simp only [EPOLLIN, Nat.testBit_land, Nat.testBit_two_pow, Nat.zero_testBit]
    by_cases h2 : 0 = i
    · subst h2; simp [h]
    · simp [h2]

theorem and_out_ne_iff (e : Nat) : e &&& EPOLLOUT ≠ EPOLLOUT ↔ e &&& EPOLLOUT = 0 := by
  rcases and_out_cases e with h | h
  · rw [h]; decide
  · rw [h]; decide

theorem and_in_ne_iff (e : Nat) : e &&& EPOLLIN ≠ EPOLLIN ↔ e &&& EPOLLIN = 0 := by
  rcases and_in_cases e with h | h
  · rw [h]; decide
  · rw [h]; decide

/-- Rewriting the event word of a registered descriptor, with the writer count
set to the number of writers of the new table, keeps the invariant. -/
theorem Inv_set_ev {st : Daemon} (h : Inv st) {t s : Int} (ev : Nat) (nw : Int)
    (ht0 : 0 ≤ t) (ht1 : t < st.slapd_daemon_threads) (hs0 : 0 ≤ s) (hs1 : s < st.dtblsize)
    (hact : (st.slap_daemon t).sd_index s ≠ -1)
    (hnw : nw = ((shard_writers st.dtblsize (shard_set_ev (st.slap_daemon t) s ev)).card : Int)) :
    Inv (st.set_shard t { shard_set_ev (st.slap_daemon t) s ev with sd_nwriters := nw }) := by
  have hix := h.2.2.1 _ ht0 ht1
  refine Inv_step (t := t) h rfl rfl rfl rfl rfl rfl ?_ ?_ ?_
  · exact shard_set_ev_ix ev hix hs0 hs1 hact
  · exact hnw
  · intro s' _ _ hact'
    exact Or.inl hact'

theorem SET_WRITE_eq (st : Daemon) (t s : Int)
    (h : ((st.slap_daemon t).sd_epolls ((st.slap_daemon t).sd_index s)).events &&& EPOLLOUT = 0) :
    SLAP_SOCK_SET_WRITE st t s =
      st.set_shard t (shard_set_ev (st.slap_daemon t) s
        (((st.slap_daemon t).sd_epolls ((st.slap_daemon t).sd_index s)).events ||| EPOLLOUT)) := by
  have hc : SLAP_EPOLL_SOCK_EV st t s &&& EPOLLOUT ≠ EPOLLOUT := (and_out_ne_iff _).2 h
  unfold SLAP_SOCK_SET_WRITE SLAP_EPOLL_SOCK_SET
  rw [if_pos hc]
  rfl

theorem CLR_WRITE_eq (st : Daemon) (t s : Int)
    (h : ((st.slap_daemon t).sd_epolls ((st.slap_daemon t).sd_index s)).events &&& EPOLLOUT ≠ 0) :
    SLAP_SOCK_CLR_WRITE st t s =
      st.set_shard t (shard_set_ev (st.slap_daemon t) s
        (((st.slap_daemon t).sd_epolls ((st.slap_daemon t).sd_index s)).events &&&
          mode_compl EPOLLOUT)) := by
  have hc : SLAP_EPOLL_SOCK_EV st t s &&& EPOLLOUT ≠ 0 := h
  unfold SLAP_SOCK_CLR_WRITE SLAP_EPOLL_SOCK_CLR
  rw [if_pos hc]
  rfl

theorem Inv_slapd_set_write {st : Daemon} (h : Inv st) {s : Int} (wake : Int)
    (hs0 : 0 ≤ s) (hs1 : s < st.dtblsize)
    (hact : (st.slap_daemon (DAEMON_ID st s)).sd_index s ≠ -1) :
    Inv (slapd_set_write st s wake) := by
  obtain ⟨t0, t1⟩ := DAEMON_ID_range h hs0
  have hix := h.2.2.1 _ t0 t1
  have hcnt := h.2.2.2.1 _ t0 t1
  unfold slapd_set_write
  simp only []
  by_cases hw : SLAP_SOCK_IS_WRITE st (DAEMON_ID st s) s = true
  · simp only [hw, Bool.not_true, Bool.false_eq_true, if_false]
    exact h
  · have hw' := hw
    rw [IS_WRITE_iff, not_not] at hw'
    rw [Bool.not_eq_true] at hw
    simp only [hw, Bool.not_false, if_true]
    rw [SET_WRITE_eq _ _ _ hw']
    simp only [Daemon.nwriters_add, set_shard_set_shard, set_shard_same]
    refine Inv_set_ev h _ _ t0 t1 hs0 hs1 hact ?_
    rw [shard_set_ev_writers_on hix hs0 hs1 hact (or_out_and_out _), card_insert_int,
      if_neg (fun c => ((mem_shard_writers hs0 hs1).1 c).2 hw')]
    show (st.slap_daemon (DAEMON_ID st s)).sd_nwriters + 1 = _
    rw [hcnt]

theorem Inv_slapd_clr_write {st : Daemon} (h : Inv st) {s : Int} (wake : Int)
    (hs0 : 0 ≤ s) (hs1 : s < st.dtblsize)
    (hpre : SLAP_SOCK_IS_WRITE st (DAEMON_ID st s) s = true →
      SLAP_SOCK_IS_ACTIVE st (DAEMON_ID st s) s = true) :
    Inv (slapd_clr_write st s wake) := by
  obtain ⟨t0, t1⟩ := DAEMON_ID_range h hs0
  have hix := h.2.2.1 _ t0 t1
  have hcnt := h.2.2.2.1 _ t0 t1
  unfold slapd_clr_write
  simp only []
  by_cases hw : SLAP_SOCK_IS_WRITE st (DAEMON_ID st s) s = true
  · have hw' := hw
    rw [IS_WRITE_iff] at hw'
    have hact : (st.slap_daemon (DAEMON_ID st s)).sd_index s ≠ -1 :=
      (IS_ACTIVE_iff _ _ _).1 (hpre hw)
    simp only [hw, if_true]
    rw [CLR_WRITE_eq _ _ _ hw']
    simp only [Daemon.nwriters_add, set_shard_set_shard, set_shard_same]
    refine Inv_set_ev h _ _ t0 t1 hs0 hs1 hact ?_
    rw [shard_set_ev_writers_off hix hs0 hs1 hact (clr_out_and_out _), card_erase_int,
      if_pos ((mem_shard_writers hs0 hs1).2 ⟨hact, hw'⟩)]
    show (st.slap_daemon (DAEMON_ID st s)).sd_nwriters + -1 = _
    rw [hcnt]
    omega
  · simp only [hw, if_false]
    exact h

theorem Inv_set_read_macro {st : Daemon} (h : Inv st) {t s : Int}
    (ht0 : 0 ≤ t) (ht1 : t < st.slapd_daemon_threads) (hs0 : 0 ≤ s) (hs1 : s < st.dtblsize)
    (hact : (st.slap_daemon t).sd_index s ≠ -1) :
    Inv (SLAP_SOCK_SET_READ st t s) := by
  have hix := h.2.2.1 _ ht0 ht1
  have hcnt := h.2.2.2.1 _ ht0 ht1
  unfold SLAP_SOCK_SET_READ SLAP_EPOLL_SOCK_SET
  split_ifs
  · rw [SLAP_EPOLL_SOCK_EV_set_eq]
    refine Inv_set_ev h _ (st.slap_daemon t).sd_nwriters ht0 ht1 hs0 hs1 hact ?_
    have hev : (SLAP_EPOLL_SOCK_EV st t s ||| EPOLLIN) &&& EPOLLOUT =
        ((st.slap_daemon t).sd_epolls ((st.slap_daemon t).sd_index s)).events &&& EPOLLOUT :=
      or_in_and_out (SLAP_EPOLL_SOCK_EV st t s)
    rw [shard_set_ev_writers_same hix hs0 hs1 hact hev]
    exact hcnt
  · exact h

theorem Inv_clr_read_macro {st : Daemon} (h : Inv st) {t s : Int}
    (ht0 : 0 ≤ t) (ht1 : t < st.slapd_daemon_threads) (hs0 : 0 ≤ s) (hs1 : s < st.dtblsize)
    (hact : (st.slap_daemon t).sd_index s ≠ -1) :
    Inv (SLAP_SOCK_CLR_READ st t s) := by
  have hix := h.2.2.1 _ ht0 ht1
  have hcnt := h.2.2.2.1 _ ht0 ht1
  unfold SLAP_SOCK_CLR_READ SLAP_EPOLL_SOCK_CLR
  split_ifs
  · rw [SLAP_EPOLL_SOCK_EV_set_eq]
    refine Inv_set_ev h _ (st.slap_daemon t).sd_nwriters ht0 ht1 hs0 hs1 hact ?_
    have hev : (SLAP_EPOLL_SOCK_EV st t s &&& mode_compl EPOLLIN) &&& EPOLLOUT =
        ((st.slap_daemon t).sd_epolls ((st.slap_daemon t).sd_index s)).events &&& EPOLLOUT :=
      clr_in_and_out (SLAP_EPOLL_SOCK_EV st t s)
    rw [shard_set_ev_writers_same hix hs0 hs1 hact hev]
    exact hcnt
  · exact h

theorem Inv_slapd_set_read {st : Daemon} (h : Inv st) {s : Int} (wake : Int)
    (hs0 : 0 ≤ s) (hs1 : s < st.dtblsize) : Inv (slapd_set_read st s wake) := by
  obtain ⟨t0, t1⟩ := DAEMON_ID_range h hs0
  unfold slapd_set_read
  simp only []
  by_cases ha : SLAP_SOCK_IS_ACTIVE st (DAEMON_ID st s) s = true
  · by_cases hr : SLAP_SOCK_IS_READ st (DAEMON_ID st s) s = true
    · simp only [ha, hr, Bool.not_true, Bool.and_false, Bool.false_eq_true, if_false]
      exact h
    · simp only [ha, hr, Bool.not_false, Bool.and_self, if_true]
      exact Inv_set_read_macro h t0 t1 hs0 hs1 ((IS_ACTIVE_iff _ _ _).1 ha)
  · simp only [ha, Bool.false_and, Bool.false_eq_true, if_false]
    exact h

theorem Inv_slapd_clr_read {st : Daemon} (h : Inv st) {s : Int} (wake : Int)
    (hs0 : 0 ≤ s) (hs1 : s < st.dtblsize) : Inv (slapd_clr_read st s wake).1 := by
  obtain ⟨t0, t1⟩ := DAEMON_ID_range h hs0
  unfold slapd_clr_read
  simp only []
  by_cases ha : SLAP_SOCK_IS_ACTIVE st (DAEMON_ID st s) s = true
  · simp only [ha, if_true]
    exact Inv_clr_read_macro h t0 t1 hs0 hs1 ((IS_ACTIVE_iff _ _ _).1 ha)
  · simp only [ha, Bool.false_eq_true, if_false]
    exact h

/-! ## The initial state -/

theorem Inv_daemon_start (outside : Int → Int → epoll_event) (dtblsize threads : Int)
    (wake : Int → Int × Int) (ls : List Listener)
    (hT : 0 < threads) : Inv (daemon_start outside dtblsize threads wake ls) := by
  refine ⟨hT, rfl, ?_, ?_, ?_⟩
  · intro t _ _
    refine ⟨le_refl _, ?_, ?_⟩
    · intro s a b c
      exfalso
      apply c
      show (if 0 ≤ s ∧ s < dtblsize then (-1 : Int) else 0) = -1
      rw [if_pos ⟨a, b⟩]
    · intro k a b
      have b' : k < 0 := b
      omega
  · intro t _ _
    show (0 : Int) = _
    have : shard_writers dtblsize (SLAP_SOCK_INIT (outside t) dtblsize) = ∅ := by
      apply Finset.filter_false_of_mem
      intro x hx
      rw [Finset.mem_Ico] at hx
      have hi : (SLAP_SOCK_INIT (outside t) dtblsize).sd_index x = -1 := by
        show (if 0 ≤ x ∧ x < dtblsize then (-1 : Int) else 0) = -1
        rw [if_pos hx]
      exact fun c => c.1 hi
    show (0 : Int) = ((shard_writers dtblsize (SLAP_SOCK_INIT (outside t) dtblsize)).card : Int)
    rw [this]
    rfl
  · intro t s _ _ a b c
    exfalso
    apply c
    show (if 0 ≤ s ∧ s < dtblsize then (-1 : Int) else 0) = -1
    rw [if_pos ⟨a, b⟩]

/-! ## Moving one descriptor to its new shard -/

theorem find_listener_spec (i : Int) (ls : List Listener) :
    ∀ (j0 j : Nat), find_listener i ls j0 = some j →
      j0 ≤ j ∧ ∃ lr, ls[j - j0]? = some lr ∧ lr.sl_sd = i := by
  induction ls with
  | nil =>
    intro j0 j h
    simp [find_listener] at h
  | cons lr rest ih =>
    intro j0 j h
    simp only [find_listener] at h
    by_cases e : lr.sl_sd = i
    · rw [if_pos e] at h
      have : j0 = j := by simpa using h
      subst this
      exact ⟨le_refl _, lr, by simp, e⟩
    · rw [if_neg e] at h
      obtain ⟨h1, lr', h2, h3⟩ := ih (j0 + 1) j h
      refine ⟨by omega, lr', ?_, h3⟩
      have : j - j0 = (j - (j0 + 1)) + 1 := by omega
      rw [this]
      simpa using h2

theorem set_shard_comm (st : Daemon) {t t' : Int} (a b : slap_daemon_st) (h : t ≠ t') :
    (st.set_shard t a).set_shard t' b = (st.set_shard t' b).set_shard t a := by
  cases st
  simp only [Daemon.set_shard]
  congr 1
  funext j
  by_cases h1 : j = t
  · subst h1
    simp [upd, h]
  · by_cases h2 : j = t'
    · subst h2
      simp [upd, h1]
    · simp [upd, h1, h2]

theorem SET_READ_after_add (st : Daemon) (t s : Int) (ptr : epoll_data_ptr) :
    SLAP_SOCK_SET_READ (st.set_shard t (shard_add (st.slap_daemon t) s ptr)) t s =
      st.set_shard t (shard_add (st.slap_daemon t) s ptr) := by
  unfold SLAP_SOCK_SET_READ SLAP_EPOLL_SOCK_SET
  have : SLAP_EPOLL_SOCK_EV (st.set_shard t (shard_add (st.slap_daemon t) s ptr)) t s = EPOLLIN := by
    simp only [SLAP_EPOLL_SOCK_EV, SLAP_EPOLL_SOCK_EP, SLAP_EPOLL_SOCK_IX, set_shard_same]
    rw [(shard_add_self _ s ptr).2]
  rw [this]
  simp

theorem IS_WRITE_set_shard_ne (st : Daemon) {t t' : Int} (sd : slap_daemon_st) (s : Int)
    (h : t' ≠ t) : SLAP_SOCK_IS_WRITE (st.set_shard t sd) t' s = SLAP_SOCK_IS_WRITE st t' s := by
  simp only [SLAP_SOCK_IS_WRITE, SLAP_EPOLL_SOCK_IS_SET, SLAP_EPOLL_SOCK_EV, SLAP_EPOLL_SOCK_EP,
    SLAP_EPOLL_SOCK_IX, set_shard_ne _ _ h]

theorem Daemon_eq_of_shards {a b : Daemon} (h1 : a.dtblsize = b.dtblsize)
    (h2 : a.slapd_daemon_threads = b.slapd_daemon_threads)
    (h3 : a.slapd_daemon_mask = b.slapd_daemon_mask) (h4 : a.wake_sds = b.wake_sds)
    (h5 : a.slap_listeners = b.slap_listeners) (h6 : a.emfile = b.emfile)
    (h7 : a.listening = b.listening) (h8 : a.slapd_shutdown = b.slapd_shutdown)
    (h9 : a.slapd_gentle_shutdown = b.slapd_gentle_shutdown)
    (h10 : a.slapd_abrupt_shutdown = b.slapd_abrupt_shutdown)
    (h : ∀ t, a.slap_daemon t = b.slap_daemon t) : a = b := by
  cases a
  cases b
  simp only at h1 h2 h3 h4 h5 h6 h7 h8 h9 h10 h
  simp only [Daemon.mk.injEq]
  exact ⟨h1, h2, h3, funext h, h4, h5, h6, h7, h8, h9, h10⟩

theorem shard_set_ev_add (sd : slap_daemon_st) (i : Int) (ptr : epoll_data_ptr) (ev : Nat) :
    shard_set_ev (shard_add sd i ptr) i ev = shard_add_ev sd i ptr ev := by
  have hi : (shard_add sd i ptr).sd_index i = sd.sd_nfds := upd_same _ _ _
  simp only [shard_set_ev, hi]
  simp only [shard_add, shard_add_ev, upd_same]
  congr 1
  funext k
  by_cases e : k = sd.sd_nfds <;> simp [upd, e]

theorem realloc_step_move {env : resize_env} {newnum : Int} {st : Daemon} {nl i : Int}
    (hrc : ∀ t s, env.epoll_ctl_add t s = 0) (hw : is_wake_sd st i = false)
    (hne : DAEMON_ID st i ≠ Int.land i (newnum - 1))
    (hidx : 0 ≤ (st.slap_daemon (DAEMON_ID st i)).sd_index i) :
    (slapd_socket_realloc_step env newnum (st, nl) i).1 =
      (st.set_shard (DAEMON_ID st i)
        (remove_shard (SLAP_EPOLL_EV_PTRFD st (DAEMON_ID st i)) (st.slap_daemon (DAEMON_ID st i)) i
          (if env.connection_is_active i then 1 else 0))).set_shard (Int.land i (newnum - 1))
        (realloc_new_shard (st.slap_daemon (Int.land i (newnum - 1))) i
          (add_ptr (Int.land i (newnum - 1)) i
            (if nl ≠ 0 then find_listener i st.slap_listeners 0 else none))
          (SLAP_SOCK_IS_WRITE st (DAEMON_ID st i) i) (env.connection_is_active i)) := by
  have hact : SLAP_SOCK_IS_ACTIVE st (DAEMON_ID st i) i = true := by
    rw [IS_ACTIVE_iff]; omega
  unfold slapd_socket_realloc_step
  simp only [hw, hne, hact, Bool.false_eq_true, if_false, Bool.not_true, hrc]
  generalize (if nl ≠ 0 then find_listener i st.slap_listeners 0 else none) = sl
  generalize hO : DAEMON_ID st i = oldid at *
  generalize hN : Int.land i (newnum - 1) = newid at *
  have hne' : newid ≠ oldid := Ne.symm hne
  rw [SLAP_SOCK_ADD_eq, SET_READ_after_add]
  simp only [ite_self, IS_WRITE_set_shard_ne _ _ _ hne]
  have hn : ¬ (st.slap_daemon oldid).sd_index i < 0 := by omega
  have hev : ((st.set_shard newid (shard_add (st.slap_daemon newid) i (add_ptr newid i sl))).slap_daemon
      newid).sd_epolls (((st.set_shard newid (shard_add (st.slap_daemon newid) i
        (add_ptr newid i sl))).slap_daemon newid).sd_index i) =
      { events := EPOLLIN, data_ptr := add_ptr newid i sl } := by
    rw [set_shard_same]
    exact (shard_add_self _ _ _).2
  have hsw : SLAP_SOCK_SET_WRITE
      (st.set_shard newid (shard_add (st.slap_daemon newid) i (add_ptr newid i sl))) newid i =
      st.set_shard newid (shard_add_ev (st.slap_daemon newid) i (add_ptr newid i sl)
        (EPOLLIN ||| EPOLLOUT)) := by
    rw [SET_WRITE_eq _ _ _ (by rw [hev]; exact in_and_out), hev, set_shard_set_shard,
      set_shard_same, shard_set_ev_add]
  rw [hsw]
  have hWi := IS_WRITE_iff st oldid i
  generalize SLAP_SOCK_IS_WRITE st oldid i = W at *
  generalize env.connection_is_active i = A at *
  have fin : ∀ X : Daemon, X.dtblsize = st.dtblsize →
      X.slapd_daemon_threads = st.slapd_daemon_threads →
      X.slapd_daemon_mask = st.slapd_daemon_mask → X.wake_sds = st.wake_sds →
      X.slap_listeners = st.slap_listeners → X.emfile = st.emfile →
      X.listening = st.listening → X.slapd_shutdown = st.slapd_shutdown →
      X.slapd_gentle_shutdown = st.slapd_gentle_shutdown →
      X.slapd_abrupt_shutdown = st.slapd_abrupt_shutdown →
      (∀ t, t ≠ newid → t ≠ oldid → X.slap_daemon t = st.slap_daemon t) →
      X.slap_daemon newid = realloc_new_shard (st.slap_daemon newid) i (add_ptr newid i sl) W A →
      X.slap_daemon oldid = { st.slap_daemon oldid with
        sd_nactives := (st.slap_daemon oldid).sd_nactives + (if A = true then -1 else 0)
        sd_nwriters := (st.slap_daemon oldid).sd_nwriters + (if W = true then -1 else 0) } →
      SLAP_SOCK_DEL X oldid i =
        (st.set_shard oldid (remove_shard (SLAP_EPOLL_EV_PTRFD st oldid) (st.slap_daemon oldid) i
          (if A = true then 1 else 0))).set_shard newid
          (realloc_new_shard (st.slap_daemon newid) i (add_ptr newid i sl) W A) := by
    intro X x1 x2 x3 x4 x5 x6 x7 x8 x9 x10 xo xn xold
    have hx : 0 ≤ (X.slap_daemon oldid).sd_index i := by rw [xold]; exact hidx
    rw [SLAP_SOCK_DEL_eq _ _ _ hx]
    have hF : SLAP_EPOLL_EV_PTRFD X oldid = SLAP_EPOLL_EV_PTRFD st oldid :=
      funext (PTRFD_congr x1 (by rw [x5]) oldid)
    apply Daemon_eq_of_shards
    · exact x1
    · exact x2
    · exact x3
    · exact x4
    · exact x5
    · exact x6
    · exact x7
    · exact x8
    · exact x9
    · exact x10
    intro t
    by_cases e1 : t = newid
    · subst e1
      rw [set_shard_ne _ _ hne', set_shard_same, xn]
    · rw [set_shard_ne _ _ e1]
      by_cases e2 : t = oldid
      · subst e2
        have hWe : (if W = true then (-1 : Int) else 0) =
            (if ((st.slap_daemon t).sd_epolls ((st.slap_daemon t).sd_index i)).events &&&
              EPOLLOUT ≠ 0 then -1 else 0) := by
          cases W
          · have : ¬ ((st.slap_daemon t).sd_epolls ((st.slap_daemon t).sd_index i)).events &&&
                EPOLLOUT ≠ 0 := fun c => Bool.false_ne_true (hWi.2 c)
            rw [if_neg this]
            rfl
          · rw [if_pos (hWi.1 rfl)]
            rfl
        have hAe : (if A = true then (-1 : Int) else 0) =
            (if (if A = true then (1 : Int) else 0) ≠ 0 then -1 else 0) := by
          cases A <;> simp
        rw [set_shard_same, set_shard_same, hF, xold, hWe, hAe]
        rfl
      · rw [set_shard_ne _ _ e2, set_shard_ne _ _ e2]
        exact xo t e1 e2
  have hsimp : ∀ (Y : Daemon) (d : Int) (t : Int),
      (∀ t', t' ≠ t → (Y.nactives_add t d).slap_daemon t' = Y.slap_daemon t') ∧
      (∀ t', t' ≠ t → (Y.nwriters_add t d).slap_daemon t' = Y.slap_daemon t') :=
    fun Y d t => ⟨fun t' h => set_shard_ne _ _ h, fun t' h => set_shard_ne _ _ h⟩
  cases W <;> cases A <;> simp only [Bool.false_eq_true, if_false, if_true] <;> apply fin <;>
    first
    | rfl
    | (intro t e1 e2
       simp only [Daemon.nactives_add, Daemon.nwriters_add, set_shard_ne _ _ e1,
         set_shard_ne _ _ e2])
    | (simp only [Daemon.nactives_add, Daemon.nwriters_add, set_shard_same,
         set_shard_ne _ _ hne', set_shard_ne _ _ hne, realloc_new_shard, shard_add,
         Bool.false_eq_true, if_false, if_true, add_zero]
       try rfl)

theorem in_or_out_and_out : (EPOLLIN ||| EPOLLOUT) &&& EPOLLOUT ≠ 0 := by decide

theorem realloc_new_shard_ok {D : Int} {F : epoll_data_ptr → Int} {sd : slap_daemon_st}
    {i : Int} {ptr : epoll_data_ptr} (W A : Bool) (hix : shard_ix D F sd)
    (hcnt : sd.sd_nwriters = ((shard_writers D sd).card : Int))
    (hs0 : 0 ≤ i) (hs1 : i < D) (hna : sd.sd_index i = -1) (hp : F ptr = i) :
    shard_ix D F (realloc_new_shard sd i ptr W A) ∧
    (realloc_new_shard sd i ptr W A).sd_nwriters =
      ((shard_writers D (realloc_new_shard sd i ptr W A)).card : Int) ∧
    ∀ s', s' ≠ i → (realloc_new_shard sd i ptr W A).sd_index s' = sd.sd_index s' := by
  refine ⟨shard_add_ev_ix _ hix hs0 hs1 hna hp, ?_, fun s' e => upd_ne _ _ e⟩
  show sd.sd_nwriters + _ =
    ((shard_writers D (shard_add_ev sd i ptr (if W = true then EPOLLIN ||| EPOLLOUT else EPOLLIN))).card : Int)
  cases W
  · simp only [Bool.false_eq_true, if_false, add_zero]
    rw [shard_add_ev_writers_off ptr hix hna in_and_out]
    exact hcnt
  · simp only [if_true]
    obtain ⟨e1, e2⟩ := shard_add_ev_writers_on ptr hix hs0 hs1 hna in_or_out_and_out
    rw [e1, card_insert_int, if_neg e2, hcnt]

/-! ## The loop of `slapd_socket_realloc` -/

theorem route_bump {st : Daemon} {M k newmask oldmask : Int} {w : Int → Bool}
    (h : route_ok st M w (mixed_mask k newmask oldmask))
    (hk : ∀ t, 0 ≤ t → t < M → (st.slap_daemon t).sd_index k ≠ -1 →
      (k = (st.wake_sds t).1 ∧ w k = true) ∨ (w k = false ∧ t = Int.land k newmask)) :
    route_ok st M w (mixed_mask (k + 1) newmask oldmask) := by
  intro t s a b c d hact
  by_cases e : s = k
  · subst e
    have : mixed_mask (s + 1) newmask oldmask s = newmask := by
      simp [mixed_mask]
    rw [this]
    exact hk t a b hact
  · have : mixed_mask (k + 1) newmask oldmask s = mixed_mask k newmask oldmask s := by
      simp only [mixed_mask]
      by_cases c1 : s < k
      · rw [if_pos c1, if_pos (by omega)]
      · rw [if_neg c1, if_neg (by omega)]
    rw [this]
    exact h t s a b c d hact

theorem mixed_mask_self (k newmask oldmask : Int) : mixed_mask k newmask oldmask k = oldmask := by
  simp [mixed_mask]

theorem same_frame_refl (st : Daemon) : same_frame st st := ⟨rfl, rfl, rfl, rfl, rfl⟩

theorem realloc_step_ok {env : resize_env} {newnum : Int} {st : Daemon} {nl k M : Int}
    {P : Int → Prop} (hrc : ∀ t s, env.epoll_ctl_add t s = 0)
    (hTab : Tables st M (is_wake_sd st) (mixed_mask k (newnum - 1) st.slapd_daemon_mask))
    (hq : quiet st M P) (hm0 : 0 ≤ st.slapd_daemon_mask) (hm1 : st.slapd_daemon_mask < M)
    (hn0 : 0 ≤ newnum - 1) (hn1 : newnum - 1 < M) (hk0 : 0 ≤ k) (hk1 : k < st.dtblsize) :
    same_frame st (slapd_socket_realloc_step env newnum (st, nl) k).1 ∧
    Tables (slapd_socket_realloc_step env newnum (st, nl) k).1 M (is_wake_sd st)
      (mixed_mask (k + 1) (newnum - 1) st.slapd_daemon_mask) ∧
    quiet (slapd_socket_realloc_step env newnum (st, nl) k).1 M P := by
  obtain ⟨hix, hcnt, hroute⟩ := hTab
  obtain ⟨o0, o1⟩ := @land_range k st.slapd_daemon_mask hk0 hm0
  obtain ⟨n0, n1⟩ := @land_range k (newnum - 1) hk0 hn0
  have hrk : ∀ t, 0 ≤ t → t < M → (st.slap_daemon t).sd_index k ≠ -1 →
      (k = (st.wake_sds t).1 ∧ is_wake_sd st k = true) ∨
      (is_wake_sd st k = false ∧ t = DAEMON_ID st k) := by
    intro t a b hact
    have := hroute t k a b hk0 hk1 hact
    rw [mixed_mask_self] at this
    exact this
  by_cases hw : is_wake_sd st k = true
  · have e : slapd_socket_realloc_step env newnum (st, nl) k = (st, nl) := by
      unfold slapd_socket_realloc_step
      simp only [hw, if_true]
    rw [e]
    refine ⟨same_frame_refl st, ⟨hix, hcnt, route_bump hroute ?_⟩, hq⟩
    intro t a b hact
    rcases hrk t a b hact with h1 | h1
    · exact Or.inl h1
    · rw [hw] at h1
      exact absurd h1.1 (by simp)
  rw [Bool.not_eq_true] at hw
  by_cases he : DAEMON_ID st k = Int.land k (newnum - 1)
  · have e : slapd_socket_realloc_step env newnum (st, nl) k = (st, nl) := by
      unfold slapd_socket_realloc_step
      simp only [hw, he, Bool.false_eq_true, if_false, if_true]
    rw [e]
    refine ⟨same_frame_refl st, ⟨hix, hcnt, route_bump hroute ?_⟩, hq⟩
    intro t a b hact
    rcases hrk t a b hact with h1 | h1
    · exact Or.inl h1
    · exact Or.inr ⟨h1.1, h1.2.trans he⟩
  by_cases ha : (st.slap_daemon (DAEMON_ID st k)).sd_index k = -1
  · have hact : SLAP_SOCK_IS_ACTIVE st (DAEMON_ID st k) k = false := by
      rw [← Bool.not_eq_true, IS_ACTIVE_iff]
      exact fun c => c ha
    have e : slapd_socket_realloc_step env newnum (st, nl) k = (st, nl) := by
      unfold slapd_socket_realloc_step
      simp only [hw, he, hact, Bool.false_eq_true, if_false, Bool.not_false, if_true]
    rw [e]
    refine ⟨same_frame_refl st, ⟨hix, hcnt, route_bump hroute ?_⟩, hq⟩
    intro t a b hact'
    rcases hrk t a b hact' with h1 | h1
    · exact Or.inl h1
    · rw [h1.2] at hact'
      exact absurd ha hact'
  · have o1' : DAEMON_ID st k < M := by unfold DAEMON_ID; omega
    have o0' : 0 ≤ DAEMON_ID st k := o0
    have n1' : Int.land k (newnum - 1) < M := by omega
    have hixO := hix _ o0' o1'
    have hidx : 0 ≤ (st.slap_daemon (DAEMON_ID st k)).sd_index k := (hixO.2.1 k hk0 hk1 ha).1
    rw [realloc_step_move hrc hw he hidx]
    obtain ⟨y1, y2, y3, y4⟩ := remove_shard_ok (if env.connection_is_active k then 1 else 0)
      hixO (hcnt _ o0' o1') hk0 hk1 ha
    have hna : (st.slap_daemon (Int.land k (newnum - 1))).sd_index k = -1 := by
      by_contra c
      rcases hrk _ n0 n1' c with h1 | h1
      · rw [hw] at h1
        exact absurd h1.2 (by simp)
      · exact he h1.2.symm
    have hp : SLAP_EPOLL_EV_PTRFD st (Int.land k (newnum - 1))
        (add_ptr (Int.land k (newnum - 1)) k
          (if nl ≠ 0 then find_listener k st.slap_listeners 0 else none)) = k := by
      apply PTRFD_add_ptr st _ k _ hk0 hk1
      intro j hj
      by_cases c : nl ≠ 0
      · rw [if_pos c] at hj
        obtain ⟨_, lr, h2, h3⟩ := find_listener_spec k st.slap_listeners 0 j hj
        exact ⟨lr, by simpa using h2, h3⟩
      · rw [if_neg c] at hj
        exact absurd hj (by simp)
    obtain ⟨x1, x2, x3⟩ := realloc_new_shard_ok (SLAP_SOCK_IS_WRITE st (DAEMON_ID st k) k)
      (env.connection_is_active k) (hix _ n0 n1') (hcnt _ n0 n1') hk0 hk1 hna hp
    have TabA : Tables (st.set_shard (DAEMON_ID st k)
        (remove_shard (SLAP_EPOLL_EV_PTRFD st (DAEMON_ID st k)) (st.slap_daemon (DAEMON_ID st k)) k
          (if env.connection_is_active k then 1 else 0))) M (is_wake_sd st)
        (mixed_mask k (newnum - 1) st.slapd_daemon_mask) := by
      refine Tables_step ⟨hix, hcnt, hroute⟩ rfl rfl rfl rfl y1 y2 ?_
      intro s a b hact'
      left
      by_cases e : s = k
      · subst e
        exact absurd y3 hact'
      · exact fun c => hact' ((y4 s a b e).2 c)
    have TabA' : Tables (st.set_shard (DAEMON_ID st k)
        (remove_shard (SLAP_EPOLL_EV_PTRFD st (DAEMON_ID st k)) (st.slap_daemon (DAEMON_ID st k)) k
          (if env.connection_is_active k then 1 else 0))) M (is_wake_sd st)
        (mixed_mask (k + 1) (newnum - 1) st.slapd_daemon_mask) := by
      refine ⟨TabA.1, TabA.2.1, route_bump TabA.2.2 ?_⟩
      intro t a b hact'
      by_cases e : t = DAEMON_ID st k
      · subst e
        rw [set_shard_same] at hact'
        exact absurd y3 hact'
      · rw [set_shard_ne _ _ e] at hact'
        rcases hrk t a b hact' with h1 | h1
        · exact Or.inl h1
        · exact absurd h1.2 e
    have hneq : Int.land k (newnum - 1) ≠ DAEMON_ID st k := fun c => he c.symm
    refine ⟨same_frame_refl st, ?_, ?_⟩
    · refine Tables_step TabA' rfl rfl rfl rfl ?_ x2 ?_
      · exact x1
      · intro s a b hact'
        by_cases e : s = k
        · subst e
          right
          right
          refine ⟨hw, ?_⟩
          have : mixed_mask (s + 1) (newnum - 1) st.slapd_daemon_mask s = newnum - 1 := by
            simp [mixed_mask]
          rw [this]
        · left
          rw [set_shard_ne _ _ hneq, ← x3 s e]
          exact hact'
    · intro s hP a b t c d
      have hsk : s ≠ k := by
        intro e
        subst e
        exact ha (hq s hP a b _ o0' o1')
      by_cases e1 : t = Int.land k (newnum - 1)
      · subst e1
        rw [set_shard_same, x3 s hsk]
        exact hq s hP a b _ c d
      · rw [set_shard_ne _ _ e1]
        by_cases e2 : t = DAEMON_ID st k
        · subst e2
          rw [set_shard_same]
          exact (y4 s a b hsk).2 (hq s hP a b _ c d)
        · rw [set_shard_ne _ _ e2]
          exact hq s hP a b _ c d

theorem route_ok_congr {st : Daemon} {M : Int} {w : Int → Bool} {m m' : Int → Int}
    (hm : ∀ s, 0 ≤ s → s < st.dtblsize → m s = m' s) (h : route_ok st M w m) :
    route_ok st M w m' := by
  intro t s a b c d hact
  have := h t s a b c d hact
  rw [hm s c d] at this
  exact this

theorem is_wake_of_frame {st st' : Daemon} (h : same_frame st st') :
    is_wake_sd st' = is_wake_sd st :=
  is_wake_congr h.2.1 h.2.2.2.1

theorem realloc_fold_ok {env : resize_env} {newnum : Int} {st : Daemon} {M : Int}
    {P : Int → Prop} (hrc : ∀ t s, env.epoll_ctl_add t s = 0)
    (hTab : Tables st M (is_wake_sd st) (fun _ => st.slapd_daemon_mask))
    (hq : quiet st M P) (hm0 : 0 ≤ st.slapd_daemon_mask) (hm1 : st.slapd_daemon_mask < M)
    (hn0 : 0 ≤ newnum - 1) (hn1 : newnum - 1 < M) (nl : Int) :
    ∀ n : Nat, n ≤ st.dtblsize.toNat →
      same_frame st ((List.range n).foldl
        (fun acc (j : Nat) => slapd_socket_realloc_step env newnum acc (j : Int)) (st, nl)).1 ∧
      Tables ((List.range n).foldl
        (fun acc (j : Nat) => slapd_socket_realloc_step env newnum acc (j : Int)) (st, nl)).1 M
        (is_wake_sd st) (mixed_mask (n : Int) (newnum - 1) st.slapd_daemon_mask) ∧
      quiet ((List.range n).foldl
        (fun acc (j : Nat) => slapd_socket_realloc_step env newnum acc (j : Int)) (st, nl)).1 M P := by
  intro n
  induction n with
  | zero =>
    intro _
    refine ⟨same_frame_refl st, ⟨hTab.1, hTab.2.1, ?_⟩, hq⟩
    refine route_ok_congr ?_ hTab.2.2
    intro s a _
    have : ¬ s < ((0 : Nat) : Int) := by simpa using a
    simp only [mixed_mask, this, if_false]
  | succ n ih =>
    intro hn
    obtain ⟨f, T, q⟩ := ih (by omega)
    rw [List.range_succ, List.foldl_append]
    simp only [List.foldl_cons, List.foldl_nil]
    generalize hacc : (List.range n).foldl
      (fun acc (j : Nat) => slapd_socket_realloc_step env newnum acc (j : Int)) (st, nl) = acc at *
    obtain ⟨st1, nl1⟩ := acc
    obtain ⟨f1, f2, f3, f4, f5⟩ := f
    have f1' : st1.dtblsize = st.dtblsize := f1
    have f3' : st1.slapd_daemon_mask = st.slapd_daemon_mask := f3
    have hw : is_wake_sd st1 = is_wake_sd st := is_wake_of_frame ⟨f1, f2, f3, f4, f5⟩
    have hk1 : (n : Int) < st1.dtblsize := by rw [f1']; omega
    have T' : Tables st1 M (is_wake_sd st1) (mixed_mask (n : Int) (newnum - 1)
        st1.slapd_daemon_mask) := by rw [hw, f3']; exact T
    obtain ⟨g, T2, q2⟩ := @realloc_step_ok env newnum st1 nl1 n M P hrc T' q (by rw [f3']; exact hm0)
      (by rw [f3']; exact hm1) hn0 hn1 (Int.natCast_nonneg n) hk1
    refine ⟨?_, ?_, q2⟩
    · obtain ⟨g1, g2, g3, g4, g5⟩ := g
      exact ⟨g1.trans f1, g2.trans f2, g3.trans f3, g4.trans f4, g5.trans f5⟩
    · rw [hw, f3'] at T2
      have : ((n + 1 : Nat) : Int) = (n : Int) + 1 := by push_cast; rfl
      rw [this]
      exact T2

theorem realloc_ok {env : resize_env} {newnum : Int} {st : Daemon} {M : Int}
    {P : Int → Prop} (hrc : ∀ t s, env.epoll_ctl_add t s = 0)
    (hTab : Tables st M (is_wake_sd st) (fun _ => st.slapd_daemon_mask))
    (hq : quiet st M P) (hm0 : 0 ≤ st.slapd_daemon_mask) (hm1 : st.slapd_daemon_mask < M)
    (hn0 : 0 ≤ newnum - 1) (hn1 : newnum - 1 < M) :
    same_frame st (slapd_socket_realloc env st newnum) ∧
    Tables (slapd_socket_realloc env st newnum) M (is_wake_sd st) (fun _ => newnum - 1) ∧
    quiet (slapd_socket_realloc env st newnum) M P := by
  obtain ⟨f, T, q⟩ := realloc_fold_ok (P := P) hrc hTab hq hm0 hm1 hn0 hn1
    (st.slap_listeners.length : Int) st.dtblsize.toNat (le_refl _)
  refine ⟨f, ⟨T.1, T.2.1, ?_⟩, q⟩
  refine route_ok_congr ?_ T.2.2
  intro s a b
  have hd : (slapd_socket_realloc env st newnum).dtblsize = st.dtblsize := f.1
  have b' : s < st.dtblsize := by
    have : s < (slapd_socket_realloc env st newnum).dtblsize := b
    rw [hd] at this
    exact this
  have : s < ((st.dtblsize.toNat : Nat) : Int) := by omega
  simp only [mixed_mask, this, if_true]

/-! ## `slapd_daemon_resize` -/

theorem is_wake_iff (st : Daemon) (s : Int) :
    is_wake_sd st s = true ↔
      ∃ j : Int, 0 ≤ j ∧ j < st.slapd_daemon_threads ∧
        (s = (st.wake_sds j).1 ∨ s = (st.wake_sds j).2) := by
  simp only [is_wake_sd, List.any_eq_true, List.mem_range, Bool.or_eq_true, decide_eq_true_eq]
  constructor
  · rintro ⟨j, hj, h⟩
    exact ⟨(j : Int), Int.natCast_nonneg j, by omega, h⟩
  · rintro ⟨j, h0, h1, h⟩
    refine ⟨j.toNat, by omega, ?_⟩
    have : ((j.toNat : Nat) : Int) = j := Int.toNat_of_nonneg h0
    rw [this]
    exact h

theorem mem_new_shards (st : Daemon) (newnum i : Int) :
    i ∈ new_shards st newnum ↔ st.slapd_daemon_threads ≤ i ∧ i < newnum := by
  simp only [new_shards, List.mem_map, List.mem_range]
  constructor
  · rintro ⟨k, hk, rfl⟩
    omega
  · rintro ⟨h0, h1⟩
    refine ⟨(i - st.slapd_daemon_threads).toNat, by omega, by omega⟩

theorem resize_create_threads_ok (env : resize_env) (h : ∀ i, env.thread_create i = 0)
    (L : List Int) : resize_create_threads env L = 0 := by
  induction L with
  | nil => rfl
  | cons i rest ih =>
    simp only [resize_create_threads, h i, ne_eq, not_true_eq_false, if_false]
    exact ih

theorem resize_init_shards_ok (env : resize_env) (L : List Int) :
    ∀ st : Daemon, (∀ i ∈ L, ∃ p, env.lutil_pair i = some p) →
      (resize_init_shards env st L).2 = true ∧
      (resize_init_shards env st L).1.dtblsize = st.dtblsize ∧
      (resize_init_shards env st L).1.slapd_daemon_threads = st.slapd_daemon_threads ∧
      (resize_init_shards env st L).1.slapd_daemon_mask = st.slapd_daemon_mask ∧
      (resize_init_shards env st L).1.slap_listeners = st.slap_listeners ∧
      (∀ j, j ∉ L → (resize_init_shards env st L).1.wake_sds j = st.wake_sds j ∧
        (resize_init_shards env st L).1.slap_daemon j = st.slap_daemon j) ∧
      (∀ i ∈ L, env.lutil_pair i = some ((resize_init_shards env st L).1.wake_sds i) ∧
        (resize_init_shards env st L).1.slap_daemon i = SLAP_SOCK_INIT (env.outside i) st.dtblsize) := by
  induction L with
  | nil =>
    intro st _
    exact ⟨rfl, rfl, rfl, rfl, rfl, fun _ _ => ⟨rfl, rfl⟩, fun i hi => absurd hi (by simp)⟩
  | cons i0 rest ih =>
    intro st hp
    obtain ⟨p, hp0⟩ := hp i0 (by simp)
    simp only [resize_init_shards, hp0]
    obtain ⟨r1, r2, r3, r4, r5, r6, r7⟩ := ih
      ({ st.set_shard i0 slap_daemon_zero with
          wake_sds := upd (st.set_shard i0 slap_daemon_zero).wake_sds i0 p }.set_shard i0
        (SLAP_SOCK_INIT (env.outside i0) (st.set_shard i0 slap_daemon_zero).dtblsize))
      (fun i hi => hp i (by simp [hi]))
    refine ⟨r1, r2, r3, r4, r5, ?_, ?_⟩
    · intro j hj
      have hj0 : j ≠ i0 := fun c => hj (by simp [c])
      have hjr : j ∉ rest := fun c => hj (by simp [c])
      obtain ⟨a, b⟩ := r6 j hjr
      refine ⟨a.trans ?_, b.trans ?_⟩
      · exact upd_ne _ _ hj0
      · rw [set_shard_ne _ _ hj0]
        exact upd_ne _ _ hj0
    · intro i hi
      by_cases c : i ∈ rest
      · exact r7 i c
      · have hi0 : i = i0 := by
          rcases List.mem_cons.1 hi with h | h
          · exact h
          · exact absurd h c
        subst hi0
        obtain ⟨a, b⟩ := r6 i c
        refine ⟨?_, b.trans (set_shard_same _ _ _)⟩
        rw [a]
        show env.lutil_pair i = some (upd _ i p i)
        rw [upd_same]
        exact hp0

theorem shard_ix_init (o : Int → epoll_event) (D : Int) (F : epoll_data_ptr → Int) :
    shard_ix D F (SLAP_SOCK_INIT o D) := by
  refine ⟨le_refl _, ?_, ?_⟩
  · intro s a b c
    exfalso
    apply c
    show (if 0 ≤ s ∧ s < D then (-1 : Int) else 0) = -1
    rw [if_pos ⟨a, b⟩]
  · intro k a b
    have b' : k < 0 := b
    omega

theorem init_index (o : Int → epoll_event) (D : Int) {s : Int} (a : 0 ≤ s) (b : s < D) :
    (SLAP_SOCK_INIT o D).sd_index s = -1 := by
  show (if 0 ≤ s ∧ s < D then (-1 : Int) else 0) = -1
  rw [if_pos ⟨a, b⟩]

theorem init_writers (o : Int → epoll_event) (D : Int) :
    (SLAP_SOCK_INIT o D).sd_nwriters = ((shard_writers D (SLAP_SOCK_INIT o D)).card : Int) := by
  have : shard_writers D (SLAP_SOCK_INIT o D) = ∅ := by
    apply Finset.filter_false_of_mem
    intro x hx
    rw [Finset.mem_Ico] at hx
    exact fun c => c.1 (init_index o D hx.1 hx.2)
  rw [this]
  rfl

theorem Inv_resize_shrink {st : Daemon} (h : Inv st) {env : resize_env} {newnum : Int}
    (hn : 0 < newnum) (hlt : newnum < st.slapd_daemon_threads)
    (hrc : ∀ t s, env.epoll_ctl_add t s = 0) :
    Inv { slapd_socket_realloc env st newnum with
      slapd_daemon_threads := newnum, slapd_daemon_mask := newnum - 1 } := by
  obtain ⟨hT, hm, hTab⟩ := h
  obtain ⟨f, T2, _⟩ := @realloc_ok env newnum st st.slapd_daemon_threads (fun _ => False) hrc hTab
    (fun _ hP => absurd hP id) (by omega) (by omega) (by omega) (by omega)
  obtain ⟨f1, f2, f3, f4, f5⟩ := f
  refine ⟨hn, rfl, ?_, ?_, ?_⟩
  · intro t a b
    have b' : t < newnum := b
    exact T2.1 t a (by omega)
  · intro t a b
    have b' : t < newnum := b
    exact T2.2.1 t a (by omega)
  · intro t s a b c d hact
    have b' : t < newnum := b
    rcases T2.2.2 t s a (by omega) c d hact with h1 | h1
    · left
      refine ⟨h1.1, ?_⟩
      rw [is_wake_iff]
      exact ⟨t, a, b', Or.inl h1.1⟩
    · right
      refine ⟨?_, h1.2⟩
      rw [← Bool.not_eq_true, is_wake_iff]
      rintro ⟨j, j0, j1, hj⟩
      have j1' : j < newnum := j1
      have : is_wake_sd st s = true := by
        rw [is_wake_iff]
        refine ⟨j, j0, by omega, ?_⟩
        have hw : (slapd_socket_realloc env st newnum).wake_sds = st.wake_sds := f4
        have hj' : s = ((slapd_socket_realloc env st newnum).wake_sds j).1 ∨
            s = ((slapd_socket_realloc env st newnum).wake_sds j).2 := hj
        rw [hw] at hj'
        exact hj'
      rw [h1.1] at this
      exact absurd this (by simp)

theorem Inv_resize_grow {st : Daemon} (h : Inv st) {env : resize_env} {newnum : Int}
    (hgt : st.slapd_daemon_threads < newnum) (hs : env.succeeds st newnum) :
    (resize_init_shards env st (new_shards st newnum)).2 = true ∧
    Inv { slapd_socket_realloc env (resize_init_shards env st (new_shards st newnum)).1 newnum with
      slapd_daemon_threads := newnum, slapd_daemon_mask := newnum - 1 } := by
  obtain ⟨hT, hm, hTab⟩ := h
  obtain ⟨hrc, htc, hlp⟩ := hs
  have hpL : ∀ i ∈ new_shards st newnum, ∃ p, env.lutil_pair i = some p := by
    intro i hi
    rw [mem_new_shards] at hi
    obtain ⟨p, hp, _⟩ := hlp i hi.1 hi.2
    exact ⟨p, hp⟩
  obtain ⟨r1, r2, r3, r4, r5, r6, r7⟩ := resize_init_shards_ok env (new_shards st newnum) st hpL
  refine ⟨r1, ?_⟩
  generalize (resize_init_shards env st (new_shards st newnum)).1 = st1 at *
  have hold : ∀ j, j < st.slapd_daemon_threads →
      st1.wake_sds j = st.wake_sds j ∧ st1.slap_daemon j = st.slap_daemon j := by
    intro j hj
    apply r6
    rw [mem_new_shards]
    omega
  have hnew : ∀ i, st.slapd_daemon_threads ≤ i → i < newnum →
      env.lutil_pair i = some (st1.wake_sds i) ∧
        st1.slap_daemon i = SLAP_SOCK_INIT (env.outside i) st.dtblsize := by
    intro i a b
    apply r7
    rw [mem_new_shards]
    exact ⟨a, b⟩
  have hw1 : is_wake_sd st1 = is_wake_sd st := by
    funext s
    rw [Bool.eq_iff_iff, is_wake_iff, is_wake_iff, r3]
    constructor
    · rintro ⟨j, j0, j1, hj⟩
      rw [(hold j j1).1] at hj
      exact ⟨j, j0, j1, hj⟩
    · rintro ⟨j, j0, j1, hj⟩
      rw [← (hold j j1).1] at hj
      exact ⟨j, j0, j1, hj⟩
  have hF : ∀ t, SLAP_EPOLL_EV_PTRFD st1 t = SLAP_EPOLL_EV_PTRFD st t :=
    fun t => funext (PTRFD_congr r2 (by rw [r5]) t)
  have hTab1 : Tables st1 newnum (is_wake_sd st1) (fun _ => st1.slapd_daemon_mask) := by
    rw [hw1, r4]
    refine ⟨?_, ?_, ?_⟩
    · intro t a b
      rw [r2, hF]
      by_cases c : t < st.slapd_daemon_threads
      · rw [(hold t c).2]
        exact hTab.1 t a c
      · rw [(hnew t (by omega) b).2]
        exact shard_ix_init _ _ _
    · intro t a b
      rw [r2]
      by_cases c : t < st.slapd_daemon_threads
      · rw [(hold t c).2]
        exact hTab.2.1 t a c
      · rw [(hnew t (by omega) b).2]
        exact init_writers _ _
    · intro t s a b c d hact
      rw [r2] at d
      unfold routed at *
      by_cases c' : t < st.slapd_daemon_threads
      · rw [(hold t c').2] at hact
        rw [(hold t c').1]
        exact hTab.2.2 t s a c' c d hact
      · rw [(hnew t (by omega) b).2] at hact
        exact absurd (init_index _ _ c d) hact
  have hq1 : quiet st1 newnum (fun s => ∃ i, st.slapd_daemon_threads ≤ i ∧ i < newnum ∧
      (s = (st1.wake_sds i).1 ∨ s = (st1.wake_sds i).2)) := by
    rintro s ⟨i, i0, i1, hi⟩ a b t c d
    rw [r2] at b
    by_cases c' : t < st.slapd_daemon_threads
    · rw [(hold t c').2]
      obtain ⟨p, hp, hfresh⟩ := hlp i i0 i1
      have hpe : p = st1.wake_sds i := by
        have := (hnew i i0 i1).1
        rw [hp] at this
        exact Option.some.inj this
      obtain ⟨q1, q2⟩ := hfresh t c c'
      rw [← Bool.not_eq_true, IS_ACTIVE_iff, not_not] at q1 q2
      rcases hi with hi | hi
      · rw [hi, ← hpe]
        exact q1
      · rw [hi, ← hpe]
        exact q2
    · rw [(hnew t (by omega) d).2]
      exact init_index _ _ a b
  obtain ⟨f, T2, q2⟩ := @realloc_ok env newnum st1 newnum _ hrc hTab1 hq1 (by rw [r4]; omega)
    (by rw [r4]; omega) (by omega) (by omega)
  obtain ⟨f1, f2, f3, f4, f5⟩ := f
  have hn : 0 < newnum := by omega
  refine ⟨hn, rfl, ?_, ?_, ?_⟩
  · intro t a b
    exact T2.1 t a b
  · intro t a b
    exact T2.2.1 t a b
  · intro t s a b c d hact
    have b' : t < newnum := b
    rcases T2.2.2 t s a b' c d hact with h1 | h1
    · left
      refine ⟨h1.1, ?_⟩
      rw [hw1, is_wake_iff] at h1
      obtain ⟨_, j, j0, j1, hj⟩ := h1
      rw [is_wake_iff]
      refine ⟨j, j0, ?_, ?_⟩
      · show j < newnum
        omega
      · show s = ((slapd_socket_realloc env st1 newnum).wake_sds j).1 ∨
          s = ((slapd_socket_realloc env st1 newnum).wake_sds j).2
        rw [f4, (hold j j1).1]
        exact hj
    · right
      refine ⟨?_, h1.2⟩
      rw [← Bool.not_eq_true, is_wake_iff]
      rintro ⟨j, j0, j1, hj⟩
      have j1' : j < newnum := j1
      have hj' : s = ((slapd_socket_realloc env st1 newnum).wake_sds j).1 ∨
          s = ((slapd_socket_realloc env st1 newnum).wake_sds j).2 := hj
      rw [f4] at hj'
      by_cases c' : j < st.slapd_daemon_threads
      · have : is_wake_sd st1 s = true := by
          rw [is_wake_iff, r3]
          exact ⟨j, j0, c', hj'⟩
        rw [h1.1] at this
        exact absurd this (by simp)
      · have d' : s < (slapd_socket_realloc env st1 newnum).dtblsize := d
        exact hact (q2 s ⟨j, by omega, j1', hj'⟩ c d' t a b')

theorem Inv_slapd_daemon_resize {st : Daemon} (h : Inv st) {env : resize_env} {newnum : Int}
    (hn : 0 < newnum) (hs : env.succeeds st newnum) :
    Inv (slapd_daemon_resize env st newnum).1 := by
  unfold slapd_daemon_resize
  by_cases e : newnum = st.slapd_daemon_threads
  · rw [if_pos e]
    exact h
  · rw [if_neg e]
    by_cases g : newnum > st.slapd_daemon_threads
    · rw [if_pos g]
      obtain ⟨r1, hI⟩ := Inv_resize_grow h g hs
      simp only [r1, Bool.not_true, Bool.false_eq_true, if_false,
        resize_create_threads_ok env hs.2.1, ne_eq, not_true_eq_false]
      exact hI
    · rw [if_neg g]
      exact Inv_resize_shrink h hn (by omega) hs.1

/-! ## Every reachable state satisfies the invariant -/

theorem Reachable_Inv {st : Daemon} (h : Reachable st) : Inv st := by
  induction h with
  | start outside dtblsize threads wake ls hT =>
    exact Inv_daemon_start outside dtblsize threads wake ls hT
  | @add_wake st tid _ t0 t1 s0 s1 hna ih =>
    refine Inv_slapd_add (t := tid) ih ?_ t0 t1 s0 s1 ((NOT_ACTIVE_iff _ _ _).1 hna) ?_ ?_
    · rw [if_neg (by omega)]
    · intro j hj
      exact absurd hj (by simp)
    · left
      refine ⟨rfl, ?_⟩
      rw [is_wake_iff]
      exact ⟨tid, t0, t1, Or.inl rfl⟩
  | @add_listener st l lr _ hl s0 s1 hw hna ih =>
    obtain ⟨t0, t1⟩ := DAEMON_ID_range ih s0
    refine Inv_slapd_add (t := DAEMON_ID st lr.sl_sd) ih ?_ t0 t1 s0 s1
      ((NOT_ACTIVE_iff _ _ _).1 hna) ?_ ?_
    · rw [if_pos (by omega)]
    · intro j hj
      have : l = j := by simpa using hj
      subst this
      exact ⟨lr, hl, rfl⟩
    · exact Or.inr ⟨hw, rfl⟩
  | @add_internal st s isactive _ s0 s1 hw hna ih =>
    obtain ⟨t0, t1⟩ := DAEMON_ID_range ih s0
    unfold slapd_add_internal
    refine Inv_slapd_add (t := DAEMON_ID st s) ih ?_ t0 t1 s0 s1
      ((NOT_ACTIVE_iff _ _ _).1 hna) ?_ ?_
    · rw [if_pos (by omega)]
    · intro j hj
      exact absurd hj (by simp)
    · exact Or.inr ⟨hw, rfl⟩
  | @remove st s wasactive wake locked _ s0 s1 hact ih =>
    exact Inv_slapd_remove ih wasactive wake locked s0 s1 ((IS_ACTIVE_iff _ _ _).1 hact)
  | @set_write st s wake _ s0 s1 hact ih =>
    exact Inv_slapd_set_write ih wake s0 s1 ((IS_ACTIVE_iff _ _ _).1 hact)
  | @clr_write st s wake _ s0 s1 hpre ih => exact Inv_slapd_clr_write ih wake s0 s1 hpre
  | @set_read st s wake _ s0 s1 ih => exact Inv_slapd_set_read ih wake s0 s1
  | @clr_read st s wake _ s0 s1 ih => exact Inv_slapd_clr_read ih wake s0 s1
  | @resize st env newnum _ hn hs ih => exact Inv_slapd_daemon_resize ih hn hs

/-! ## Claims -/

/-- C1, amended. In every state reachable from notifier initialisation through
`slapd_add`, `slapd_remove`, `slapd_set_write`, `slapd_clr_write`,
`slapd_set_read`, `slapd_clr_read` and `slapd_socket_realloc` (run by
`slapd_daemon_resize`), each called with its asserted precondition and with
every `epoll_ctl(EPOLL_CTL_ADD)` returning 0, whatever the memory around the
blocks holds, the counter `sd_nwriters` of every shard `t` equals the number of
descriptors `s` in `[0, dtblsize)` that are registered on the shard
(`SLAP_SOCK_IS_ACTIVE(t, s)`) and for which `SLAP_SOCK_IS_WRITE(t, s)` holds. -/
theorem nwriters_counts_write_armed (st : Daemon) (h : Reachable st) (t : Int) (ht0 : 0 ≤ t)
    (ht1 : t < st.slapd_daemon_threads) :
    (st.slap_daemon t).sd_nwriters =
      (((Finset.Ico 0 st.dtblsize).filter
        (fun s => SLAP_SOCK_IS_ACTIVE st t s = true ∧ SLAP_SOCK_IS_WRITE st t s = true)).card : Int) := by
  have hI := Reachable_Inv h
  have := hI.2.2.2.1 t ht0 ht1
  rw [this, ← write_armed_eq]
  rfl

/-- The three status macros read only the index of the descriptor and its record. -/
theorem status_congr {st st' : Daemon} {t s : Int}
    (hi : (st'.slap_daemon t).sd_index s = (st.slap_daemon t).sd_index s)
    (he : (st'.slap_daemon t).sd_epolls ((st'.slap_daemon t).sd_index s) =
      (st.slap_daemon t).sd_epolls ((st.slap_daemon t).sd_index s)) :
    SLAP_SOCK_IS_ACTIVE st' t s = SLAP_SOCK_IS_ACTIVE st t s ∧
    SLAP_SOCK_IS_READ st' t s = SLAP_SOCK_IS_READ st t s ∧
    SLAP_SOCK_IS_WRITE st' t s = SLAP_SOCK_IS_WRITE st t s := by
  simp only [SLAP_SOCK_IS_ACTIVE, SLAP_SOCK_IS_READ, SLAP_SOCK_IS_WRITE, SLAP_EPOLL_SOCK_IS_SET,
    SLAP_EPOLL_SOCK_EV, SLAP_EPOLL_SOCK_EP, SLAP_EPOLL_SOCK_IX, hi, he]
  rw [hi] at he
  simp only [he]
  exact ⟨trivial, trivial, trivial⟩

theorem sample_session_reachable : Reachable sample_session :=
  Reachable.add_internal 7 1 (Reachable.start zeroed 8 2 sample_wake [] (by decide))
    (by decide) (by decide) (by decide) (by decide)

theorem sample_writer_reachable : Reachable sample_writer :=
  Reachable.set_write 7 0 sample_session_reachable (by decide) (by decide) (by decide)

/-- Witness of C1, amended: the write-armed session of the sample daemon. -/
theorem nwriters_counts_write_armed_witness :
    Reachable sample_writer ∧ (0 : Int) ≤ 1 ∧ 1 < sample_writer.slapd_daemon_threads ∧
    (sample_writer.slap_daemon 1).sd_nwriters =
      (((Finset.Ico 0 sample_writer.dtblsize).filter
        (fun s => SLAP_SOCK_IS_ACTIVE sample_writer 1 s = true ∧
          SLAP_SOCK_IS_WRITE sample_writer 1 s = true)).card : Int) :=
  ⟨sample_writer_reachable, by decide, by decide,
    nwriters_counts_write_armed sample_writer sample_writer_reachable 1 (by decide) (by decide)⟩

/-- C1, counterexample. On the one-shard sample the call
`slapd_add_internal( 5, 1 )` meets a failing `epoll_ctl(EPOLL_CTL_ADD)`: the
macro has stored `sd_index[5] = sd_nfds` and the record, does not advance
`sd_nfds` and sets `slapd_shutdown = 2`. Descriptor 5 passes the assertion of
`slapd_set_write`, which counts it; the next `slapd_add_internal( 6, 1 )`, whose
assertion holds too, takes the same index and overwrites the record. Then
`sd_nwriters` is 1 and `SLAP_SOCK_IS_WRITE` holds for no descriptor,
registered or not. And in a
daemon started in memory whose word in front of the block has the bit
`EPOLLOUT`, `SLAP_SOCK_IS_WRITE` holds for the unregistered descriptor 5 while
`sd_nwriters` is 0. -/
theorem nwriters_after_failed_add :
    SLAP_SOCK_NOT_ACTIVE single_start (DAEMON_ID single_start 5) 5 = true ∧
    failed_add.slapd_shutdown = 2 ∧
    SLAP_SOCK_IS_ACTIVE failed_add (DAEMON_ID failed_add 5) 5 = true ∧
    SLAP_SOCK_NOT_ACTIVE failed_add_writer (DAEMON_ID failed_add_writer 6) 6 = true ∧
    (failed_add_reused.slap_daemon 0).sd_nwriters = 1 ∧
    ((Finset.Ico 0 failed_add_reused.dtblsize).filter
      (fun s => SLAP_SOCK_IS_WRITE failed_add_reused 0 s = true)).card = 0 ∧
    ((Finset.Ico 0 failed_add_reused.dtblsize).filter
      (fun s => SLAP_SOCK_IS_ACTIVE failed_add_reused 0 s = true ∧
        SLAP_SOCK_IS_WRITE failed_add_reused 0 s = true)).card = 0 ∧
    SLAP_EPOLL_SOCK_IX failed_add_reused 0 5 = 0 ∧ SLAP_EPOLL_SOCK_IX failed_add_reused 0 6 = 0 ∧
    (junk_start.slap_daemon 0).sd_nwriters = 0 ∧
    SLAP_SOCK_IS_ACTIVE junk_start 0 5 = false ∧ SLAP_SOCK_IS_WRITE junk_start 0 5 = true := by
  decide

theorem single_disarmed_reachable : Reachable single_disarmed :=
  Reachable.clr_read 7 0
    (Reachable.add_internal 7 1 (Reachable.start zeroed 8 1 (fun _ => (3, 4)) [] (by decide))
      (by decide) (by decide) (by decide) (by decide))
    (by decide) (by decide)

set_option maxRecDepth 100000 in
/-- C5, the code at the failing input: session 7 is active and read-disarmed on
shard 0; `slapd_daemon_resize( 2 )` moves it to shard 1, where it is read-armed. -/
theorem realloc_rearms_read :
    Reachable single_disarmed ∧
    SLAP_SOCK_IS_ACTIVE single_disarmed 0 7 = true ∧
    SLAP_SOCK_IS_READ single_disarmed 0 7 = false ∧
    SLAP_SOCK_IS_ACTIVE single_resized 1 7 = true ∧
    SLAP_SOCK_IS_ACTIVE single_resized 0 7 = false ∧
    SLAP_SOCK_IS_READ single_resized 1 7 = true :=
  ⟨single_disarmed_reachable, by decide, by decide, by decide, by decide, by decide⟩

theorem map_set_same {α β : Type} (f : α → β) (ls : List α) :
    ∀ (l : Nat) (x y : α), ls[l]? = some x → f y = f x → (ls.set l y).map f = ls.map f := by
  induction ls with
  | nil =>
    intro l x y h _
    simp at h
  | cons a rest ih =>
    intro l x y h hf
    cases l with
    | zero =>
      have : a = x := by simpa using h
      subst this
      simp [hf]
    | succ n =>
      have h' : rest[n]? = some x := by simpa using h
      simp [ih n x y h' hf]

theorem getElem?_set_same {α : Type} (ls : List α) (l : Nat) (x y : α) (h : ls[l]? = some x) :
    (ls.set l y)[l]? = some y := by
  have hl : l < ls.length := by
    by_contra c
    have : ls[l]? = none := List.getElem?_eq_none (by omega)
    rw [this] at h
    exact absurd h (by simp)
  rw [List.getElem?_set]
  simp [hl]

theorem slap_listener_accepted_st (flags : build_flags) (st : Daemon) (sl : Listener)
    (e : accept_env) : (slap_listener_accepted flags st sl e).st = st := by
  unfold slap_listener_accepted
  simp only []
  split_ifs <;> rfl

/-- C6. When `accept()` in `slap_listener` fails (the listener is one on which
`accept` is called, that is, not a connectionless one in a
`LDAP_CONNECTIONLESS` build): with `EMFILE` or `ENFILE` the counter `emfile`
grows by exactly one, `sl_mute` of the listener is set, and no shard record
(interest map, `sd_nactives`, `sd_nwriters`, `sd_nfds`) changes; with any other
error `emfile` and every `sl_mute` stay as they were. -/
theorem accept_failure_mutes (flags : build_flags) (st : Daemon) (l : Nat) (sl : Listener)
    (e : accept_env) (hl : st.slap_listeners[l]? = some sl)
    (hacc : (flags.LDAP_CONNECTIONLESS && decide (sl.sl_is_udp ≠ 0)) = false)
    (hfail : e.s = AC_SOCKET_INVALID) :
    (e.err = EMFILE ∨ e.err = ENFILE →
      (slap_listener flags st l e).st.emfile = st.emfile + 1 ∧
      ((slap_listener flags st l e).st.slap_listeners[l]?).map Listener.sl_mute = some 1 ∧
      (slap_listener flags st l e).st.slap_daemon = st.slap_daemon) ∧
    (¬ (e.err = EMFILE ∨ e.err = ENFILE) →
      (slap_listener flags st l e).st.emfile = st.emfile ∧
      (slap_listener flags st l e).st.slap_listeners.map Listener.sl_mute =
        st.slap_listeners.map Listener.sl_mute ∧
      (slap_listener flags st l e).st.slap_daemon = st.slap_daemon) := by
  constructor
  · intro herr
    unfold slap_listener
    simp only [hl, hacc, hfail, herr, Bool.false_eq_true, if_false, if_true]
    refine ⟨rfl, ?_, rfl⟩
    show Option.map Listener.sl_mute
      (((st.slap_listeners.set l { sl with sl_busy := 0 }).set l
        { sl with sl_busy := 0, sl_mute := 1 })[l]?) = some 1
    rw [getElem?_set_same _ l { sl with sl_busy := 0 } _ (getElem?_set_same _ l sl _ hl)]
    rfl
  · intro herr
    unfold slap_listener
    simp only [hl, hacc, hfail, herr, Bool.false_eq_true, if_false, if_true]
    refine ⟨rfl, ?_, rfl⟩
    exact map_set_same Listener.sl_mute st.slap_listeners l sl _ hl rfl

/-- Witness of C6: `EMFILE` on listener 0 of the daemon `two_listeners`. -/
theorem accept_failure_mutes_witness :
    two_listeners.slap_listeners[0]? = some (stream_listener 1) ∧
    (slap_listener sample_flags two_listeners 0 emfile_accept).st.emfile =
      two_listeners.emfile + 1 :=
  ⟨by decide,
    ((accept_failure_mutes sample_flags two_listeners 0 (stream_listener 1) emfile_accept
      (by decide) (by decide) (by decide)).1 (by decide)).1⟩

theorem SLAP_SOCK_DEL_globals (st : Daemon) (t s : Int) :
    (SLAP_SOCK_DEL st t s).slap_listeners = st.slap_listeners ∧
    (SLAP_SOCK_DEL st t s).emfile = st.emfile ∧
    (SLAP_SOCK_DEL st t s).listening = st.listening := by
  unfold SLAP_SOCK_DEL
  simp only []
  split_ifs <;> exact ⟨rfl, rfl, rfl⟩

theorem slapd_remove_listeners (st : Daemon) (s wasactive wake locked : Int) :
    (slapd_remove st s wasactive wake locked).slap_listeners =
      if st.emfile ≠ 0 ∧ st.listening ≠ 0 then (emfile_walk s st.slap_listeners).1
      else st.slap_listeners := by
  have key : ∀ X : Daemon, X.slap_listeners = st.slap_listeners → X.emfile = st.emfile →
      X.listening = st.listening →
      (if X.emfile ≠ 0 ∧ X.listening ≠ 0 then
        (if (emfile_walk s X.slap_listeners).2 = true then
          { X with slap_listeners := (emfile_walk s X.slap_listeners).1, emfile := 0 }
        else
          { X with slap_listeners := (emfile_walk s X.slap_listeners).1
                   emfile := X.emfile - 1 })
      else X).slap_listeners =
      if st.emfile ≠ 0 ∧ st.listening ≠ 0 then (emfile_walk s st.slap_listeners).1
      else st.slap_listeners := by
    intro X h1 h2 h3
    rw [h2, h3, h1]
    split_ifs <;> first | rfl | exact h1
  unfold slapd_remove
  simp only []
  apply key
  · rw [(SLAP_SOCK_DEL_globals _ _ _).1]
    split_ifs <;> rfl
  · rw [(SLAP_SOCK_DEL_globals _ _ _).2.1]
    split_ifs <;> rfl
  · rw [(SLAP_SOCK_DEL_globals _ _ _).2.2]
    split_ifs <;> rfl

theorem emfile_walk_first (s : Int) (ls : List Listener) :
    ∀ (l : Nat) (lr : Listener), ls[l]? = some lr → lr.sl_sd ≠ AC_SOCKET_INVALID →
      lr.sl_sd ≠ s → lr.sl_mute ≠ 0 →
      (∀ (j : Nat) (lj : Listener), j < l → ls[j]? = some lj →
        lj.sl_sd = AC_SOCKET_INVALID ∨ lj.sl_sd = s ∨ lj.sl_mute = 0) →
      (emfile_walk s ls).1[l]? = some { lr with sl_mute := 0 } := by
  induction ls with
  | nil =>
    intro l lr h
    simp at h
  | cons a rest ih =>
    intro l lr h hsd hs hm hfirst
    cases l with
    | zero =>
      have ha : a = lr := by simpa using h
      subst ha
      unfold emfile_walk
      simp [hsd, hs, hm]
    | succ n =>
      have h' : rest[n]? = some lr := by simpa using h
      have hrest := ih n lr h' hsd hs hm (fun j lj hj hlj =>
        hfirst (j + 1) lj (by omega) (by simpa using hlj))
      have ha := hfirst 0 a (by omega) (by simp)
      unfold emfile_walk
      by_cases c1 : a.sl_sd = AC_SOCKET_INVALID
      · simp [c1, hrest]
      · by_cases c2 : a.sl_sd = s
        · simp [c1, c2, hrest]
        · have c3 : a.sl_mute = 0 := by
            rcases ha with ha | ha | ha
            · exact absurd ha c1
            · exact absurd ha c2
            · exact ha
          simp [c1, c2, c3, hrest]

/-- C7, counterexample. In the daemon `two_muted` (listening, two stream
listeners, `accept` failed with `EMFILE` on both) both listeners are muted;
after one `slapd_remove` of the session 7 the first listener is unmuted and the
second one is still muted. -/
theorem second_muted_listener_stays_muted :
    two_muted.listening = 1 ∧ two_muted.emfile = 2 ∧
    two_muted.slap_listeners.map Listener.sl_mute = [1, 1] ∧
    two_muted.slap_listeners.map Listener.sl_sd = [1, 2] ∧
    (slapd_remove two_muted 7 1 0 0).slap_listeners.map Listener.sl_mute = [0, 1] := by
  decide

/-- C7, amended. If `listening` is nonzero, `emfile` is not negative, and an
`accept` on the listener `l` (valid descriptor, different from `s`) fails with
`EMFILE` or `ENFILE`, then after a single `slapd_remove` of a descriptor `s`,
`sl_mute` of `l` is 0, provided that every listener before `l` in
`slap_listeners` is skipped by the walk (closed, or `s` itself) or not muted:
one `slapd_remove` resumes the first muted listener only. -/
theorem first_muted_listener_resumes (flags : build_flags) (st : Daemon) (l : Nat)
    (sl : Listener) (e : accept_env) (s wasactive wake locked : Int)
    (hl : st.slap_listeners[l]? = some sl)
    (hacc : (flags.LDAP_CONNECTIONLESS && decide (sl.sl_is_udp ≠ 0)) = false)
    (hfail : e.s = AC_SOCKET_INVALID) (herr : e.err = EMFILE ∨ e.err = ENFILE)
    (hlisten : st.listening ≠ 0) (hem : 0 ≤ st.emfile)
    (hsd : sl.sl_sd ≠ AC_SOCKET_INVALID) (hs : sl.sl_sd ≠ s)
    (hfirst : ∀ (j : Nat) (lj : Listener), j < l → st.slap_listeners[j]? = some lj →
      lj.sl_sd = AC_SOCKET_INVALID ∨ lj.sl_sd = s ∨ lj.sl_mute = 0) :
    ((slap_listener flags st l e).st.slap_listeners[l]?).map Listener.sl_mute = some 1 ∧
    ((slapd_remove (slap_listener flags st l e).st s wasactive wake locked).slap_listeners[l]?).map
      Listener.sl_mute = some 0 := by
  have hst : (slap_listener flags st l e).st =
      { st with
        emfile := st.emfile + 1
        slap_listeners := (st.slap_listeners.set l { sl with sl_busy := 0 }).set l
          { sl with sl_busy := 0, sl_mute := 1 } } := by
    unfold slap_listener
    simp only [hl, hacc, hfail, herr, Bool.false_eq_true, if_false, if_true]
    rfl
  have hget : (slap_listener flags st l e).st.slap_listeners[l]? =
      some { sl with sl_busy := 0, sl_mute := 1 } := by
    rw [hst]
    exact getElem?_set_same _ l { sl with sl_busy := 0 } _ (getElem?_set_same _ l sl _ hl)
  have hother : ∀ (j : Nat) (lj : Listener), j < l →
      (slap_listener flags st l e).st.slap_listeners[j]? = some lj →
      lj.sl_sd = AC_SOCKET_INVALID ∨ lj.sl_sd = s ∨ lj.sl_mute = 0 := by
    intro j lj hj hlj
    rw [hst] at hlj
    have hne : l ≠ j := by omega
    have : st.slap_listeners[j]? = some lj := by
      have h2 : ((st.slap_listeners.set l { sl with sl_busy := 0 }).set l
          { sl with sl_busy := 0, sl_mute := 1 })[j]? = some lj := hlj
      rw [List.getElem?_set_ne hne, List.getElem?_set_ne hne] at h2
      exact h2
    exact hfirst j lj hj this
  refine ⟨by rw [hget]; rfl, ?_⟩
  rw [slapd_remove_listeners]
  have hem1 : (slap_listener flags st l e).st.emfile ≠ 0 := by
    rw [hst]
    show st.emfile + 1 ≠ 0
    omega
  have hl1 : (slap_listener flags st l e).st.listening ≠ 0 := by
    rw [hst]
    exact hlisten
  rw [if_pos ⟨hem1, hl1⟩]
  have hm : ({ sl with sl_busy := 0, sl_mute := 1 } : Listener).sl_mute ≠ 0 := by
    show (1 : Int) ≠ 0
    decide
  rw [emfile_walk_first s _ l _ hget hsd hs hm hother]
  rfl

/-- Witness of C7, amended: the second listener of `two_listeners` is muted
while the first is not, and the session 7 is removed. -/
theorem first_muted_listener_resumes_witness :
    two_listeners.slap_listeners[1]? = some (stream_listener 2) ∧
    ((slapd_remove (slap_listener sample_flags two_listeners 1 emfile_accept).st 7 1 0
      0).slap_listeners[1]?).map Listener.sl_mute = some 0 :=
  ⟨by decide,
    (first_muted_listener_resumes sample_flags two_listeners 1 (stream_listener 2) emfile_accept
      7 1 0 0 (by decide) (by decide) (by decide) (by decide) (by decide) (by decide) (by decide)
      (by decide) (by
        intro j lj hj hlj
        have hj0 : j = 0 := by omega
        subst hj0
        have : lj = stream_listener 1 := by
          have h0 : two_listeners.slap_listeners[0]? = some (stream_listener 1) := by decide
          rw [h0] at hlj
          exact (Option.some.inj hlj).symm
        subst this
        right; right; rfl)).2⟩

/-- C8, counterexample. In a build with `LDAP_CONNECTIONLESS`, a connectionless
listener that `slap_listener_activate` has marked busy is still busy after
`slap_listener` has returned (with value 1): the function returns before
`sl_busy` is cleared. -/
theorem connectionless_listener_stays_busy :
    (udp_activated.slap_listeners[0]?).map Listener.sl_busy = some 1 ∧
    (slap_listener connectionless_flags udp_activated 0 emfile_accept).rc = 1 ∧
    ((slap_listener connectionless_flags udp_activated 0 emfile_accept).st.slap_listeners[0]?).map
      Listener.sl_busy = some 1 := by
  decide

/-- C8, amended. For every listener that is not a connectionless one in a
`LDAP_CONNECTIONLESS` build and that `slap_listener_activate` has marked busy,
after `slap_listener` returns, whatever the outcome of `accept` and of the
steps after it, `sl_busy` is 0. -/
theorem stream_listener_busy_cleared (flags : build_flags) (st : Daemon) (l : Nat) (sl : Listener)
    (e : accept_env) (rc : Int) (hl : st.slap_listeners[l]? = some sl)
    (hacc : (flags.LDAP_CONNECTIONLESS && decide (sl.sl_is_udp ≠ 0)) = false) :
    (((slap_listener_activate st l rc).1.slap_listeners[l]?).map Listener.sl_busy = some 1) ∧
    ((slap_listener flags (slap_listener_activate st l rc).1 l e).st.slap_listeners[l]?).map
      Listener.sl_busy = some 0 := by
  have hact : (slap_listener_activate st l rc).1 =
      st.set_listener l { sl with sl_busy := 1 } := by
    unfold slap_listener_activate
    simp only [hl]
  have hget : (slap_listener_activate st l rc).1.slap_listeners[l]? =
      some { sl with sl_busy := 1 } := by
    rw [hact]
    exact getElem?_set_same _ l sl _ hl
  refine ⟨by rw [hget]; rfl, ?_⟩
  have h1 : ∀ X : Daemon, X.slap_listeners[l]? = some { sl with sl_busy := 1 } →
      ((X.set_listener l { sl with sl_busy := 0 }).slap_listeners[l]?).map Listener.sl_busy =
        some 0 := by
    intro X hX
    show Option.map Listener.sl_busy ((X.slap_listeners.set l { sl with sl_busy := 0 })[l]?) = _
    rw [getElem?_set_same _ l _ _ hX]
    rfl
  have hacc1 : (flags.LDAP_CONNECTIONLESS &&
      decide (({ sl with sl_busy := 1 } : Listener).sl_is_udp ≠ 0)) = false := hacc
  unfold slap_listener
  simp only [hget, hacc1, Bool.false_eq_true, if_false]
  split_ifs
  · show Option.map Listener.sl_busy
      ((((slap_listener_activate st l rc).1.slap_listeners.set l _).set l
        { sl with sl_busy := 0, sl_mute := 1 })[l]?) = some 0
    rw [getElem?_set_same _ l { sl with sl_busy := 0 } _
      (getElem?_set_same _ l { sl with sl_busy := 1 } _ hget)]
    rfl
  · exact h1 _ hget
  · exact h1 _ hget
  · rw [slap_listener_accepted_st]
    exact h1 _ hget

/-- Witness of C8, amended: the first listener of `two_listeners`, with `accept`
failing with `EMFILE`. -/
theorem stream_listener_busy_cleared_witness :
    two_listeners.slap_listeners[0]? = some (stream_listener 1) ∧
    ((slap_listener sample_flags (slap_listener_activate two_listeners 0 0).1 0
      emfile_accept).st.slap_listeners[0]?).map Listener.sl_busy = some 0 :=
  ⟨by decide,
    (stream_listener_busy_cleared sample_flags two_listeners 0 (stream_listener 1) emfile_accept 0
      (by decide) (by decide)).2⟩

/-! ## Shard loop -/

theorem idle_timeval_zero (idle : Int) (h : 0 < idle) :
    (idle_timeval 0 idle).tv_sec = idle / 4 ∧ (idle_timeval 0 idle).tv_usec = (idle % 4) * 250000 := by
  unfold idle_timeval
  have hq : Int.tdiv idle 4 = idle / 4 := Int.tdiv_eq_ediv (by omega) (by omega)
  have hk : Int.tdiv 1000000 4 = 250000 := by decide
  simp only [SLAPD_IDLE_CHECK_LIMIT, hq, hk, h, gt_iff_lt, and_self, if_true]
  have : idle - idle / 4 * 4 = idle % 4 := by omega
  rw [this]
  trivial

theorem idle_timeval_other (tid idle : Int) (h : tid ≠ 0 ∨ idle ≤ 0) :
    idle_timeval tid idle = { tv_sec := 0, tv_usec := 0 } := by
  unfold idle_timeval
  have : ¬ (tid = 0 ∧ idle > 0) := by
    intro c
    rcases h with h | h
    · exact h c.1
    · omega
  simp only [this, if_false]

theorem long_to_int_of_range (x : Int) (h0 : -2147483648 ≤ x) (h1 : x < 2147483648) :
    long_to_int x = x := by
  unfold long_to_int
  have e31 : (2 : Int) ^ 31 = 2147483648 := by norm_num
  have e32 : (2 : Int) ^ 32 = 4294967296 := by norm_num
  rw [e31, e32]
  omega

/-- With an idle timeout of 8589935 seconds the wait of shard 0 is 2147483
seconds and 750000 microseconds; in milliseconds that is 2147483750, which
`epoll_wait` receives in its `int` parameter as a negative number. -/
theorem idle_timeout_millis_wrap :
    wait_timeout sample_flags 0 8589935 1 none 100 =
      some { tv_sec := 2147483, tv_usec := 750000 } ∧
    SLAP_EVENT_WAIT_timeout (wait_timeout sample_flags 0 8589935 1 none 100) = -2147483546 ∧
    SLAP_EVENT_WAIT_timeout (wait_timeout sample_flags 0 8589934 1 none 100) = 2147483500 := by
  decide

/-- C9, counterexample. With an idle timeout of 8 seconds and one active
session, shard 0 waits with a timeout of 2 seconds, but shard 1 is handed no
timeout at all when the build has a yielding select (NULL, -1 for
`epoll_wait`), and a zero timeout when it has not. -/
theorem other_shard_has_no_idle_timeout :
    wait_timeout sample_flags 0 8 1 none 100 = some { tv_sec := 2, tv_usec := 0 } ∧
    wait_timeout sample_flags 1 8 1 none 100 = none ∧
    SLAP_EVENT_WAIT_timeout (wait_timeout sample_flags 1 8 1 none 100) = -1 ∧
    wait_timeout { sample_flags with HAVE_YIELDING_SELECT := false } 1 8 1 none 100 =
      some { tv_sec := 0, tv_usec := 0 } ∧
    SLAP_EVENT_WAIT_timeout
      (wait_timeout { sample_flags with HAVE_YIELDING_SELECT := false } 1 8 1 none 100) = 0 := by
  decide

/-- C9, amended. In an iteration in which no runqueue task is scheduled: on
shard 0, if `global_idletimeout > 0` and the shard has active sessions, the
timeout handed to the wait is `global_idletimeout / 4` seconds (whole seconds
in `tv_sec`, the remaining quarters in `tv_usec`; as long as
`global_idletimeout` is at most 8589934, so that the milliseconds fit the `int`
parameter of `epoll_wait`, four times the millisecond argument of `epoll_wait`
is `1000 * global_idletimeout`); on every shard, if no
idle timeout is configured or the shard has no active sessions, the wait is
given no timeout; on a shard other than 0 the idle timeout is never used: the
wait is given no timeout in a build with a yielding select, and otherwise a
zero timeout when an idle timeout is configured and the shard has active
sessions. -/
theorem idle_timeout_on_shard_zero (flags : build_flags) (idle nactives now : Int) :
    (0 < idle → nactives ≠ 0 →
      ∃ tv, wait_timeout flags 0 idle nactives none now = some tv ∧
        0 ≤ tv.tv_usec ∧ tv.tv_usec < 1000000 ∧
        4 * (tv.tv_sec * 1000000 + tv.tv_usec) = idle * 1000000 ∧
        (idle ≤ 8589934 →
          4 * SLAP_EVENT_WAIT_timeout (wait_timeout flags 0 idle nactives none now) =
            idle * 1000)) ∧
    (∀ tid rq, (tid = 0 → rq = none) → idle = 0 ∨ nactives = 0 →
      wait_timeout flags tid idle nactives rq now = none) ∧
    (∀ tid rq, tid ≠ 0 →
      wait_timeout flags tid idle nactives rq now =
        if flags.HAVE_YIELDING_SELECT = true then none
        else if idle ≠ 0 ∧ nactives ≠ 0 then some { tv_sec := 0, tv_usec := 0 } else none) := by
  refine ⟨?_, ?_, ?_⟩
  · intro hi hn
    obtain ⟨hsec, husec⟩ := idle_timeval_zero idle hi
    have hne : idle ≠ 0 := by omega
    have hnz : (decide ((idle_timeval 0 idle).tv_sec ≠ 0) ||
        decide ((idle_timeval 0 idle).tv_usec ≠ 0)) = true := by
      rw [hsec, husec]
      by_cases c : idle / 4 = 0
      · have : idle % 4 * 250000 ≠ 0 := by omega
        simp [this]
      · simp [c]
    have hw : wait_timeout flags 0 idle nactives none now = some (idle_timeval 0 idle) := by
      unfold wait_timeout
      have hor : (!flags.HAVE_YIELDING_SELECT || decide ((idle_timeval 0 idle).tv_sec ≠ 0) ||
          decide ((idle_timeval 0 idle).tv_usec ≠ 0)) = true := by
        rw [Bool.or_assoc, hnz, Bool.or_true]
      simp only [hor, hne, hn, ne_eq, not_false_eq_true, decide_True, Bool.and_self, if_true]
    refine ⟨idle_timeval 0 idle, hw, ?_, ?_, ?_, ?_⟩
    · rw [husec]; omega
    · rw [husec]; omega
    · rw [hsec, husec]; omega
    · intro hb
      rw [hw]
      show 4 * long_to_int
        ((idle_timeval 0 idle).tv_sec * 1000 + Int.tdiv (idle_timeval 0 idle).tv_usec 1000) =
        idle * 1000
      rw [hsec, husec, Int.tdiv_eq_ediv (by omega) (by omega),
        long_to_int_of_range _ (by omega) (by omega)]
      omega
  · intro tid rq hrq h
    have hat : (decide (idle ≠ 0) && decide (nactives ≠ 0)) = false := by
      rcases h with h | h <;> simp [h]
    unfold wait_timeout
    simp only [hat, Bool.false_and, Bool.false_eq_true, if_false]
    by_cases c : tid = 0
    · rw [hrq c]
      simp only [c, if_true]
    · simp only [c, if_false]
  · intro tid rq ht
    have htv := idle_timeval_other tid idle (Or.inl ht)
    unfold wait_timeout
    simp only [htv, ht, if_false, ne_eq, not_true_eq_false, decide_False, Bool.or_false]
    cases flags.HAVE_YIELDING_SELECT
    · by_cases c : idle ≠ 0 ∧ nactives ≠ 0
      · simp [c.1, c.2]
      · simp only [c, if_false]
        have : (decide (¬ idle = 0) && decide (¬ nactives = 0)) = false := by
          by_cases c1 : idle = 0
          · simp [c1]
          · have c2 : nactives = 0 := by
              by_contra c2
              exact c ⟨c1, c2⟩
            simp [c2]
        simp only [this, Bool.false_and, Bool.false_eq_true, if_false]
    · simp

/-- Witness of C9, amended: an idle timeout of 10 seconds on shard 0 with three
active sessions gives a wait of 2500 milliseconds. -/
theorem idle_timeout_on_shard_zero_witness :
    wait_timeout sample_flags 0 10 3 none 100 = some { tv_sec := 2, tv_usec := 500000 } ∧
    ∃ tv, wait_timeout sample_flags 0 10 3 none 100 = some tv ∧
      0 ≤ tv.tv_usec ∧ tv.tv_usec < 1000000 ∧
      4 * (tv.tv_sec * 1000000 + tv.tv_usec) = 10 * 1000000 ∧
      ((10 : Int) ≤ 8589934 →
        4 * SLAP_EVENT_WAIT_timeout (wait_timeout sample_flags 0 10 3 none 100) = 10 * 1000) :=
  ⟨by decide, (idle_timeout_on_shard_zero sample_flags 10 3 100).1 (by decide) (by decide)⟩

theorem wait_switch_shutdown (v : loop_vars) (ns err : Int) :
    (wait_switch v ns err).slapd_shutdown =
      if ns = -1 ∧ err ≠ EINTR ∧ v.ebadf + 1 ≥ SLAPD_EBADF_LIMIT then 2 else v.slapd_shutdown := by
  unfold wait_switch
  by_cases hc : ns = -1 ∧ err ≠ EINTR ∧ v.ebadf + 1 ≥ SLAPD_EBADF_LIMIT
  · rw [if_pos hc, if_pos hc.1, if_pos hc.2.1]
    simp only [hc.2.2, if_true]
  · rw [if_neg hc]
    by_cases h1 : ns = -1
    · rw [if_pos h1]
      by_cases h2 : err ≠ EINTR
      · rw [if_pos h2]
        have h3 : ¬ (v.ebadf + 1 ≥ SLAPD_EBADF_LIMIT) := fun c => hc ⟨h1, h2, c⟩
        simp only [h3, if_false]
      · rw [if_neg h2]
    · rw [if_neg h1]
      split_ifs <;> rfl

theorem daemon_loop_bounds (ws : List wait_result) :
    ∀ v : loop_vars, 0 ≤ v.ebadf → v.ebadf ≤ SLAPD_EBADF_LIMIT →
      (v.ebadf = SLAPD_EBADF_LIMIT → v.slapd_shutdown = 2) →
      0 ≤ (daemon_loop v ws).ebadf ∧ (daemon_loop v ws).ebadf ≤ SLAPD_EBADF_LIMIT ∧
      ((daemon_loop v ws).ebadf = SLAPD_EBADF_LIMIT → (daemon_loop v ws).slapd_shutdown = 2) := by
  induction ws with
  | nil =>
    intro v h0 h1 h2
    exact ⟨h0, h1, h2⟩
  | cons w rest ih =>
    intro v h0 h1 h2
    unfold daemon_loop
    by_cases hs : v.slapd_shutdown ≠ 0
    · rw [if_pos hs]
      exact ⟨h0, h1, h2⟩
    · rw [if_neg hs]
      have hs0 : v.slapd_shutdown = 0 := not_not.mp hs
      have hlt : v.ebadf < SLAPD_EBADF_LIMIT := by
        rcases lt_or_eq_of_le h1 with c | c
        · exact c
        · have := h2 c
          omega
      have ha : (w.arrive v).ebadf = v.ebadf := by
        unfold wait_result.arrive
        split_ifs <;> rfl
      apply ih
      · unfold wait_switch
        simp only [ha]
        split_ifs <;> simp only [ha] <;> omega
      · unfold wait_switch
        simp only [ha]
        unfold SLAPD_EBADF_LIMIT at hlt ⊢
        split_ifs <;> simp only [ha] <;> omega
      · intro he
        rw [wait_switch_shutdown]
        have : ns_fail w v := by
          unfold wait_switch at he
          simp only [ha] at he
          unfold SLAPD_EBADF_LIMIT at hlt he
          unfold ns_fail
          split_ifs at he with c1 c2 c3 c4 c5 <;> simp only [ha] at he <;>
            first | exact ⟨c1, c2, c3⟩ | omega
        unfold ns_fail at this
        rw [ha, if_pos this]

theorem daemon_loop_quiet (ws : List wait_result) :
    ∀ v : loop_vars, (∀ w ∈ ws, w.stored = 0) → 0 ≤ v.ebadf →
      ((v.ebadf < SLAPD_EBADF_LIMIT ∧ v.slapd_shutdown = 0) ∨
        (v.ebadf = SLAPD_EBADF_LIMIT ∧ v.slapd_shutdown = 2)) →
      ((daemon_loop v ws).ebadf < SLAPD_EBADF_LIMIT ∧ (daemon_loop v ws).slapd_shutdown = 0) ∨
        ((daemon_loop v ws).ebadf = SLAPD_EBADF_LIMIT ∧ (daemon_loop v ws).slapd_shutdown = 2) := by
  induction ws with
  | nil =>
    intro v _ _ h
    exact h
  | cons w rest ih =>
    intro v hq h0 h
    unfold daemon_loop
    by_cases hs : v.slapd_shutdown ≠ 0
    · rw [if_pos hs]
      exact h
    · rw [if_neg hs]
      have hs0 : v.slapd_shutdown = 0 := not_not.mp hs
      have hlt : v.ebadf < SLAPD_EBADF_LIMIT := by
        rcases h with c | c
        · exact c.1
        · omega
      have hw : w.stored = 0 := hq w (List.mem_cons_self _ _)
      have ha : w.arrive v = v := by
        unfold wait_result.arrive
        rw [if_neg (not_not.mpr hw)]
      rw [ha]
      apply ih _ (fun x hx => hq x (List.mem_cons_of_mem _ hx))
      · unfold wait_switch
        dsimp only []
        split_ifs <;> first | (show v.ebadf + 1 ≥ 0; omega) | exact h0 | exact le_refl _
      · unfold wait_switch
        unfold SLAPD_EBADF_LIMIT at hlt ⊢
        dsimp only []
        split_ifs with c1 c2 c3 c4
        · right
          exact ⟨by show v.ebadf + 1 = 16; omega, rfl⟩
        · left
          exact ⟨by show v.ebadf + 1 < 16; omega, hs0⟩
        · left
          exact ⟨hlt, hs0⟩
        · left
          exact ⟨by show (0 : Int) < 16; decide, hs0⟩
        · left
          exact ⟨by show (0 : Int) < 16; decide, hs0⟩

/-- C10, counterexample. After one failed wait (`EBADF`) the counter is 1. A
wait that then returns one event while a signal handler has stored 1 into
`slapd_shutdown` leaves the counter at 1: the switch `continue`s before
`ebadf = 0`. The same wait without the store resets the counter. -/
theorem shutdown_wait_keeps_ebadf :
    daemon_loop { ebadf := 0, slapd_shutdown := 0 }
      [{ ns := -1, err := EBADF, stored := 0 }] = { ebadf := 1, slapd_shutdown := 0 } ∧
    wait_switch { ebadf := 1, slapd_shutdown := 1 } 1 0 = { ebadf := 1, slapd_shutdown := 1 } ∧
    daemon_loop { ebadf := 0, slapd_shutdown := 0 }
      [{ ns := -1, err := EBADF, stored := 0 }, { ns := 1, err := 0, stored := 1 }] =
        { ebadf := 1, slapd_shutdown := 1 } ∧
    daemon_loop { ebadf := 0, slapd_shutdown := 0 }
      [{ ns := -1, err := EBADF, stored := 0 }, { ns := 1, err := 0, stored := 0 }] =
        { ebadf := 0, slapd_shutdown := 0 } := by
  decide

/-- C10, amended. In the shard loop the counter `ebadf` is incremented by every
wait that fails with an error other than `EINTR`, is left unchanged by a wait
that fails with `EINTR`, is reset to 0 by every wait that times out, and by
every wait that returns events while `slapd_shutdown` is 0; a wait that
returns events when `slapd_shutdown` has been set leaves the counter as it is.
The switch stores 2 into `slapd_shutdown` exactly when the incremented counter
is at least `SLAPD_EBADF_LIMIT = 16`. In every run of the loop from `ebadf = 0`
the counter stays in `[0, 16]` and is 16 only with `slapd_shutdown = 2`; when
nothing else stores into `slapd_shutdown`, it is 2 exactly when the counter is
16 and 0 as long as the counter is below 16. -/
theorem ebadf_counts_consecutive_failures (v : loop_vars) (ns err : Int)
    (ws : List wait_result) :
    (ns = -1 → err ≠ EINTR → (wait_switch v ns err).ebadf = v.ebadf + 1) ∧
    (ns = -1 → err = EINTR → wait_switch v ns err = v) ∧
    (ns = 0 → (wait_switch v ns err).ebadf = 0) ∧
    (ns ≠ -1 → ns ≠ 0 → v.slapd_shutdown = 0 → (wait_switch v ns err).ebadf = 0) ∧
    (ns ≠ -1 → ns ≠ 0 → v.slapd_shutdown ≠ 0 → wait_switch v ns err = v) ∧
    ((wait_switch v ns err).slapd_shutdown =
      if ns = -1 ∧ err ≠ EINTR ∧ v.ebadf + 1 ≥ SLAPD_EBADF_LIMIT then 2
      else v.slapd_shutdown) ∧
    (0 ≤ (daemon_loop { ebadf := 0, slapd_shutdown := 0 } ws).ebadf ∧
      (daemon_loop { ebadf := 0, slapd_shutdown := 0 } ws).ebadf ≤ SLAPD_EBADF_LIMIT ∧
      ((daemon_loop { ebadf := 0, slapd_shutdown := 0 } ws).ebadf = SLAPD_EBADF_LIMIT →
        (daemon_loop { ebadf := 0, slapd_shutdown := 0 } ws).slapd_shutdown = 2)) ∧
    ((∀ w ∈ ws, w.stored = 0) →
      ((daemon_loop { ebadf := 0, slapd_shutdown := 0 } ws).slapd_shutdown = 2 ↔
        (daemon_loop { ebadf := 0, slapd_shutdown := 0 } ws).ebadf = SLAPD_EBADF_LIMIT) ∧
      ((daemon_loop { ebadf := 0, slapd_shutdown := 0 } ws).ebadf < SLAPD_EBADF_LIMIT →
        (daemon_loop { ebadf := 0, slapd_shutdown := 0 } ws).slapd_shutdown = 0)) := by
  refine ⟨?_, ?_, ?_, ?_, ?_, wait_switch_shutdown v ns err, ?_, ?_⟩
  · intro h1 h2
    unfold wait_switch
    rw [if_pos h1, if_pos h2]
    simp only []
    split_ifs <;> rfl
  · intro h1 h2
    unfold wait_switch
    rw [if_pos h1, if_neg (not_not.mpr h2)]
  · intro h1
    have hne : ns ≠ -1 := by omega
    unfold wait_switch
    rw [if_neg hne, if_pos h1]
  · intro h1 h2 h3
    unfold wait_switch
    rw [if_neg h1, if_neg h2, if_neg (not_not.mpr h3)]
  · intro h1 h2 h3
    unfold wait_switch
    rw [if_neg h1, if_neg h2, if_pos h3]
  · exact daemon_loop_bounds ws { ebadf := 0, slapd_shutdown := 0 } (by decide) (by decide)
      (fun c => absurd c (by decide))
  · intro hq
    have h := daemon_loop_quiet ws { ebadf := 0, slapd_shutdown := 0 } hq (by decide)
      (Or.inl ⟨by decide, rfl⟩)
    constructor
    · constructor
      · intro h2
        rcases h with c | c
        · rw [c.2] at h2
          exact absurd h2 (by decide)
        · exact c.1
      · intro h16
        rcases h with c | c
        · omega
        · exact c.2
    · intro hlt
      rcases h with c | c
      · exact c.2
      · omega

/-- Witness of C10, amended: sixteen failed waits in a row stop the loop with
`slapd_shutdown = 2`; a wait that returns events with `slapd_shutdown = 0`
resets the counter 5. -/
theorem ebadf_counts_consecutive_failures_witness :
    (∀ w ∈ List.replicate 16 ({ ns := -1, err := EBADF, stored := 0 } : wait_result),
      w.stored = 0) ∧
    ((daemon_loop { ebadf := 0, slapd_shutdown := 0 }
        (List.replicate 16 { ns := -1, err := EBADF, stored := 0 })).slapd_shutdown = 2 ↔
      (daemon_loop { ebadf := 0, slapd_shutdown := 0 }
        (List.replicate 16 { ns := -1, err := EBADF, stored := 0 })).ebadf =
          SLAPD_EBADF_LIMIT) ∧
    (wait_switch { ebadf := 5, slapd_shutdown := 0 } 3 0).ebadf = 0 ∧
    (daemon_loop { ebadf := 0, slapd_shutdown := 0 }
      (List.replicate 16 { ns := -1, err := EBADF, stored := 0 })) =
        { ebadf := 16, slapd_shutdown := 2 } :=
  have hq : ∀ w ∈ List.replicate 16 ({ ns := -1, err := EBADF, stored := 0 } : wait_result),
      w.stored = 0 := by
    intro w hw
    rw [List.eq_of_mem_replicate hw]
  ⟨hq,
    ((ebadf_counts_consecutive_failures { ebadf := 5, slapd_shutdown := 0 } 3 0
      (List.replicate 16 { ns := -1, err := EBADF, stored := 0 })).2.2.2.2.2.2.2 hq).1,
    (ebadf_counts_consecutive_failures { ebadf := 5, slapd_shutdown := 0 } 3 0
      []).2.2.2.1 (by decide) (by decide) rfl,
    by decide⟩

/-! ## Accepted connections -/

/-- C11, counterexample. On the daemon `two_listeners`, an IPv4 connection is
accepted on descriptor 6 and `setsockopt(SO_KEEPALIVE)` fails (or an IPv6
connection, and `setsockopt(TCP_NODELAY)` fails): `slap_listener` closes
descriptor 6 and returns without calling `connection_init`. -/
theorem setsockopt_failure_closes :
    (slap_listener sample_flags two_listeners 0 keepalive_fails).closed = [6] ∧
    (slap_listener sample_flags two_listeners 0 keepalive_fails).conn_init = none ∧
    (slap_listener sample_flags two_listeners 0 nodelay_fails).closed = [6] ∧
    (slap_listener sample_flags two_listeners 0 nodelay_fails).conn_init = none := by
  decide

/-- C11, amended. When `setsockopt(SO_KEEPALIVE)` or `setsockopt(TCP_NODELAY)`
fails on a freshly accepted IPv4 or IPv6 connection (descriptor below
`dtblsize`, listener on which `accept` is called), `slap_listener` closes the
accepted descriptor with `slapd_close`, does not call `connection_init`, and
returns 0; no shard record changes. -/
theorem setsockopt_failure_drops_connection (flags : build_flags) (st : Daemon) (l : Nat)
    (sl : Listener) (e : accept_env) (hl : st.slap_listeners[l]? = some sl)
    (hacc : (flags.LDAP_CONNECTIONLESS && decide (sl.sl_is_udp ≠ 0)) = false)
    (hs : e.s ≠ AC_SOCKET_INVALID) (hsz : e.s < st.dtblsize)
    (hfam : e.sa_family = AF_INET ∨ e.sa_family = AF_INET6)
    (hfail : e.keepalive_rc = AC_SOCKET_ERROR ∨ e.nodelay_rc = AC_SOCKET_ERROR) :
    (slap_listener flags st l e).closed = [e.s] ∧
    (slap_listener flags st l e).conn_init = none ∧
    (slap_listener flags st l e).rc = 0 ∧
    (slap_listener flags st l e).st.slap_daemon = st.slap_daemon := by
  have hloc : (!flags.LDAP_PF_LOCAL || decide (e.sa_family ≠ AF_LOCAL)) = true := by
    have : e.sa_family ≠ AF_LOCAL := by
      rcases hfam with h | h <;> rw [h] <;> decide
    simp [this]
  have hge : ¬ (e.s ≥ st.dtblsize) := by omega
  unfold slap_listener
  simp only [hl, hacc, hs, Bool.false_eq_true, if_false]
  have hge1 : ¬ (e.s ≥ (st.set_listener l { sl with sl_busy := 0 }).dtblsize) := hge
  rw [if_neg hge1]
  unfold slap_listener_accepted
  simp only [hloc, Bool.true_and]
  by_cases hk : e.keepalive_rc = AC_SOCKET_ERROR
  · simp only [hk, decide_True, if_true]
    exact ⟨trivial, trivial, trivial, rfl⟩
  · have hn : e.nodelay_rc = AC_SOCKET_ERROR := by
      rcases hfail with h | h
      · exact absurd h hk
      · exact h
    simp only [hk, hn, decide_True, decide_False, Bool.false_eq_true, if_true, if_false]
    exact ⟨trivial, trivial, trivial, rfl⟩

/-- Witness of C11, amended: the failing `SO_KEEPALIVE` on `two_listeners`. -/
theorem setsockopt_failure_drops_connection_witness :
    two_listeners.slap_listeners[0]? = some (stream_listener 1) ∧
    (slap_listener sample_flags two_listeners 0 keepalive_fails).closed = [keepalive_fails.s] :=
  ⟨by decide,
    (setsockopt_failure_drops_connection sample_flags two_listeners 0 (stream_listener 1)
      keepalive_fails (by decide) (by decide) (by decide) (by decide) (Or.inl rfl)
      (Or.inl rfl)).1⟩

/-! ## Listener URLs -/

theorem octal_bits (a b c : Nat) (ha : a ≤ 7) (hb : b ≤ 7) (hc : c ≤ 7) :
    ((0 ||| a <<< 6) ||| b <<< 3) ||| c <<< 0 = 64 * a + 8 * b + c := by
  interval_cases a <;> interval_cases b <;> interval_cases c <;> rfl

theorem perms_octal_step_digit (value : List Char) (p j a : Nat) (ha : a ≤ 7)
    (h : (char_at value j).toNat = 48 + a) :
    perms_octal_step value (some p) j = some (p ||| (a <<< (3 * (2 - j)))) := by
  unfold perms_octal_step
  have hv : (((char_at value j).toNat : Int) - 48) = (a : Int) := by
    rw [h]
    push_cast
    ring
  simp only [hv]
  have : ¬ ((a : Int) < 0 ∨ (a : Int) > 7) := by omega
  rw [if_neg this]
  simp

theorem perms_octal_step_bad (value : List Char) (p j : Nat)
    (h : ¬ (48 ≤ (char_at value j).toNat ∧ (char_at value j).toNat ≤ 55)) :
    perms_octal_step value (some p) j = none := by
  unfold perms_octal_step
  have : (((char_at value j).toNat : Int) - 48 < 0 ∨ ((char_at value j).toNat : Int) - 48 > 7) := by
    omega
  simp only [this, if_true]

theorem perms_octal_step_none (value : List Char) (j : Nat) :
    perms_octal_step value none j = none := rfl

theorem perms_octal_digits (x y z : Char) (a b c : Nat) (ha : a ≤ 7) (hb : b ≤ 7) (hc : c ≤ 7)
    (hx : x.toNat = 48 + a) (hy : y.toNat = 48 + b) (hz : z.toNat = 48 + c) :
    perms_octal [x, y, z] = some (64 * a + 8 * b + c) := by
  unfold perms_octal
  simp only [List.foldl]
  rw [perms_octal_step_digit [x, y, z] 0 0 a ha hx,
    perms_octal_step_digit [x, y, z] _ 1 b hb hy,
    perms_octal_step_digit [x, y, z] _ 2 c hc hz]
  exact congrArg some (octal_bits a b c ha hb hc)

theorem perms_octal_bad (x y z : Char)
    (h : ¬ ((48 ≤ x.toNat ∧ x.toNat ≤ 55) ∧ (48 ≤ y.toNat ∧ y.toNat ≤ 55) ∧
      (48 ≤ z.toNat ∧ z.toNat ≤ 55))) :
    perms_octal [x, y, z] = none := by
  unfold perms_octal
  simp only [List.foldl]
  by_cases hx : 48 ≤ x.toNat ∧ x.toNat ≤ 55
  · have hx1 := perms_octal_step_digit [x, y, z] 0 0 (x.toNat - 48) (by omega)
      (by show x.toNat = 48 + (x.toNat - 48); omega)
    rw [hx1]
    by_cases hy : 48 ≤ y.toNat ∧ y.toNat ≤ 55
    · have hy1 := perms_octal_step_digit [x, y, z] (0 ||| (x.toNat - 48) <<< (3 * (2 - 0))) 1
        (y.toNat - 48) (by omega) (by show y.toNat = 48 + (y.toNat - 48); omega)
      rw [hy1]
      exact perms_octal_step_bad [x, y, z] _ 2 (fun hz => h ⟨hx, hy, hz⟩)
    · rw [perms_octal_step_bad [x, y, z] _ 1 hy]
      rfl
  · rw [perms_octal_step_bad [x, y, z] 0 0 hx]
    rfl

theorem get_url_perms_skip (pre : List (List Char)) (rest : List (List Char)) (perms : Nat)
    (hpre : ∀ x ∈ pre, is_x_mod x = false) :
    get_url_perms (pre ++ rest) perms = get_url_perms rest perms := by
  induction pre with
  | nil => rfl
  | cons a pre ih =>
    have ha : is_x_mod a = false := hpre a (List.mem_cons_self _ _)
    have step : get_url_perms (a :: (pre ++ rest)) perms = get_url_perms (pre ++ rest) perms := by
      rw [get_url_perms]
      simp only [ha, Bool.false_eq_true, if_false]
    show get_url_perms (a :: (pre ++ rest)) perms = _
    rw [step]
    exact ih (fun x hx => hpre x (List.mem_cons_of_mem _ hx))

theorem get_url_perms_at (e : List Char) (post : List (List Char)) (perms : Nat)
    (he : is_x_mod e = true) :
    get_url_perms (e :: post) perms =
      match perms_of_value (x_mod_value e) with
      | none => (LDAP_OTHER, perms)
      | some p => (LDAP_SUCCESS, p) := by
  rw [get_url_perms]
  simp only [he, if_true]

/-- C13. On an extension list whose first `x-mod` entry has the value `v`,
`get_url_perms` returns `LDAP_SUCCESS` with `*perms = 64a + 8b + c` when `v` is
three octal digits `abc` or `0` followed by them; it returns `LDAP_OTHER` and
leaves `*perms` as it was when `v` has length 3 or 4 and is not of that form,
or has a length other than 3, 4 and 10, or when no extension is an `x-mod`
entry. -/
theorem get_url_perms_octal (pre post : List (List Char)) (e : List Char) (perms : Nat)
    (hpre : ∀ x ∈ pre, is_x_mod x = false) (he : is_x_mod e = true) :
    (∀ (x y z : Char) (a b c : Nat), a ≤ 7 → b ≤ 7 → c ≤ 7 →
      x.toNat = 48 + a → y.toNat = 48 + b → z.toNat = 48 + c →
      (x_mod_value e = [x, y, z] ∨ x_mod_value e = ['0', x, y, z]) →
      get_url_perms (pre ++ e :: post) perms = (LDAP_SUCCESS, 64 * a + 8 * b + c)) ∧
    (∀ x y z : Char, x_mod_value e = [x, y, z] →
      ¬ ((48 ≤ x.toNat ∧ x.toNat ≤ 55) ∧ (48 ≤ y.toNat ∧ y.toNat ≤ 55) ∧
        (48 ≤ z.toNat ∧ z.toNat ≤ 55)) →
      get_url_perms (pre ++ e :: post) perms = (LDAP_OTHER, perms)) ∧
    (∀ w x y z : Char, x_mod_value e = [w, x, y, z] →
      ¬ (w = '0' ∧ (48 ≤ x.toNat ∧ x.toNat ≤ 55) ∧ (48 ≤ y.toNat ∧ y.toNat ≤ 55) ∧
        (48 ≤ z.toNat ∧ z.toNat ≤ 55)) →
      get_url_perms (pre ++ e :: post) perms = (LDAP_OTHER, perms)) ∧
    ((x_mod_value e).length ≠ 3 → (x_mod_value e).length ≠ 4 → (x_mod_value e).length ≠ 10 →
      get_url_perms (pre ++ e :: post) perms = (LDAP_OTHER, perms)) ∧
    (∀ exts : List (List Char), (∀ x ∈ exts, is_x_mod x = false) →
      get_url_perms exts perms = (LDAP_OTHER, perms)) := by
  have hat := get_url_perms_at e post perms he
  rw [get_url_perms_skip pre (e :: post) perms hpre, hat]
  refine ⟨?_, ?_, ?_, ?_, ?_⟩
  · intro x y z a b c ha hb hc hx hy hz hv
    have hp := perms_octal_digits x y z a b c ha hb hc hx hy hz
    rcases hv with hv | hv
    · rw [hv]
      unfold perms_of_value
      simp only [List.length_cons, List.length_nil]
      rw [if_neg (by decide), if_pos (by decide), hp]
    · rw [hv]
      unfold perms_of_value
      simp only [List.length_cons, List.length_nil]
      rw [if_pos (by decide)]
      have h0 : ¬ (char_at ['0', x, y, z] 0 ≠ '0') := by
        simp [char_at]
      rw [if_neg h0]
      show (match perms_octal [x, y, z] with
        | none => (LDAP_OTHER, perms)
        | some p => (LDAP_SUCCESS, p)) = _
      rw [hp]
  · intro x y z hv hbad
    rw [hv]
    unfold perms_of_value
    simp only [List.length_cons, List.length_nil]
    rw [if_neg (by decide), if_pos (by decide), perms_octal_bad x y z hbad]
  · intro w x y z hv hbad
    rw [hv]
    unfold perms_of_value
    simp only [List.length_cons, List.length_nil]
    rw [if_pos (by decide)]
    by_cases hw : w = '0'
    · have h0 : ¬ (char_at [w, x, y, z] 0 ≠ '0') := by
        simp [char_at, hw]
      rw [if_neg h0]
      show (match perms_octal [x, y, z] with
        | none => (LDAP_OTHER, perms)
        | some p => (LDAP_SUCCESS, p)) = _
      rw [perms_octal_bad x y z (fun h => hbad ⟨hw, h⟩)]
    · have h0 : char_at [w, x, y, z] 0 ≠ '0' := by
        simp [char_at, hw]
      rw [if_pos h0]
  · intro h3 h4 h10
    unfold perms_of_value
    rw [if_neg h4, if_neg h3, if_neg h10]
  · intro exts hx
    have := get_url_perms_skip exts [] perms hx
    rw [List.append_nil] at this
    rw [this]
    rfl

/-- Witness of C13: the extension list of `ldapi://%2Ftmp%2Fd.sock?x-mod=0770`
gives mode 0770, that is 504. -/
theorem get_url_perms_octal_witness :
    is_x_mod "x-mod=0770".toList = true ∧
    get_url_perms ([] ++ "x-mod=0770".toList :: []) 0 = (LDAP_SUCCESS, 64 * 7 + 8 * 7 + 0) :=
  ⟨by decide,
    (get_url_perms_octal [] [] "x-mod=0770".toList 0 (by simp) (by decide)).1
      '7' '7' '0' 7 7 0 (by decide) (by decide) (by decide) (by decide) (by decide) (by decide)
      (Or.inr (by decide))⟩

/-- C12, the code at the failing input `ldap://no-such-host.invalid/????x-mod=0770`
in a build with `LDAP_PF_LOCAL`: address resolution fails with -1 and leaves
`sal` NULL, `get_url_perms` on the well-formed `x-mod` extension then stores
`LDAP_SUCCESS` into the same `err`, and `slap_open_listener` goes on to read
`sal[0]` through the NULL pointer instead of returning non-zero. Without the
extension, or with a malformed one, it returns -1 and appends nothing. -/
theorem open_listener_loses_resolution_error :
    slap_get_listener_addresses sample_flags (env_unresolvable lud_unresolvable)
      lud_unresolvable.lud_host ldap_proto.LDAP_PROTO_TCP 389 = (-1, sal_ptr.null) ∧
    get_url_perms ["x-mod=0770".toList] 0 = (LDAP_SUCCESS, 504) ∧
    slap_open_listener sample_flags (env_unresolvable lud_unresolvable) 8 = none ∧
    slap_open_listener sample_flags
      (env_unresolvable { lud_unresolvable with lud_exts := none }) 8 =
        some { rc := -1, listeners := [] } ∧
    slap_open_listener sample_flags
      (env_unresolvable { lud_unresolvable with lud_exts := some ["x-mod=9".toList] }) 8 =
        some { rc := -1, listeners := [] } := by
  decide

/-! ## Start-up of shard 0 -/

theorem in6addr_any_index_lt (ls : List Listener) (l : Nat) :
    in6addr_any_index ls l < l ↔ ∃ i, i < l ∧ is_in6addr_any ls i = true := by
  unfold in6addr_any_index
  constructor
  · intro h
    cases hf : (List.range l).find? (is_in6addr_any ls) with
    | none =>
      rw [hf] at h
      simp at h
    | some i =>
      have hp : is_in6addr_any ls i = true := List.find?_some hf
      have hm : i ∈ List.range l := List.mem_of_find?_eq_some hf
      exact ⟨i, List.mem_range.mp hm, hp⟩
  · rintro ⟨i, hi, hp⟩
    cases hf : (List.range l).find? (is_in6addr_any ls) with
    | none =>
      have := List.find?_eq_none.mp hf i (List.mem_range.mpr hi)
      exact absurd hp this
    | some j =>
      have hm : j ∈ List.range l := List.mem_of_find?_eq_some hf
      simpa using List.mem_range.mp hm

/-- C14, counterexample. In the daemon `two_ports` listener 0 is bound to the
IPv6 wildcard address on port 636 and listener 1 to the IPv4 wildcard address
on port 389, so no earlier listener is on the port of listener 1. When `listen`
fails on listener 1 with `EADDRINUSE`, listener 1 is dropped all the same:
descriptor 2 is closed, `sl_sd` becomes `AC_SOCKET_INVALID`, `slapd_shutdown`
stays 0 and start-up completes with `slapd_ready = 1`. -/
theorem wildcard_dropped_on_other_port :
    (two_ports.slap_listeners.map (fun lr => (lr.sl_sa.sa_family, lr.sl_sa.addr, lr.sl_sa.port))) =
      [(AF_INET6, INADDR_ANY, 636), (AF_INET, INADDR_ANY, 389)] ∧
    (listen_body sample_flags env_addrinuse two_ports 1
      (bound_listener 2
        { sa_family := AF_INET, addr := INADDR_ANY, port := 389, sun_path := [] })).aborted =
      false ∧
    (slapd_daemon_task_init sample_flags env_addrinuse two_ports 0 0).1.st.slap_listeners.map
      Listener.sl_sd = [1, AC_SOCKET_INVALID] ∧
    (slapd_daemon_task_init sample_flags env_addrinuse two_ports 0 0).1.closed = [2] ∧
    (slapd_daemon_task_init sample_flags env_addrinuse two_ports 0 0).1.aborted = false ∧
    (slapd_daemon_task_init sample_flags env_addrinuse two_ports 0 0).1.st.slapd_shutdown = 0 ∧
    (slapd_daemon_task_init sample_flags env_addrinuse two_ports 0 0).2 = 1 := by
  decide

/-- C14, amended. During start-up on shard 0, when `listen` fails on the
listener number `l`: the listener is dropped (its descriptor closed and set to
`AC_SOCKET_INVALID`, `slapd_shutdown` untouched, the loop going on) if and only
if the build has `LDAP_PF_INET6`, the error is `EADDRINUSE`, the listener is
bound to the IPv4 wildcard address, and an earlier listener in `slap_listeners`
is bound to the IPv6 wildcard address, whatever its port; in every other case
the pass ends start-up with `slapd_shutdown = 2`. -/
theorem listen_failure_drop_iff (flags : build_flags) (env : listen_env) (st : Daemon) (l : Nat)
    (lr : Listener) (hl : st.slap_listeners[l]? = some lr) (hsd : lr.sl_sd ≠ AC_SOCKET_INVALID)
    (hudp : (flags.LDAP_CONNECTIONLESS && decide (lr.sl_is_udp ≠ 0)) = false)
    (hfail : env.listen_rc l = -1) :
    ((flags.LDAP_PF_INET6 = true ∧ env.listen_err l = EADDRINUSE ∧
        lr.sl_sa.sa_family = AF_INET ∧ lr.sl_sa.addr = INADDR_ANY ∧
        ∃ i, i < l ∧ is_in6addr_any st.slap_listeners i = true) →
      (listen_body flags env st l lr).aborted = false ∧
      (listen_body flags env st l lr).closed = [lr.sl_sd] ∧
      ((listen_body flags env st l lr).st.slap_listeners[l]?).map Listener.sl_sd =
        some AC_SOCKET_INVALID ∧
      (listen_body flags env st l lr).st.slapd_shutdown = st.slapd_shutdown) ∧
    (¬ (flags.LDAP_PF_INET6 = true ∧ env.listen_err l = EADDRINUSE ∧
        lr.sl_sa.sa_family = AF_INET ∧ lr.sl_sa.addr = INADDR_ANY ∧
        ∃ i, i < l ∧ is_in6addr_any st.slap_listeners i = true) →
      (listen_body flags env st l lr).aborted = true ∧
      (listen_body flags env st l lr).closed = [] ∧
      (listen_body flags env st l lr).st.slapd_shutdown = 2 ∧
      (listen_body flags env st l lr).st.slap_listeners = st.slap_listeners) := by
  constructor
  · rintro ⟨h1, h2, h3, h4, h5⟩
    have hc : flags.LDAP_PF_INET6 = true ∧ env.listen_err l = EADDRINUSE ∧
        lr.sl_sa.sa_family = AF_INET ∧ lr.sl_sa.addr = INADDR_ANY ∧
        in6addr_any_index st.slap_listeners l < l :=
      ⟨h1, h2, h3, h4, (in6addr_any_index_lt _ _).mpr h5⟩
    unfold listen_body
    rw [if_neg hsd, hudp, if_neg (by simp), if_pos hfail, if_pos hc]
    refine ⟨rfl, rfl, ?_, rfl⟩
    show Option.map Listener.sl_sd
      ((st.slap_listeners.set l { lr with sl_sd := AC_SOCKET_INVALID })[l]?) = _
    rw [getElem?_set_same _ l lr _ hl]
    rfl
  · intro hn
    have hc : ¬ (flags.LDAP_PF_INET6 = true ∧ env.listen_err l = EADDRINUSE ∧
        lr.sl_sa.sa_family = AF_INET ∧ lr.sl_sa.addr = INADDR_ANY ∧
        in6addr_any_index st.slap_listeners l < l) := by
      rintro ⟨h1, h2, h3, h4, h5⟩
      exact hn ⟨h1, h2, h3, h4, (in6addr_any_index_lt _ _).mp h5⟩
    unfold listen_body
    rw [if_neg hsd, hudp, if_neg (by simp), if_pos hfail, if_neg hc]
    exact ⟨rfl, rfl, rfl, rfl⟩

/-- Witness of C14, amended: listener 1 of `two_ports` with `EADDRINUSE`. -/
theorem listen_failure_drop_iff_witness :
    two_ports.slap_listeners[1]? =
      some (bound_listener 2
        { sa_family := AF_INET, addr := INADDR_ANY, port := 389, sun_path := [] }) ∧
    (listen_body sample_flags env_addrinuse two_ports 1
      (bound_listener 2
        { sa_family := AF_INET, addr := INADDR_ANY, port := 389, sun_path := [] })).closed =
      [2] :=
  ⟨by decide,
    ((listen_failure_drop_iff sample_flags env_addrinuse two_ports 1
      (bound_listener 2 { sa_family := AF_INET, addr := INADDR_ANY, port := 389, sun_path := [] })
      (by decide) (by decide) (by decide) (by decide)).1
      ⟨by decide, by decide, by decide, by decide, 0, by decide, by decide⟩).2.1⟩

/-! ## Peer credentials -/

theorem sprintf_u_length (n : Nat) : (sprintf_u n).length ≤ 10 := by
  unfold sprintf_u Nat.toDigits
  have h : n % 2 ^ 32 < 10 ^ 10 := by
    have : n % 2 ^ 32 < 2 ^ 32 := Nat.mod_lt _ (by decide)
    have h2 : (2 : Nat) ^ 32 < 10 ^ 10 := by norm_num
    omega
  exact Nat.toDigitsCore_length 10 (by decide) _ _ 10 h (by decide)

theorem sprintf_u_decimal (n : Nat) (h : n < 2 ^ 32) : sprintf_u n = (toString n).toList := by
  unfold sprintf_u
  rw [Nat.mod_eq_of_lt h]
  rfl

/-- C15. For every peer uid and gid in `[0, 2^32)` the identity that
`slap_listener` builds for a local connection is the string
`gidNumber=<gid>+uidNumber=<uid>,cn=peercred,cn=external,cn=auth` with both
numbers in decimal; its length is at most the length of the string for
`gid = uid = 4294967295`, so the assertion on `authid.bv_len` holds and the
string with its terminating NUL fits the allocated buffer. -/
theorem peercred_authid_fits (uid gid : Nat) (hu : uid < 2 ^ 32) (hg : gid < 2 ^ 32) :
    slap_listener_authid 0 uid gid =
      some ("gidNumber=".toList ++ (toString gid).toList ++ "+uidNumber=".toList ++
        (toString uid).toList ++ ",cn=peercred,cn=external,cn=auth".toList) ∧
    slap_listener_authid 0 4294967295 4294967295 = some PEERCRED_MAX ∧
    (∀ authid, slap_listener_authid 0 uid gid = some authid →
      authid.length ≤ PEERCRED_MAX.length ∧ authid.length + 1 ≤ peercred_bufsize) := by
  refine ⟨?_, by decide, ?_⟩
  · unfold slap_listener_authid
    rw [if_pos rfl, sprintf_u_decimal gid hg, sprintf_u_decimal uid hu]
  · intro authid h
    unfold slap_listener_authid at h
    rw [if_pos rfl] at h
    have ha := (Option.some.inj h).symm
    have hlen : authid.length =
        10 + (sprintf_u gid).length + 11 + (sprintf_u uid).length + 32 := by
      rw [ha]
      simp only [List.length_append]
      rfl
    have h1 := sprintf_u_length gid
    have h2 := sprintf_u_length uid
    have hmax : PEERCRED_MAX.length = 73 := by decide
    unfold peercred_bufsize
    omega

/-- Witness of C15: uid 1000 and gid 1000. -/
theorem peercred_authid_fits_witness :
    slap_listener_authid 0 1000 1000 =
      some "gidNumber=1000+uidNumber=1000,cn=peercred,cn=external,cn=auth".toList ∧
    slap_listener_authid 0 1000 1000 =
      some ("gidNumber=".toList ++ (toString 1000).toList ++ "+uidNumber=".toList ++
        (toString 1000).toList ++ ",cn=peercred,cn=external,cn=auth".toList) :=
  ⟨by decide, (peercred_authid_fits 1000 1000 (by decide) (by decide)).1⟩

/-! ## Gentle shutdown -/

theorem slapd_remove_scalars (st : Daemon) (s wasactive wake locked : Int) :
    (slapd_remove st s wasactive wake locked).listening = st.listening ∧
    (slapd_remove st s wasactive wake locked).slapd_gentle_shutdown = st.slapd_gentle_shutdown ∧
    (slapd_remove st s wasactive wake locked).slapd_shutdown = st.slapd_shutdown ∧
    (slapd_remove st s wasactive wake locked).slapd_abrupt_shutdown = st.slapd_abrupt_shutdown ∧
    (slapd_remove st s wasactive wake locked).slapd_daemon_threads = st.slapd_daemon_threads := by
  unfold slapd_remove SLAP_SOCK_DEL Daemon.nactives_add Daemon.nwriters_add Daemon.set_shard
  simp only []
  split_ifs <;> exact ⟨rfl, rfl, rfl, rfl, rfl⟩

theorem upd_nactives (a : Int → slap_daemon_st) (i t : Int) (v : slap_daemon_st)
    (h : v.sd_nactives = (a i).sd_nactives) : (upd a i v t).sd_nactives = (a t).sd_nactives := by
  unfold upd
  by_cases c : t = i
  · rw [if_pos c, h, c]
  · rw [if_neg c]

theorem set_shard_nactives (st : Daemon) (t : Int) (v : slap_daemon_st) (t' : Int)
    (h : v.sd_nactives = (st.slap_daemon t).sd_nactives) :
    ((st.set_shard t v).slap_daemon t').sd_nactives = (st.slap_daemon t').sd_nactives :=
  upd_nactives _ _ _ _ h

theorem SLAP_SOCK_DEL_nactives (st : Daemon) (t s t' : Int) :
    ((SLAP_SOCK_DEL st t s).slap_daemon t').sd_nactives = (st.slap_daemon t').sd_nactives := by
  unfold SLAP_SOCK_DEL
  simp only []
  split_ifs
  · rfl
  · exact set_shard_nactives _ _ _ _ rfl

theorem nwriters_add_nactives (st : Daemon) (t d t' : Int) :
    ((st.nwriters_add t d).slap_daemon t').sd_nactives = (st.slap_daemon t').sd_nactives :=
  set_shard_nactives _ _ _ _ rfl

theorem slapd_remove_nactives (st : Daemon) (s wake locked t : Int) :
    ((slapd_remove st s 0 wake locked).slap_daemon t).sd_nactives =
      (st.slap_daemon t).sd_nactives := by
  unfold slapd_remove
  simp only [ne_eq, not_true_eq_false, if_false]
  rw [(slapd_remove_tail _ s).1, SLAP_SOCK_DEL_nactives]
  split_ifs
  · exact nwriters_add_nactives _ _ _ _
  · rfl

theorem slapd_remove_listeners_closed (st : Daemon) (s wasactive wake locked : Int)
    (h : st.listening = 0) :
    (slapd_remove st s wasactive wake locked).slap_listeners = st.slap_listeners := by
  rw [slapd_remove_listeners, if_neg]
  intro c
  exact c.2 h

theorem close_listeners_loop_spec (remove : Int) :
    ∀ (fuel l : Nat) (st : Daemon) (closed : List Int), st.listening = 0 →
      st.slap_listeners.length ≤ l + fuel →
      (close_listeners_loop remove fuel l st closed).1.listening = 0 ∧
      (close_listeners_loop remove fuel l st closed).1.slapd_gentle_shutdown =
        st.slapd_gentle_shutdown ∧
      (close_listeners_loop remove fuel l st closed).1.slapd_shutdown = st.slapd_shutdown ∧
      (close_listeners_loop remove fuel l st closed).1.slapd_abrupt_shutdown =
        st.slapd_abrupt_shutdown ∧
      (close_listeners_loop remove fuel l st closed).1.slapd_daemon_threads =
        st.slapd_daemon_threads ∧
      (∀ t, ((close_listeners_loop remove fuel l st closed).1.slap_daemon t).sd_nactives =
        (st.slap_daemon t).sd_nactives) ∧
      (∀ (i : Nat) (lr : Listener),
        (close_listeners_loop remove fuel l st closed).1.slap_listeners[i]? = some lr →
        (i < l → st.slap_listeners[i]? = some lr) ∧ (l ≤ i → lr.sl_sd = AC_SOCKET_INVALID)) := by
  intro fuel
  induction fuel with
  | zero =>
    intro l st closed hl hlen
    refine ⟨hl, rfl, rfl, rfl, rfl, fun _ => rfl, ?_⟩
    intro i lr hi
    refine ⟨fun _ => hi, fun hle => ?_⟩
    have : st.slap_listeners[i]? = none := List.getElem?_eq_none (by omega)
    have hi' : st.slap_listeners[i]? = some lr := hi
    rw [this] at hi'
    exact absurd hi' (by simp)
  | succ fuel ih =>
    intro l st closed hl hlen
    unfold close_listeners_loop
    cases hget : st.slap_listeners[l]? with
    | none =>
      simp only []
      refine ⟨hl, trivial, trivial, trivial, trivial, fun _ => trivial, ?_⟩
      intro i lr hi
      refine ⟨fun _ => hi, fun hle => ?_⟩
      have hlen2 : st.slap_listeners.length ≤ l := by
        by_contra c
        have hlt : l < st.slap_listeners.length := by omega
        rw [List.getElem?_eq_getElem hlt] at hget
        exact absurd hget (by simp)
      have : st.slap_listeners[i]? = none := List.getElem?_eq_none (by omega)
      have hi' : st.slap_listeners[i]? = some lr := hi
      rw [this] at hi'
      exact absurd hi' (by simp)
    | some lr0 =>
      simp only []
      by_cases hsd : lr0.sl_sd ≠ AC_SOCKET_INVALID
      · rw [if_pos hsd]
        have hset : ∀ X : Daemon, X = st.set_listener l { lr0 with sl_sd := AC_SOCKET_INVALID } →
            (if remove ≠ 0 then slapd_remove X lr0.sl_sd 0 0 0 else X).listening = 0 ∧
            (if remove ≠ 0 then slapd_remove X lr0.sl_sd 0 0 0 else X).slapd_gentle_shutdown =
              st.slapd_gentle_shutdown ∧
            (if remove ≠ 0 then slapd_remove X lr0.sl_sd 0 0 0 else X).slapd_shutdown =
              st.slapd_shutdown ∧
            (if remove ≠ 0 then slapd_remove X lr0.sl_sd 0 0 0 else X).slapd_abrupt_shutdown =
              st.slapd_abrupt_shutdown ∧
            (if remove ≠ 0 then slapd_remove X lr0.sl_sd 0 0 0 else X).slapd_daemon_threads =
              st.slapd_daemon_threads ∧
            (∀ t, ((if remove ≠ 0 then slapd_remove X lr0.sl_sd 0 0 0 else X).slap_daemon
              t).sd_nactives = (st.slap_daemon t).sd_nactives) ∧
            (if remove ≠ 0 then slapd_remove X lr0.sl_sd 0 0 0 else X).slap_listeners =
              st.slap_listeners.set l { lr0 with sl_sd := AC_SOCKET_INVALID } := by
          intro X hX
          have hXl : X.listening = 0 := by rw [hX]; exact hl
          by_cases hr : remove ≠ 0
          · rw [if_pos hr]
            obtain ⟨a1, a2, a3, a4, a5⟩ := slapd_remove_scalars X lr0.sl_sd 0 0 0
            refine ⟨a1.trans hXl, ?_, ?_, ?_, ?_, ?_, ?_⟩
            · rw [a2, hX]; rfl
            · rw [a3, hX]; rfl
            · rw [a4, hX]; rfl
            · rw [a5, hX]; rfl
            · intro t
              rw [slapd_remove_nactives, hX]
              rfl
            · rw [slapd_remove_listeners_closed X _ _ _ _ hXl, hX]
              rfl
          · rw [if_neg hr, hX]
            exact ⟨hl, rfl, rfl, rfl, rfl, fun _ => rfl, rfl⟩
        obtain ⟨b1, b2, b3, b4, b5, b6, b7⟩ := hset _ rfl
        have hlen' : (if remove ≠ 0 then
            slapd_remove (st.set_listener l { lr0 with sl_sd := AC_SOCKET_INVALID }) lr0.sl_sd 0 0 0
            else st.set_listener l { lr0 with sl_sd := AC_SOCKET_INVALID }).slap_listeners.length ≤
            (l + 1) + fuel := by
          rw [b7, List.length_set]
          omega
        obtain ⟨c1, c2, c3, c4, c5, c6, c7⟩ := ih (l + 1) _ (closed ++ [lr0.sl_sd]) b1 hlen'
        refine ⟨c1, c2.trans b2, c3.trans b3, c4.trans b4, c5.trans b5,
          fun t => (c6 t).trans (b6 t), ?_⟩
        intro i lr hi
        obtain ⟨d1, d2⟩ := c7 i lr hi
        constructor
        · intro hlt
          have := d1 (by omega)
          rw [b7, List.getElem?_set_ne (by omega)] at this
          exact this
        · intro hle
          rcases Nat.eq_or_lt_of_le hle with e | e
          · have := d1 (by omega)
            rw [b7, ← e, getElem?_set_same _ l lr0 _ hget] at this
            rw [← Option.some.inj this]
          · exact d2 (by omega)
      · rw [if_neg hsd]
        have hsd' : lr0.sl_sd = AC_SOCKET_INVALID := not_not.mp hsd
        obtain ⟨c1, c2, c3, c4, c5, c6, c7⟩ := ih (l + 1) st closed hl (by omega)
        refine ⟨c1, c2, c3, c4, c5, c6, ?_⟩
        intro i lr hi
        obtain ⟨d1, d2⟩ := c7 i lr hi
        constructor
        · intro hlt
          exact d1 (by omega)
        · intro hle
          rcases Nat.eq_or_lt_of_le hle with e | e
          · have := d1 (by omega)
            rw [← e, hget] at this
            rw [← Option.some.inj this]
            exact hsd'
          · exact d2 (by omega)

theorem close_listeners_scalars (remove : Int) (st : Daemon) :
    (close_listeners remove st).1.listening = 0 ∧
    (close_listeners remove st).1.slapd_gentle_shutdown = st.slapd_gentle_shutdown ∧
    (close_listeners remove st).1.slapd_shutdown = st.slapd_shutdown ∧
    (close_listeners remove st).1.slapd_abrupt_shutdown = st.slapd_abrupt_shutdown ∧
    (close_listeners remove st).1.slapd_daemon_threads = st.slapd_daemon_threads ∧
    (∀ t, ((close_listeners remove st).1.slap_daemon t).sd_nactives =
      (st.slap_daemon t).sd_nactives) := by
  unfold close_listeners
  by_cases h : st.listening = 0
  · rw [if_pos h]
    exact ⟨h, rfl, rfl, rfl, rfl, fun _ => rfl⟩
  · rw [if_neg h]
    obtain ⟨c1, c2, c3, c4, c5, c6, _⟩ := close_listeners_loop_spec remove
      st.slap_listeners.length 0 { st with listening := 0 } [] rfl (by simp)
    exact ⟨c1, c2, c3, c4, c5, c6⟩

theorem close_listeners_closed (remove : Int) (st : Daemon)
    (h : st.listening ≠ 0 ∨ ∀ lr ∈ st.slap_listeners, lr.sl_sd = AC_SOCKET_INVALID) :
    ∀ lr ∈ (close_listeners remove st).1.slap_listeners, lr.sl_sd = AC_SOCKET_INVALID := by
  unfold close_listeners
  by_cases h0 : st.listening = 0
  · rw [if_pos h0]
    rcases h with h | h
    · exact absurd h0 h
    · exact h
  · rw [if_neg h0]
    obtain ⟨_, _, _, _, _, _, c7⟩ := close_listeners_loop_spec remove
      st.slap_listeners.length 0 { st with listening := 0 } [] rfl (by simp)
    intro lr hlr
    obtain ⟨i, hi⟩ := List.getElem?_of_mem hlr
    exact (c7 i lr hi).2 (Nat.zero_le _)

theorem foldl_nonneg_zero (f : Nat → Int) :
    ∀ (n : Nat) (a : Int), (∀ k, k < n → 0 ≤ f k) → 0 ≤ a →
      0 ≤ (List.range n).foldl (fun acc (k : Nat) => acc + f k) a ∧
      ((List.range n).foldl (fun acc (k : Nat) => acc + f k) a = 0 →
        a = 0 ∧ ∀ k, k < n → f k = 0) := by
  intro n
  induction n with
  | zero =>
    intro a _ ha
    exact ⟨ha, fun h => ⟨h, fun k hk => absurd hk (by omega)⟩⟩
  | succ n ih =>
    intro a hf ha
    rw [List.range_succ, List.foldl_append]
    obtain ⟨i1, i2⟩ := ih a (fun k hk => hf k (by omega)) ha
    have hn := hf n (by omega)
    constructor
    · show 0 ≤ (List.range n).foldl (fun acc (k : Nat) => acc + f k) a + f n
      omega
    · intro h
      have h' : (List.range n).foldl (fun acc (k : Nat) => acc + f k) a + f n = 0 := h
      obtain ⟨j1, j2⟩ := i2 (by omega)
      refine ⟨j1, fun k hk => ?_⟩
      rcases Nat.eq_or_lt_of_le (Nat.le_of_lt_succ hk) with e | e
      · rw [e]; omega
      · exact j2 k e

/-! ## Return value of `slapd_daemon` -/

theorem CLR_READ_not_read (st : Daemon) (t s : Int) :
    SLAP_SOCK_IS_READ (SLAP_SOCK_CLR_READ st t s) t s = false := by
  rw [Bool.eq_false_iff]
  intro hr
  rw [IS_READ_iff] at hr
  apply hr
  unfold SLAP_SOCK_CLR_READ SLAP_EPOLL_SOCK_CLR
  by_cases c : SLAP_EPOLL_SOCK_EV st t s &&& EPOLLIN ≠ 0
  · rw [if_pos c]
    unfold SLAP_EPOLL_SOCK_EV_set
    simp only [set_shard_same, upd_same]
    exact clr_in_and_in _
  · rw [if_neg c]
    exact not_not.mp c

theorem CLR_READ_active (st : Daemon) (t s : Int) :
    SLAP_SOCK_IS_ACTIVE (SLAP_SOCK_CLR_READ st t s) t s = SLAP_SOCK_IS_ACTIVE st t s := by
  unfold SLAP_SOCK_CLR_READ SLAP_EPOLL_SOCK_CLR
  split_ifs
  · unfold SLAP_EPOLL_SOCK_EV_set SLAP_SOCK_IS_ACTIVE SLAP_EPOLL_SOCK_IX
    simp only [set_shard_same]
  · rfl

/-- C18, counterexample. In the daemon `sample_session` descriptor 7 is active
on shard `DAEMON_ID(7)` and `slapd_clr_read(7)` returns 0; descriptor 5 is not
active and `slapd_clr_read(5)` returns 1. -/
theorem clr_read_returns_zero_when_active :
    SLAP_SOCK_IS_ACTIVE sample_session (DAEMON_ID sample_session 7) 7 = true ∧
    (slapd_clr_read sample_session 7 0).2 = 0 ∧
    SLAP_SOCK_IS_ACTIVE sample_session (DAEMON_ID sample_session 5) 5 = false ∧
    (slapd_clr_read sample_session 5 0).2 = 1 := by
  decide

/-- C18, amended. `slapd_clr_read(s, wake)` returns 0 if and only if `s` was
active on shard `DAEMON_ID(s)` when it was called, and 1 otherwise; when it
returns 0, `s` is still active and no longer read-armed afterwards; when it
returns 1 the state is unchanged. -/
theorem slapd_clr_read_returns (st : Daemon) (s wake : Int) :
    ((slapd_clr_read st s wake).2 = 0 ↔ SLAP_SOCK_IS_ACTIVE st (DAEMON_ID st s) s = true) ∧
    ((slapd_clr_read st s wake).2 = 1 ↔ SLAP_SOCK_IS_ACTIVE st (DAEMON_ID st s) s = false) ∧
    ((slapd_clr_read st s wake).2 = 0 →
      SLAP_SOCK_IS_READ (slapd_clr_read st s wake).1 (DAEMON_ID st s) s = false ∧
      SLAP_SOCK_IS_ACTIVE (slapd_clr_read st s wake).1 (DAEMON_ID st s) s = true) ∧
    ((slapd_clr_read st s wake).2 = 1 → (slapd_clr_read st s wake).1 = st) := by
  have h01 : ¬ ((0 : Int) = 1) := by decide
  have h10 : ¬ ((1 : Int) = 0) := by decide
  unfold slapd_clr_read
  by_cases h : SLAP_SOCK_IS_ACTIVE st (DAEMON_ID st s) s = true
  · rw [if_pos h]
    refine ⟨⟨fun _ => h, fun _ => rfl⟩, ⟨fun c => absurd c h01, fun c => ?_⟩,
      fun _ => ⟨CLR_READ_not_read _ _ _, ?_⟩, fun c => absurd c h01⟩
    · rw [h] at c
      exact absurd c (by simp)
    · rw [CLR_READ_active]
      exact h
  · have hf : SLAP_SOCK_IS_ACTIVE st (DAEMON_ID st s) s = false := by
      simpa using h
    rw [if_neg h]
    exact ⟨⟨fun c => absurd c h10, fun c => absurd c h⟩,
      ⟨fun _ => hf, fun _ => rfl⟩, fun c => absurd c h10, fun _ => rfl⟩

/-- Witness of C18, amended: descriptor 7 of `sample_session`. -/
theorem slapd_clr_read_returns_witness :
    (slapd_clr_read sample_session 7 0).2 = 0 ∧
    SLAP_SOCK_IS_READ (slapd_clr_read sample_session 7 0).1 (DAEMON_ID sample_session 7) 7 =
      false :=
  ⟨by decide, ((slapd_clr_read_returns sample_session 7 0).2.2.1 (by decide)).1⟩

/-! ## Removing a descriptor twice -/

theorem SET_READ_is_read (st : Daemon) (t s : Int) :
    SLAP_SOCK_IS_READ (SLAP_SOCK_SET_READ st t s) t s = true := by
  rw [IS_READ_iff]
  unfold SLAP_SOCK_SET_READ SLAP_EPOLL_SOCK_SET
  by_cases c : SLAP_EPOLL_SOCK_EV st t s &&& EPOLLIN ≠ EPOLLIN
  · rw [if_pos c]
    unfold SLAP_EPOLL_SOCK_EV_set
    simp only [set_shard_same, upd_same]
    exact or_in_and_in _
  · rw [if_neg c]
    have e : SLAP_EPOLL_SOCK_EV st t s &&& EPOLLIN = EPOLLIN := not_not.mp c
    show SLAP_EPOLL_SOCK_EV st t s &&& EPOLLIN ≠ 0
    rw [e]
    decide

theorem read_macro_form (st : Daemon) (t s : Int) :
    (SLAP_SOCK_SET_READ st t s = st ∨
      ∃ ev, SLAP_SOCK_SET_READ st t s = st.set_shard t (shard_set_ev (st.slap_daemon t) s ev)) ∧
    (SLAP_SOCK_CLR_READ st t s = st ∨
      ∃ ev, SLAP_SOCK_CLR_READ st t s = st.set_shard t (shard_set_ev (st.slap_daemon t) s ev)) := by
  constructor
  · unfold SLAP_SOCK_SET_READ SLAP_EPOLL_SOCK_SET
    split_ifs
    · right
      exact ⟨_, SLAP_EPOLL_SOCK_EV_set_eq st t s _⟩
    · left; rfl
  · unfold SLAP_SOCK_CLR_READ SLAP_EPOLL_SOCK_CLR
    split_ifs
    · right
      exact ⟨_, SLAP_EPOLL_SOCK_EV_set_eq st t s _⟩
    · left; rfl

/-- What a state `st'` keeps of `st` when only the event word of one
registered descriptor of shard `t` has been rewritten. -/
theorem ev_macro_frame {st st' : Daemon} {t s : Int}
    (h : st' = st ∨ ∃ ev, st' = st.set_shard t (shard_set_ev (st.slap_daemon t) s ev))
    (hI : Inv st) (ht0 : 0 ≤ t) (ht1 : t < st.slapd_daemon_threads) (hs0 : 0 ≤ s)
    (hs1 : s < st.dtblsize) (hact : (st.slap_daemon t).sd_index s ≠ -1) :
    same_frame st st' ∧ st'.listening = st.listening ∧
    (∀ t' s', (st'.slap_daemon t').sd_index s' = (st.slap_daemon t').sd_index s') ∧
    (∀ s', 0 ≤ s' → s' < st.dtblsize → s' ≠ s →
      SLAP_SOCK_IS_READ st' t s' = SLAP_SOCK_IS_READ st t s') := by
  rcases h with h | ⟨ev, h⟩
  · subst h
    exact ⟨⟨rfl, rfl, rfl, rfl, rfl⟩, rfl, fun _ _ => rfl, fun _ _ _ _ => rfl⟩
  · subst h
    have hix := hI.2.2.1 _ ht0 ht1
    have hidx : ∀ t' s', ((st.set_shard t (shard_set_ev (st.slap_daemon t) s ev)).slap_daemon
        t').sd_index s' = (st.slap_daemon t').sd_index s' := by
      intro t' s'
      by_cases e : t' = t
      · rw [e, set_shard_same]
        rfl
      · rw [set_shard_ne _ _ e]
    refine ⟨⟨rfl, rfl, rfl, rfl, rfl⟩, rfl, hidx, ?_⟩
    intro s' a b c
    refine (status_congr (hidx t s') ?_).2.1
    rw [hidx t s', set_shard_same]
    exact (shard_set_ev_rec ev hix hs0 hs1 hact).2 s' a b c

theorem arm_listener_spec (st : Daemon) (tid : Int) (lr : Listener) (hI : Inv st)
    (ht0 : 0 ≤ tid) (ht1 : tid < st.slapd_daemon_threads)
    (hr : lr.sl_sd = AC_SOCKET_INVALID ∨ (0 ≤ lr.sl_sd ∧ lr.sl_sd < st.dtblsize)) :
    Inv (arm_listener st tid lr) ∧
    same_frame st (arm_listener st tid lr) ∧
    (arm_listener st tid lr).listening = st.listening ∧
    (∀ t' s', ((arm_listener st tid lr).slap_daemon t').sd_index s' =
      (st.slap_daemon t').sd_index s') ∧
    (∀ s', 0 ≤ s' → s' < st.dtblsize → s' ≠ lr.sl_sd →
      SLAP_SOCK_IS_READ (arm_listener st tid lr) tid s' = SLAP_SOCK_IS_READ st tid s') ∧
    (lr.sl_sd ≠ AC_SOCKET_INVALID → DAEMON_ID st lr.sl_sd = tid →
      SLAP_SOCK_IS_ACTIVE st tid lr.sl_sd = true →
      (SLAP_SOCK_IS_READ (arm_listener st tid lr) tid lr.sl_sd = true ↔
        (lr.sl_mute = 0 ∧ lr.sl_busy = 0))) := by
  have same : Inv st ∧ same_frame st st ∧ st.listening = st.listening ∧
      (∀ t' s', (st.slap_daemon t').sd_index s' = (st.slap_daemon t').sd_index s') ∧
      (∀ s', 0 ≤ s' → s' < st.dtblsize → s' ≠ lr.sl_sd →
        SLAP_SOCK_IS_READ st tid s' = SLAP_SOCK_IS_READ st tid s') :=
    ⟨hI, ⟨rfl, rfl, rfl, rfl, rfl⟩, rfl, fun _ _ => rfl, fun _ _ _ _ => rfl⟩
  unfold arm_listener
  by_cases c1 : lr.sl_sd = AC_SOCKET_INVALID
  · rw [if_pos c1]
    obtain ⟨a, b, c, d, e⟩ := same
    exact ⟨a, b, c, d, e, fun h => absurd c1 h⟩
  · rw [if_neg c1]
    by_cases c2 : DAEMON_ID st lr.sl_sd ≠ tid
    · rw [if_pos c2]
      obtain ⟨a, b, c, d, e⟩ := same
      exact ⟨a, b, c, d, e, fun _ h => absurd h c2⟩
    · rw [if_neg c2]
      by_cases c3 : SLAP_SOCK_IS_ACTIVE st tid lr.sl_sd = true
      · have c3' : ¬ ((!SLAP_SOCK_IS_ACTIVE st tid lr.sl_sd) = true) := by
          rw [c3]; decide
        rw [if_neg c3']
        have hs : 0 ≤ lr.sl_sd ∧ lr.sl_sd < st.dtblsize := by
          rcases hr with h | h
          · exact absurd h c1
          · exact h
        have hact := (IS_ACTIVE_iff _ _ _).1 c3
        by_cases c4 : lr.sl_mute ≠ 0 ∨ lr.sl_busy ≠ 0
        · rw [if_pos c4]
          obtain ⟨f1, f2, f3, f4⟩ := ev_macro_frame (read_macro_form st tid lr.sl_sd).2 hI ht0 ht1
            hs.1 hs.2 hact
          refine ⟨ Inv_clr_read_macro hI ht0 ht1 hs.1 hs.2 hact, f1, f2, f3, f4, ?_⟩
          intro _ _ _
          rw [CLR_READ_not_read]
          constructor
          · intro h
            exact absurd h (by simp)
          · intro h
            rcases c4 with c4 | c4
            · exact absurd h.1 c4
            · exact absurd h.2 c4
        · rw [if_neg c4]
          obtain ⟨f1, f2, f3, f4⟩ := ev_macro_frame (read_macro_form st tid lr.sl_sd).1 hI ht0 ht1
            hs.1 hs.2 hact
          refine ⟨ Inv_set_read_macro hI ht0 ht1 hs.1 hs.2 hact, f1, f2, f3, f4, ?_⟩
          intro _ _ _
          rw [SET_READ_is_read]
          constructor
          · intro _
            constructor
            · by_contra h
              exact c4 (Or.inl h)
            · by_contra h
              exact c4 (Or.inr h)
          · intro _
            rfl
      · have c3' : (!SLAP_SOCK_IS_ACTIVE st tid lr.sl_sd) = true := by
          simpa using c3
        rw [if_pos c3']
        obtain ⟨a, b, c, d, e⟩ := same
        exact ⟨a, b, c, d, e, fun _ _ h => absurd h c3⟩

theorem arm_fold_spec (tid : Int) :
    ∀ (ls : List Listener) (st : Daemon), Inv st → 0 ≤ tid → tid < st.slapd_daemon_threads →
      (∀ lr ∈ ls, lr.sl_sd = AC_SOCKET_INVALID ∨ (0 ≤ lr.sl_sd ∧ lr.sl_sd < st.dtblsize)) →
      ls.Pairwise (fun a b => a.sl_sd = AC_SOCKET_INVALID ∨ a.sl_sd ≠ b.sl_sd) →
      Inv (ls.foldl (fun acc lr => arm_listener acc tid lr) st) ∧
      same_frame st (ls.foldl (fun acc lr => arm_listener acc tid lr) st) ∧
      (ls.foldl (fun acc lr => arm_listener acc tid lr) st).listening = st.listening ∧
      (∀ t' s', ((ls.foldl (fun acc lr => arm_listener acc tid lr) st).slap_daemon t').sd_index s' =
        (st.slap_daemon t').sd_index s') ∧
      (∀ s', 0 ≤ s' → s' < st.dtblsize → (∀ lr ∈ ls, lr.sl_sd ≠ s') →
        SLAP_SOCK_IS_READ (ls.foldl (fun acc lr => arm_listener acc tid lr) st) tid s' =
          SLAP_SOCK_IS_READ st tid s') ∧
      (∀ lr ∈ ls, lr.sl_sd ≠ AC_SOCKET_INVALID → DAEMON_ID st lr.sl_sd = tid →
        SLAP_SOCK_IS_ACTIVE st tid lr.sl_sd = true →
        (SLAP_SOCK_IS_READ (ls.foldl (fun acc lr => arm_listener acc tid lr) st) tid lr.sl_sd =
          true ↔ (lr.sl_mute = 0 ∧ lr.sl_busy = 0))) := by
  intro ls
  induction ls with
  | nil =>
    intro st hI _ _ _ _
    exact ⟨hI, ⟨rfl, rfl, rfl, rfl, rfl⟩, rfl, fun _ _ => rfl, fun _ _ _ _ => rfl,
      fun lr h => absurd h (List.not_mem_nil lr)⟩
  | cons a rest ih =>
    intro st hI ht0 ht1 hr hp
    obtain ⟨p1, p2, p3, p4, p5, p6⟩ :=
      arm_listener_spec st tid a hI ht0 ht1 (hr a (List.mem_cons_self _ _))
    obtain ⟨hpa, hprest⟩ := List.pairwise_cons.mp hp
    have hT : (arm_listener st tid a).slapd_daemon_threads = st.slapd_daemon_threads := p2.2.1
    have hD : (arm_listener st tid a).dtblsize = st.dtblsize := p2.1
    have hM : (arm_listener st tid a).slapd_daemon_mask = st.slapd_daemon_mask := p2.2.2.1
    obtain ⟨q1, q2, q3, q4, q5, q6⟩ := ih (arm_listener st tid a) p1 ht0 (by rw [hT]; exact ht1)
      (fun lr h => by rw [hD]; exact hr lr (List.mem_cons_of_mem _ h)) hprest
    show Inv (rest.foldl (fun acc lr => arm_listener acc tid lr) (arm_listener st tid a)) ∧ _
    refine ⟨q1, ?_, q3.trans p3, fun t' s' => (q4 t' s').trans (p4 t' s'), ?_, ?_⟩
    · obtain ⟨a1, a2, a3, a4, a5⟩ := p2
      obtain ⟨b1, b2, b3, b4, b5⟩ := q2
      exact ⟨b1.trans a1, b2.trans a2, b3.trans a3, b4.trans a4, b5.trans a5⟩
    · intro s' h0 h1 hne
      exact (q5 s' h0 (by rw [hD]; exact h1)
        (fun lr h => hne lr (List.mem_cons_of_mem _ h))).trans
        (p5 s' h0 h1 (fun e => hne a (List.mem_cons_self _ _) e.symm))
    · intro lr hmem hv hid hact
      rcases List.mem_cons.mp hmem with e | e
      · subst e
        have hs : 0 ≤ lr.sl_sd ∧ lr.sl_sd < st.dtblsize := by
          rcases hr lr (List.mem_cons_self _ _) with h | h
          · exact absurd h hv
          · exact h
        have e5 := q5 lr.sl_sd hs.1 (by rw [hD]; exact hs.2) (fun b hb => by
          rcases hpa b hb with h | h
          · exact absurd h hv
          · exact fun e => h e.symm)
        show SLAP_SOCK_IS_READ
          (rest.foldl (fun acc lr => arm_listener acc tid lr) (arm_listener st tid lr)) tid
          lr.sl_sd = true ↔ _
        rw [e5]
        exact p6 hv hid hact
      · refine q6 lr e hv ?_ ?_
        · show Int.land lr.sl_sd (arm_listener st tid a).slapd_daemon_mask = tid
          rw [hM]
          exact hid
        · rw [IS_ACTIVE_iff, p4]
          exact (IS_ACTIVE_iff _ _ _).1 hact

theorem one_listener_reachable : Reachable one_listener :=
  Reachable.add_listener 0 (stream_listener 1)
    (Reachable.start zeroed 8 1 (fun _ => (3, 4)) [stream_listener 1] (by decide))
    (by decide) (by decide) (by decide) (by decide) (by decide)

/-- C20, counterexample. In the daemon `one_listener_busy` (one shard,
`listening = 1`, the listener on descriptor 1 registered on shard 0, handed to
`slap_listener_activate`, the loop right after its arming step) the listener is
not read-armed and `sl_mute` is 0: it is busy. -/
theorem busy_listener_disarmed :
    one_listener_busy.listening = 1 ∧
    one_listener_busy.slap_listeners.map (fun lr => (lr.sl_sd, lr.sl_mute, lr.sl_busy)) =
      [(1, 0, 1)] ∧
    DAEMON_ID one_listener_busy 1 = 0 ∧
    SLAP_SOCK_IS_ACTIVE one_listener_busy 0 1 = true ∧
    SLAP_SOCK_IS_READ one_listener_busy 0 1 = false := by
  decide

/-- C20, amended. While `listening` is nonzero, right after the listener-arming
step of the loop of shard `tid`, every registered listener descriptor owned by
the shard is read-armed exactly when neither `sl_mute` nor `sl_busy` is set, so
it is read-armed, muted or busy; and `slap_listener_activate` leaves the
listener busy. The state is consistent (`Inv`), and the open listeners have
pairwise different descriptors in `[0, dtblsize)`. -/
theorem listener_armed_muted_or_busy (st : Daemon) (tid : Int) (hI : Inv st) (ht0 : 0 ≤ tid)
    (ht1 : tid < st.slapd_daemon_threads) (hlisten : st.listening ≠ 0)
    (hr : ∀ lr ∈ st.slap_listeners,
      lr.sl_sd = AC_SOCKET_INVALID ∨ (0 ≤ lr.sl_sd ∧ lr.sl_sd < st.dtblsize))
    (hp : st.slap_listeners.Pairwise (fun a b => a.sl_sd = AC_SOCKET_INVALID ∨ a.sl_sd ≠ b.sl_sd)) :
    (arm_listeners st tid).slap_listeners = st.slap_listeners ∧
    (∀ lr ∈ st.slap_listeners, lr.sl_sd ≠ AC_SOCKET_INVALID → DAEMON_ID st lr.sl_sd = tid →
      SLAP_SOCK_IS_ACTIVE st tid lr.sl_sd = true →
      SLAP_SOCK_IS_ACTIVE (arm_listeners st tid) tid lr.sl_sd = true ∧
      (SLAP_SOCK_IS_READ (arm_listeners st tid) tid lr.sl_sd = true ↔
        (lr.sl_mute = 0 ∧ lr.sl_busy = 0)) ∧
      (SLAP_SOCK_IS_READ (arm_listeners st tid) tid lr.sl_sd = true ∨ lr.sl_mute ≠ 0 ∨
        lr.sl_busy ≠ 0)) ∧
    (∀ (l : Nat) (lr : Listener) (rc : Int), st.slap_listeners[l]? = some lr →
      ((slap_listener_activate st l rc).1.slap_listeners[l]?).map Listener.sl_busy = some 1) := by
  obtain ⟨q1, q2, q3, q4, q5, q6⟩ := arm_fold_spec tid st.slap_listeners st hI ht0 ht1 hr hp
  have harm : arm_listeners st tid =
      st.slap_listeners.foldl (fun acc lr => arm_listener acc tid lr) st := by
    unfold arm_listeners
    rw [if_pos hlisten]
  rw [harm]
  refine ⟨q2.2.2.2.2, ?_, ?_⟩
  · intro lr hmem hv hid hact
    have hiff := q6 lr hmem hv hid hact
    refine ⟨?_, hiff, ?_⟩
    · rw [IS_ACTIVE_iff, q4]
      exact (IS_ACTIVE_iff _ _ _).1 hact
    · by_cases hm : lr.sl_mute = 0
      · by_cases hb : lr.sl_busy = 0
        · exact Or.inl (hiff.2 ⟨hm, hb⟩)
        · exact Or.inr (Or.inr hb)
      · exact Or.inr (Or.inl hm)
  · intro l lr rc hl
    unfold slap_listener_activate
    simp only [hl]
    show Option.map Listener.sl_busy ((st.slap_listeners.set l { lr with sl_busy := 1 })[l]?) = _
    rw [getElem?_set_same _ l lr _ hl]
    rfl

/-- Witness of C20, amended: the daemon `one_listener`, whose listener is
neither muted nor busy and is read-armed after the arming step. -/
theorem listener_armed_muted_or_busy_witness :
    Inv one_listener ∧ one_listener.listening ≠ 0 ∧
    (SLAP_SOCK_IS_READ (arm_listeners one_listener 0) 0 (stream_listener 1).sl_sd = true ↔
      ((stream_listener 1).sl_mute = 0 ∧ (stream_listener 1).sl_busy = 0)) :=
  ⟨Reachable_Inv one_listener_reachable, by decide,
    ((listener_armed_muted_or_busy one_listener 0 (Reachable_Inv one_listener_reachable)
      (by decide) (by decide) (by decide)
      (fun lr h => by
        have e : lr = stream_listener 1 := by simpa [one_listener, slapd_add, SLAP_SOCK_ADD,
          Daemon.set_shard, Daemon.nactives_add, daemon_start] using h
        rw [e]
        right
        decide)
      (by
        show List.Pairwise _ [stream_listener 1]
        exact List.pairwise_singleton _ _)).2.1
      (stream_listener 1) (by
        show stream_listener 1 ∈ [stream_listener 1]
        exact List.mem_singleton.mpr rfl) (by decide) (by decide) (by decide)).2.1⟩

/-! ## The shard of a descriptor -/

theorem land_two_pow_sub_one (a k : Nat) :
    Int.land (a : Int) ((2 : Int) ^ k - 1) = (a : Int) % (2 : Int) ^ k := by
  have h1 : 1 ≤ 2 ^ k := Nat.one_le_two_pow
  have hc : ((2 : Int) ^ k - 1) = ((2 ^ k - 1 : Nat) : Int) := by
    rw [Nat.cast_sub h1]
    push_cast
    rfl
  rw [hc]
  show ((a &&& (2 ^ k - 1) : Nat) : Int) = _
  rw [Nat.and_pow_two_sub_one_eq_mod]
  push_cast
  rfl

/-- C21. For `slapd_daemon_mask = 2^k - 1` and every descriptor `fd >= 0`,
`DAEMON_ID(fd)` is `fd mod 2^k`; it lies in `[0, 2^k)`, and it is the same in
every state with this mask. -/
theorem DAEMON_ID_mod (st : Daemon) (k : Nat) (fd : Int)
    (hm : st.slapd_daemon_mask = (2 : Int) ^ k - 1) (hfd : 0 ≤ fd) :
    DAEMON_ID st fd = fd % (2 : Int) ^ k ∧
    0 ≤ DAEMON_ID st fd ∧ DAEMON_ID st fd < (2 : Int) ^ k ∧
    (∀ st' : Daemon, st'.slapd_daemon_mask = (2 : Int) ^ k - 1 →
      DAEMON_ID st' fd = DAEMON_ID st fd) := by
  obtain ⟨a, rfl⟩ := Int.eq_ofNat_of_zero_le hfd
  have hp : (0 : Int) < (2 : Int) ^ k := by positivity
  have e : DAEMON_ID st (a : Int) = (a : Int) % (2 : Int) ^ k := by
    unfold DAEMON_ID
    rw [hm]
    exact land_two_pow_sub_one a k
  refine ⟨e, ?_, ?_, ?_⟩
  · rw [e]
    exact Int.emod_nonneg _ (ne_of_gt hp)
  · rw [e]
    exact Int.emod_lt_of_pos _ hp
  · intro st' hm'
    rw [e]
    unfold DAEMON_ID
    rw [hm']
    exact land_two_pow_sub_one a k

/-- Witness of C21: four shards and descriptor 7, which is on shard 3. -/
theorem DAEMON_ID_mod_witness :
    (daemon_start zeroed 8 4 sample_wake []).slapd_daemon_mask = (2 : Int) ^ 2 - 1 ∧
    DAEMON_ID (daemon_start zeroed 8 4 sample_wake []) 7 = 7 % (2 : Int) ^ 2 :=
  ⟨by decide, (DAEMON_ID_mod (daemon_start zeroed 8 4 sample_wake []) 2 7 (by decide) (by decide)).1⟩

/-! ## The wait and the runqueue -/

/-- C22, the code at the failing input: shard 0, an idle timeout of 6 seconds,
one active session, the next runqueue task due at `now + 1`. The idle timeout
gives `tv = (1 s, 500000 us)`; `diff = 1` is not below `tv.tv_sec = 1`, so the
timeout is not shortened and the wait gets 1500 ms, half a second past the
deadline. With an idle timeout of 8 seconds (`tv = (2 s, 0)`) it is shortened to
1000 ms. -/
theorem runqueue_deadline_overslept :
    idle_timeval 0 6 = { tv_sec := 1, tv_usec := 500000 } ∧
    wait_timeout sample_flags 0 6 1 (some 101) 100 = some { tv_sec := 1, tv_usec := 500000 } ∧
    SLAP_EVENT_WAIT_timeout (wait_timeout sample_flags 0 6 1 (some 101) 100) = 1500 ∧
    (1000 : Int) * (101 - 100) < 1500 ∧
    SLAP_EVENT_WAIT_timeout (wait_timeout sample_flags 0 8 1 (some 101) 100) = 1000 := by
  decide

/-- C27. On shard 0, for every `global_idletimeout` `T > 0`, the computed
timeval has `tv_sec * 1000000 + tv_usec = T * 250000` with
`0 <= tv_usec < 1000000`: it is `T/4` seconds with the fraction kept, and it is
not the zero timeout. -/
theorem idle_timeval_quarter (T : Int) (hT : 0 < T) :
    (idle_timeval 0 T).tv_sec * 1000000 + (idle_timeval 0 T).tv_usec = T * 250000 ∧
    0 ≤ (idle_timeval 0 T).tv_usec ∧ (idle_timeval 0 T).tv_usec < 1000000 ∧
    0 ≤ (idle_timeval 0 T).tv_sec ∧
    idle_timeval 0 T ≠ { tv_sec := 0, tv_usec := 0 } := by
  obtain ⟨hsec, husec⟩ := idle_timeval_zero T hT
  refine ⟨?_, ?_, ?_, ?_, ?_⟩
  · rw [hsec, husec]; omega
  · rw [husec]; omega
  · rw [husec]; omega
  · rw [hsec]; omega
  · intro h
    have h1 : (idle_timeval 0 T).tv_sec = 0 := by rw [h]
    have h2 : (idle_timeval 0 T).tv_usec = 0 := by rw [h]
    rw [hsec] at h1
    rw [husec] at h2
    omega

/-- Witness of C27: an idle timeout of 10 seconds gives 2 s and 500000 us. -/
theorem idle_timeval_quarter_witness :
    idle_timeval 0 10 = { tv_sec := 2, tv_usec := 500000 } ∧
    (idle_timeval 0 10).tv_sec * 1000000 + (idle_timeval 0 10).tv_usec = 10 * 250000 :=
  ⟨by decide, (idle_timeval_quarter 10 (by decide)).1⟩

/-! ## The walk over the muted listeners -/

/-- The walk of `slapd_remove` stops at the first listener that is open, is not
the removed descriptor and is muted, and unmutes it. -/
theorem emfile_walk_split (s : Int) (pre : List Listener) :
    ∀ (lr : Listener) (post : List Listener),
      (∀ x ∈ pre, x.sl_sd = AC_SOCKET_INVALID ∨ x.sl_sd = s ∨ x.sl_mute = 0) →
      lr.sl_sd ≠ AC_SOCKET_INVALID → lr.sl_sd ≠ s → lr.sl_mute ≠ 0 →
      emfile_walk s (pre ++ lr :: post) = (pre ++ { lr with sl_mute := 0 } :: post, false) := by
  induction pre with
  | nil =>
    intro lr post _ h1 h2 h3
    show emfile_walk s (lr :: post) = _
    rw [emfile_walk]
    rw [if_neg h1, if_neg h2, if_pos h3]
    rfl
  | cons a pre ih =>
    intro lr post hpre h1 h2 h3
    have hrest := ih lr post (fun x hx => hpre x (List.mem_cons_of_mem _ hx)) h1 h2 h3
    have ha := hpre a (List.mem_cons_self _ _)
    show emfile_walk s (a :: (pre ++ lr :: post)) = _
    rw [emfile_walk, hrest]
    by_cases c1 : a.sl_sd = AC_SOCKET_INVALID
    · rw [if_pos c1]
      rfl
    · rw [if_neg c1]
      by_cases c2 : a.sl_sd = s
      · rw [if_pos c2]
        rfl
      · rw [if_neg c2]
        have c3 : a.sl_mute = 0 := by
          rcases ha with h | h | h
          · exact absurd h c1
          · exact absurd h c2
          · exact h
        rw [if_neg (not_not.mpr c3)]
        rfl

theorem emfile_walk_none (s : Int) (ls : List Listener)
    (h : ∀ x ∈ ls, x.sl_sd = AC_SOCKET_INVALID ∨ x.sl_sd = s ∨ x.sl_mute = 0) :
    emfile_walk s ls = (ls, true) := by
  induction ls with
  | nil => rfl
  | cons a rest ih =>
    have hrest := ih (fun x hx => h x (List.mem_cons_of_mem _ hx))
    have ha := h a (List.mem_cons_self _ _)
    rw [emfile_walk, hrest]
    by_cases c1 : a.sl_sd = AC_SOCKET_INVALID
    · rw [if_pos c1]
    · rw [if_neg c1]
      by_cases c2 : a.sl_sd = s
      · rw [if_pos c2]
      · rw [if_neg c2]
        have c3 : a.sl_mute = 0 := by
          rcases ha with h | h | h
          · exact absurd h c1
          · exact absurd h c2
          · exact h
        rw [if_neg (not_not.mpr c3)]

theorem slapd_remove_emfile (st : Daemon) (s wasactive wake locked : Int) :
    (slapd_remove st s wasactive wake locked).emfile =
      if st.emfile ≠ 0 ∧ st.listening ≠ 0 then
        (if (emfile_walk s st.slap_listeners).2 = true then 0 else st.emfile - 1)
      else st.emfile := by
  have key : ∀ X : Daemon, X.slap_listeners = st.slap_listeners → X.emfile = st.emfile →
      X.listening = st.listening →
      (if X.emfile ≠ 0 ∧ X.listening ≠ 0 then
        (if (emfile_walk s X.slap_listeners).2 = true then
          { X with slap_listeners := (emfile_walk s X.slap_listeners).1, emfile := 0 }
        else
          { X with slap_listeners := (emfile_walk s X.slap_listeners).1
                   emfile := X.emfile - 1 })
      else X).emfile =
      if st.emfile ≠ 0 ∧ st.listening ≠ 0 then
        (if (emfile_walk s st.slap_listeners).2 = true then 0 else st.emfile - 1)
      else st.emfile := by
    intro X h1 h2 h3
    rw [h2, h3, h1]
    split_ifs <;> first | rfl | exact h2
  unfold slapd_remove
  simp only []
  apply key
  · rw [(SLAP_SOCK_DEL_globals _ _ _).1]
    split_ifs <;> rfl
  · rw [(SLAP_SOCK_DEL_globals _ _ _).2.1]
    split_ifs <;> rfl
  · rw [(SLAP_SOCK_DEL_globals _ _ _).2.2]
    split_ifs <;> rfl

/-- C26. The walk of `slapd_remove(s, ...)` over the muted listeners. When
`emfile` is nonzero and `listening` is nonzero: if a listener with a valid
descriptor other than `s` is muted, the first such listener in `slap_listeners`
is unmuted, every other listener is as before, and `emfile` drops by one; if
there is none, `emfile` becomes 0 and no listener changes. When `emfile` is 0
or `listening` is 0, neither `emfile` nor any listener changes. -/
theorem emfile_walk_resumes_first (st : Daemon) (s wasactive wake locked : Int) :
    (st.emfile ≠ 0 → st.listening ≠ 0 →
      ∀ (pre post : List Listener) (lr : Listener), st.slap_listeners = pre ++ lr :: post →
        (∀ x ∈ pre, x.sl_sd = AC_SOCKET_INVALID ∨ x.sl_sd = s ∨ x.sl_mute = 0) →
        lr.sl_sd ≠ AC_SOCKET_INVALID → lr.sl_sd ≠ s → lr.sl_mute ≠ 0 →
        (slapd_remove st s wasactive wake locked).slap_listeners =
          pre ++ { lr with sl_mute := 0 } :: post ∧
        (slapd_remove st s wasactive wake locked).emfile = st.emfile - 1) ∧
    (st.emfile ≠ 0 → st.listening ≠ 0 →
      (∀ x ∈ st.slap_listeners, x.sl_sd = AC_SOCKET_INVALID ∨ x.sl_sd = s ∨ x.sl_mute = 0) →
      (slapd_remove st s wasactive wake locked).slap_listeners = st.slap_listeners ∧
      (slapd_remove st s wasactive wake locked).emfile = 0) ∧
    (st.emfile = 0 ∨ st.listening = 0 →
      (slapd_remove st s wasactive wake locked).slap_listeners = st.slap_listeners ∧
      (slapd_remove st s wasactive wake locked).emfile = st.emfile) := by
  refine ⟨?_, ?_, ?_⟩
  · intro he hl pre post lr hsplit hpre h1 h2 h3
    have hw := emfile_walk_split s pre lr post hpre h1 h2 h3
    rw [slapd_remove_listeners, slapd_remove_emfile, if_pos ⟨he, hl⟩, if_pos ⟨he, hl⟩, hsplit, hw]
    exact ⟨rfl, rfl⟩
  · intro he hl hall
    have hw := emfile_walk_none s st.slap_listeners hall
    rw [slapd_remove_listeners, slapd_remove_emfile, if_pos ⟨he, hl⟩, if_pos ⟨he, hl⟩, hw]
    exact ⟨rfl, rfl⟩
  · intro h
    have hn : ¬ (st.emfile ≠ 0 ∧ st.listening ≠ 0) := by
      intro c
      rcases h with h | h
      · exact c.1 h
      · exact c.2 h
    rw [slapd_remove_listeners, slapd_remove_emfile, if_neg hn, if_neg hn]
    exact ⟨rfl, rfl⟩

/-- Witness of C26: in `two_muted` both listeners are muted; `slapd_remove` of
the session 7 unmutes the first and leaves `emfile = 1`. -/
theorem emfile_walk_resumes_first_witness :
    two_muted.emfile ≠ 0 ∧ two_muted.listening ≠ 0 ∧
    (slapd_remove two_muted 7 1 0 0).emfile = two_muted.emfile - 1 :=
  ⟨by decide, by decide,
    ((emfile_walk_resumes_first two_muted 7 1 0 0).1 (by decide) (by decide) []
      [{ stream_listener 2 with sl_mute := 1 }] { stream_listener 1 with sl_mute := 1 }
      (by decide) (by simp) (by decide) (by decide) (by decide)).2⟩

/-! ## The index map: count, preservation, `close_listeners` -/

theorem shard_ix_card {D : Int} {F : epoll_data_ptr → Int} {sd : slap_daemon_st}
    (h : shard_ix D F sd) :
    sd.sd_nfds = (((Finset.Ico 0 D).filter (fun s => sd.sd_index s ≠ -1)).card : Int) := by
  obtain ⟨hn, h1, h2⟩ := h
  have hc : ((Finset.Ico 0 D).filter (fun s => sd.sd_index s ≠ -1)).card =
      (Finset.Ico 0 sd.sd_nfds).card := by
    apply Finset.card_bij (fun s _ => sd.sd_index s)
    · intro s hs
      simp only [Finset.mem_filter, Finset.mem_Ico] at hs
      obtain ⟨a, b, _⟩ := h1 s hs.1.1 hs.1.2 hs.2
      rw [Finset.mem_Ico]
      exact ⟨a, b⟩
    · intro s hs s' hs' e
      simp only [Finset.mem_filter, Finset.mem_Ico] at hs hs'
      have e1 := (h1 s hs.1.1 hs.1.2 hs.2).2.2
      have e2 := (h1 s' hs'.1.1 hs'.1.2 hs'.2).2.2
      have e3 : sd.sd_index s = sd.sd_index s' := e
      rw [← e1, ← e2, e3]
    · intro k hk
      rw [Finset.mem_Ico] at hk
      obtain ⟨a, b, c⟩ := h2 k hk.1 hk.2
      refine ⟨F (sd.sd_epolls k).data_ptr, ?_, c⟩
      simp only [Finset.mem_filter, Finset.mem_Ico]
      refine ⟨⟨a, b⟩, ?_⟩
      rw [c]
      omega
  rw [hc, Int.card_Ico]
  omega

theorem registered_eq (st : Daemon) (t : Int) :
    registered st t =
      (Finset.Ico 0 st.dtblsize).filter (fun s => (st.slap_daemon t).sd_index s ≠ -1) := by
  unfold registered
  apply Finset.filter_congr
  intro x _
  exact IS_ACTIVE_iff st t x

theorem index_map_of_ix {st : Daemon} {t : Int}
    (h : shard_ix st.dtblsize (SLAP_EPOLL_EV_PTRFD st t) (st.slap_daemon t)) :
    index_map_ok st t := by
  have hcard := shard_ix_card h
  obtain ⟨hn, h1, h2⟩ := h
  refine ⟨?_, ?_, ?_, ?_⟩
  · rw [registered_eq]
    exact hcard
  · intro s a b hact
    obtain ⟨i0, i1, i2⟩ := h1 s a b ((IS_ACTIVE_iff st t s).1 hact)
    refine ⟨i0, i1, i2, ?_, ?_⟩
    · simp [SLAP_SOCK_IS_READ, SLAP_EPOLL_SOCK_IS_SET, SLAP_EPOLL_SOCK_EV, SLAP_EPOLL_SOCK_EP]
    · simp [SLAP_SOCK_IS_WRITE, SLAP_EPOLL_SOCK_IS_SET, SLAP_EPOLL_SOCK_EV, SLAP_EPOLL_SOCK_EP]
  · intro s s' a b a' b' hact hact' hne e
    have e1 := (h1 s a b ((IS_ACTIVE_iff st t s).1 hact)).2.2
    have e2 := (h1 s' a' b' ((IS_ACTIVE_iff st t s').1 hact')).2.2
    apply hne
    unfold SLAP_EPOLL_SOCK_IX at e
    rw [← e1, ← e2, e]
  · intro s _ _ hna
    by_contra c
    have : SLAP_SOCK_IS_ACTIVE st t s = true := (IS_ACTIVE_iff st t s).2 c
    rw [hna] at this
    exact absurd this (by simp)

/-- The index map as the macros show it implies the inductive form: by the
count, every record below `sd_nfds` is the record of a registered descriptor. -/
theorem ix_of_index_map {st : Daemon} {t : Int} (h : index_map_ok st t) :
    shard_ix st.dtblsize (SLAP_EPOLL_EV_PTRFD st t) (st.slap_daemon t) := by
  obtain ⟨hc, h1, h2, _⟩ := h
  have hn : 0 ≤ (st.slap_daemon t).sd_nfds := by
    rw [hc]
    exact Int.natCast_nonneg _
  have g1 : ∀ s, 0 ≤ s → s < st.dtblsize → (st.slap_daemon t).sd_index s ≠ -1 →
      0 ≤ (st.slap_daemon t).sd_index s ∧
      (st.slap_daemon t).sd_index s < (st.slap_daemon t).sd_nfds ∧
      SLAP_EPOLL_EV_PTRFD st t
        ((st.slap_daemon t).sd_epolls ((st.slap_daemon t).sd_index s)).data_ptr = s := by
    intro s a b hact
    obtain ⟨i0, i1, i2, _⟩ := h1 s a b ((IS_ACTIVE_iff st t s).2 hact)
    exact ⟨i0, i1, i2⟩
  refine ⟨hn, g1, ?_⟩
  intro k k0 k1
  have hsurj := Finset.surj_on_of_inj_on_of_card_le
    (s := registered st t) (t := Finset.Ico 0 (st.slap_daemon t).sd_nfds)
    (fun s _ => (st.slap_daemon t).sd_index s)
    (by
      intro s hs
      simp only [registered, Finset.mem_filter, Finset.mem_Ico] at hs
      obtain ⟨i0, i1, _⟩ := h1 s hs.1.1 hs.1.2 hs.2
      rw [Finset.mem_Ico]
      exact ⟨i0, i1⟩)
    (by
      intro s s' hs hs' e
      simp only [registered, Finset.mem_filter, Finset.mem_Ico] at hs hs'
      by_contra c
      exact h2 s s' hs.1.1 hs.1.2 hs'.1.1 hs'.1.2 hs.2 hs'.2 c e)
    (by
      rw [Int.card_Ico]
      omega)
    k (by rw [Finset.mem_Ico]; exact ⟨k0, k1⟩)
  obtain ⟨s, hs, e⟩ := hsurj
  simp only [registered, Finset.mem_filter, Finset.mem_Ico] at hs
  obtain ⟨_, _, i2⟩ := g1 s hs.1.1 hs.1.2 ((IS_ACTIVE_iff st t s).1 hs.2)
  have e' : k = (st.slap_daemon t).sd_index s := e
  rw [e', i2]
  exact ⟨hs.1.1, hs.1.2, rfl⟩

theorem index_map_set_shard {st : Daemon} {t : Int} {sd : slap_daemon_st} (M : Int)
    (h : ∀ t', 0 ≤ t' → t' < M → index_map_ok st t')
    (hsd : 0 ≤ t → t < M → shard_ix st.dtblsize (SLAP_EPOLL_EV_PTRFD st t) sd) :
    ∀ t', 0 ≤ t' → t' < M → index_map_ok (st.set_shard t sd) t' := by
  intro t' a b
  apply index_map_of_ix
  show shard_ix st.dtblsize (SLAP_EPOLL_EV_PTRFD st t') ((st.set_shard t sd).slap_daemon t')
  by_cases e : t' = t
  · subst e
    rw [set_shard_same]
    exact hsd a b
  · rw [set_shard_ne _ _ e]
    exact ix_of_index_map (h t' a b)

theorem index_map_SLAP_SOCK_ADD {st : Daemon} (M : Int)
    (h : ∀ t', 0 ≤ t' → t' < M → index_map_ok st t') (t s : Int) (l : Option Nat)
    (hs0 : 0 ≤ s) (hs1 : s < st.dtblsize) (hna : SLAP_SOCK_IS_ACTIVE st t s = false)
    (hl : ∀ j, l = some j → ∃ lr, st.slap_listeners[j]? = some lr ∧ lr.sl_sd = s) :
    ∀ t', 0 ≤ t' → t' < M → index_map_ok (SLAP_SOCK_ADD st t s l 0) t' := by
  rw [SLAP_SOCK_ADD_eq]
  apply index_map_set_shard M h
  intro t0 t1
  have hna' : (st.slap_daemon t).sd_index s = -1 := by
    by_contra c
    have : SLAP_SOCK_IS_ACTIVE st t s = true := (IS_ACTIVE_iff st t s).2 c
    rw [hna] at this
    exact absurd this (by simp)
  exact shard_add_ix (ix_of_index_map (h t t0 t1)) hs0 hs1 hna'
    (PTRFD_add_ptr st t s l hs0 hs1 hl)

theorem index_map_SLAP_SOCK_DEL {st : Daemon} (M : Int)
    (h : ∀ t', 0 ≤ t' → t' < M → index_map_ok st t') (t s : Int)
    (ht0 : 0 ≤ t) (ht1 : t < M) (hs0 : 0 ≤ s) (hs1 : s < st.dtblsize) :
    ∀ t', 0 ≤ t' → t' < M → index_map_ok (SLAP_SOCK_DEL st t s) t' := by
  by_cases hact : (st.slap_daemon t).sd_index s = -1
  · have : SLAP_SOCK_DEL st t s = st := by
      unfold SLAP_SOCK_DEL
      simp only []
      rw [if_pos (by omega)]
    rw [this]
    exact h
  · have hc := ix_of_index_map (h t ht0 ht1)
    have hi0 := (hc.2.1 s hs0 hs1 hact).1
    rw [SLAP_SOCK_DEL_eq _ _ _ hi0]
    apply index_map_set_shard M h
    intro _ _
    exact shard_del_ix hc hs0 hs1 hact

theorem Index_Inv_of_Inv {st : Daemon} (h : Inv st) : Index_Inv st :=
  ⟨h.1, h.2.1, h.2.2.1, h.2.2.2.2⟩

theorem DAEMON_ID_range_ix {st : Daemon} (h : Index_Inv st) {s : Int} (hs : 0 ≤ s) :
    0 ≤ DAEMON_ID st s ∧ DAEMON_ID st s < st.slapd_daemon_threads := by
  obtain ⟨hT, hm, _⟩ := h
  have := @land_range s st.slapd_daemon_mask hs (by omega)
  unfold DAEMON_ID
  omega

/-- The index maps and the routing survive a call that rewrites the record of
one shard and leaves the shard count, the mask, the wake pairs and the listener
descriptors alone. -/
theorem Index_Inv_step {st st' : Daemon} {t : Int} {sd' : slap_daemon_st} (h : Index_Inv st)
    (hd : st'.dtblsize = st.dtblsize)
    (hT : st'.slapd_daemon_threads = st.slapd_daemon_threads)
    (hm : st'.slapd_daemon_mask = st.slapd_daemon_mask)
    (hw : st'.wake_sds = st.wake_sds)
    (hls : st'.slap_listeners.map Listener.sl_sd = st.slap_listeners.map Listener.sl_sd)
    (hsd : st'.slap_daemon = upd st.slap_daemon t sd')
    (hix : shard_ix st.dtblsize (SLAP_EPOLL_EV_PTRFD st t) sd')
    (hsub : ∀ s, 0 ≤ s → s < st.dtblsize → sd'.sd_index s ≠ -1 →
      (st.slap_daemon t).sd_index s ≠ -1 ∨
        ((s = (st.wake_sds t).1 ∧ is_wake_sd st s = true) ∨
          (is_wake_sd st s = false ∧ t = DAEMON_ID st s))) :
    Index_Inv st' := by
  obtain ⟨h1, h2, h3, h4⟩ := h
  have hF : ∀ t', SLAP_EPOLL_EV_PTRFD st' t' = SLAP_EPOLL_EV_PTRFD st t' :=
    fun t' => funext (PTRFD_congr hd hls t')
  refine ⟨by rw [hT]; exact h1, by rw [hm, hT]; exact h2, ?_, ?_⟩
  · intro t' a b
    rw [hT] at b
    rw [hd, hF, hsd]
    by_cases e : t' = t
    · subst e
      rw [upd_same]
      exact hix
    · rw [upd_ne _ _ e]
      exact h3 t' a b
  · rw [hT, hm, is_wake_congr hT hw]
    intro t' s a b c d hact
    rw [hd] at d
    show (s = (st'.wake_sds t').1 ∧ is_wake_sd st s = true) ∨
      (is_wake_sd st s = false ∧ t' = Int.land s st.slapd_daemon_mask)
    rw [hsd] at hact
    rw [hw]
    by_cases e : t' = t
    · subst e
      rw [upd_same] at hact
      rcases hsub s c d hact with x | x
      · exact h4 t' s a b c d x
      · exact x
    · rw [upd_ne _ _ e] at hact
      exact h4 t' s a b c d hact

theorem Index_Inv_slapd_remove {st : Daemon} (h : Index_Inv st) {s : Int}
    (wasactive wake locked : Int) (hs0 : 0 ≤ s) (hs1 : s < st.dtblsize)
    (hact : (st.slap_daemon (DAEMON_ID st s)).sd_index s ≠ -1) :
    Index_Inv (slapd_remove st s wasactive wake locked) := by
  obtain ⟨t0, t1⟩ := DAEMON_ID_range_ix h hs0
  have hix := h.2.2.1 _ t0 t1
  have hi0 : 0 ≤ (st.slap_daemon (DAEMON_ID st s)).sd_index s := (hix.2.1 s hs0 hs1 hact).1
  obtain ⟨f1, f2, f3, f4, f5⟩ := slapd_remove_frame st s wasactive wake locked hi0
  have hix' : shard_ix st.dtblsize (SLAP_EPOLL_EV_PTRFD st (DAEMON_ID st s))
      { st.slap_daemon (DAEMON_ID st s) with
        sd_nactives := (st.slap_daemon (DAEMON_ID st s)).sd_nactives +
          (if wasactive ≠ 0 then -1 else 0)
        sd_nwriters := (st.slap_daemon (DAEMON_ID st s)).sd_nwriters +
          (if ((st.slap_daemon (DAEMON_ID st s)).sd_epolls
            ((st.slap_daemon (DAEMON_ID st s)).sd_index s)).events &&& EPOLLOUT ≠ 0
            then -1 else 0) } := hix
  obtain ⟨r1, _, r3⟩ := shard_del_rec hix' hs0 hs1 hact
  refine Index_Inv_step h f1 f2 f3 f4 f5 (slapd_remove_tables st s wasactive wake locked hi0)
    (shard_del_ix hix' hs0 hs1 hact) ?_
  intro s' a b hact'
  left
  by_cases e : s' = s
  · subst e
    exact absurd r1 hact'
  · exact fun c => hact' ((r3 s' a b e).1.2 c)

theorem Index_Inv_transfer {A B : Daemon} (h : Index_Inv A)
    (hd : B.dtblsize = A.dtblsize)
    (hT : B.slapd_daemon_threads = A.slapd_daemon_threads)
    (hm : B.slapd_daemon_mask = A.slapd_daemon_mask)
    (hw : B.wake_sds = A.wake_sds)
    (hn : ∀ t, 0 ≤ t → t < A.slapd_daemon_threads →
      (B.slap_daemon t).sd_nfds = (A.slap_daemon t).sd_nfds ∧
      (B.slap_daemon t).sd_epolls = (A.slap_daemon t).sd_epolls ∧
      ∀ s, 0 ≤ s → s < A.dtblsize → (B.slap_daemon t).sd_index s = (A.slap_daemon t).sd_index s)
    (hF : ∀ t, 0 ≤ t → t < A.slapd_daemon_threads → ∀ k, 0 ≤ k → k < (A.slap_daemon t).sd_nfds →
      SLAP_EPOLL_EV_PTRFD B t ((A.slap_daemon t).sd_epolls k).data_ptr =
        SLAP_EPOLL_EV_PTRFD A t ((A.slap_daemon t).sd_epolls k).data_ptr) :
    Index_Inv B := by
  obtain ⟨h1, h2, h3, h5⟩ := h
  refine ⟨by rw [hT]; exact h1, by rw [hm, hT]; exact h2, ?_, ?_⟩
  · intro t a b
    rw [hT] at b
    obtain ⟨n1, n3, n4⟩ := hn t a b
    obtain ⟨x0, x2, x3⟩ := h3 t a b
    rw [hd]
    refine ⟨by rw [n1]; exact x0, ?_, ?_⟩
    · intro s c d e
      rw [n4 s c d] at e ⊢
      obtain ⟨i0, i1, i2⟩ := x2 s c d e
      rw [n1, n3]
      exact ⟨i0, i1, (hF t a b _ i0 i1).trans i2⟩
    · intro k c d
      rw [n1] at d
      obtain ⟨j0, j1, j2⟩ := x3 k c d
      rw [n3, hF t a b k c d]
      exact ⟨j0, j1, (n4 _ j0 j1).trans j2⟩
  · intro t s a b c d hact
    rw [hT] at b
    rw [hd] at d
    obtain ⟨n1, n3, n4⟩ := hn t a b
    rw [n4 s c d] at hact
    have := h5 t s a b c d hact
    rw [hw, is_wake_congr hT hw, hm]
    exact this

theorem PTRFD_set_listener (st : Daemon) (l : Nat) (lr' : Listener) (t : Int)
    (p : epoll_data_ptr) (hp : p ≠ .listener l) :
    SLAP_EPOLL_EV_PTRFD (st.set_listener l lr') t p = SLAP_EPOLL_EV_PTRFD st t p := by
  cases p with
  | null => rfl
  | index t' s => rfl
  | listener j =>
    have hj : l ≠ j := fun e => hp (by rw [e])
    simp only [SLAP_EPOLL_EV_PTRFD, SLAP_EPOLL_EV_LISTENER, if_true, Daemon.set_listener]
    rw [List.getElem?_set_ne hj]

theorem PTRFD_listener (st : Daemon) (t : Int) {l : Nat} {lr : Listener}
    (h : st.slap_listeners[l]? = some lr) :
    SLAP_EPOLL_EV_PTRFD st t (.listener l) = lr.sl_sd := by
  simp [SLAP_EPOLL_EV_PTRFD, SLAP_EPOLL_EV_LISTENER, h]

/-- A descriptor that is no end of a wake pair is registered on no shard but
the one its number names. -/
theorem unregistered_elsewhere {st : Daemon} (h : Index_Inv st) {s t : Int} (hs0 : 0 ≤ s)
    (hs1 : s < st.dtblsize) (hw : is_wake_sd st s = false) (ht0 : 0 ≤ t)
    (ht1 : t < st.slapd_daemon_threads) (hne : t ≠ DAEMON_ID st s) :
    (st.slap_daemon t).sd_index s = -1 := by
  by_contra c
  rcases h.2.2.2 t s ht0 ht1 hs0 hs1 c with ⟨_, x⟩ | ⟨_, x⟩
  · rw [hw] at x
    exact absurd x (by simp)
  · exact hne x

/-- Clearing `sl_sd` of a listener whose descriptor is registered nowhere keeps
the tables consistent: no record refers to the listener. -/
theorem Index_Inv_listener_cleared {A B : Daemon} (h : Index_Inv A) {l : Nat} {lr lr' : Listener}
    (hget : A.slap_listeners[l]? = some lr)
    (hun : ∀ t, 0 ≤ t → t < A.slapd_daemon_threads → (A.slap_daemon t).sd_index lr.sl_sd = -1)
    (hd : B.dtblsize = A.dtblsize)
    (hT : B.slapd_daemon_threads = A.slapd_daemon_threads)
    (hm : B.slapd_daemon_mask = A.slapd_daemon_mask)
    (hw : B.wake_sds = A.wake_sds)
    (hls : B.slap_listeners = A.slap_listeners.set l lr')
    (hn : ∀ t, 0 ≤ t → t < A.slapd_daemon_threads →
      (B.slap_daemon t).sd_nfds = (A.slap_daemon t).sd_nfds ∧
      (B.slap_daemon t).sd_epolls = (A.slap_daemon t).sd_epolls ∧
      ∀ s, 0 ≤ s → s < A.dtblsize →
        (B.slap_daemon t).sd_index s = (A.slap_daemon t).sd_index s) :
    Index_Inv B := by
  refine Index_Inv_transfer h hd hT hm hw hn ?_
  intro t a b k c d
  have e1 : SLAP_EPOLL_EV_PTRFD B t ((A.slap_daemon t).sd_epolls k).data_ptr =
      SLAP_EPOLL_EV_PTRFD (A.set_listener l lr') t ((A.slap_daemon t).sd_epolls k).data_ptr :=
    @PTRFD_congr (A.set_listener l lr') B hd (congrArg (List.map Listener.sl_sd) hls) t _
  rw [e1]
  apply PTRFD_set_listener
  intro e
  obtain ⟨_, _, j2⟩ := h.2.2.1 t a b |>.2.2 k c d
  rw [e, PTRFD_listener A t hget, hun t a b] at j2
  omega

theorem nwriters_add_tables (st : Daemon) (t d t' : Int) :
    ((st.nwriters_add t d).slap_daemon t').sd_nfds = (st.slap_daemon t').sd_nfds ∧
    ((st.nwriters_add t d).slap_daemon t').sd_epolls = (st.slap_daemon t').sd_epolls ∧
    ((st.nwriters_add t d).slap_daemon t').sd_index = (st.slap_daemon t').sd_index := by
  unfold Daemon.nwriters_add
  by_cases e : t' = t
  · subst e
    rw [set_shard_same]
    exact ⟨rfl, rfl, rfl⟩
  · rw [set_shard_ne _ _ e]
    exact ⟨rfl, rfl, rfl⟩

/-- The function `slapd_remove` on a descriptor that is not registered, while
`listening` is 0 and `wasactive` is 0: `SLAP_SOCK_DEL` leaves the tables alone,
and `sd_nwriters` is decremented when the cell in front of the block reads as
write-armed. -/
theorem slapd_remove_unregistered (st : Daemon) (s wake locked : Int)
    (hi : (st.slap_daemon (DAEMON_ID st s)).sd_index s = -1) (hl : st.listening = 0) :
    slapd_remove st s 0 wake locked = st ∨
    slapd_remove st s 0 wake locked = st.nwriters_add (DAEMON_ID st s) (-1) := by
  unfold slapd_remove
  simp only [ne_eq, not_true_eq_false, if_false]
  by_cases hw : SLAP_SOCK_IS_WRITE st (DAEMON_ID st s) s = true
  · right
    rw [hw]
    simp only [if_true]
    have hd : SLAP_SOCK_DEL (st.nwriters_add (DAEMON_ID st s) (-1)) (DAEMON_ID st s) s =
        st.nwriters_add (DAEMON_ID st s) (-1) := by
      unfold SLAP_SOCK_DEL
      simp only []
      rw [if_pos (by rw [(nwriters_add_tables st _ _ _).2.2, hi]; omega)]
    rw [hd, if_neg (fun c => c.2 hl)]
  · left
    rw [Bool.not_eq_true] at hw
    rw [hw]
    simp only [Bool.false_eq_true, if_false]
    have hd : SLAP_SOCK_DEL st (DAEMON_ID st s) s = st := by
      unfold SLAP_SOCK_DEL
      simp only []
      rw [if_pos (by omega)]
    rw [hd, if_neg (fun c => c.2 hl)]

/-- One pass of the loop of `close_listeners(1)` for a listener whose
descriptor is registered: the tables are those that `slapd_remove` leaves
without the assignment `lr->sl_sd = AC_SOCKET_INVALID` before it, on all
entries of `sd_index` but the one at -1. -/
theorem close_step_tables {st : Daemon} {l : Nat} {lr : Listener}
    (hget : st.slap_listeners[l]? = some lr)
    (hi0 : 0 ≤ (st.slap_daemon (DAEMON_ID st lr.sl_sd)).sd_index lr.sl_sd) (t : Int) :
    ((slapd_remove (st.set_listener l { lr with sl_sd := AC_SOCKET_INVALID })
      lr.sl_sd 0 0 0).slap_daemon t).sd_nfds =
      ((slapd_remove st lr.sl_sd 0 0 0).slap_daemon t).sd_nfds ∧
    ((slapd_remove (st.set_listener l { lr with sl_sd := AC_SOCKET_INVALID })
      lr.sl_sd 0 0 0).slap_daemon t).sd_nwriters =
      ((slapd_remove st lr.sl_sd 0 0 0).slap_daemon t).sd_nwriters ∧
    ((slapd_remove (st.set_listener l { lr with sl_sd := AC_SOCKET_INVALID })
      lr.sl_sd 0 0 0).slap_daemon t).sd_epolls =
      ((slapd_remove st lr.sl_sd 0 0 0).slap_daemon t).sd_epolls ∧
    ∀ s, 0 ≤ s →
      ((slapd_remove (st.set_listener l { lr with sl_sd := AC_SOCKET_INVALID })
        lr.sl_sd 0 0 0).slap_daemon t).sd_index s =
      ((slapd_remove st lr.sl_sd 0 0 0).slap_daemon t).sd_index s := by
  have tA := slapd_remove_tables st lr.sl_sd 0 0 0 hi0
  have tB : (slapd_remove (st.set_listener l { lr with sl_sd := AC_SOCKET_INVALID })
        lr.sl_sd 0 0 0).slap_daemon =
      upd st.slap_daemon (DAEMON_ID st lr.sl_sd)
        (remove_shard
          (SLAP_EPOLL_EV_PTRFD (st.set_listener l { lr with sl_sd := AC_SOCKET_INVALID })
            (DAEMON_ID st lr.sl_sd))
          (st.slap_daemon (DAEMON_ID st lr.sl_sd)) lr.sl_sd 0) :=
    slapd_remove_tables (st.set_listener l { lr with sl_sd := AC_SOCKET_INVALID }) lr.sl_sd 0 0 0 hi0
  rw [tA, tB]
  by_cases e : t = DAEMON_ID st lr.sl_sd
  · rw [e, upd_same, upd_same]
    refine ⟨rfl, rfl, rfl, ?_⟩
    intro j j0
    show upd (upd _ _ _) _ _ j = upd (upd _ _ _) _ _ j
    by_cases ej : j = lr.sl_sd
    · rw [ej, upd_same, upd_same]
    · rw [upd_ne _ _ ej, upd_ne _ _ ej]
      by_cases ep : ((st.slap_daemon (DAEMON_ID st lr.sl_sd)).sd_epolls
          ((st.slap_daemon (DAEMON_ID st lr.sl_sd)).sd_nfds - 1)).data_ptr = .listener l
      · have q1 : SLAP_EPOLL_EV_PTRFD
            (st.set_listener l { lr with sl_sd := AC_SOCKET_INVALID })
            (DAEMON_ID st lr.sl_sd) (.listener l) = AC_SOCKET_INVALID :=
          PTRFD_listener _ _ (getElem?_set_same _ _ _ _ hget)
        have q2 := PTRFD_listener st (DAEMON_ID st lr.sl_sd) hget
        have jm : j ≠ AC_SOCKET_INVALID := by
          unfold AC_SOCKET_INVALID
          omega
        show upd _ (SLAP_EPOLL_EV_PTRFD _ _ _) _ j = upd _ (SLAP_EPOLL_EV_PTRFD _ _ _) _ j
        rw [ep, q1, q2, upd_ne _ _ jm, upd_ne _ _ ej]
      · show upd _ (SLAP_EPOLL_EV_PTRFD _ _ _) _ j = upd _ (SLAP_EPOLL_EV_PTRFD _ _ _) _ j
        rw [PTRFD_set_listener _ _ _ _ _ ep]
  · rw [upd_ne _ _ e, upd_ne _ _ e]
    exact ⟨rfl, rfl, rfl, fun _ _ => rfl⟩

/-- One pass of the loop of `close_listeners(1)`: `sl_sd` is cleared first and
`slapd_remove` runs afterwards, so the record of the listener resolves to -1
inside `SLAP_SOCK_DEL`; when it is the last record, the macro assigns
`sd_index[-1]`, which lies below the entries of the descriptors. After the pass
the descriptor of the listener is registered on no shard, and no descriptor has
become registered. -/
theorem close_step_ix {st : Daemon} (h : Index_Inv st) (hl : st.listening = 0) {l : Nat}
    {lr : Listener} (hget : st.slap_listeners[l]? = some lr) (hs0 : 0 ≤ lr.sl_sd)
    (hs1 : lr.sl_sd < st.dtblsize) (hw : is_wake_sd st lr.sl_sd = false) :
    Index_Inv
      (slapd_remove (st.set_listener l { lr with sl_sd := AC_SOCKET_INVALID }) lr.sl_sd 0 0 0) ∧
    ∀ t, 0 ≤ t → t < st.slapd_daemon_threads →
      ((slapd_remove (st.set_listener l { lr with sl_sd := AC_SOCKET_INVALID })
        lr.sl_sd 0 0 0).slap_daemon t).sd_index lr.sl_sd = -1 ∧
      ∀ s', 0 ≤ s' → s' < st.dtblsize → (st.slap_daemon t).sd_index s' = -1 →
        ((slapd_remove (st.set_listener l { lr with sl_sd := AC_SOCKET_INVALID })
          lr.sl_sd 0 0 0).slap_daemon t).sd_index s' = -1 := by
  obtain ⟨t0, t1⟩ := DAEMON_ID_range_ix h hs0
  have hix := h.2.2.1 _ t0 t1
  by_cases hact : (st.slap_daemon (DAEMON_ID st lr.sl_sd)).sd_index lr.sl_sd = -1
  · have hun : ∀ t, 0 ≤ t → t < st.slapd_daemon_threads →
        (st.slap_daemon t).sd_index lr.sl_sd = -1 := by
      intro t a b
      by_cases e : t = DAEMON_ID st lr.sl_sd
      · rw [e]
        exact hact
      · exact unregistered_elsewhere h hs0 hs1 hw a b e
    rcases slapd_remove_unregistered (st.set_listener l { lr with sl_sd := AC_SOCKET_INVALID })
      lr.sl_sd 0 0 hact hl with e | e
    · rw [e]
      refine ⟨Index_Inv_listener_cleared h hget hun rfl rfl rfl rfl rfl
        (fun t _ _ => ⟨rfl, rfl, fun _ _ _ => rfl⟩), ?_⟩
      intro t a b
      exact ⟨hun t a b, fun _ _ _ c => c⟩
    · rw [e]
      have q := nwriters_add_tables (st.set_listener l { lr with sl_sd := AC_SOCKET_INVALID })
        (DAEMON_ID (st.set_listener l { lr with sl_sd := AC_SOCKET_INVALID }) lr.sl_sd) (-1)
      refine ⟨Index_Inv_listener_cleared h hget hun rfl rfl rfl rfl rfl
        (fun t _ _ => ⟨(q t).1, (q t).2.1, fun s _ _ => congrFun (q t).2.2 s⟩), ?_⟩
      intro t a b
      refine ⟨?_, ?_⟩
      · rw [(q t).2.2]
        exact hun t a b
      · intro s' _ _ c
        rw [(q t).2.2]
        exact c
  · have hi0 := (hix.2.1 _ hs0 hs1 hact).1
    have hA : Index_Inv (slapd_remove st lr.sl_sd 0 0 0) :=
      Index_Inv_slapd_remove h 0 0 0 hs0 hs1 hact
    obtain ⟨f1, f2, f3, f4, _⟩ := slapd_remove_frame st lr.sl_sd 0 0 0 hi0
    obtain ⟨g1, g2, g3, g4, _⟩ :=
      slapd_remove_frame (st.set_listener l { lr with sl_sd := AC_SOCKET_INVALID }) lr.sl_sd 0 0 0 hi0
    have tA := slapd_remove_tables st lr.sl_sd 0 0 0 hi0
    have tB : (slapd_remove (st.set_listener l { lr with sl_sd := AC_SOCKET_INVALID })
          lr.sl_sd 0 0 0).slap_daemon =
        upd st.slap_daemon (DAEMON_ID st lr.sl_sd)
          (remove_shard
            (SLAP_EPOLL_EV_PTRFD (st.set_listener l { lr with sl_sd := AC_SOCKET_INVALID })
              (DAEMON_ID st lr.sl_sd))
            (st.slap_daemon (DAEMON_ID st lr.sl_sd)) lr.sl_sd 0) :=
      slapd_remove_tables (st.set_listener l { lr with sl_sd := AC_SOCKET_INVALID }) lr.sl_sd 0 0 0 hi0
    have lA := slapd_remove_listeners_closed st lr.sl_sd 0 0 0 hl
    have lB := slapd_remove_listeners_closed
      (st.set_listener l { lr with sl_sd := AC_SOCKET_INVALID }) lr.sl_sd 0 0 0 hl
    have hix' : shard_ix st.dtblsize (SLAP_EPOLL_EV_PTRFD st (DAEMON_ID st lr.sl_sd))
        { st.slap_daemon (DAEMON_ID st lr.sl_sd) with
          sd_nactives := (st.slap_daemon (DAEMON_ID st lr.sl_sd)).sd_nactives +
            (if (0 : Int) ≠ 0 then -1 else 0)
          sd_nwriters := (st.slap_daemon (DAEMON_ID st lr.sl_sd)).sd_nwriters +
            (if ((st.slap_daemon (DAEMON_ID st lr.sl_sd)).sd_epolls
              ((st.slap_daemon (DAEMON_ID st lr.sl_sd)).sd_index lr.sl_sd)).events &&& EPOLLOUT ≠ 0
              then -1 else 0) } := hix
    obtain ⟨y3, _, r3⟩ := shard_del_rec hix' hs0 hs1 hact
    have y3' : (remove_shard (SLAP_EPOLL_EV_PTRFD st (DAEMON_ID st lr.sl_sd))
        (st.slap_daemon (DAEMON_ID st lr.sl_sd)) lr.sl_sd 0).sd_index lr.sl_sd = -1 := y3
    have hunA : ∀ t, 0 ≤ t → t < (slapd_remove st lr.sl_sd 0 0 0).slapd_daemon_threads →
        ((slapd_remove st lr.sl_sd 0 0 0).slap_daemon t).sd_index lr.sl_sd = -1 := by
      intro t a b
      rw [f2] at b
      rw [tA]
      by_cases e : t = DAEMON_ID st lr.sl_sd
      · rw [e, upd_same]
        exact y3'
      · rw [upd_ne _ _ e]
        exact unregistered_elsewhere h hs0 hs1 hw a b e
    have hEq : ∀ t, 0 ≤ t → t < (slapd_remove st lr.sl_sd 0 0 0).slapd_daemon_threads →
        ((slapd_remove (st.set_listener l { lr with sl_sd := AC_SOCKET_INVALID })
          lr.sl_sd 0 0 0).slap_daemon t).sd_nfds =
          ((slapd_remove st lr.sl_sd 0 0 0).slap_daemon t).sd_nfds ∧
        ((slapd_remove (st.set_listener l { lr with sl_sd := AC_SOCKET_INVALID })
          lr.sl_sd 0 0 0).slap_daemon t).sd_epolls =
          ((slapd_remove st lr.sl_sd 0 0 0).slap_daemon t).sd_epolls ∧
        ∀ s, 0 ≤ s → s < (slapd_remove st lr.sl_sd 0 0 0).dtblsize →
          ((slapd_remove (st.set_listener l { lr with sl_sd := AC_SOCKET_INVALID })
            lr.sl_sd 0 0 0).slap_daemon t).sd_index s =
          ((slapd_remove st lr.sl_sd 0 0 0).slap_daemon t).sd_index s := by
      intro t _ _
      obtain ⟨e1, _, e3, e4⟩ := close_step_tables hget hi0 t
      exact ⟨e1, e3, fun s c _ => e4 s c⟩
    refine ⟨@Index_Inv_listener_cleared _ _ hA l lr { lr with sl_sd := AC_SOCKET_INVALID }
      (by rw [lA]; exact hget) hunA
      (g1.trans f1.symm) (g2.trans f2.symm) (g3.trans f3.symm) (g4.trans f4.symm)
      (by rw [lB, lA]; rfl) hEq, ?_⟩
    intro t a b
    have b' : t < (slapd_remove st lr.sl_sd 0 0 0).slapd_daemon_threads := by
      rw [f2]
      exact b
    obtain ⟨_, _, e3⟩ := hEq t a b'
    refine ⟨?_, ?_⟩
    · rw [e3 _ hs0 (by rw [f1]; exact hs1)]
      exact hunA t a b'
    · intro s' c d hs'
      rw [e3 _ c (by rw [f1]; exact d), tA]
      by_cases e : t = DAEMON_ID st lr.sl_sd
      · rw [e, upd_same]
        rw [e] at hs'
        by_cases es : s' = lr.sl_sd
        · rw [es]
          exact y3'
        · exact (r3 s' c d es).1.2 hs'
      · rw [upd_ne _ _ e]
        exact hs'

theorem slapd_remove_globals (st : Daemon) (s wasactive wake locked : Int) :
    (slapd_remove st s wasactive wake locked).dtblsize = st.dtblsize ∧
    (slapd_remove st s wasactive wake locked).wake_sds = st.wake_sds ∧
    (slapd_remove st s wasactive wake locked).slapd_daemon_mask = st.slapd_daemon_mask := by
  unfold slapd_remove SLAP_SOCK_DEL Daemon.nactives_add Daemon.nwriters_add Daemon.set_shard
  simp only []
  split_ifs <;> exact ⟨rfl, rfl, rfl⟩

theorem listeners_ok_step {st X : Daemon} (h : listeners_ok st) (l : Nat) (lr : Listener)
    (hd : X.dtblsize = st.dtblsize)
    (hT : X.slapd_daemon_threads = st.slapd_daemon_threads) (hw : X.wake_sds = st.wake_sds)
    (hls : X.slap_listeners = st.slap_listeners.set l { lr with sl_sd := AC_SOCKET_INVALID }) :
    listeners_ok X := by
  intro x hx hne
  rw [hls] at hx
  rcases List.mem_or_eq_of_mem_set hx with hm | he
  · rw [hd, is_wake_congr hT hw]
    exact h x hm hne
  · rw [he] at hne
    exact absurd rfl hne

/-- The loop of `close_listeners(1)` from position `l` on: the index maps and
the routing stay consistent, no descriptor becomes registered, and the
descriptor of every listener that was open at a position from `l` on is
registered on no shard afterwards. -/
theorem close_loop_ix :
    ∀ (fuel l : Nat) (st : Daemon) (closed : List Int), Index_Inv st → st.listening = 0 →
      listeners_ok st → st.slap_listeners.length ≤ l + fuel →
      Index_Inv (close_listeners_loop 1 fuel l st closed).1 ∧
      (close_listeners_loop 1 fuel l st closed).1.dtblsize = st.dtblsize ∧
      (close_listeners_loop 1 fuel l st closed).1.slapd_daemon_threads =
        st.slapd_daemon_threads ∧
      ∀ t, 0 ≤ t → t < st.slapd_daemon_threads →
        (∀ s', 0 ≤ s' → s' < st.dtblsize → (st.slap_daemon t).sd_index s' = -1 →
          ((close_listeners_loop 1 fuel l st closed).1.slap_daemon t).sd_index s' = -1) ∧
        (∀ (i : Nat) (lr : Listener), l ≤ i → st.slap_listeners[i]? = some lr →
          lr.sl_sd ≠ AC_SOCKET_INVALID →
          ((close_listeners_loop 1 fuel l st closed).1.slap_daemon t).sd_index lr.sl_sd = -1) := by
  intro fuel
  induction fuel with
  | zero =>
    intro l st closed h _ _ hlen
    refine ⟨h, rfl, rfl, fun t _ _ => ⟨fun _ _ _ c => c, ?_⟩⟩
    intro i lr hi hget _
    have : st.slap_listeners[i]? = none := List.getElem?_eq_none (by omega)
    rw [this] at hget
    exact absurd hget (by simp)
  | succ fuel ih =>
    intro l st closed h hl hok hlen
    unfold close_listeners_loop
    cases hget : st.slap_listeners[l]? with
    | none =>
      refine ⟨h, rfl, rfl, fun t _ _ => ⟨fun _ _ _ c => c, ?_⟩⟩
      intro i lr hi hgi _
      have hlen2 : st.slap_listeners.length ≤ l := by
        by_contra c
        have hlt : l < st.slap_listeners.length := by omega
        rw [List.getElem?_eq_getElem hlt] at hget
        exact absurd hget (by simp)
      have : st.slap_listeners[i]? = none := List.getElem?_eq_none (by omega)
      rw [this] at hgi
      exact absurd hgi (by simp)
    | some lr0 =>
      simp only []
      by_cases hsd : lr0.sl_sd ≠ AC_SOCKET_INVALID
      · rw [if_pos hsd]
        simp only [ne_eq, one_ne_zero, not_false_eq_true, if_true]
        obtain ⟨s0, s1, sw⟩ := hok lr0 (List.getElem?_mem hget) hsd
        obtain ⟨c1, _, _, _, c5⟩ := slapd_remove_scalars
          (st.set_listener l { lr0 with sl_sd := AC_SOCKET_INVALID }) lr0.sl_sd 0 0 0
        obtain ⟨d1, d2, _⟩ := slapd_remove_globals
          (st.set_listener l { lr0 with sl_sd := AC_SOCKET_INVALID }) lr0.sl_sd 0 0 0
        have hls := slapd_remove_listeners_closed
          (st.set_listener l { lr0 with sl_sd := AC_SOCKET_INVALID }) lr0.sl_sd 0 0 0 hl
        obtain ⟨k1, k2⟩ := close_step_ix h hl hget s0 s1 sw
        obtain ⟨i1, i2, i3, i4⟩ := ih (l + 1)
          (slapd_remove (st.set_listener l { lr0 with sl_sd := AC_SOCKET_INVALID }) lr0.sl_sd 0 0 0)
          (closed ++ [lr0.sl_sd]) k1 (by rw [c1]; exact hl)
          (listeners_ok_step hok l lr0 d1 c5 d2 hls)
          (by
            rw [hls]
            show (st.slap_listeners.set l _).length ≤ l + 1 + fuel
            rw [List.length_set]
            omega)
        refine ⟨i1, i2.trans d1, i3.trans c5, ?_⟩
        intro t a b
        obtain ⟨j1, j2⟩ := i4 t a (by rw [c5]; exact b)
        obtain ⟨m1, m2⟩ := k2 t a b
        refine ⟨?_, ?_⟩
        · intro s' x y z
          exact j1 s' x (by rw [d1]; exact y) (m2 s' x y z)
        · intro i lr hi hgi hne
          rcases Nat.eq_or_lt_of_le hi with e | e
          · have : lr = lr0 := by
              rw [← e, hget] at hgi
              exact (Option.some.inj hgi).symm
            rw [this]
            exact j1 lr0.sl_sd s0 (by rw [d1]; exact s1) m1
          · refine j2 i lr (by omega) ?_ hne
            rw [hls]
            show (st.slap_listeners.set l _)[i]? = some lr
            rw [List.getElem?_set_ne (by omega)]
            exact hgi
      · rw [if_neg hsd]
        obtain ⟨i1, i2, i3, i4⟩ := ih (l + 1) st closed h hl hok (by omega)
        refine ⟨i1, i2, i3, ?_⟩
        intro t a b
        obtain ⟨j1, j2⟩ := i4 t a b
        refine ⟨j1, ?_⟩
        intro i lr hi hgi hne
        rcases Nat.eq_or_lt_of_le hi with e | e
        · rw [← e, hget] at hgi
          rw [← Option.some.inj hgi] at hne
          exact absurd hne hsd
        · exact j2 i lr (by omega) hgi hne

/-- The function `close_listeners(1)` keeps the index maps and the routing
consistent; when it runs (`listening` is not 0), the descriptor of every open
listener is registered on no shard afterwards. -/
theorem Index_Inv_close_listeners {st : Daemon} (h : Index_Inv st) (hok : listeners_ok st) :
    Index_Inv (close_listeners 1 st).1 ∧
    (st.listening ≠ 0 → ∀ lr ∈ st.slap_listeners, lr.sl_sd ≠ AC_SOCKET_INVALID →
      ∀ t, 0 ≤ t → t < st.slapd_daemon_threads →
        ((close_listeners 1 st).1.slap_daemon t).sd_index lr.sl_sd = -1) := by
  unfold close_listeners
  by_cases hl : st.listening = 0
  · rw [if_pos hl]
    exact ⟨h, fun c => absurd hl c⟩
  · rw [if_neg hl]
    have h0 : Index_Inv { st with listening := 0 } :=
      Index_Inv_transfer h rfl rfl rfl rfl (fun t _ _ => ⟨rfl, rfl, fun _ _ _ => rfl⟩)
        (fun _ _ _ _ _ _ => rfl)
    obtain ⟨i1, _, _, i4⟩ := close_loop_ix st.slap_listeners.length 0 { st with listening := 0 } []
      h0 rfl hok (by simp)
    refine ⟨i1, ?_⟩
    intro _ lr hlr hne t a b
    obtain ⟨i, hi⟩ := List.getElem?_of_mem hlr
    exact (i4 t a b).2 i lr (Nat.zero_le _) hi hne

theorem Inv_of_Index_Inv {st : Daemon} (h : Index_Inv st)
    (hc : cnt_ok st st.slapd_daemon_threads) : Inv st :=
  ⟨h.1, h.2.1, h.2.2.1, hc, h.2.2.2⟩

theorem cnt_ok_transfer {A B : Daemon} (h : cnt_ok A A.slapd_daemon_threads)
    (hd : B.dtblsize = A.dtblsize) (hT : B.slapd_daemon_threads = A.slapd_daemon_threads)
    (hn : ∀ t, 0 ≤ t → t < A.slapd_daemon_threads →
      (B.slap_daemon t).sd_nwriters = (A.slap_daemon t).sd_nwriters ∧
      (B.slap_daemon t).sd_epolls = (A.slap_daemon t).sd_epolls ∧
      ∀ s, 0 ≤ s → s < A.dtblsize → (B.slap_daemon t).sd_index s = (A.slap_daemon t).sd_index s) :
    cnt_ok B B.slapd_daemon_threads := by
  intro t a b
  rw [hT] at b
  obtain ⟨n2, n3, n4⟩ := hn t a b
  rw [n2, h t a b, hd]
  congr 2
  unfold shard_writers
  apply Finset.filter_congr
  intro x hx
  rw [Finset.mem_Ico] at hx
  rw [n3, n4 x hx.1 hx.2]

/-- One pass of the loop of `close_listeners(1)` for a listener whose
descriptor is registered keeps the table invariant, counters included, and
leaves the registration of every other descriptor as it was. -/
theorem close_step_Inv {st : Daemon} (h : Inv st) (hl : st.listening = 0) {l : Nat}
    {lr : Listener} (hget : st.slap_listeners[l]? = some lr) (hs0 : 0 ≤ lr.sl_sd)
    (hs1 : lr.sl_sd < st.dtblsize) (hw : is_wake_sd st lr.sl_sd = false)
    (hact : (st.slap_daemon (DAEMON_ID st lr.sl_sd)).sd_index lr.sl_sd ≠ -1) :
    Inv (slapd_remove (st.set_listener l { lr with sl_sd := AC_SOCKET_INVALID }) lr.sl_sd 0 0 0) ∧
    ∀ t s', 0 ≤ s' → s' < st.dtblsize → s' ≠ lr.sl_sd →
      (((slapd_remove (st.set_listener l { lr with sl_sd := AC_SOCKET_INVALID })
        lr.sl_sd 0 0 0).slap_daemon t).sd_index s' = -1 ↔ (st.slap_daemon t).sd_index s' = -1) := by
  obtain ⟨t0, t1⟩ := DAEMON_ID_range h hs0
  have hix := h.2.2.1 _ t0 t1
  have hi0 := (hix.2.1 _ hs0 hs1 hact).1
  have hA : Inv (slapd_remove st lr.sl_sd 0 0 0) := Inv_slapd_remove h 0 0 0 hs0 hs1 hact
  obtain ⟨f1, f2, _⟩ := slapd_remove_frame st lr.sl_sd 0 0 0 hi0
  obtain ⟨g1, g2, _⟩ :=
    slapd_remove_frame (st.set_listener l { lr with sl_sd := AC_SOCKET_INVALID }) lr.sl_sd 0 0 0 hi0
  have tA := slapd_remove_tables st lr.sl_sd 0 0 0 hi0
  have hix' : shard_ix st.dtblsize (SLAP_EPOLL_EV_PTRFD st (DAEMON_ID st lr.sl_sd))
      { st.slap_daemon (DAEMON_ID st lr.sl_sd) with
        sd_nactives := (st.slap_daemon (DAEMON_ID st lr.sl_sd)).sd_nactives +
          (if (0 : Int) ≠ 0 then -1 else 0)
        sd_nwriters := (st.slap_daemon (DAEMON_ID st lr.sl_sd)).sd_nwriters +
          (if ((st.slap_daemon (DAEMON_ID st lr.sl_sd)).sd_epolls
            ((st.slap_daemon (DAEMON_ID st lr.sl_sd)).sd_index lr.sl_sd)).events &&& EPOLLOUT ≠ 0
            then -1 else 0) } := hix
  obtain ⟨_, _, r3⟩ := shard_del_rec hix' hs0 hs1 hact
  refine ⟨Inv_of_Index_Inv (close_step_ix (Index_Inv_of_Inv h) hl hget hs0 hs1 hw).1
    (cnt_ok_transfer hA.2.2.2.1 (g1.trans f1.symm) (g2.trans f2.symm)
      (fun t _ _ => ⟨(close_step_tables hget hi0 t).2.1, (close_step_tables hget hi0 t).2.2.1,
        fun s c _ => (close_step_tables hget hi0 t).2.2.2 s c⟩)), ?_⟩
  intro t s' c d e
  rw [(close_step_tables hget hi0 t).2.2.2 s' c, tA]
  by_cases et : t = DAEMON_ID st lr.sl_sd
  · rw [et, upd_same]
    exact (r3 s' c d e).1
  · rw [upd_ne _ _ et]

/-- The loop of `close_listeners(1)` keeps the table invariant, counters
included, when the open listeners it meets are registered on their shards and
have pairwise different descriptors. -/
theorem close_loop_Inv :
    ∀ (fuel l : Nat) (st : Daemon) (closed : List Int), Inv st → st.listening = 0 →
      listeners_ok st →
      (∀ (i : Nat) (lr : Listener), l ≤ i → st.slap_listeners[i]? = some lr →
        lr.sl_sd ≠ AC_SOCKET_INVALID →
        (st.slap_daemon (DAEMON_ID st lr.sl_sd)).sd_index lr.sl_sd ≠ -1) →
      (∀ (i j : Nat) (lr lr' : Listener), l ≤ i → i < j → st.slap_listeners[i]? = some lr →
        st.slap_listeners[j]? = some lr' → lr.sl_sd ≠ AC_SOCKET_INVALID →
        lr.sl_sd ≠ lr'.sl_sd) →
      Inv (close_listeners_loop 1 fuel l st closed).1 := by
  intro fuel
  induction fuel with
  | zero =>
    intro l st closed h _ _ _ _
    exact h
  | succ fuel ih =>
    intro l st closed h hl hok hreg hdis
    unfold close_listeners_loop
    cases hget : st.slap_listeners[l]? with
    | none => exact h
    | some lr0 =>
      simp only []
      by_cases hsd : lr0.sl_sd ≠ AC_SOCKET_INVALID
      · rw [if_pos hsd]
        simp only [ne_eq, one_ne_zero, not_false_eq_true, if_true]
        obtain ⟨s0, s1, sw⟩ := hok lr0 (List.getElem?_mem hget) hsd
        obtain ⟨c1, _, _, _, c5⟩ := slapd_remove_scalars
          (st.set_listener l { lr0 with sl_sd := AC_SOCKET_INVALID }) lr0.sl_sd 0 0 0
        obtain ⟨d1, d2, d3⟩ := slapd_remove_globals
          (st.set_listener l { lr0 with sl_sd := AC_SOCKET_INVALID }) lr0.sl_sd 0 0 0
        have hls := slapd_remove_listeners_closed
          (st.set_listener l { lr0 with sl_sd := AC_SOCKET_INVALID }) lr0.sl_sd 0 0 0 hl
        obtain ⟨k1, k2⟩ := close_step_Inv h hl hget s0 s1 sw (hreg l lr0 (le_refl _) hget hsd)
        have hsame : ∀ (i : Nat), l + 1 ≤ i →
            (slapd_remove (st.set_listener l { lr0 with sl_sd := AC_SOCKET_INVALID })
              lr0.sl_sd 0 0 0).slap_listeners[i]? = st.slap_listeners[i]? := by
          intro i hi
          rw [hls]
          show (st.slap_listeners.set l _)[i]? = _
          rw [List.getElem?_set_ne (by omega)]
        apply ih (l + 1) _ _ k1 (by rw [c1]; exact hl) (listeners_ok_step hok l lr0 d1 c5 d2 hls)
        · intro i lr hi hgi hne
          rw [hsame i hi] at hgi
          obtain ⟨x0, x1, _⟩ := hok lr (List.getElem?_mem hgi) hne
          have hd : lr.sl_sd ≠ lr0.sl_sd :=
            fun c => hdis l i lr0 lr (le_refl _) (by omega) hget hgi hsd c.symm
          have hid : DAEMON_ID (slapd_remove (st.set_listener l
              { lr0 with sl_sd := AC_SOCKET_INVALID }) lr0.sl_sd 0 0 0) lr.sl_sd =
              DAEMON_ID st lr.sl_sd := by
            unfold DAEMON_ID
            rw [d3]
            rfl
          rw [hid]
          exact fun c => hreg i lr (by omega) hgi hne ((k2 _ lr.sl_sd x0 x1 hd).1 c)
        · intro i j lr lr' hi hij hgi hgj hne
          rw [hsame i hi] at hgi
          rw [hsame j (by omega)] at hgj
          exact hdis i j lr lr' (by omega) hij hgi hgj hne
      · rw [if_neg hsd]
        exact ih (l + 1) st closed h hl hok
          (fun i lr hi => hreg i lr (by omega))
          (fun i j lr lr' hi => hdis i j lr lr' (by omega))

/-- The function `close_listeners(1)` keeps the table invariant, counters
included, when every open listener is registered on its shard (the assertion
of `slapd_remove`) and the open listeners have pairwise different descriptors. -/
theorem Inv_close_listeners {st : Daemon} (h : Inv st) (hok : listeners_ok st)
    (hreg : ∀ lr ∈ st.slap_listeners, lr.sl_sd ≠ AC_SOCKET_INVALID →
      SLAP_SOCK_IS_ACTIVE st (DAEMON_ID st lr.sl_sd) lr.sl_sd = true)
    (hp : st.slap_listeners.Pairwise
      (fun a b => a.sl_sd = AC_SOCKET_INVALID ∨ a.sl_sd ≠ b.sl_sd)) :
    Inv (close_listeners 1 st).1 := by
  unfold close_listeners
  by_cases hl : st.listening = 0
  · rw [if_pos hl]
    exact h
  · rw [if_neg hl]
    have h0 : Inv { st with listening := 0 } :=
      Inv_of_Index_Inv
        (Index_Inv_transfer (Index_Inv_of_Inv h) rfl rfl rfl rfl
          (fun t _ _ => ⟨rfl, rfl, fun _ _ _ => rfl⟩) (fun _ _ _ _ _ _ => rfl))
        h.2.2.2.1
    apply close_loop_Inv _ _ _ _ h0 rfl hok
    · intro i lr _ hgi hne
      exact (IS_ACTIVE_iff _ _ _).1 (hreg lr (List.getElem?_mem hgi) hne)
    · intro i j lr lr' _ hij hgi hgj hne
      obtain ⟨hi, ei⟩ := List.getElem?_eq_some.1 hgi
      obtain ⟨hj, ej⟩ := List.getElem?_eq_some.1 hgj
      have := List.pairwise_iff_getElem.1 hp i j hi hj hij
      rw [ei, ej] at this
      rcases this with c | c
      · exact absurd c hne
      · exact c

theorem close_loop_closed :
    ∀ (fuel l : Nat) (st : Daemon) (closed : List Int), st.listening = 0 →
      st.slap_listeners.length ≤ l + fuel →
      (close_listeners_loop 1 fuel l st closed).2 =
        closed ++ ((st.slap_listeners.drop l).map Listener.sl_sd).filter
          (fun s => decide (s ≠ AC_SOCKET_INVALID)) := by
  intro fuel
  induction fuel with
  | zero =>
    intro l st closed _ hlen
    have : st.slap_listeners.drop l = [] := List.drop_eq_nil_of_le (by omega)
    simp [close_listeners_loop, this]
  | succ fuel ih =>
    intro l st closed hl hlen
    unfold close_listeners_loop
    cases hget : st.slap_listeners[l]? with
    | none =>
      have hlen2 : st.slap_listeners.length ≤ l := by
        by_contra c
        have hlt : l < st.slap_listeners.length := by omega
        rw [List.getElem?_eq_getElem hlt] at hget
        exact absurd hget (by simp)
      have : st.slap_listeners.drop l = [] := List.drop_eq_nil_of_le hlen2
      simp [this]
    | some lr0 =>
      simp only []
      have hlt : l < st.slap_listeners.length := by
        by_contra c
        rw [List.getElem?_eq_none (by omega)] at hget
        exact absurd hget (by simp)
      have hdrop : st.slap_listeners.drop l = lr0 :: st.slap_listeners.drop (l + 1) := by
        rw [List.drop_eq_getElem_cons hlt]
        congr 1
        rw [List.getElem?_eq_getElem hlt] at hget
        exact Option.some.inj hget
      by_cases hsd : lr0.sl_sd ≠ AC_SOCKET_INVALID
      · rw [if_pos hsd]
        simp only [ne_eq, one_ne_zero, not_false_eq_true, if_true]
        have hls := slapd_remove_listeners_closed
          (st.set_listener l { lr0 with sl_sd := AC_SOCKET_INVALID }) lr0.sl_sd 0 0 0 hl
        obtain ⟨c1, _⟩ := slapd_remove_scalars
          (st.set_listener l { lr0 with sl_sd := AC_SOCKET_INVALID }) lr0.sl_sd 0 0 0
        rw [ih (l + 1) _ _ (by rw [c1]; exact hl) (by
          rw [hls]
          show (st.slap_listeners.set l _).length ≤ l + 1 + fuel
          rw [List.length_set]
          omega)]
        rw [hls]
        show _ ++ List.filter _ (List.map _ (List.drop (l + 1) (st.slap_listeners.set l _))) = _
        rw [List.drop_set_of_lt _ _ (by omega), hdrop]
        simp [hsd]
      · rw [if_neg hsd]
        rw [ih (l + 1) st closed hl (by omega), hdrop]
        have : lr0.sl_sd = AC_SOCKET_INVALID := not_not.mp hsd
        simp [this]

/-- The descriptors that `close_listeners(1)` hands to `slapd_close` are the
descriptors of the open listeners, in the order of `slap_listeners`. -/
theorem close_listeners_closed_list (st : Daemon)
    (h : st.listening ≠ 0 ∨ ∀ lr ∈ st.slap_listeners, lr.sl_sd = AC_SOCKET_INVALID) :
    (close_listeners 1 st).2 =
      (st.slap_listeners.map Listener.sl_sd).filter (fun s => decide (s ≠ AC_SOCKET_INVALID)) := by
  unfold close_listeners
  by_cases h0 : st.listening = 0
  · rw [if_pos h0]
    rcases h with h | h
    · exact absurd h0 h
    · symm
      rw [List.filter_eq_nil_iff]
      intro s hs
      obtain ⟨lr, hlr, e⟩ := List.mem_map.1 hs
      rw [← e, h lr hlr]
      simp
  · rw [if_neg h0]
    have := close_loop_closed st.slap_listeners.length 0 { st with listening := 0 } [] rfl (by simp)
    rw [this]
    simp

theorem other_shards_zero (st : Daemon)
    (hn : ∀ t, 0 ≤ t → t < st.slapd_daemon_threads → 0 ≤ (st.slap_daemon t).sd_nactives)
    (ha : (st.slap_daemon 0).sd_nactives = 0) (hb : other_shards_active st 0 = 0) :
    ∀ t, 0 ≤ t → t < st.slapd_daemon_threads → (st.slap_daemon t).sd_nactives = 0 := by
  intro t ht0 ht1
  have hsum := (foldl_nonneg_zero (fun k => (st.slap_daemon ((k : Int) + 1)).sd_nactives)
    (st.slapd_daemon_threads.toNat - 1) 0
    (fun k hk => by
      show 0 ≤ (st.slap_daemon ((k : Int) + 1)).sd_nactives
      exact hn _ (by omega) (by omega))
    (le_refl _)).2 hb
  by_cases ht : t = 0
  · rw [ht]
    exact ha
  · have := hsum.2 (t - 1).toNat (by omega)
    have e : (((t - 1).toNat : Nat) : Int) + 1 = t := by omega
    simp only [e] at this
    exact this

/-- C16, amended. Under gentle shutdown (`slapd_gentle_shutdown` set) the block
at the top of the loop of shard 0 runs `close_listeners(1)` when the flag is 1
and moves the flag to 2: `listening` becomes 0, the descriptors handed to
`slapd_close` are the descriptors of the open listeners, every listener has
`sl_sd == AC_SOCKET_INVALID` afterwards and, the index maps being consistent
and the open listeners having descriptors in `[0, dtblsize)` that are no wake
descriptors, none of the closed descriptors is registered on any shard. The
block leaves the counters `sd_nactives` as they are. It leaves the loop
exactly when `sd_nactives` of shard 0 is 0 and the `sd_nactives` of the other
shards add up to 0; it then has set `slapd_shutdown = 1`, and when no counter
is negative `sd_nactives` is 0 on every shard; otherwise `slapd_shutdown` is as
before. After the loop the task neither calls `connections_shutdown` nor sets
`slapd_abrupt_shutdown`. The flag `listening` is nonzero unless the listeners
are closed already. -/
theorem gentle_shutdown_waits_for_sessions (st : Daemon) (hg : st.slapd_gentle_shutdown ≠ 0)
    (hl : st.listening ≠ 0 ∨ ∀ lr ∈ st.slap_listeners, lr.sl_sd = AC_SOCKET_INVALID) :
    (st.slapd_gentle_shutdown = 1 →
      (gentle_shutdown_block st 0).st.slapd_gentle_shutdown = 2 ∧
      (gentle_shutdown_block st 0).st.listening = 0 ∧
      (gentle_shutdown_block st 0).closed =
        (st.slap_listeners.map Listener.sl_sd).filter (fun s => decide (s ≠ AC_SOCKET_INVALID)) ∧
      (∀ lr ∈ (gentle_shutdown_block st 0).st.slap_listeners, lr.sl_sd = AC_SOCKET_INVALID) ∧
      (Index_Inv st → listeners_ok st →
        ∀ s ∈ (gentle_shutdown_block st 0).closed, ∀ t, 0 ≤ t → t < st.slapd_daemon_threads →
          SLAP_SOCK_IS_ACTIVE (gentle_shutdown_block st 0).st t s = false)) ∧
    (∀ t, ((gentle_shutdown_block st 0).st.slap_daemon t).sd_nactives =
      (st.slap_daemon t).sd_nactives) ∧
    ((gentle_shutdown_block st 0).left_loop = true ↔
      (st.slap_daemon 0).sd_nactives = 0 ∧ other_shards_active st 0 = 0) ∧
    ((gentle_shutdown_block st 0).left_loop = true →
      (gentle_shutdown_block st 0).st.slapd_shutdown = 1 ∧
      ((∀ t, 0 ≤ t → t < st.slapd_daemon_threads → 0 ≤ (st.slap_daemon t).sd_nactives) →
        ∀ t, 0 ≤ t → t < st.slapd_daemon_threads →
          ((gentle_shutdown_block st 0).st.slap_daemon t).sd_nactives = 0)) ∧
    ((gentle_shutdown_block st 0).left_loop = false →
      (gentle_shutdown_block st 0).st.slapd_shutdown = st.slapd_shutdown) ∧
    (slapd_daemon_task_exit (gentle_shutdown_block st 0).st 0).connections_shutdown = false ∧
    (slapd_daemon_task_exit (gentle_shutdown_block st 0).st 0).st.slapd_abrupt_shutdown =
      st.slapd_abrupt_shutdown := by
  obtain ⟨k1, k2, k3, k4, k5, k6⟩ := close_listeners_scalars 1 st
  have k7 := close_listeners_closed 1 st hl
  have k8 := close_listeners_closed_list st hl
  -- the state after the first part of the block
  have key : ∀ st1 : Daemon, st1.slapd_gentle_shutdown ≠ 0 →
      st1.slapd_shutdown = st.slapd_shutdown → st1.slapd_daemon_threads = st.slapd_daemon_threads →
      st1.slapd_abrupt_shutdown = st.slapd_abrupt_shutdown →
      (∀ t, (st1.slap_daemon t).sd_nactives = (st.slap_daemon t).sd_nactives) →
      ∀ (closed : List Int) (R : gentle_step),
      R = (if (st1.slap_daemon 0).sd_nactives = 0 then
          if (0 : Int) = 0 then
            if other_shards_active st1 (st1.slap_daemon 0).sd_nactives = 0 then
              { st := { st1 with slapd_shutdown := 1 }, closed := closed, left_loop := true }
            else { st := st1, closed := closed, left_loop := false }
          else { st := st1, closed := closed, left_loop := true }
        else { st := st1, closed := closed, left_loop := false }) →
      (R.st.slapd_gentle_shutdown = st1.slapd_gentle_shutdown ∧ R.st.listening = st1.listening ∧
        R.st.slap_listeners = st1.slap_listeners ∧ R.st.slap_daemon = st1.slap_daemon ∧
        R.closed = closed) ∧
      (R.left_loop = true ↔
        (st.slap_daemon 0).sd_nactives = 0 ∧ other_shards_active st 0 = 0) ∧
      (R.left_loop = true → R.st.slapd_shutdown = 1) ∧
      (R.left_loop = false → R.st.slapd_shutdown = st.slapd_shutdown) ∧
      (slapd_daemon_task_exit R.st 0).connections_shutdown = false ∧
      (slapd_daemon_task_exit R.st 0).st.slapd_abrupt_shutdown = st.slapd_abrupt_shutdown := by
    intro st1 g1 g2 g3 g4 g5 closed R hR
    have hexit : ∀ X : Daemon, X.slapd_gentle_shutdown ≠ 0 →
        X.slapd_abrupt_shutdown = st.slapd_abrupt_shutdown →
        (slapd_daemon_task_exit X 0).connections_shutdown = false ∧
        (slapd_daemon_task_exit X 0).st.slapd_abrupt_shutdown = st.slapd_abrupt_shutdown := by
      intro X x1 x2
      obtain ⟨_, e2, _, e4, _, _⟩ := close_listeners_scalars 1 X
      unfold slapd_daemon_task_exit
      rw [if_neg (by simp)]
      simp only []
      rw [if_neg (by rw [e2]; exact x1)]
      exact ⟨rfl, e4.trans x2⟩
    have hsum : ∀ a : Int, other_shards_active st1 a = other_shards_active st a := by
      intro a
      unfold other_shards_active
      rw [g3]
      congr 1
      funext acc n
      rw [g5]
    by_cases ha : (st1.slap_daemon 0).sd_nactives = 0
    · rw [if_pos ha, if_pos rfl] at hR
      have ha' : (st.slap_daemon 0).sd_nactives = 0 := by
        rw [← g5]
        exact ha
      by_cases hb : other_shards_active st1 (st1.slap_daemon 0).sd_nactives = 0
      · rw [if_pos hb] at hR
        subst hR
        rw [ha, hsum] at hb
        exact ⟨⟨rfl, rfl, rfl, rfl, rfl⟩, ⟨fun _ => ⟨ha', hb⟩, fun _ => rfl⟩, fun _ => rfl,
          fun c => absurd c (by simp), hexit _ g1 g4⟩
      · rw [if_neg hb] at hR
        subst hR
        rw [ha, hsum] at hb
        exact ⟨⟨rfl, rfl, rfl, rfl, rfl⟩, ⟨fun c => absurd c (by simp), fun c => absurd c.2 hb⟩,
          fun c => absurd c (by simp), fun _ => g2, hexit _ g1 g4⟩
    · rw [if_neg ha] at hR
      subst hR
      have ha' : ¬ (st.slap_daemon 0).sd_nactives = 0 := by
        rw [← g5]
        exact ha
      exact ⟨⟨rfl, rfl, rfl, rfl, rfl⟩, ⟨fun c => absurd c (by simp), fun c => absurd c.1 ha'⟩,
        fun c => absurd c (by simp), fun _ => g2, hexit _ g1 g4⟩
  have fin : ∀ (B : gentle_step) (st1 : Daemon), B.st.slap_daemon = st1.slap_daemon →
      (∀ t, (st1.slap_daemon t).sd_nactives = (st.slap_daemon t).sd_nactives) →
      (B.left_loop = true ↔
        (st.slap_daemon 0).sd_nactives = 0 ∧ other_shards_active st 0 = 0) →
      (B.left_loop = true → B.st.slapd_shutdown = 1) →
      (∀ t, (B.st.slap_daemon t).sd_nactives = (st.slap_daemon t).sd_nactives) ∧
      (B.left_loop = true → B.st.slapd_shutdown = 1 ∧
        ((∀ t, 0 ≤ t → t < st.slapd_daemon_threads → 0 ≤ (st.slap_daemon t).sd_nactives) →
          ∀ t, 0 ≤ t → t < st.slapd_daemon_threads → (B.st.slap_daemon t).sd_nactives = 0)) := by
    intro B st1 e1 e2 e3 e4
    have e5 : ∀ t, (B.st.slap_daemon t).sd_nactives = (st.slap_daemon t).sd_nactives := by
      intro t
      rw [e1]
      exact e2 t
    refine ⟨e5, fun c => ⟨e4 c, fun hn t a b => ?_⟩⟩
    rw [e5]
    exact other_shards_zero st hn (e3.1 c).1 (e3.1 c).2 t a b
  by_cases h1 : st.slapd_gentle_shutdown = 1
  · obtain ⟨⟨a1, a2, a3, a4, a5⟩, b, c, d, e⟩ := key
      { (close_listeners 1 st).1 with slapd_gentle_shutdown := 2 } (by simp) k3 k5 k4 k6
      (close_listeners 1 st).2 (gentle_shutdown_block st 0) (by
        unfold gentle_shutdown_block
        rw [if_pos hg]
        simp only [h1, and_self, if_true])
    obtain ⟨f1, f2⟩ := fin (gentle_shutdown_block st 0) _ a4 k6 b c
    refine ⟨fun _ => ⟨a1, a2.trans k1, a5.trans k8, ?_, ?_⟩, f1, b, f2, d, e⟩
    · rw [a3]
      exact k7
    · intro hI hok s hs t t0 t1
      rw [a5, k8] at hs
      obtain ⟨hs1, hs2⟩ := List.mem_filter.1 hs
      obtain ⟨lr, hlr, e0⟩ := List.mem_map.1 hs1
      have hne : lr.sl_sd ≠ AC_SOCKET_INVALID := by
        rw [e0]
        exact of_decide_eq_true hs2
      have hlis : st.listening ≠ 0 := by
        rcases hl with hl | hl
        · exact hl
        · exact absurd (hl lr hlr) hne
      have := (Index_Inv_close_listeners hI hok).2 hlis lr hlr hne t t0 t1
      rw [← Bool.not_eq_true, IS_ACTIVE_iff, a4, ← e0]
      exact fun c => c this
  · obtain ⟨⟨_, _, _, a4, _⟩, b, c, d, e⟩ := key st hg rfl rfl rfl (fun _ => rfl) []
      (gentle_shutdown_block st 0) (by
        unfold gentle_shutdown_block
        rw [if_pos hg]
        simp only [h1, and_false, if_false])
    obtain ⟨f1, f2⟩ := fin (gentle_shutdown_block st 0) _ a4 (fun _ => rfl) b c
    exact ⟨fun c1 => absurd c1 h1, f1, b, f2, d, e⟩

theorem gentle_pending_ok : Index_Inv gentle_pending ∧ listeners_ok gentle_pending := by
  have hR : Reachable (slapd_add (slapd_add two_listeners 1 0 (some 0) (-1) 0) 2 0 (some 1) (-1) 0) :=
    Reachable.add_listener 1 (stream_listener 2)
      (Reachable.add_listener 0 (stream_listener 1)
        (Reachable.add_internal 7 1
          (Reachable.start zeroed 8 2 sample_wake [stream_listener 1, stream_listener 2] (by decide))
          (by decide) (by decide) (by decide) (by decide))
        (by decide) (by decide) (by decide) (by decide) (by decide))
      (by decide) (by decide) (by decide) (by decide) (by decide)
  constructor
  · exact Index_Inv_transfer (Index_Inv_of_Inv (Reachable_Inv hR)) rfl rfl rfl rfl
      (fun t _ _ => ⟨rfl, rfl, fun _ _ _ => rfl⟩) (fun _ _ _ _ _ _ => rfl)
  · intro lr hlr _
    have : gentle_pending.slap_listeners = [stream_listener 1, stream_listener 2] := by decide
    rw [this] at hlr
    have e : lr = stream_listener 1 ∨ lr = stream_listener 2 := by simpa using hlr
    rcases e with e | e <;> rw [e] <;> decide

/-- Witness of C16, amended: the daemon `gentle_pending`, where `SIGHUP` has
arrived while one session is active; the block closes the listeners on the
descriptors 1 and 2, which are registered on no shard afterwards, and stays in
the loop; with the session gone (`gentle_idle`) it leaves the loop. -/
theorem gentle_shutdown_waits_for_sessions_witness :
    gentle_pending.slapd_gentle_shutdown ≠ 0 ∧ gentle_pending.listening ≠ 0 ∧
    (gentle_shutdown_block gentle_pending 0).st.slapd_gentle_shutdown = 2 ∧
    (gentle_shutdown_block gentle_pending 0).closed = [1, 2] ∧
    SLAP_SOCK_IS_ACTIVE gentle_pending 1 1 = true ∧
    SLAP_SOCK_IS_ACTIVE (gentle_shutdown_block gentle_pending 0).st 1 1 = false ∧
    (gentle_shutdown_block gentle_pending 0).left_loop = false ∧
    (gentle_shutdown_block gentle_idle 0).left_loop = true ∧
    (gentle_shutdown_block gentle_idle 0).st.slapd_shutdown = 1 :=
  ⟨by decide, by decide,
    ((gentle_shutdown_waits_for_sessions gentle_pending (by decide) (Or.inl (by decide))).1
      (by decide)).1,
    by decide, by decide,
    ((gentle_shutdown_waits_for_sessions gentle_pending (by decide) (Or.inl (by decide))).1
      (by decide)).2.2.2.2 gentle_pending_ok.1 gentle_pending_ok.2 1 (by decide) 1
      (by decide) (by decide),
    by decide, by decide, by decide⟩

/-- C16, counterexample. The block sums the counters. In a daemon
of four shards a caller registers descriptor 14 with `isactive` 0 and removes
it with `wasactive` 1 (the assertions of both calls hold), which leaves -1 in
`sd_nactives` of shard 2; session 13 is then registered on shard 1. Under
gentle shutdown the block of shard 0 finds the sum 0, sets `slapd_shutdown = 1`
and leaves the loop while `sd_nactives` of shard 1 is 1 and session 13 is
registered. -/
theorem gentle_shutdown_sums_counters :
    SLAP_SOCK_NOT_ACTIVE four_start (DAEMON_ID four_start 14) 14 = true ∧
    SLAP_SOCK_IS_ACTIVE four_client (DAEMON_ID four_client 14) 14 = true ∧
    SLAP_SOCK_NOT_ACTIVE four_removed (DAEMON_ID four_removed 13) 13 = true ∧
    gentle_mismatched.slapd_gentle_shutdown = 1 ∧ gentle_mismatched.slapd_shutdown = 0 ∧
    (gentle_mismatched.slap_daemon 1).sd_nactives = 1 ∧
    (gentle_mismatched.slap_daemon 2).sd_nactives = -1 ∧
    (gentle_shutdown_block gentle_mismatched 0).left_loop = true ∧
    (gentle_shutdown_block gentle_mismatched 0).st.slapd_shutdown = 1 ∧
    ((gentle_shutdown_block gentle_mismatched 0).st.slap_daemon 1).sd_nactives = 1 ∧
    SLAP_SOCK_IS_ACTIVE (gentle_shutdown_block gentle_mismatched 0).st 1 13 = true := by
  decide

theorem one_listener_ok : listeners_ok one_listener := by
  intro lr hlr _
  have e : lr = stream_listener 1 := by
    have : one_listener.slap_listeners = [stream_listener 1] := by decide
    rw [this] at hlr
    simpa using hlr
  rw [e]
  decide

theorem one_listener_registered : ∀ lr ∈ one_listener.slap_listeners,
    lr.sl_sd ≠ AC_SOCKET_INVALID →
    SLAP_SOCK_IS_ACTIVE one_listener (DAEMON_ID one_listener lr.sl_sd) lr.sl_sd = true := by
  intro lr hlr _
  have e : lr = stream_listener 1 := by
    have : one_listener.slap_listeners = [stream_listener 1] := by decide
    rw [this] at hlr
    simpa using hlr
  rw [e]
  decide

/-- In `wake_and_listener` the record of the listener is the last one of shard
0, at index 1, and `close_listeners(1)` leaves that index in `sd_index[-1]`:
`sl_sd` is already -1 when `SLAP_SOCK_DEL` resolves the record. The entries of
the descriptors in range are as after a removal. -/
theorem close_listeners_writes_below_index :
    ((wake_and_listener.slap_daemon 0).sd_index (-1), (wake_and_listener.slap_daemon 0).sd_index 1,
      (wake_and_listener.slap_daemon 0).sd_index 3, (wake_and_listener.slap_daemon 0).sd_nfds) =
      (0, 1, 0, 2) ∧
    (((close_listeners 1 wake_and_listener).1.slap_daemon 0).sd_index (-1),
      ((close_listeners 1 wake_and_listener).1.slap_daemon 0).sd_index 1,
      ((close_listeners 1 wake_and_listener).1.slap_daemon 0).sd_index 3,
      ((close_listeners 1 wake_and_listener).1.slap_daemon 0).sd_nfds) = (1, -1, 0, 1) := by
  decide

/-- C28. The index map of the epoll tables (`index_map_ok`): on a shard,
`sd_nfds` is the number of registered descriptors, a registered descriptor has
an index in `[0, sd_nfds)`, the record at its index resolves to it through
`SLAP_EPOLL_EV_PTRFD` and holds its arming, distinct registered descriptors have
distinct indices, and an unregistered descriptor has index -1. It holds on
every shard after `SLAP_SOCK_INIT`, whatever the memory around the block holds,
and in every reachable state. From a state in which it holds on every shard,
`SLAP_SOCK_ADD` with a successful `epoll_ctl` (for a descriptor not yet on the
shard and a data pointer that resolves to it: a session, a wake descriptor or
a listener) and `SLAP_SOCK_DEL` (for any descriptor in range) lead to a state in
which it holds on every shard. So does `close_listeners(1)`, from a state whose
index maps and routing are consistent (`Index_Inv`, which the table invariant
`Inv` includes) and in which the open listeners have descriptors in range that
are no wake descriptors; it keeps `Index_Inv`. The counters `sd_nwriters` are
no part of the index map; `close_listeners(1)` keeps the table invariant `Inv`,
which includes them, when every open listener is registered on its shard (the
assertion of `slapd_remove`) and the open listeners have pairwise different
descriptors. -/
theorem index_map_invariant (st : Daemon)
    (h : ∀ t, 0 ≤ t → t < st.slapd_daemon_threads → index_map_ok st t) :
    (∀ (outside : Int → Int → epoll_event) (dtblsize threads : Int) (wake : Int → Int × Int)
      (ls : List Listener) (t : Int),
      index_map_ok (daemon_start outside dtblsize threads wake ls) t) ∧
    (∀ st' : Daemon, Reachable st' →
      ∀ t, 0 ≤ t → t < st'.slapd_daemon_threads → index_map_ok st' t) ∧
    (∀ t s l, 0 ≤ s → s < st.dtblsize → SLAP_SOCK_IS_ACTIVE st t s = false →
      (∀ j, l = some j → ∃ lr, st.slap_listeners[j]? = some lr ∧ lr.sl_sd = s) →
      ∀ t', 0 ≤ t' → t' < st.slapd_daemon_threads →
        index_map_ok (SLAP_SOCK_ADD st t s l 0) t') ∧
    (∀ t s, 0 ≤ t → t < st.slapd_daemon_threads → 0 ≤ s → s < st.dtblsize →
      ∀ t', 0 ≤ t' → t' < st.slapd_daemon_threads → index_map_ok (SLAP_SOCK_DEL st t s) t') ∧
    (Inv st → Index_Inv st) ∧
    (Index_Inv st → listeners_ok st →
      Index_Inv (close_listeners 1 st).1 ∧
      ∀ t', 0 ≤ t' → t' < st.slapd_daemon_threads →
        index_map_ok (close_listeners 1 st).1 t') ∧
    (Inv st → listeners_ok st →
      (∀ lr ∈ st.slap_listeners, lr.sl_sd ≠ AC_SOCKET_INVALID →
        SLAP_SOCK_IS_ACTIVE st (DAEMON_ID st lr.sl_sd) lr.sl_sd = true) →
      st.slap_listeners.Pairwise (fun a b => a.sl_sd = AC_SOCKET_INVALID ∨ a.sl_sd ≠ b.sl_sd) →
      Inv (close_listeners 1 st).1) := by
  refine ⟨?_, ?_, ?_, ?_, Index_Inv_of_Inv, ?_, Inv_close_listeners⟩
  · intro outside dtblsize threads wake ls t
    apply index_map_of_ix
    refine ⟨le_refl _, ?_, ?_⟩
    · intro s a b c
      exfalso
      apply c
      show (if 0 ≤ s ∧ s < dtblsize then (-1 : Int) else 0) = -1
      rw [if_pos ⟨a, b⟩]
    · intro k a b
      have b' : k < 0 := b
      omega
  · intro st' hr t a b
    exact index_map_of_ix ((Reachable_Inv hr).2.2.1 t a b)
  · intro t s l s0 s1 hna hl
    exact index_map_SLAP_SOCK_ADD _ h t s l s0 s1 hna hl
  · intro t s t0 t1 s0 s1
    exact index_map_SLAP_SOCK_DEL _ h t s t0 t1 s0 s1
  · intro hI hok
    have hc := (Index_Inv_close_listeners hI hok).1
    refine ⟨hc, fun t' a b => ?_⟩
    apply index_map_of_ix
    have e := (close_listeners_scalars 1 st).2.2.2.2.1
    exact hc.2.2.1 t' a (by rw [e]; exact b)

/-- Witness of C28: the daemon `one_listener`, whose listener is the last
record of shard 0. -/
theorem index_map_invariant_witness :
    (∀ t, 0 ≤ t → t < one_listener.slapd_daemon_threads → index_map_ok one_listener t) ∧
    Inv one_listener ∧ listeners_ok one_listener ∧
    index_map_ok (SLAP_SOCK_ADD one_listener 0 7 none 0) 0 ∧
    index_map_ok (SLAP_SOCK_DEL one_listener 0 1) 0 ∧
    index_map_ok (close_listeners 1 one_listener).1 0 ∧
    Inv (close_listeners 1 one_listener).1 :=
  ⟨fun t a b => index_map_of_ix ((Reachable_Inv one_listener_reachable).2.2.1 t a b),
    Reachable_Inv one_listener_reachable, one_listener_ok,
    (index_map_invariant one_listener
      (fun t a b => index_map_of_ix ((Reachable_Inv one_listener_reachable).2.2.1 t a b))).2.2.1
      0 7 none (by decide) (by decide) (by decide) (fun j hj => absurd hj (by simp)) 0
      (by decide) (by decide),
    (index_map_invariant one_listener
      (fun t a b => index_map_of_ix ((Reachable_Inv one_listener_reachable).2.2.1 t a b))).2.2.2.1
      0 1 (by decide) (by decide) (by decide) (by decide) 0 (by decide) (by decide),
    ((index_map_invariant one_listener
      (fun t a b => index_map_of_ix ((Reachable_Inv one_listener_reachable).2.2.1 t a b))).2.2.2.2.2.1
      (Index_Inv_of_Inv (Reachable_Inv one_listener_reachable)) one_listener_ok).2 0
      (by decide) (by decide),
    (index_map_invariant one_listener
      (fun t a b => index_map_of_ix ((Reachable_Inv one_listener_reachable).2.2.1 t a b))).2.2.2.2.2.2
      (Reachable_Inv one_listener_reachable) one_listener_ok one_listener_registered
      (List.pairwise_singleton _ _)⟩

/-! ## Masks and shifts as division and remainder -/

theorem and_shl_mask (u k n : Nat) : u &&& ((2 ^ n - 1) <<< k) = (u / 2 ^ k % 2 ^ n) * 2 ^ k := by
  apply Nat.eq_of_testBit_eq
  intro j
  rw [Nat.testBit_and, Nat.testBit_shiftLeft, Nat.testBit_two_pow_sub_one, Nat.mul_comm,
    Nat.testBit_mul_pow_two, Nat.testBit_mod_two_pow, ← Nat.shiftRight_eq_div_pow,
    Nat.testBit_shiftRight]
  by_cases h : k ≤ j
  · have e : k + (j - k) = j := by omega
    simp [h, e, Bool.and_comm]
  · simp [h]

theorem and_ff_shl (u i : Nat) :
    u &&& (0xff <<< (i * 8)) = (u / 2 ^ (i * 8) % 256) * 2 ^ (i * 8) :=
  and_shl_mask u (i * 8) 8

theorem and_80_shl (u i : Nat) :
    u &&& (0x80 <<< (i * 8)) = (u / 2 ^ (i * 8 + 7) % 2) * 2 ^ (i * 8 + 7) := by
  have e : (0x80 : Nat) <<< (i * 8) = (2 ^ 1 - 1) <<< (i * 8 + 7) := by
    rw [Nat.shiftLeft_eq, Nat.shiftLeft_eq, Nat.pow_add]
    norm_num
    ring
  rw [e]
  exact and_shl_mask u (i * 8 + 7) 1


/-! ## liblber: writing octets -/

theorem buf_write_append (buf : Nat → Nat) (p : Nat) (a b : List Nat) :
    buf_write (buf_write buf p a) (p + a.length) b = buf_write buf p (a ++ b) := by
  funext q
  unfold buf_write
  simp only [List.length_append]
  by_cases h1 : p + a.length ≤ q ∧ q < p + a.length + b.length
  · rw [if_pos h1, if_pos ⟨by omega, by omega⟩]
    have e : q - p = a.length + (q - (p + a.length)) := by omega
    rw [e, List.getD_eq_getElem?_getD, List.getD_eq_getElem?_getD,
      List.getElem?_append_right (by omega)]
    congr 2
    omega
  · rw [if_neg h1]
    by_cases h2 : p ≤ q ∧ q < p + a.length
    · rw [if_pos h2, if_pos ⟨by omega, by omega⟩, List.getD_eq_getElem?_getD,
        List.getD_eq_getElem?_getD, List.getElem?_append_left (by omega)]
    · rw [if_neg h2, if_neg (by omega)]

theorem buf_read_write (buf : Nat → Nat) (p : Nat) (a : List Nat) :
    buf_read (buf_write buf p a) p a.length = a := by
  apply List.ext_getElem
  · simp [buf_read]
  · intro n h1 h2
    simp only [buf_read, List.getElem_map, List.getElem_range, buf_write]
    rw [if_pos ⟨by omega, by omega⟩]
    have e : p + n - p = n := by omega
    rw [e, List.getD_eq_getElem?_getD, List.getElem?_eq_getElem h2]
    rfl

theorem ber_write_rc (ber : BerElement) (a : List Nat) (n : Int) :
    (ber_write ber a n).2 = (a.length : Int) := by
  unfold ber_write
  split
  · rfl
  · split_ifs <;> rfl

theorem ber_write_append (ber : BerElement) (a b : List Nat) (n : Int) :
    (ber_write (ber_write ber a n).1 b n).1 = (ber_write ber (a ++ b) n).1 := by
  cases hs : ber.ber_sos with
  | nil =>
    simp only [ber_write, hs, buf_write_append, List.length_append, Nat.add_assoc]
  | cons sos rest =>
    by_cases hn : n ≠ 0
    · simp only [ber_write, hs, if_pos hn, buf_write_append, List.length_append, Nat.add_assoc]
    · simp only [ber_write, hs, if_neg hn, buf_write_append, List.length_append, Nat.add_assoc]

theorem ber_write_buf (ber : BerElement) (a : List Nat) :
    buf_read (ber_write ber a 0).1.ber_buf (ber_write_pos ber) a.length = a := by
  cases hs : ber.ber_sos with
  | nil => simp only [ber_write, ber_write_pos, hs, buf_read_write]
  | cons sos rest =>
    simp only [ber_write, ber_write_pos, hs, ne_eq, not_true_eq_false, if_false, buf_read_write]

theorem LBER_HTON_length (W x : Nat) : (LBER_HTON W x).length = W := by
  simp [LBER_HTON]

theorem octets_at_length (l : List Nat) (off n : Nat) (h : off + n ≤ l.length) :
    (octets_at l off n).length = n := by
  simp only [octets_at, List.length_take, List.length_drop]
  omega

theorem ber_calc_taglen_loop_le (sz : lber_types) (tag : Nat) :
    ∀ i, ber_calc_taglen_loop sz tag i ≤ i := by
  intro i
  induction i with
  | zero => simp [ber_calc_taglen_loop]
  | succ i ih =>
    unfold ber_calc_taglen_loop
    split_ifs
    · exact le_refl _
    · omega

theorem ber_calc_taglen_range (sz : lber_types) (tag : Nat) (h : 1 ≤ sz.sizeof_ber_tag_t) :
    1 ≤ ber_calc_taglen sz tag ∧ ber_calc_taglen sz tag ≤ sz.sizeof_ber_tag_t := by
  have := ber_calc_taglen_loop_le sz tag (sz.sizeof_ber_tag_t - 1)
  unfold ber_calc_taglen
  omega

theorem tag_octets_length (sz : lber_types) (tag : Nat) (h : 1 ≤ sz.sizeof_ber_tag_t) :
    (tag_octets sz tag).length = ber_calc_taglen sz tag := by
  obtain ⟨_, h2⟩ := ber_calc_taglen_range sz tag h
  apply octets_at_length
  rw [LBER_HTON_length]
  omega

theorem ber_put_tag_eq (sz : lber_types) (ber : BerElement) (tag : Nat) (n : Int) :
    ber_put_tag sz ber tag n = ber_write ber (tag_octets sz tag) n := rfl

theorem LBER_HTON_last (W x : Nat) (h : 1 ≤ W) : octets_at (LBER_HTON W x) (W - 1) 1 = [x % 256] := by
  obtain ⟨n, rfl⟩ : ∃ n, W = n + 1 := ⟨W - 1, by omega⟩
  simp only [LBER_HTON, octets_at, List.range_succ, List.map_append, List.map_cons, List.map_nil,
    Nat.add_sub_cancel]
  rw [List.drop_left' (by simp)]
  simp

theorem ber_put_len_short (sz : lber_types) (ber : BerElement) (len : Nat) (n : Int)
    (hL : 1 ≤ sz.sizeof_ber_len_t) (h : len ≤ 127) :
    ber_put_len sz ber len n = some (ber_write ber [len] n) := by
  unfold ber_put_len
  rw [if_pos h]
  simp only []
  rw [LBER_HTON_last _ _ hL, Nat.mod_eq_of_lt (by omega)]

/-! ## liblber: the octets of an integer -/

theorem and_ff000000 (u : Nat) : u &&& 4278190080 = (u / 16777216 % 256) * 16777216 := by
  have h := and_ff_shl u 3
  norm_num at h
  exact h

theorem and_ff0000 (u : Nat) : u &&& 16711680 = (u / 65536 % 256) * 65536 := by
  have h := and_ff_shl u 2
  norm_num at h
  exact h

theorem and_ff00 (u : Nat) : u &&& 65280 = (u / 256 % 256) * 256 := by
  have h := and_ff_shl u 1
  norm_num at h
  exact h

theorem and_80000000 (u : Nat) : u &&& 2147483648 = (u / 2147483648 % 2) * 2147483648 := by
  have h := and_80_shl u 3
  norm_num at h
  exact h

theorem and_800000 (u : Nat) : u &&& 8388608 = (u / 8388608 % 2) * 8388608 := by
  have h := and_80_shl u 2
  norm_num at h
  exact h

theorem and_8000 (u : Nat) : u &&& 32768 = (u / 32768 % 2) * 32768 := by
  have h := and_80_shl u 1
  norm_num at h
  exact h

theorem and_80 (u : Nat) : u &&& 128 = (u / 128 % 2) * 128 := by
  have h := and_80_shl u 0
  norm_num at h
  exact h

theorem int_masks :
    (0xff <<< ((2 + 1) * 8)) % 2 ^ 32 = 4278190080 ∧ (0xff <<< ((1 + 1) * 8)) % 2 ^ 32 = 16711680 ∧
    (0xff <<< ((0 + 1) * 8)) % 2 ^ 32 = 65280 ∧ (0x80 <<< (3 * 8)) % 2 ^ 32 = 2147483648 ∧
    (0x80 <<< (2 * 8)) % 2 ^ 32 = 8388608 ∧ (0x80 <<< (1 * 8)) % 2 ^ 32 = 32768 ∧
    (0x80 <<< (0 * 8)) % 2 ^ 32 = 128 := by
  decide

theorem ber_put_int_loop_pos (u : Nat) (hu : u < 2 ^ 32) :
    (ber_put_int_loop false u 3 = 3 ∧ 16777216 ≤ u) ∨
    (ber_put_int_loop false u 3 = 2 ∧ 65536 ≤ u ∧ u < 16777216) ∨
    (ber_put_int_loop false u 3 = 1 ∧ 256 ≤ u ∧ u < 65536) ∨
    (ber_put_int_loop false u 3 = 0 ∧ u < 256) := by
  obtain ⟨m3, m2, m1, _⟩ := int_masks
  simp only [ber_put_int_loop, m3, m2, m1, and_ff000000, and_ff0000, and_ff00,
    Bool.false_eq_true, if_false]
  split_ifs <;> omega

theorem ber_put_int_loop_neg (u : Nat) (hu : u < 2 ^ 32) :
    (ber_put_int_loop true u 3 = 3 ∧ u < 4278190080) ∨
    (ber_put_int_loop true u 3 = 2 ∧ 4278190080 ≤ u ∧ u < 4294901760) ∨
    (ber_put_int_loop true u 3 = 1 ∧ 4294901760 ≤ u ∧ u < 4294967040) ∨
    (ber_put_int_loop true u 3 = 0 ∧ 4294967040 ≤ u) := by
  obtain ⟨m3, m2, m1, _⟩ := int_masks
  simp only [ber_put_int_loop, m3, m2, m1, and_ff000000, and_ff0000, and_ff00, if_true]
  split_ifs <;> omega

/-- The number of content octets is the least length whose two's complement
range holds `num`. -/
theorem ber_int_len_spec (num : Int) (h0 : -2 ^ 31 ≤ num) (h1 : num < 2 ^ 31) :
    (ber_int_len num = 1 ∧ -128 ≤ num ∧ num < 128) ∨
    (ber_int_len num = 2 ∧ -32768 ≤ num ∧ num < 32768 ∧ (num < -128 ∨ 128 ≤ num)) ∨
    (ber_int_len num = 3 ∧ -8388608 ≤ num ∧ num < 8388608 ∧ (num < -32768 ∨ 32768 ≤ num)) ∨
    (ber_int_len num = 4 ∧ (num < -8388608 ∨ 8388608 ≤ num)) := by
  obtain ⟨_, _, _, n3, n2, n1, n0⟩ := int_masks
  have hu : (num % 2 ^ 32).toNat < 2 ^ 32 := by omega
  have hv : ((num % 2 ^ 32).toNat : Int) = if num < 0 then num + 2 ^ 32 else num := by
    split_ifs <;> omega
  unfold ber_int_len
  simp only []
  generalize (num % 2 ^ 32).toNat = u at hu hv ⊢
  by_cases hs : num < 0
  · rw [if_pos hs] at hv
    have hd : decide (num < 0) = true := by simpa using hs
    rw [hd]
    rcases ber_put_int_loop_neg u hu with ⟨e, b⟩ | ⟨e, b⟩ | ⟨e, b⟩ | ⟨e, b⟩ <;>
      rw [e] <;>
      simp only [n3, n2, n1, n0, and_80000000, and_800000, and_8000, and_80, Bool.true_eq_false,
        and_false, false_or, true_and] <;>
      split_ifs <;> omega
  · rw [if_neg hs] at hv
    have hd : decide (num < 0) = false := by simpa using hs
    rw [hd]
    rcases ber_put_int_loop_pos u hu with ⟨e, b⟩ | ⟨e, b⟩ | ⟨e, b⟩ | ⟨e, b⟩ <;>
      rw [e] <;>
      simp only [n3, n2, n1, n0, and_80000000, and_800000, and_8000, and_80, Bool.false_eq_true,
        and_true, false_and, or_false] <;>
      split_ifs <;> omega

theorem be_value_foldl (l : List Nat) :
    ∀ a, l.foldl (fun a b => a * 256 + b) a = a * 256 ^ l.length + be_value l := by
  induction l with
  | nil =>
    intro a
    simp [be_value]
  | cons h t ih =>
    intro a
    simp only [List.foldl_cons, be_value, List.length_cons]
    rw [ih (a * 256 + h), ih (0 * 256 + h)]
    ring

theorem be_value_cons (h : Nat) (t : List Nat) :
    be_value (h :: t) = h * 256 ^ t.length + be_value t := by
  have := be_value_foldl t (0 * 256 + h)
  simp only [be_value, List.foldl_cons] at this ⊢
  rw [this]
  ring

theorem be_value_lt (l : List Nat) (hl : ∀ b ∈ l, b < 256) : be_value l < 256 ^ l.length := by
  induction l with
  | nil => simp [be_value]
  | cons h t ih =>
    rw [be_value_cons, List.length_cons, pow_succ]
    have h1 : h < 256 := hl h (List.mem_cons_self _ _)
    have h2 := ih (fun b hb => hl b (List.mem_cons_of_mem _ hb))
    have h3 : h * 256 ^ t.length ≤ 255 * 256 ^ t.length := Nat.mul_le_mul_right _ (by omega)
    omega

/-- The range of the two's complement numbers of a given length. -/
theorem twos_complement_range (h : Nat) (t : List Nat) (hl : ∀ b ∈ h :: t, b < 256) :
    -(128 * 256 ^ t.length : Int) ≤ twos_complement (h :: t) ∧
    twos_complement (h :: t) < (128 * 256 ^ t.length : Int) := by
  have h1 : h < 256 := hl h (List.mem_cons_self _ _)
  have h2 := be_value_lt t (fun b hb => hl b (List.mem_cons_of_mem _ hb))
  have h4 : ((256 ^ t.length : Nat) : Int) = (256 : Int) ^ t.length := by push_cast; rfl
  unfold twos_complement
  rw [be_value_cons, List.length_cons, List.headD_cons, pow_succ]
  push_cast
  generalize (256 : Int) ^ t.length = P at h4 ⊢
  have h5 : (be_value t : Int) < P := by rw [← h4]; exact_mod_cast h2
  have h6 : (0 : Int) ≤ be_value t := Int.natCast_nonneg _
  split_ifs with c
  · have h3 : (128 : Int) * P ≤ h * P := by
      apply mul_le_mul_of_nonneg_right _ (by omega)
      exact_mod_cast c
    have h7 : (h : Int) * P ≤ 255 * P := by
      apply mul_le_mul_of_nonneg_right _ (by omega)
      omega
    constructor <;> linarith
  · have h7 : (h : Int) * P ≤ 127 * P := by
      apply mul_le_mul_of_nonneg_right _ (by omega)
      omega
    have h8 : (0 : Int) ≤ h * P := mul_nonneg (Int.natCast_nonneg h) (by omega)
    constructor <;> linarith

theorem LBER_HTON_4 (u : Nat) :
    LBER_HTON 4 u = [u / 16777216 % 256, u / 65536 % 256, u / 256 % 256, u % 256] := by
  simp [LBER_HTON, List.range_succ]

/-- The content octets denote `num`. -/
theorem ber_int_octets_spec (num : Int) (h0 : -2 ^ 31 ≤ num) (h1 : num < 2 ^ 31) :
    (ber_int_octets num).length = ber_int_len num ∧ (∀ b ∈ ber_int_octets num, b < 256) ∧
    twos_complement (ber_int_octets num) = num := by
  have hu : (num % 2 ^ 32).toNat < 2 ^ 32 := by omega
  have hv : ((num % 2 ^ 32).toNat : Int) = if num < 0 then num + 2 ^ 32 else num := by
    split_ifs <;> omega
  unfold ber_int_octets
  rw [LBER_HTON_4]
  generalize (num % 2 ^ 32).toNat = u at hu hv ⊢
  have hb : ∀ x : Nat, x % 256 < 256 := fun x => Nat.mod_lt _ (by decide)
  rcases ber_int_len_spec num h0 h1 with ⟨e, b⟩ | ⟨e, b⟩ | ⟨e, b⟩ | ⟨e, b⟩ <;> rw [e] <;>
    refine ⟨rfl, ?_, ?_⟩
  all_goals first
    | (intro x hx
       simp only [octets_at, List.drop, List.take, List.mem_cons, List.mem_singleton,
         List.not_mem_nil, or_false, Nat.sub_self, Nat.reduceSub] at hx
       omega)
    | (simp only [octets_at, List.drop, List.take, twos_complement, be_value, List.foldl_cons,
         List.foldl_nil, List.headD_cons, List.length_cons, List.length_nil, Nat.reduceSub]
       push_cast
       split_ifs at hv ⊢ <;> omega)

theorem ber_put_int_or_enum_unfold (sz : lber_types) (ber : BerElement) (num : Int) (tag : Nat) :
    ber_put_int_or_enum sz ber num tag =
      if (ber_put_tag sz ber tag 0).2 = -1 then some ((ber_put_tag sz ber tag 0).1, -1)
      else
        match ber_put_len sz (ber_put_tag sz ber tag 0).1 (ber_int_len num) 0 with
        | none => none
        | some l =>
          if l.2 = -1 then some (l.1, -1)
          else
            if (ber_write l.1 (ber_int_octets num) 0).2 ≠ (ber_int_len num : Int) then
              some ((ber_write l.1 (ber_int_octets num) 0).1, -1)
            else
              some ((ber_write l.1 (ber_int_octets num) 0).1,
                (ber_put_tag sz ber tag 0).2 + l.2 + (ber_int_len num : Int)) := rfl

theorem ber_put_int_or_enum_eq (sz : lber_types) (hT : 1 ≤ sz.sizeof_ber_tag_t)
    (hL : 1 ≤ sz.sizeof_ber_len_t) (ber : BerElement) (num : Int) (tag : Nat)
    (h0 : -2 ^ 31 ≤ num) (h1 : num < 2 ^ 31) :
    ber_put_int_or_enum sz ber num tag =
      some ((ber_write ber (tag_octets sz tag ++ [ber_int_len num] ++ ber_int_octets num) 0).1,
        ((ber_calc_taglen sz tag + 1 + ber_int_len num : Nat) : Int)) := by
  have hlen : ber_int_len num ≤ 127 := by
    rcases ber_int_len_spec num h0 h1 with ⟨e, _⟩ | ⟨e, _⟩ | ⟨e, _⟩ | ⟨e, _⟩ <;> omega
  obtain ⟨c1, _, _⟩ := ber_int_octets_spec num h0 h1
  rw [ber_put_int_or_enum_unfold, ber_put_tag_eq, ber_write_rc, tag_octets_length sz tag hT,
    if_neg (by omega), ber_put_len_short sz _ _ 0 hL hlen]
  simp only [ber_write_rc, c1, List.length_singleton, Nat.cast_one]
  rw [if_neg (by decide), if_neg (by simp), ber_write_append, ber_write_append]
  push_cast
  rw [List.append_assoc]

/-- C23. For every 32-bit signed `num`, `ber_put_int_or_enum` (and so
`ber_put_int` and `ber_put_enum`, which only replace the tag `LBER_DEFAULT`)
hands to `ber_write` the octets of the tag, one length octet `L` and `L` content
octets, where `1 ≤ L ≤ 4`, the content octets denote `num` as a big-endian
two's complement number, and no string of fewer octets denotes `num`; the
octets are in the buffer at the position of the write, and the value returned
is `taglen + 1 + L`. -/
theorem ber_put_int_minimal (sz : lber_types) (hT : 1 ≤ sz.sizeof_ber_tag_t)
    (hL : 1 ≤ sz.sizeof_ber_len_t) (ber : BerElement) (num : Int) (tag : Nat)
    (h0 : -2 ^ 31 ≤ num) (h1 : num < 2 ^ 31) :
    1 ≤ ber_int_len num ∧ ber_int_len num ≤ 4 ∧
    (tag_octets sz tag).length = ber_calc_taglen sz tag ∧
    (ber_int_octets num).length = ber_int_len num ∧
    (∀ b ∈ ber_int_octets num, b < 256) ∧
    twos_complement (ber_int_octets num) = num ∧
    (∀ bs : List Nat, bs ≠ [] → (∀ b ∈ bs, b < 256) → twos_complement bs = num →
      ber_int_len num ≤ bs.length) ∧
    ber_put_int_or_enum sz ber num tag =
      some ((ber_write ber (tag_octets sz tag ++ [ber_int_len num] ++ ber_int_octets num) 0).1,
        ((ber_calc_taglen sz tag + 1 + ber_int_len num : Nat) : Int)) ∧
    buf_read (ber_write ber (tag_octets sz tag ++ [ber_int_len num] ++ ber_int_octets num) 0).1.ber_buf
        (ber_write_pos ber) (ber_calc_taglen sz tag + 1 + ber_int_len num) =
      tag_octets sz tag ++ [ber_int_len num] ++ ber_int_octets num ∧
    ber_put_int sz ber num tag =
      ber_put_int_or_enum sz ber num (if tag = LBER_DEFAULT sz then LBER_INTEGER else tag) ∧
    ber_put_enum sz ber num tag =
      ber_put_int_or_enum sz ber num (if tag = LBER_DEFAULT sz then LBER_ENUMERATED else tag) := by
  obtain ⟨c1, c2, c3⟩ := ber_int_octets_spec num h0 h1
  have ht := tag_octets_length sz tag hT
  have hspec := ber_int_len_spec num h0 h1
  refine ⟨?_, ?_, ht, c1, c2, c3, ?_, ber_put_int_or_enum_eq sz hT hL ber num tag h0 h1, ?_,
    rfl, rfl⟩
  · rcases hspec with ⟨e, _⟩ | ⟨e, _⟩ | ⟨e, _⟩ | ⟨e, _⟩ <;> omega
  · rcases hspec with ⟨e, _⟩ | ⟨e, _⟩ | ⟨e, _⟩ | ⟨e, _⟩ <;> omega
  · intro bs hne hb hv
    cases bs with
    | nil => exact absurd rfl hne
    | cons h t =>
      obtain ⟨r1, r2⟩ := twos_complement_range h t hb
      rw [hv] at r1 r2
      rw [List.length_cons]
      by_contra hc
      have hp : ∀ k, t.length ≤ k → (256 : Int) ^ t.length ≤ 256 ^ k := fun k hk =>
        pow_le_pow_right₀ (by norm_num) hk
      have hp0 : (0 : Int) < 256 ^ t.length := by positivity
      rcases hspec with ⟨e, b⟩ | ⟨e, b⟩ | ⟨e, b⟩ | ⟨e, b⟩
      · omega
      · have := hp 0 (by omega)
        norm_num at this
        omega
      · have := hp 1 (by omega)
        norm_num at this
        omega
      · have := hp 2 (by omega)
        norm_num at this
        omega
  · have e : ber_calc_taglen sz tag + 1 + ber_int_len num =
        (tag_octets sz tag ++ [ber_int_len num] ++ ber_int_octets num).length := by
      simp only [List.length_append, List.length_singleton, ht, c1]
    rw [e]
    exact ber_write_buf ber _

/-- Witness of C23: the number -129 with the tag `LBER_DEFAULT` in a build with
a 64-bit `long`. -/
theorem ber_put_int_minimal_witness :
    (1 : Nat) ≤ lber_lp64.sizeof_ber_tag_t ∧ (1 : Nat) ≤ lber_lp64.sizeof_ber_len_t ∧
    -2 ^ 31 ≤ (-129 : Int) ∧ (-129 : Int) < 2 ^ 31 ∧
    ber_int_octets (-129) = [0xff, 0x7f] ∧
    twos_complement (ber_int_octets (-129)) = -129 ∧
    ber_put_int_or_enum lber_lp64 ber_der (-129) LBER_INTEGER =
      some ((ber_write ber_der
        (tag_octets lber_lp64 LBER_INTEGER ++ [ber_int_len (-129)] ++ ber_int_octets (-129)) 0).1,
        ((ber_calc_taglen lber_lp64 LBER_INTEGER + 1 + ber_int_len (-129) : Nat) : Int)) :=
  ⟨by decide, by decide, by decide, by decide, by decide,
    (ber_put_int_minimal lber_lp64 (by decide) (by decide) ber_der (-129) LBER_INTEGER
      (by decide) (by decide)).2.2.2.2.2.1,
    (ber_put_int_minimal lber_lp64 (by decide) (by decide) ber_der (-129) LBER_INTEGER
      (by decide) (by decide)).2.2.2.2.2.2.2.1⟩

/-! ## liblber: the length octets -/

theorem len_masks :
    shl_uint 0xff ((2 + 1) * 8) = some 4278190080 ∧ shl_uint 0xff ((1 + 1) * 8) = some 16711680 ∧
    shl_uint 0xff ((0 + 1) * 8) = some 65280 := by
  decide

theorem ber_put_len_loop_spec (len : Nat) (h : len < 2 ^ 32) :
    ber_put_len_loop len 3 = some (len_octets len - 1) := by
  obtain ⟨m3, m2, m1⟩ := len_masks
  simp only [ber_put_len_loop, m3, m2, m1, and_ff000000, and_ff0000, and_ff00, len_octets]
  split_ifs <;> first | rfl | omega

/-- With a 32-bit `ber_len_t` every shift of `ber_put_len` is defined, and for
every `len` the function writes the definite length form of `len` and returns
`ber_calc_lenlen( len )`, the number of octets written. -/
theorem ber_put_len_ilp32 (sz : lber_types) (h4 : sz.sizeof_ber_len_t = 4) (ber : BerElement)
    (len : Nat) (nosos : Int) (h : len < 2 ^ 32) :
    ber_put_len sz ber len nosos =
      some ((ber_write ber (length_octets len) nosos).1, (ber_calc_lenlen len : Int)) ∧
    (length_octets len).length = ber_calc_lenlen len ∧
    1 ≤ len_octets len ∧ len_octets len ≤ 4 ∧ len < 256 ^ len_octets len ∧
    (len_octets len = 1 ∨ 256 ^ (len_octets len - 1) ≤ len) := by
  have hn : 1 ≤ len_octets len ∧ len_octets len ≤ 4 ∧ len < 256 ^ len_octets len ∧
      (len_octets len = 1 ∨ 256 ^ (len_octets len - 1) ≤ len) := by
    unfold len_octets
    split_ifs <;> norm_num <;> omega
  have hl : (length_octets len).length = ber_calc_lenlen len := by
    unfold length_octets ber_calc_lenlen len_octets
    split_ifs <;> simp [LBER_HTON_length] <;> omega
  refine ⟨?_, hl, hn⟩
  by_cases hs : len ≤ 127
  · rw [ber_put_len_short sz ber len nosos (by omega) hs]
    have e1 : length_octets len = [len] := by
      unfold length_octets
      rw [if_pos hs]
    have e2 : ber_calc_lenlen len = 1 := by
      unfold ber_calc_lenlen
      rw [if_pos (by omega)]
    rw [e1, e2]
    congr 1
    exact Prod.ext rfl (ber_write_rc ber [len] nosos)
  · unfold ber_put_len
    rw [if_neg hs, h4]
    simp only [Nat.reduceSub]
    rw [ber_put_len_loop_spec len h]
    simp only [ber_write_rc, List.length_singleton, Nat.cast_one, ne_eq, not_true_eq_false,
      if_false]
    have e0 : len_octets len - 1 + 1 = len_octets len := by omega
    rw [e0, if_neg (by omega)]
    have e3 : octets_at (LBER_HTON 4 len) (4 - len_octets len) (len_octets len) =
        LBER_HTON (len_octets len) len := by
      rw [LBER_HTON_4]
      unfold len_octets
      split_ifs <;> simp [octets_at, LBER_HTON, List.range_succ]
    have e4 : length_octets len = [len_octets len ||| 128] ++ LBER_HTON (len_octets len) len := by
      unfold length_octets
      rw [if_neg hs, Nat.lor_comm]
      rfl
    have e5 : ((len_octets len : Nat) : Int) + 1 = (ber_calc_lenlen len : Int) := by
      rw [← hl, e4]
      simp [LBER_HTON_length]
    rw [e3, LBER_HTON_length, if_neg (by simp), ber_write_append, e4, e5]

/-- With a 64-bit `ber_len_t` the first pass of the loop of `ber_put_len`
shifts `0xffU` by 56 bits: the function has no defined result for any `len`
above 127. -/
theorem ber_put_len_lp64 (sz : lber_types) (h8 : sz.sizeof_ber_len_t = 8) (ber : BerElement)
    (len : Nat) (nosos : Int) (h : 127 < len) : ber_put_len sz ber len nosos = none := by
  unfold ber_put_len
  rw [if_neg (by omega), h8]
  rfl

/-- C24. In a build where `long`, and with it `ber_len_t`, has 64 bits, the
loop of `ber_put_len` starts at `i = 7` with the mask `0xffU << 56`, a shift of
an `unsigned int` by more than its width: for `len = 128` the function has no
defined result, where `ber_calc_lenlen` gives 2 and the octets to write are
`81 80`. -/
theorem ber_put_len_undefined_shift :
    shl_uint 0xff ((lber_lp64.sizeof_ber_len_t - 1) * 8) = none ∧
    (ber_put_len lber_lp64 ber_der 128 0).isNone = true ∧
    ber_calc_lenlen 128 = 2 ∧ length_octets 128 = [0x81, 0x80] ∧
    (ber_put_len lber_ilp32 ber_der 128 0).map (fun r => (buf_read r.1.ber_buf 0 2, r.2)) =
      some ([0x81, 0x80], 2) := by
  decide

/-- C29. A sequence with the two-octet tag `BF 1F` and the contents `01 02 03`,
with `LBER_USE_DER`. Closed at top level, the buffer holds `BF 1F 03 01 02 03`
from `sos_first` on. Closed inside an open sequence, it holds
`BF 03 00 01 02 03`: the length octet is copied to `sos_first + 1`, over the
second octet of the tag, and the octet at `sos_first + taglen` is never written.
Both calls return 6, and the nested one adds 6 to `sos_clen` of the parent.
Without `LBER_USE_DER` the octets are `BF 1F 84 00 00 00 03 01 02 03` at top
level and `BF 84 00 00 00 00 03 01 02 03` when nested. With the one-octet tag
`30` the two agree. -/
theorem nested_seq_overwrites_tag :
    ber_calc_taglen lber_ilp32 two_octet_tag = 2 ∧
    (seq_at_top lber_ilp32 ber_der two_octet_tag).map
        (fun r => (buf_read r.1.ber_buf 0 6, r.2)) =
      some ([0xBF, 0x1F, 0x03, 0x01, 0x02, 0x03], 6) ∧
    (seq_nested lber_ilp32 ber_der two_octet_tag).map
        (fun r => (buf_read r.1.ber_buf 6 6, r.2, r.1.ber_sos.map (fun s => (s.sos_first, s.sos_clen)))) =
      some ([0xBF, 0x03, 0x00, 0x01, 0x02, 0x03], 6, [(0, 6)]) ∧
    (seq_at_top lber_ilp32 ber_plain two_octet_tag).map
        (fun r => (buf_read r.1.ber_buf 0 10, r.2)) =
      some ([0xBF, 0x1F, 0x84, 0x00, 0x00, 0x00, 0x03, 0x01, 0x02, 0x03], 10) ∧
    (seq_nested lber_ilp32 ber_plain two_octet_tag).map
        (fun r => (buf_read r.1.ber_buf 6 10, r.2)) =
      some ([0xBF, 0x84, 0x00, 0x00, 0x00, 0x00, 0x03, 0x01, 0x02, 0x03], 10) ∧
    (seq_at_top lber_ilp32 ber_der LBER_SEQUENCE).map
        (fun r => (buf_read r.1.ber_buf 0 5, r.2)) =
      some ([0x30, 0x03, 0x01, 0x02, 0x03], 5) ∧
    (seq_nested lber_ilp32 ber_der LBER_SEQUENCE).map
        (fun r => (buf_read r.1.ber_buf 6 5, r.2)) =
      some ([0x30, 0x03, 0x01, 0x02, 0x03], 5) := by
  decide

/-! ## libldap: the round trip through UTF-8 -/

theorem shl6_or (ch b : Nat) (hb : b < 64) : (ch <<< 6) ||| b = ch * 64 + b := by
  rw [Nat.shiftLeft_eq, Nat.mul_comm]
  exact (Nat.mul_add_lt_is_or (i := 6) hb ch).symm

theorem and_3f (x : Nat) : x &&& 0x3f = x % 64 := Nat.and_pow_two_sub_one_eq_mod x 6

theorem cont_octet : ∀ b, b < 64 →
    (0x80 ||| b) % 256 = 128 + b ∧ (128 + b) &&& 0xc0 = 0x80 ∧ (128 + b) &&& 0x3f = b := by
  decide

theorem lead_octet_2 : ∀ a, a < 32 → 2 ≤ a →
    (0xc0 ||| a) % 256 = 192 + a ∧ (192 + a) &&& 0x80 ≠ 0 ∧
    ldap_utf8_lentab.getD ((192 + a) ^^^ 0x80) 0 = 2 ∧ (192 + a) &&& 0x1f = a := by
  decide

theorem lead_octet_3 : ∀ a, a < 16 →
    (0xe0 ||| a) % 256 = 224 + a ∧ (224 + a) &&& 0x80 ≠ 0 ∧
    ldap_utf8_lentab.getD ((224 + a) ^^^ 0x80) 0 = 3 ∧ (224 + a) &&& 0x0f = a := by
  decide

theorem lead_octet_4 : ∀ a, a < 8 →
    (0xf0 ||| a) % 256 = 240 + a ∧ (240 + a) &&& 0x80 ≠ 0 ∧
    ldap_utf8_lentab.getD ((240 + a) ^^^ 0x80) 0 = 4 ∧ (240 + a) &&& 0x07 = a := by
  decide

theorem lead_octet_5 : ∀ a, a < 4 →
    (0xf8 ||| a) % 256 = 248 + a ∧ (248 + a) &&& 0x80 ≠ 0 ∧
    ldap_utf8_lentab.getD ((248 + a) ^^^ 0x80) 0 = 5 ∧ (248 + a) &&& 0x03 = a := by
  decide

theorem lead_octet_6 : ∀ a, a < 2 →
    (0xfc ||| a) % 256 = 252 + a ∧ (252 + a) &&& 0x80 ≠ 0 ∧
    ldap_utf8_lentab.getD ((252 + a) ^^^ 0x80) 0 = 6 ∧ (252 + a) &&& 0x01 = a := by
  decide

theorem min_octet_3 : ∀ a, a < 16 → ∀ b, b < 64 → (a = 0 → 32 ≤ b) →
    ldap_utf8_mintab.getD ((224 + a) &&& 0x1f) 0 &&& (128 + b) ≠ 0 := by
  decide

theorem min_octet_4 : ∀ a, a < 8 → ∀ b, b < 64 → (a = 0 → 16 ≤ b) →
    ldap_utf8_mintab.getD ((240 + a) &&& 0x1f) 0 &&& (128 + b) ≠ 0 := by
  decide

theorem min_octet_5 : ∀ a, a < 4 → ∀ b, b < 64 → (a = 0 → 8 ≤ b) →
    ldap_utf8_mintab.getD ((248 + a) &&& 0x1f) 0 &&& (128 + b) ≠ 0 := by
  decide

theorem min_octet_6 : ∀ a, a < 2 → ∀ b, b < 64 → (a = 0 → 4 ≤ b) →
    ldap_utf8_mintab.getD ((252 + a) &&& 0x1f) 0 &&& (128 + b) ≠ 0 := by
  decide

theorem ascii_octet : ∀ a, a < 128 → a % 256 = a ∧ a &&& 0x80 = 0 ∧ a &&& 0x7f = a := by
  decide

theorem decode_1 (p : Nat → Nat) (a : Nat) (ha : a < 128) (h0 : p 0 = a) :
    ldap_utf8_charlen2 p = 1 ∧ ldap_x_utf8_to_ucs4 p = (a : Int) := by
  obtain ⟨_, e1, e2⟩ := ascii_octet a ha
  have c : ldap_utf8_charlen2 p = 1 := by
    unfold ldap_utf8_charlen2 LDAP_UTF8_CHARLEN ldap_utf8_charlen
    simp only []
    rw [h0, if_pos e1, if_neg (by decide)]
  refine ⟨c, ?_⟩
  unfold ldap_x_utf8_to_ucs4 LDAP_UTF8_CHARLEN2
  simp only []
  rw [c, if_neg (by decide)]
  have hm : ldap_x_utf8_to_ucs4_mask.getD 1 0 = 0x7f := rfl
  rw [hm, h0, e2]
  rfl

theorem decode_2 (p : Nat → Nat) (a b : Nat) (ha : a < 32) (ha2 : 2 ≤ a) (hb : b < 64) (h0 : p 0 = 192 + a) (h1 : p 1 = 128 + b) :
    ldap_utf8_charlen2 p = 2 ∧
    ldap_x_utf8_to_ucs4 p = ((a * 64 + b : Nat) : Int) := by
  obtain ⟨_, l1, l2, l3⟩ := lead_octet_2 a ha ha2
  obtain ⟨_, b1, b2⟩ := cont_octet b hb
  have c : ldap_utf8_charlen2 p = 2 := by
    unfold ldap_utf8_charlen2 LDAP_UTF8_CHARLEN ldap_utf8_charlen
    simp only []
    rw [h0, if_neg l1, l2, if_neg (by decide)]
  refine ⟨c, ?_⟩
  unfold ldap_x_utf8_to_ucs4 LDAP_UTF8_CHARLEN2
  simp only []
  rw [c, if_neg (by decide)]
  have hm : ldap_x_utf8_to_ucs4_mask.getD 2 0 = 0x1f := rfl
  rw [hm, h0, l3]
  simp only [Nat.reduceSub, Nat.reduceAdd, ldap_x_utf8_to_ucs4_loop, h1,
    b1, b2, ne_eq, not_true_eq_false, if_false,
    shl6_or _ _ hb]

theorem decode_3 (p : Nat → Nat) (a b d : Nat) (ha : a < 16) (hb : b < 64) (hd : d < 64) (hmin : a = 0 → 32 ≤ b) (h0 : p 0 = 224 + a) (h1 : p 1 = 128 + b) (h2 : p 2 = 128 + d) :
    ldap_utf8_charlen2 p = 3 ∧
    ldap_x_utf8_to_ucs4 p = (((a * 64 + b) * 64 + d : Nat) : Int) := by
  obtain ⟨_, l1, l2, l3⟩ := lead_octet_3 a ha
  obtain ⟨_, b1, b2⟩ := cont_octet b hb
  obtain ⟨_, d1, d2⟩ := cont_octet d hd
  have m := min_octet_3 a ha b hb hmin
  have c : ldap_utf8_charlen2 p = 3 := by
    unfold ldap_utf8_charlen2 LDAP_UTF8_CHARLEN ldap_utf8_charlen
    simp only []
    rw [h0, h1, if_neg l1, l2, if_pos (by decide), if_neg m]
  refine ⟨c, ?_⟩
  unfold ldap_x_utf8_to_ucs4 LDAP_UTF8_CHARLEN2
  simp only []
  rw [c, if_neg (by decide)]
  have hm : ldap_x_utf8_to_ucs4_mask.getD 3 0 = 0x0f := rfl
  rw [hm, h0, l3]
  simp only [Nat.reduceSub, Nat.reduceAdd, ldap_x_utf8_to_ucs4_loop, h1, h2,
    b1, b2, d1, d2, ne_eq, not_true_eq_false, if_false,
    shl6_or _ _ hb, shl6_or _ _ hd]

theorem decode_4 (p : Nat → Nat) (a b d e : Nat) (ha : a < 8) (hb : b < 64) (hd : d < 64) (he : e < 64) (hmin : a = 0 → 16 ≤ b) (h0 : p 0 = 240 + a) (h1 : p 1 = 128 + b) (h2 : p 2 = 128 + d) (h3 : p 3 = 128 + e) :
    ldap_utf8_charlen2 p = 4 ∧
    ldap_x_utf8_to_ucs4 p = ((((a * 64 + b) * 64 + d) * 64 + e : Nat) : Int) := by
  obtain ⟨_, l1, l2, l3⟩ := lead_octet_4 a ha
  obtain ⟨_, b1, b2⟩ := cont_octet b hb
  obtain ⟨_, d1, d2⟩ := cont_octet d hd
  obtain ⟨_, e1, e2⟩ := cont_octet e he
  have m := min_octet_4 a ha b hb hmin
  have c : ldap_utf8_charlen2 p = 4 := by
    unfold ldap_utf8_charlen2 LDAP_UTF8_CHARLEN ldap_utf8_charlen
    simp only []
    rw [h0, h1, if_neg l1, l2, if_pos (by decide), if_neg m]
  refine ⟨c, ?_⟩
  unfold ldap_x_utf8_to_ucs4 LDAP_UTF8_CHARLEN2
  simp only []
  rw [c, if_neg (by decide)]
  have hm : ldap_x_utf8_to_ucs4_mask.getD 4 0 = 0x07 := rfl
  rw [hm, h0, l3]
  simp only [Nat.reduceSub, Nat.reduceAdd, ldap_x_utf8_to_ucs4_loop, h1, h2, h3,
    b1, b2, d1, d2, e1, e2, ne_eq, not_true_eq_false, if_false,
    shl6_or _ _ hb, shl6_or _ _ hd, shl6_or _ _ he]

theorem decode_5 (p : Nat → Nat) (a b d e f : Nat) (ha : a < 4) (hb : b < 64) (hd : d < 64) (he : e < 64) (hf : f < 64) (hmin : a = 0 → 8 ≤ b) (h0 : p 0 = 248 + a) (h1 : p 1 = 128 + b) (h2 : p 2 = 128 + d) (h3 : p 3 = 128 + e) (h4 : p 4 = 128 + f) :
    ldap_utf8_charlen2 p = 5 ∧
    ldap_x_utf8_to_ucs4 p = (((((a * 64 + b) * 64 + d) * 64 + e) * 64 + f : Nat) : Int) := by
  obtain ⟨_, l1, l2, l3⟩ := lead_octet_5 a ha
  obtain ⟨_, b1, b2⟩ := cont_octet b hb
  obtain ⟨_, d1, d2⟩ := cont_octet d hd
  obtain ⟨_, e1, e2⟩ := cont_octet e he
  obtain ⟨_, f1, f2⟩ := cont_octet f hf
  have m := min_octet_5 a ha b hb hmin
  have c : ldap_utf8_charlen2 p = 5 := by
    unfold ldap_utf8_charlen2 LDAP_UTF8_CHARLEN ldap_utf8_charlen
    simp only []
    rw [h0, h1, if_neg l1, l2, if_pos (by decide), if_neg m]
  refine ⟨c, ?_⟩
  unfold ldap_x_utf8_to_ucs4 LDAP_UTF8_CHARLEN2
  simp only []
  rw [c, if_neg (by decide)]
  have hm : ldap_x_utf8_to_ucs4_mask.getD 5 0 = 0x03 := rfl
  rw [hm, h0, l3]
  simp only [Nat.reduceSub, Nat.reduceAdd, ldap_x_utf8_to_ucs4_loop, h1, h2, h3, h4,
    b1, b2, d1, d2, e1, e2, f1, f2, ne_eq, not_true_eq_false, if_false,
    shl6_or _ _ hb, shl6_or _ _ hd, shl6_or _ _ he, shl6_or _ _ hf]

theorem decode_6 (p : Nat → Nat) (a b d e f g : Nat) (ha : a < 2) (hb : b < 64) (hd : d < 64) (he : e < 64) (hf : f < 64) (hg : g < 64) (hmin : a = 0 → 4 ≤ b) (h0 : p 0 = 252 + a) (h1 : p 1 = 128 + b) (h2 : p 2 = 128 + d) (h3 : p 3 = 128 + e) (h4 : p 4 = 128 + f) (h5 : p 5 = 128 + g) :
    ldap_utf8_charlen2 p = 6 ∧
    ldap_x_utf8_to_ucs4 p = ((((((a * 64 + b) * 64 + d) * 64 + e) * 64 + f) * 64 + g : Nat) : Int) := by
  obtain ⟨_, l1, l2, l3⟩ := lead_octet_6 a ha
  obtain ⟨_, b1, b2⟩ := cont_octet b hb
  obtain ⟨_, d1, d2⟩ := cont_octet d hd
  obtain ⟨_, e1, e2⟩ := cont_octet e he
  obtain ⟨_, f1, f2⟩ := cont_octet f hf
  obtain ⟨_, g1, g2⟩ := cont_octet g hg
  have m := min_octet_6 a ha b hb hmin
  have c : ldap_utf8_charlen2 p = 6 := by
    unfold ldap_utf8_charlen2 LDAP_UTF8_CHARLEN ldap_utf8_charlen
    simp only []
    rw [h0, h1, if_neg l1, l2, if_pos (by decide), if_neg m]
  refine ⟨c, ?_⟩
  unfold ldap_x_utf8_to_ucs4 LDAP_UTF8_CHARLEN2
  simp only []
  rw [c, if_neg (by decide)]
  have hm : ldap_x_utf8_to_ucs4_mask.getD 6 0 = 0x01 := rfl
  rw [hm, h0, l3]
  simp only [Nat.reduceSub, Nat.reduceAdd, ldap_x_utf8_to_ucs4_loop, h1, h2, h3, h4, h5,
    b1, b2, d1, d2, e1, e2, f1, f2, g1, g2, ne_eq, not_true_eq_false, if_false,
    shl6_or _ _ hb, shl6_or _ _ hd, shl6_or _ _ he, shl6_or _ _ hf, shl6_or _ _ hg]

theorem enc_cont (u k : Nat) : (0x80 ||| ((u >>> k) &&& 0x3f)) % 256 = 128 + u / 2 ^ k % 64 := by
  rw [and_3f, Nat.shiftRight_eq_div_pow]
  exact (cont_octet _ (Nat.mod_lt _ (by decide))).1

theorem enc_cont_0 (u : Nat) : (0x80 ||| (u &&& 0x3f)) % 256 = 128 + u % 64 := by
  rw [and_3f]
  exact (cont_octet _ (Nat.mod_lt _ (by decide))).1

theorem round_1 (q : Nat → Nat) (u : Nat) (hhi : u < 128) (e0 : q 0 = u % 256) :
    (ldap_utf8_charlen2 q : Int) = 1 ∧ ldap_x_utf8_to_ucs4 q = (u : Int) := by
  have D := decode_1 q u hhi (by rw [e0]; omega)
  rw [D.1, D.2]
  exact ⟨rfl, rfl⟩

theorem round_2 (q : Nat → Nat) (u : Nat) (hlo : 128 ≤ u) (hhi : u < 2048)
    (e0 : q 0 = (0xc0 ||| (u >>> 6)) % 256)
    (e1 : q 1 = (0x80 ||| (u &&& 0x3f)) % 256) :
    (ldap_utf8_charlen2 q : Int) = 2 ∧ ldap_x_utf8_to_ucs4 q = (u : Int) := by
  have D := decode_2 q (u / 64) (u % 64)
    (by omega) (by omega) (by omega)
    (e0.trans ((lead_octet_2 (u >>> 6) (by rw [Nat.shiftRight_eq_div_pow]; omega) (by rw [Nat.shiftRight_eq_div_pow]; omega)).1.trans
      (by rw [Nat.shiftRight_eq_div_pow])))
    (e1.trans (enc_cont_0 u))
  rw [D.1, D.2]
  refine ⟨rfl, ?_⟩
  congr 1
  omega

theorem round_3 (q : Nat → Nat) (u : Nat) (hlo : 2048 ≤ u) (hhi : u < 65536)
    (e0 : q 0 = (0xe0 ||| (u >>> 12)) % 256)
    (e1 : q 1 = (0x80 ||| ((u >>> 6) &&& 0x3f)) % 256)
    (e2 : q 2 = (0x80 ||| (u &&& 0x3f)) % 256) :
    (ldap_utf8_charlen2 q : Int) = 3 ∧ ldap_x_utf8_to_ucs4 q = (u : Int) := by
  have D := decode_3 q (u / 4096) (u / 64 % 64) (u % 64)
    (by omega) (by omega) (by omega) (by omega)
    (e0.trans ((lead_octet_3 (u >>> 12) (by rw [Nat.shiftRight_eq_div_pow]; omega)).1.trans
      (by rw [Nat.shiftRight_eq_div_pow])))
    (e1.trans (enc_cont u 6))
    (e2.trans (enc_cont_0 u))
  rw [D.1, D.2]
  refine ⟨rfl, ?_⟩
  congr 1
  omega

theorem round_4 (q : Nat → Nat) (u : Nat) (hlo : 65536 ≤ u) (hhi : u < 2097152)
    (e0 : q 0 = (0xf0 ||| (u >>> 18)) % 256)
    (e1 : q 1 = (0x80 ||| ((u >>> 12) &&& 0x3f)) % 256)
    (e2 : q 2 = (0x80 ||| ((u >>> 6) &&& 0x3f)) % 256)
    (e3 : q 3 = (0x80 ||| (u &&& 0x3f)) % 256) :
    (ldap_utf8_charlen2 q : Int) = 4 ∧ ldap_x_utf8_to_ucs4 q = (u : Int) := by
  have D := decode_4 q (u / 262144) (u / 4096 % 64) (u / 64 % 64) (u % 64)
    (by omega) (by omega) (by omega) (by omega) (by omega)
    (e0.trans ((lead_octet_4 (u >>> 18) (by rw [Nat.shiftRight_eq_div_pow]; omega)).1.trans
      (by rw [Nat.shiftRight_eq_div_pow])))
    (e1.trans (enc_cont u 12))
    (e2.trans (enc_cont u 6))
    (e3.trans (enc_cont_0 u))
  rw [D.1, D.2]
  refine ⟨rfl, ?_⟩
  congr 1
  omega

theorem round_5 (q : Nat → Nat) (u : Nat) (hlo : 2097152 ≤ u) (hhi : u < 67108864)
    (e0 : q 0 = (0xf8 ||| (u >>> 24)) % 256)
    (e1 : q 1 = (0x80 ||| ((u >>> 18) &&& 0x3f)) % 256)
    (e2 : q 2 = (0x80 ||| ((u >>> 12) &&& 0x3f)) % 256)
    (e3 : q 3 = (0x80 ||| ((u >>> 6) &&& 0x3f)) % 256)
    (e4 : q 4 = (0x80 ||| (u &&& 0x3f)) % 256) :
    (ldap_utf8_charlen2 q : Int) = 5 ∧ ldap_x_utf8_to_ucs4 q = (u : Int) := by
  have D := decode_5 q (u / 16777216) (u / 262144 % 64) (u / 4096 % 64) (u / 64 % 64) (u % 64)
    (by omega) (by omega) (by omega) (by omega) (by omega) (by omega)
    (e0.trans ((lead_octet_5 (u >>> 24) (by rw [Nat.shiftRight_eq_div_pow]; omega)).1.trans
      (by rw [Nat.shiftRight_eq_div_pow])))
    (e1.trans (enc_cont u 18))
    (e2.trans (enc_cont u 12))
    (e3.trans (enc_cont u 6))
    (e4.trans (enc_cont_0 u))
  rw [D.1, D.2]
  refine ⟨rfl, ?_⟩
  congr 1
  omega

theorem round_6 (q : Nat → Nat) (u : Nat) (hlo : 67108864 ≤ u) (hhi : u < 2147483648)
    (e0 : q 0 = (0xfc ||| (u >>> 30)) % 256)
    (e1 : q 1 = (0x80 ||| ((u >>> 24) &&& 0x3f)) % 256)
    (e2 : q 2 = (0x80 ||| ((u >>> 18) &&& 0x3f)) % 256)
    (e3 : q 3 = (0x80 ||| ((u >>> 12) &&& 0x3f)) % 256)
    (e4 : q 4 = (0x80 ||| ((u >>> 6) &&& 0x3f)) % 256)
    (e5 : q 5 = (0x80 ||| (u &&& 0x3f)) % 256) :
    (ldap_utf8_charlen2 q : Int) = 6 ∧ ldap_x_utf8_to_ucs4 q = (u : Int) := by
  have D := decode_6 q (u / 1073741824) (u / 16777216 % 64) (u / 262144 % 64) (u / 4096 % 64) (u / 64 % 64) (u % 64)
    (by omega) (by omega) (by omega) (by omega) (by omega) (by omega) (by omega)
    (e0.trans ((lead_octet_6 (u >>> 30) (by rw [Nat.shiftRight_eq_div_pow]; omega)).1.trans
      (by rw [Nat.shiftRight_eq_div_pow])))
    (e1.trans (enc_cont u 24))
    (e2.trans (enc_cont u 18))
    (e3.trans (enc_cont u 12))
    (e4.trans (enc_cont u 6))
    (e5.trans (enc_cont_0 u))
  rw [D.1, D.2]
  refine ⟨rfl, ?_⟩
  congr 1
  omega

/-- C25. The round trip through UTF-8: for every code `c` with
`0 ≤ c ≤ 0x7FFFFFFF` and every buffer, `ldap_x_ucs4_to_utf8` returns a length
`n` with `1 ≤ n ≤ 6`, leaves `n` octets and a terminating zero in the buffer,
`ldap_utf8_charlen2` of the buffer is `n` (the encoding passes the test for the
shortest form), and `ldap_x_utf8_to_ucs4` of the buffer is `c`. -/
theorem utf8_round_trip (c : Int) (h0 : 0 ≤ c) (h1 : c ≤ 0x7FFFFFFF) (buf : Nat → Nat) :
    ∃ p : Nat → Nat, (ldap_x_ucs4_to_utf8 c (some buf)).1 = some p ∧
      1 ≤ (ldap_x_ucs4_to_utf8 c (some buf)).2 ∧ (ldap_x_ucs4_to_utf8 c (some buf)).2 ≤ 6 ∧
      p (ldap_x_ucs4_to_utf8 c (some buf)).2.toNat = 0 ∧
      (∀ i, p i < 256 ∨ p i = buf i) ∧
      (ldap_utf8_charlen2 p : Int) = (ldap_x_ucs4_to_utf8 c (some buf)).2 ∧
      ldap_x_utf8_to_ucs4 p = c := by
  obtain ⟨u, rfl⟩ := Int.eq_ofNat_of_zero_le h0
  have hu : u < 2147483648 := by omega
  have hn : ¬ ((u : Int) < 0) := by omega
  have hb : ∀ (q : Nat → Nat) (i v j : Nat), (q j < 256 ∨ q j = buf j) →
      (set_octet q i v j < 256 ∨ set_octet q i v j = buf j) := by
    intro q i v j hq
    unfold set_octet
    split_ifs
    · left
      exact Nat.mod_lt _ (by decide)
    · exact hq
  unfold ldap_x_ucs4_to_utf8
  simp only [Int.toNat_ofNat, if_neg hn]
  by_cases c1 : (u : Int) < 0x80
  · rw [if_pos c1]
    exact ⟨_, rfl, by show (1 : Int) ≤ 1; decide, by show (1 : Int) ≤ 6; decide, rfl,
      fun i => hb _ _ _ _ (hb _ _ _ _ (Or.inr rfl)), round_1 _ u (by omega) rfl⟩
  rw [if_neg c1]
  by_cases c2 : (u : Int) < 0x800
  · rw [if_pos c2]
    exact ⟨_, rfl, by show (1 : Int) ≤ 2; decide, by show (2 : Int) ≤ 6; decide, rfl,
      fun i => hb _ _ _ _ (hb _ _ _ _ (hb _ _ _ _ (Or.inr rfl))),
      round_2 _ u (by omega) (by omega) rfl rfl⟩
  rw [if_neg c2]
  by_cases c3 : (u : Int) < 0x10000
  · rw [if_pos c3]
    exact ⟨_, rfl, by show (1 : Int) ≤ 3; decide, by show (3 : Int) ≤ 6; decide, rfl,
      fun i => hb _ _ _ _ (hb _ _ _ _ (hb _ _ _ _ (hb _ _ _ _ (Or.inr rfl)))),
      round_3 _ u (by omega) (by omega) rfl rfl rfl⟩
  rw [if_neg c3]
  by_cases c4 : (u : Int) < 0x200000
  · rw [if_pos c4]
    exact ⟨_, rfl, by show (1 : Int) ≤ 4; decide, by show (4 : Int) ≤ 6; decide, rfl,
      fun i => hb _ _ _ _ (hb _ _ _ _ (hb _ _ _ _ (hb _ _ _ _ (hb _ _ _ _ (Or.inr rfl))))),
      round_4 _ u (by omega) (by omega) rfl rfl rfl rfl⟩
  rw [if_neg c4]
  by_cases c5 : (u : Int) < 0x4000000
  · rw [if_pos c5]
    exact ⟨_, rfl, by show (1 : Int) ≤ 5; decide, by show (5 : Int) ≤ 6; decide, rfl,
      fun i => hb _ _ _ _ (hb _ _ _ _ (hb _ _ _ _ (hb _ _ _ _ (hb _ _ _ _ (hb _ _ _ _ (Or.inr rfl)))))),
      round_5 _ u (by omega) (by omega) rfl rfl rfl rfl rfl⟩
  rw [if_neg c5]
  exact ⟨_, rfl, by show (1 : Int) ≤ 6; decide, by show (6 : Int) ≤ 6; decide, rfl,
    fun i => hb _ _ _ _ (hb _ _ _ _ (hb _ _ _ _ (hb _ _ _ _ (hb _ _ _ _ (hb _ _ _ _ (hb _ _ _ _ (Or.inr rfl))))))),
    round_6 _ u (by omega) (by omega) rfl rfl rfl rfl rfl rfl⟩

/-- Witness of C25: the code U+20AC, three octets `E2 82 AC`. -/
theorem utf8_round_trip_witness :
    (0 : Int) ≤ 0x20AC ∧ (0x20AC : Int) ≤ 0x7FFFFFFF ∧
    (List.range 4).map (utf8_of 0x20AC) = [0xE2, 0x82, 0xAC, 0] ∧
    ∃ p : Nat → Nat, (ldap_x_ucs4_to_utf8 0x20AC (some zero_buf)).1 = some p ∧
      1 ≤ (ldap_x_ucs4_to_utf8 0x20AC (some zero_buf)).2 ∧
      (ldap_x_ucs4_to_utf8 0x20AC (some zero_buf)).2 ≤ 6 ∧
      p (ldap_x_ucs4_to_utf8 0x20AC (some zero_buf)).2.toNat = 0 ∧
      (∀ i, p i < 256 ∨ p i = zero_buf i) ∧
      (ldap_utf8_charlen2 p : Int) = (ldap_x_ucs4_to_utf8 0x20AC (some zero_buf)).2 ∧
      ldap_x_utf8_to_ucs4 p = 0x20AC :=
  ⟨by decide, by decide, by decide, utf8_round_trip 0x20AC (by decide) (by decide) zero_buf⟩

/-! ## The count constraint -/

theorem count_violation_mods_spec (ad : Nat) :
    ∀ (m : List Modifications) (ce : Nat), plain_ops m → ce + total_numvals m < 2 ^ 32 →
      count_violation_mods ad m ce = some (values_after ad m ce) := by
  intro m
  induction m with
  | nil =>
    intro ce _ _
    rfl
  | cons x rest ih =>
    intro ce hp hb
    have hp' : plain_ops rest := fun y hy => hp y (List.mem_cons_of_mem _ hy)
    have hx := hp x (List.mem_cons_self _ _)
    have hb' : ce + x.sml_numvals + total_numvals rest < 2 ^ 32 := by
      simp only [total_numvals, List.map_cons, List.sum_cons] at hb ⊢
      omega
    have hn : 0 ≤ total_numvals rest := Nat.zero_le _
    unfold count_violation_mods values_after
    simp only []
    by_cases h1 : ad = x.sml_desc
    · rw [if_pos h1, if_pos h1]
      by_cases h2 : x.sml_op = LDAP_MOD_DELETE ∨ x.sml_op = SLAP_MOD_SOFTDEL
      · rw [if_pos h2, if_pos h2]
        apply ih _ hp'
        split_ifs <;> omega
      · rw [if_neg h2, if_neg h2]
        by_cases h3 : x.sml_op = LDAP_MOD_ADD ∨ x.sml_op = SLAP_MOD_SOFTADD
        · rw [if_pos h3, if_pos h3, Nat.mod_eq_of_lt (by omega)]
          exact ih _ hp' hb'
        · rw [if_neg h3, if_neg h3]
          have h4 : x.sml_op = LDAP_MOD_REPLACE := by
            rcases hx with h | h | h | h | h
            · exact absurd (Or.inl h) h3
            · exact absurd (Or.inr h) h3
            · exact absurd (Or.inl h) h2
            · exact absurd (Or.inr h) h2
            · exact h
          rw [if_pos h4, if_pos h4]
          apply ih _ hp'
          omega
    · rw [if_neg h1, if_neg h1]
      apply ih _ hp'
      omega

/-- For a constraint that lists one attribute, modifications that are adds,
deletes and replaces, and counts that stay below `2^32`, the function returns
non-zero exactly when the attribute has more than `count` values after the
modifications. -/
theorem count_violation_one_attr (m : List Modifications) (e : Entry) (ad count : Nat)
    (hp : plain_ops m) (hb : constraint_count_attr e ad + total_numvals m < 2 ^ 32) :
    constraint_check_count_violation m (some e) { ap := [ad], count := count } ≠ 0 ↔
      count_violated m e { ap := [ad], count := count } := by
  unfold constraint_check_count_violation count_violated
  simp only [count_violation_attrs, count_violation_mods_spec ad m _ hp hb, List.mem_singleton,
    exists_eq_left]
  split_ifs with h
  · simp [h]
  · simp [h]

/-- C30. A count constraint on the attributes 1 and 2 with the limit 1, and
an entry in which attribute 1 has one value. Adding one value to attribute 1
leaves it with two values, more than the limit, and adding five values to
attribute 2 leaves it with five: the constraint is violated in both cases. The
function returns 0 in both: the inner loop runs the list `m` to its end for the
first attribute and never starts again, and only the count of the last
attribute is compared with the limit. Listing the attributes in the other order
gives 0 as well; with attribute 1 alone in the list the function returns 1. -/
theorem count_violation_misses_attribute :
    values_after 1 [{ sml_desc := 1, sml_op := LDAP_MOD_ADD, sml_numvals := 1 }]
      (constraint_count_attr entry_one_value 1) = 2 ∧
    constraint_check_count_violation
      [{ sml_desc := 1, sml_op := LDAP_MOD_ADD, sml_numvals := 1 }] (some entry_one_value)
      two_attr_constraint = 0 ∧
    values_after 2 [{ sml_desc := 2, sml_op := LDAP_MOD_ADD, sml_numvals := 5 }]
      (constraint_count_attr entry_one_value 2) = 5 ∧
    constraint_check_count_violation
      [{ sml_desc := 2, sml_op := LDAP_MOD_ADD, sml_numvals := 5 }] (some entry_one_value)
      two_attr_constraint = 0 ∧
    constraint_check_count_violation
      [{ sml_desc := 1, sml_op := LDAP_MOD_ADD, sml_numvals := 1 }] (some entry_one_value)
      { ap := [2, 1], count := 1 } = 0 ∧
    constraint_check_count_violation
      [{ sml_desc := 1, sml_op := LDAP_MOD_ADD, sml_numvals := 1 }] (some entry_one_value)
      { ap := [1], count := 1 } = 1 := by
  decide

end Slapd
